import Mathlib

/-! Soft debugger agent: wire ids, suspension, breakpoints, value marshaling.

A shallow embedding of parts of `mono/mini/debugger-agent.c` (unity-2017.2.5).

Conventions of the embedding:

* a C pointer is a `Nat`, `0` being `NULL`;
* a C `int` is an `Int`; where a value crosses the wire it is reduced to 32 bits
  explicitly (`toUInt32`, `toInt32`);
* the bytes between `buf` and `limit` are a `List Nat`; a decoder returns the
  decoded value together with the bytes that remain (`endbuf`);
* a failed `g_assert`, a `NOT_IMPLEMENTED` abort or a `NULL` dereference ends the
  process: the embedded function returns `none`;
* the global variables of the agent are fields of explicit state records;
* the decoders of values return an `Outcome`, which tells an `ErrorCode` from an
  abort, and the recursion of the value codec is bounded by a nesting depth.
-/

namespace DebuggerAgent

/-! ## Error codes (`ErrorCode`) -/

def ERR_NONE : Int := 0
def ERR_INVALID_OBJECT : Int := 20
def ERR_INVALID_FIELDID : Int := 25
def ERR_INVALID_FRAMEID : Int := 30
def ERR_NOT_IMPLEMENTED : Int := 100
def ERR_NOT_SUSPENDED : Int := 101
def ERR_INVALID_ARGUMENT : Int := 102
def ERR_UNLOADED : Int := 103
def ERR_NO_INVOCATION : Int := 104
def ERR_ABSENT_INFORMATION : Int := 105

/-! ## Wire codec -/

/-- The C `int` whose 32-bit pattern is `n % 2^32`. -/
def toInt32 (n : Nat) : Int :=
  if n % 2 ^ 32 < 2 ^ 31 then ((n % 2 ^ 32 : Nat) : Int) else ((n % 2 ^ 32 : Nat) : Int) - 2 ^ 32

/-- The `guint32` conversion of a C integer. -/
def toUInt32 (i : Int) : Nat := (i % 2 ^ 32).toNat

/-- The C `gint64` whose 64-bit pattern is `n % 2^64`. -/
def toInt64 (n : Nat) : Int :=
  if n % 2 ^ 64 < 2 ^ 63 then ((n % 2 ^ 64 : Nat) : Int) else ((n % 2 ^ 64 : Nat) : Int) - 2 ^ 64

/-- The `guint64` conversion of a C integer. -/
def toUInt64 (i : Int) : Nat := (i % 2 ^ 64).toNat

/-- Result of a decoder: the value and the position after it. -/
structure Decoded (α : Type) where
  val : α
  endbuf : List Nat
deriving DecidableEq, Repr

/-- Embedding of `decode_byte`: the assertion `*endbuf <= limit` fails on an empty rest. -/
def decode_byte (buf : List Nat) : Option (Decoded Int) :=
  match buf with
  | b :: rest => some ⟨(b : Int), rest⟩
  | [] => none

/-- Embedding of `decode_int`: four bytes, big-endian, as a C `int`. -/
def decode_int (buf : List Nat) : Option (Decoded Int) :=
  match buf with
  | b0 :: b1 :: b2 :: b3 :: rest =>
    some ⟨toInt32 ((b0 <<< 24) ||| (b1 <<< 16) ||| (b2 <<< 8) ||| (b3 <<< 0)), rest⟩
  | _ => none

/-- Embedding of `decode_long`: two `decode_int` halves, high first. -/
def decode_long (buf : List Nat) : Option (Decoded Int) :=
  match decode_int buf with
  | none => none
  | some h =>
    match decode_int h.endbuf with
    | none => none
    | some l => some ⟨toInt64 ((toUInt32 h.val <<< 32) ||| toUInt32 l.val), l.endbuf⟩

/-- Embedding of `decode_id`. -/
def decode_id (buf : List Nat) : Option (Decoded Int) := decode_int buf

/-- Embedding of `buffer_add_byte`: the bytes appended for a `guint8`. -/
def buffer_add_byte (val : Nat) : List Nat := [val % 256]

/-- Embedding of `buffer_add_int`: the bytes appended for a `guint32`. -/
def buffer_add_int (val : Nat) : List Nat :=
  [(val >>> 24) &&& 0xff, (val >>> 16) &&& 0xff, (val >>> 8) &&& 0xff, (val >>> 0) &&& 0xff]

/-- Embedding of `buffer_add_long`: the bytes appended for a `guint64`. -/
def buffer_add_long (l : Nat) : List Nat :=
  buffer_add_int ((l >>> 32) &&& 0xffffffff) ++ buffer_add_int ((l >>> 0) &&& 0xffffffff)

/-- Embedding of `buffer_add_id`: an `int` id, converted and written as a `guint32`. -/
def buffer_add_id (id : Int) : List Nat := buffer_add_int (toUInt32 id)

/-! ## Hash tables with pointer keys -/

/-- A `GHashTable` created with direct hashing and equality: a finite map from
pointer-sized keys, kept as an association list without duplicate keys. -/
abbrev GHashTable (κ α : Type) := List (κ × α)

/-- Embedding of `g_hash_table_lookup`; `none` is the `NULL` result. -/
def g_hash_table_lookup {κ α : Type} [DecidableEq κ] (t : GHashTable κ α) (key : κ) : Option α :=
  match t with
  | [] => none
  | (k, v) :: rest => if k = key then some v else g_hash_table_lookup rest key

/-- Embedding of `g_hash_table_remove`. -/
def g_hash_table_remove {κ α : Type} [DecidableEq κ] (t : GHashTable κ α) (key : κ) :
    GHashTable κ α :=
  t.filter (fun e => decide (e.1 ≠ key))

/-- Embedding of `g_hash_table_insert`: a binding for the key replaces the old one. -/
def g_hash_table_insert {κ α : Type} [DecidableEq κ] (t : GHashTable κ α) (key : κ) (value : α) :
    GHashTable κ α :=
  (key, value) :: g_hash_table_remove t key

/-! ## Ids of runtime structures (`get_id`, `decode_ptr_id`) -/

/-- The enum `IdType`. -/
inductive IdType where
  | ID_ASSEMBLY | ID_MODULE | ID_TYPE | ID_METHOD | ID_FIELD | ID_DOMAIN | ID_PROPERTY
deriving DecidableEq, Repr

/-- The struct `Id`: wire id, owning domain (`NULL` once unloaded), and the runtime
structure `data.val`. -/
structure Id where
  id : Int
  domain : Nat
  val : Nat
deriving DecidableEq, Repr

/-- The struct `AgentDomainInfo`: per kind, the table from runtime structure to its
`Id`. An `Id*` is kept as the index of the `Id` in `ids [type]`, where it is stored
for the life of the process. `none` is a table not yet created. -/
structure AgentDomainInfo where
  val_to_id : IdType → Option (GHashTable Nat Nat)

/-- The globals of the id registry. -/
structure IdState where
  /-- The arrays `ids [ID_NUM]`. -/
  ids : IdType → List Id
  /-- The field `domain_jit_info (domain)->agent_info` of every domain. -/
  agent_info : Nat → Option AgentDomainInfo
  /-- The array `pending_type_loads`. -/
  pending_type_loads : List Nat
  /-- The keys of the table `domains`. -/
  domains : List Nat

/-- Embedding of `ids_init`, with no domain known to the agent yet. -/
def ids_init : IdState :=
  { ids := fun _ => [], agent_info := fun _ => none, pending_type_loads := [], domains := [] }

/-- Embedding of `get_id`. Returns the new state and the id; `none` when the domain
pointer is `NULL` (it is dereferenced) or a table entry points outside `ids`. -/
def get_id (s : IdState) (domain : Nat) (type : IdType) (val : Nat) : Option (IdState × Int) :=
  if val = 0 then some (s, 0)
  else if domain = 0 then none
  else
    let info : AgentDomainInfo :=
      match s.agent_info domain with
      | some i => i
      | none => { val_to_id := fun _ => none }
    let tbl : GHashTable Nat Nat :=
      match info.val_to_id type with
      | some t => t
      | none => []
    match g_hash_table_lookup tbl val with
    | some p =>
      match (s.ids type)[p]? with
      | some e =>
        some ({ s with agent_info := (Function.update s.agent_info domain
                  (some { val_to_id := Function.update info.val_to_id type (some tbl) })) }, e.id)
      | none => none
    | none =>
      let id : Id := { id := (((s.ids type).length + 1 : Nat) : Int), domain := domain, val := val }
      some ({ s with
                agent_info := (Function.update s.agent_info domain
                  (some { val_to_id := (Function.update info.val_to_id type
                            (some (g_hash_table_insert tbl val (s.ids type).length))) })),
                ids := Function.update s.ids type (s.ids type ++ [id]) }, id.id)

/-- Result of `decode_ptr_id`: the returned pointer, `*domain`, `*err` and `*endbuf`. -/
structure PtrId where
  val : Nat
  domain : Nat
  err : Int
  endbuf : List Nat
deriving DecidableEq, Repr

/-- Embedding of `decode_ptr_id`; `none` when an assertion fails. -/
def decode_ptr_id (s : IdState) (buf : List Nat) (type : IdType) : Option PtrId :=
  match decode_id buf with
  | none => none
  | some d =>
    if d.val = 0 then some ⟨0, 0, 0, d.endbuf⟩
    else if d.val > 0 ∧ d.val ≤ ((s.ids type).length : Int) then
      match (s.ids type)[(d.val - 1).toNat]? with
      | none => none
      | some res =>
        if res.domain = 0 then some ⟨0, 0, ERR_UNLOADED, d.endbuf⟩
        else some ⟨res.val, res.domain, 0, d.endbuf⟩
    else none

/-- Embedding of `mono_debugger_agent_free_domain_info`; `none` when the domain
pointer is `NULL` (it is dereferenced). -/
def mono_debugger_agent_free_domain_info (s : IdState) (domain : Nat) : Option IdState :=
  if domain = 0 then none
  else
    some { ids := fun t => (s.ids t).map
              (fun id => if id.domain = domain then { id with domain := 0, val := 0 } else id),
           agent_info := Function.update s.agent_info domain none,
           pending_type_loads := [],
           domains := s.domains.filter (fun d => decide (d ≠ domain)) }

/-- Embedding of `buffer_add_ptr_id`: the new state and the bytes appended. -/
def buffer_add_ptr_id (s : IdState) (domain : Nat) (type : IdType) (val : Nat) :
    Option (IdState × List Nat) :=
  match get_id s domain type val with
  | none => none
  | some (s1, id) => some (s1, buffer_add_id id)

/-- A call that changes the id registry. -/
inductive IdOp where
  | call_get_id (domain : Nat) (type : IdType) (val : Nat)
  | call_free_domain_info (domain : Nat)
deriving DecidableEq, Repr

/-- One registry call. -/
def IdOp.step (s : IdState) : IdOp → Option IdState
  | IdOp.call_get_id d k v => (get_id s d k v).map Prod.fst
  | IdOp.call_free_domain_info d => mono_debugger_agent_free_domain_info s d

/-- A sequence of registry calls, in order; `none` if one of them ends the process. -/
def run_id_ops (s : IdState) : List IdOp → Option IdState
  | [] => some s
  | op :: rest =>
    match op.step s with
    | none => none
    | some s1 => run_id_ops s1 rest

/-- The index in `ids [type]` of the `Id` that the table of `domain` binds to `val`,
if the table exists and has a binding. -/
def val_to_id_lookup (s : IdState) (domain : Nat) (type : IdType) (val : Nat) : Option Nat :=
  match s.agent_info domain with
  | none => none
  | some info =>
    match info.val_to_id type with
    | none => none
    | some t => g_hash_table_lookup t val


/-- Consistency of the registry: a table binding of `domain` for `val` points to the
`Id` that was made for it, whose id is its position plus one. -/
def ids_consistent (s : IdState) : Prop :=
  ∀ d k v p, val_to_id_lookup s d k v = some p →
    (s.ids k)[p]? = some ⟨((p + 1 : Nat) : Int), d, v⟩

/-- A registry after three requests in two domains (used in the examples). -/
def ids_example : IdState :=
  (run_id_ops ids_init
    [IdOp.call_get_id 1 IdType.ID_TYPE 50, IdOp.call_get_id 2 IdType.ID_TYPE 60,
     IdOp.call_get_id 1 IdType.ID_METHOD 70]).getD ids_init

/-- The registry `ids_example` after domain `1` was unloaded. -/
def ids_example_unloaded : IdState :=
  (mono_debugger_agent_free_domain_info ids_example 1).getD ids_init


/-! ## Object ids (`get_objref`, `get_object`) -/

/-- Modelled from the spec: the weak-handle allocator of the garbage collector
(`mono_gchandle_new_weakref`, `mono_gchandle_get_target`), which is not part of the
agent. A weak handle does not keep its target alive; it resolves to the target, or
to `NULL` once the target was collected. Handles are numbered in allocation order. -/
structure GCHandles where
  next : Nat
  target : GHashTable Nat Nat

/-- Modelled from the spec: allocation of a weak handle for `obj`. -/
def mono_gchandle_new_weakref (g : GCHandles) (obj : Nat) : GCHandles × Nat :=
  ({ next := g.next + 1, target := g_hash_table_insert g.target g.next obj }, g.next)

/-- Modelled from the spec: the live target of a weak handle, or `NULL`. -/
def mono_gchandle_get_target (g : GCHandles) (handle : Nat) : Nat :=
  match g_hash_table_lookup g.target handle with
  | some o => o
  | none => 0

/-- Modelled from the spec: the collection of the object at address `obj`; every
weak handle to it resolves to `NULL` from then on. -/
def gc_collect (g : GCHandles) (obj : Nat) : GCHandles :=
  { g with target := g.target.map (fun e => (e.1, if e.2 = obj then 0 else e.2)) }

/-- The struct `ObjRef`. It is never modified once created, so a table holds the
record itself in place of a pointer to it. -/
structure ObjRef where
  id : Int
  handle : Nat
deriving DecidableEq, Repr

/-- The globals of the object registry, with the weak handles of the collector. -/
structure ObjState where
  objref_id : Int
  /-- The table `objrefs`; `none` before `objrefs_init`. -/
  objrefs : Option (GHashTable Int ObjRef)
  /-- The table `obj_to_objref`, created on first use. -/
  obj_to_objref : Option (GHashTable Int ObjRef)
  gc : GCHandles

/-- The key `GINT_TO_POINTER (~((gsize)obj))`: the complement of the address, as the
signed integer with that bit pattern. -/
def masked_pointer (obj : Nat) : Int := -(obj : Int) - 1

/-- Embedding of `objrefs_init`, with the counters at their static initial value. -/
def objrefs_init : ObjState :=
  { objref_id := 0, objrefs := some [], obj_to_objref := none, gc := { next := 1, target := [] } }

/-- Embedding of `get_objref` (built without `HAVE_SGEN_GC`). Returns the new state
and the record, `none` inside standing for the `NULL` returned for a `NULL` object;
the call itself is `none` when `objrefs` was never created. -/
def get_objref (s : ObjState) (obj : Nat) : Option (ObjState × Option ObjRef) :=
  if obj = 0 then some (s, none)
  else
    let tbl : GHashTable Int ObjRef :=
      match s.obj_to_objref with
      | some t => t
      | none => []
    let found : Option ObjRef := g_hash_table_lookup tbl (masked_pointer obj)
    let live : Bool :=
      match found with
      | some ref => decide (mono_gchandle_get_target s.gc ref.handle = obj)
      | none => false
    match found, live with
    | some ref, true => some ({ s with obj_to_objref := some tbl }, some ref)
    | _, _ =>
      match s.objrefs with
      | none => none
      | some objrefs =>
        let id := s.objref_id + 1
        let r := mono_gchandle_new_weakref s.gc obj
        let ref : ObjRef := { id := id, handle := r.2 }
        some ({ objref_id := id,
                objrefs := some (g_hash_table_insert objrefs ref.id ref),
                obj_to_objref := some (g_hash_table_insert tbl (masked_pointer obj) ref),
                gc := r.1 }, some ref)

/-- Embedding of `get_objid`: the id of the record; `none` for a `NULL` object, whose
`NULL` record is dereferenced. -/
def get_objid (s : ObjState) (obj : Nat) : Option (ObjState × Int) :=
  match get_objref s obj with
  | some (s1, some ref) => some (s1, ref.id)
  | _ => none

/-- Embedding of `get_object_allow_null`: the error code and `*obj` (`NULL` where
the code leaves it unset). -/
def get_object_allow_null (s : ObjState) (objid : Int) : Int × Nat :=
  if objid = 0 then (0, 0)
  else
    match s.objrefs with
    | none => (ERR_INVALID_OBJECT, 0)
    | some objrefs =>
      match g_hash_table_lookup objrefs objid with
      | some ref =>
        let obj := mono_gchandle_get_target s.gc ref.handle
        if obj = 0 then (ERR_INVALID_OBJECT, 0) else (0, obj)
      | none => (ERR_INVALID_OBJECT, 0)

/-- Embedding of `get_object`. -/
def get_object (s : ObjState) (objid : Int) : Int × Nat :=
  let r := get_object_allow_null s objid
  if r.1 ≠ 0 then (r.1, r.2)
  else if r.2 = 0 then (ERR_INVALID_OBJECT, 0)
  else (0, r.2)

/-- Embedding of `buffer_add_objid`. -/
def buffer_add_objid (s : ObjState) (o : Nat) : Option (ObjState × List Nat) :=
  match get_objid s o with
  | none => none
  | some (s1, id) => some (s1, buffer_add_id id)

/-- An event of the object registry: a request for the id of an object, or the
collection of an object by the garbage collector. -/
inductive ObjOp where
  | call_get_objref (obj : Nat)
  | collect (obj : Nat)
deriving DecidableEq, Repr

/-- One event of the object registry. -/
def ObjOp.step (s : ObjState) : ObjOp → Option ObjState
  | ObjOp.call_get_objref obj => (get_objref s obj).map Prod.fst
  | ObjOp.collect obj => some { s with gc := gc_collect s.gc obj }

/-- A sequence of events of the object registry. -/
def run_obj_ops (s : ObjState) : List ObjOp → Option ObjState
  | [] => some s
  | op :: rest =>
    match op.step s with
    | none => none
    | some s1 => run_obj_ops s1 rest

/-- The binding of the address `obj` in `obj_to_objref`. -/
def obj_to_objref_lookup (s : ObjState) (obj : Nat) : Option ObjRef :=
  match s.obj_to_objref with
  | none => none
  | some t => g_hash_table_lookup t (masked_pointer obj)

/-- The binding of `objid` in `objrefs`. -/
def objrefs_lookup (s : ObjState) (objid : Int) : Option ObjRef :=
  match s.objrefs with
  | none => none
  | some t => g_hash_table_lookup t objid

/-- Consistency of the object registry: `objrefs` exists, a record bound to an
address is the record bound to its id, and every record bound to an id carries that
id, which was handed out, and a handle that was allocated. -/
def objrefs_consistent (s : ObjState) : Prop :=
  (∃ t, s.objrefs = some t) ∧
  (∀ obj ref, obj_to_objref_lookup s obj = some ref → objrefs_lookup s ref.id = some ref) ∧
  (∀ id ref, objrefs_lookup s id = some ref →
    ref.id = id ∧ ref.id ≤ s.objref_id ∧ ref.handle < s.gc.next)

/-- An object registry in which the object at address 100 was given id 1 and then
collected (used in the examples). -/
def objrefs_example : ObjState :=
  (run_obj_ops objrefs_init [ObjOp.call_get_objref 100, ObjOp.collect 100]).getD objrefs_init


/-! ## Suspend/resume coordinator -/

def INVOKE_FLAG_DISABLE_BREAKPOINTS : Nat := 1
def INVOKE_FLAG_SINGLE_THREADED : Nat := 2

def SUSPEND_POLICY_NONE : Int := 0
def SUSPEND_POLICY_EVENT_THREAD : Int := 1
def SUSPEND_POLICY_ALL : Int := 2

/-- The struct `InvokeData`, without the saved machine context and with the chain of
`last_invoke` pointers kept by the owning thread record. -/
structure InvokeData where
  id : Int
  flags : Int
  /-- The bytes `p .. endp`: the still encoded arguments. -/
  p : List Nat
  has_ctx : Bool
  /-- A `guint32`. -/
  suspend_count : Nat
deriving DecidableEq, Repr

/-- The struct `DebuggerTlsData`, without the saved machine contexts and frames. -/
structure DebuggerTlsData where
  has_context : Bool
  frames_up_to_date : Bool
  pending_invoke : Option InvokeData
  suspended : Bool
  suspending : Bool
  really_suspended : Bool
  terminated : Bool
  attached : Bool
  interrupt_count : Int
  disable_breakpoints : Bool
  /-- A `guint32`. -/
  resume_count : Nat
  thread : Nat
  has_async_ctx : Bool
  abort_requested : Bool
  /-- The current invocation `invoke` followed by its `last_invoke` chain. -/
  invoke : List InvokeData
deriving DecidableEq, Repr

/-- The record that `thread_start` makes for a thread: zeroed by `g_new0`, then
`thread` and `attached` are set. -/
def thread_start_tls (thread : Nat) : DebuggerTlsData :=
  { has_context := false, frames_up_to_date := false, pending_invoke := none,
    suspended := false, suspending := false, really_suspended := false,
    terminated := false, attached := true, interrupt_count := 0,
    disable_breakpoints := false, resume_count := 0, thread := thread,
    has_async_ctx := false, abort_requested := false, invoke := [] }

/-- The globals of the suspend/resume coordinator, with the single-step counter it
drives. The mutex, the condition variable and the semaphore are left out: every
embedded function is one critical section. -/
structure SuspendState where
  /-- The number of times the runtime is suspended (`gint32`). -/
  suspend_count : Int
  threads_suspend_count : Int
  /-- The table `thread_to_tls`, keyed by the `MonoInternalThread*`. -/
  thread_to_tls : GHashTable Nat DebuggerTlsData
  ss_count : Int
  /-- Whether the execution engine single-steps, as left by the last call of
  `mono_arch_start_single_stepping` or `mono_arch_stop_single_stepping`. -/
  arch_single_stepping : Bool
  debugger_thread_id : Nat

/-- The coordinator when the agent starts: no suspension, no thread known. -/
def suspend_init (debugger_thread_id : Nat) : SuspendState :=
  { suspend_count := 0, threads_suspend_count := 0, thread_to_tls := [], ss_count := 0,
    arch_single_stepping := false, debugger_thread_id := debugger_thread_id }

/-- Embedding of `mono_g_hash_table_foreach` for a callback that updates the value
it is given. -/
def g_hash_table_foreach_update {κ α : Type} (t : GHashTable κ α) (f : κ → α → α) :
    GHashTable κ α :=
  t.map (fun e => (e.1, f e.1 e.2))

/-- Embedding of `start_single_stepping`. -/
def start_single_stepping (s : SuspendState) : SuspendState :=
  let val := s.ss_count + 1
  { s with ss_count := val,
           arch_single_stepping := (if val = 1 then true else s.arch_single_stepping) }

/-- Embedding of `stop_single_stepping`. -/
def stop_single_stepping (s : SuspendState) : SuspendState :=
  let val := s.ss_count - 1
  { s with ss_count := val,
           arch_single_stepping := (if val = 0 then false else s.arch_single_stepping) }

/-- Embedding of `notify_thread` (the variant that is not for `__APPLE__`), called on
the thread `cur`; the signal it sends is delivered later, as a call of
`mono_debugger_agent_thread_interrupt` on the notified thread. -/
def notify_thread (cur : Nat) (key : Nat) (tls : DebuggerTlsData) : DebuggerTlsData :=
  if cur = key ∨ tls.terminated then tls
  else { tls with interrupt_count := tls.interrupt_count + 1 }

/-- Embedding of `reset_native_thread_suspend_state`. -/
def reset_native_thread_suspend_state (_key : Nat) (tls : DebuggerTlsData) : DebuggerTlsData :=
  if !tls.really_suspended && tls.suspended then
    { tls with suspended := false, has_context := false, has_async_ctx := false }
  else tls

/-- Embedding of `save_thread_context` on the record of the calling thread. -/
def save_thread_context (s : SuspendState) (cur : Nat) : SuspendState :=
  match g_hash_table_lookup s.thread_to_tls cur with
  | none => s
  | some tls =>
    { s with thread_to_tls :=
        g_hash_table_insert s.thread_to_tls cur { tls with has_context := true } }

/-- Embedding of `suspend_vm`, called on the thread `cur`. -/
def suspend_vm (s : SuspendState) (cur : Nat) : SuspendState :=
  let s1 := { s with suspend_count := s.suspend_count + 1 }
  if s1.suspend_count = 1 then
    let s2 := start_single_stepping s1
    { s2 with thread_to_tls := g_hash_table_foreach_update s2.thread_to_tls (notify_thread cur) }
  else s1

/-- Embedding of `resume_vm`, called on the thread `cur`; `none` when one of its
assertions fails. -/
def resume_vm (s : SuspendState) (cur : Nat) : Option SuspendState :=
  if s.debugger_thread_id ≠ cur then none
  else if ¬ (s.suspend_count > 0) then none
  else
    let s1 := { s with suspend_count := s.suspend_count - 1 }
    if s1.suspend_count = 0 then
      let s2 := stop_single_stepping s1
      let t := g_hash_table_foreach_update s2.thread_to_tls reset_native_thread_suspend_state
      some { s2 with thread_to_tls := t }
    else some s1

/-- Embedding of `resume_thread`, called on the thread `cur`; `none` when one of its
assertions fails. The sum is taken in `guint32`. -/
def resume_thread (s : SuspendState) (cur : Nat) (thread : Nat) : Option SuspendState :=
  if s.debugger_thread_id ≠ cur then none
  else
    match g_hash_table_lookup s.thread_to_tls thread with
    | none => none
    | some tls =>
      if ¬ (s.suspend_count > 0) then none
      else
        let tls1 : DebuggerTlsData :=
          { tls with resume_count := (tls.resume_count + toUInt32 s.suspend_count) % 2 ^ 32 }
        some { s with thread_to_tls := g_hash_table_insert s.thread_to_tls thread tls1 }

/-- The condition of the wait loop of `suspend_current`:
`suspend_count - (int)tls->resume_count > 0`. -/
def suspend_wait_condition (s : SuspendState) (tls : DebuggerTlsData) : Bool :=
  decide (s.suspend_count - toInt32 tls.resume_count > 0)

/-- Embedding of `count_thread`. -/
def count_thread (tls : DebuggerTlsData) (user_data : Int) : Int :=
  if !tls.suspended && !tls.terminated && tls.attached then user_data + 1 else user_data

/-- Embedding of `count_threads_to_wait_for`. -/
def count_threads_to_wait_for (s : SuspendState) : Int :=
  s.thread_to_tls.foldl (fun count e => count_thread e.2 count) 0

/-- Embedding of `is_suspended`. -/
def is_suspended (s : SuspendState) : Bool :=
  decide (count_threads_to_wait_for s = 0)

/-- Embedding of `wait_for_suspend`. The call blocks its thread until
`count_threads_to_wait_for` is 0 and writes no variable of the agent except the
semaphore; the threads it waits for set their flags in events of their own. -/
def wait_for_suspend (s : SuspendState) : SuspendState := s

/-- Embedding of `mono_debugger_agent_thread_interrupt` (the variant that is not for
`__APPLE__`) on the record of the interrupted thread, for an initialised agent.
`ji` is the compiled method the thread was running (`NULL` in native code) and
`last_frame_set` tells whether the stack walk found a managed frame. In native code
the handler first calls `save_thread_context`, which sets `has_context` in the record
of the thread it runs on. Returns the record and the result of the call. -/
def mono_debugger_agent_thread_interrupt (tls : DebuggerTlsData) (ji : Nat)
    (last_frame_set : Bool) : DebuggerTlsData × Bool :=
  if tls.interrupt_count = 0 then (tls, false)
  else
    let tls1 := { tls with interrupt_count := tls.interrupt_count - 1 }
    if ji ≠ 0 then (tls1, true)
    else if !tls1.suspended && !tls1.suspending then
      let tls2 := { tls1 with has_context := true }
      if tls2.thread = 0 then (tls2, true)
      else ({ tls2 with has_async_ctx := last_frame_set, suspended := true }, true)
    else (tls1, true)

/-- The flags that `suspend_current` sets in the record of the calling thread before
it waits. -/
def suspend_current_park (tls : DebuggerTlsData) : DebuggerTlsData :=
  { tls with suspending := false, really_suspended := true, suspended := true }

/-- The first part of `suspend_current`, called on the thread `cur`, which does not
own the loader lock: the thread marks itself suspended and starts to wait. `none`
when an assertion fails (the debugger thread, or a thread without record). -/
def suspend_current_enter (s : SuspendState) (cur : Nat) : Option SuspendState :=
  if s.debugger_thread_id = cur then none
  else
    match g_hash_table_lookup s.thread_to_tls cur with
    | none => none
    | some tls =>
      some { s with thread_to_tls :=
               g_hash_table_insert s.thread_to_tls cur (suspend_current_park tls) }

/-- The second part of `suspend_current`: the wait loop has ended for the thread
`thread`. With a pending invoke the saved context is marked in it (`has_ctx`) and
`invoke_method` follows, in steps of its own; it ends with a `suspend_current` of its
own, after which the statements that remain here repeat what that call has just done.
Without a pending invoke the function returns, and `has_context` and `has_async_ctx`
are reset. `none` while the wait condition holds (the thread stays parked) or when
the thread has no record. -/
def suspend_current_leave (s : SuspendState) (thread : Nat) : Option SuspendState :=
  match g_hash_table_lookup s.thread_to_tls thread with
  | none => none
  | some tls =>
    if suspend_wait_condition s tls then none
    else
      let tls1 : DebuggerTlsData := { tls with suspended := false, really_suspended := false }
      let tls2 : DebuggerTlsData :=
        match tls1.pending_invoke with
        | some invoke => { tls1 with pending_invoke := some { invoke with has_ctx := true } }
        | none => { tls1 with has_context := false, has_async_ctx := false }
      some { s with threads_suspend_count := s.threads_suspend_count - 1,
                    thread_to_tls := g_hash_table_insert s.thread_to_tls thread tls2 }

/-- The part of `invoke_method` before the call of `do_invoke_method`, on the record
of the calling thread; `none` when no invoke is pending (an assertion). -/
def invoke_method_begin (tls : DebuggerTlsData) : Option (DebuggerTlsData × InvokeData) :=
  match tls.pending_invoke with
  | none => none
  | some invoke =>
    some ({ tls with pending_invoke := none, invoke := invoke :: tls.invoke,
                     frames_up_to_date := false }, invoke)

/-- The part of `invoke_method` after `do_invoke_method` returned, for the thread
`thread` running `invoke`, up to the final `suspend_current`, whose first part is
included: the VM is suspended, the context saved with the invoke is restored by
`save_thread_context`, and the invoke is taken off the chain. `none` when an assertion
fails. The difference is taken in `guint32`. -/
def invoke_method_end (s : SuspendState) (thread : Nat) (invoke : InvokeData) :
    Option SuspendState :=
  let s1 :=
    if toUInt32 invoke.flags &&& INVOKE_FLAG_SINGLE_THREADED = 0 then suspend_vm s thread else s
  match g_hash_table_lookup s1.thread_to_tls thread with
  | none => none
  | some tls0 =>
    let tls : DebuggerTlsData :=
      if invoke.has_ctx = true then { tls0 with has_context := true } else tls0
    let tls1 : Option DebuggerTlsData :=
      if toUInt32 invoke.flags &&& INVOKE_FLAG_SINGLE_THREADED ≠ 0 then
        if tls.resume_count = 0 then none
        else some { tls with
          resume_count := (tls.resume_count + 2 ^ 32 - invoke.suspend_count % 2 ^ 32) % 2 ^ 32 }
      else some tls
    match tls1 with
    | none => none
    | some tls2 =>
      match tls2.invoke with
      | [] => none
      | _ :: last_invoke =>
        let tls3 : DebuggerTlsData := { tls2 with invoke := last_invoke, abort_requested := false }
        suspend_current_enter
          { s1 with thread_to_tls := g_hash_table_insert s1.thread_to_tls thread tls3 } thread


/-- A coordinator with one attached thread, `7`, that was notified by `suspend_vm`
and took the interrupt while it was running native code (used in the examples). -/
def suspend_example : SuspendState :=
  let s := suspend_vm { suspend_init 1 with thread_to_tls := [(7, thread_start_tls 7)] } 1
  let t := g_hash_table_foreach_update s.thread_to_tls
    (fun _ tls => (mono_debugger_agent_thread_interrupt tls 0 false).1)
  { s with thread_to_tls := t }


/-! ## Breakpoints -/

/-- One entry of a sequence-point table (`SeqPoint`): IL offset, native offset and
the indexes of the successor entries. -/
structure SeqPoint where
  il_offset : Int
  native_offset : Int
  next : List Nat
deriving DecidableEq, Repr

/-- The fields of `MonoJitInfo` that the agent reads. -/
structure MonoJitInfo where
  method : Nat
  code_start : Nat
deriving DecidableEq, Repr

/-- The struct `BreakpointInstance`. -/
structure BreakpointInstance where
  il_offset : Int
  native_offset : Int
  ip : Int
  ji : MonoJitInfo
  domain : Nat
deriving DecidableEq, Repr

/-- The struct `MonoBreakpoint`; `req` is the id of the owning event request. -/
structure MonoBreakpoint where
  method : Nat
  il_offset : Int
  req : Int
  children : List BreakpointInstance
deriving DecidableEq, Repr

/-- A call into the architecture back end. -/
inductive ArchCall where
  | set_breakpoint (ip : Int)
  | clear_breakpoint (ip : Int)
deriving DecidableEq, Repr

/-- The table `bp_locs` with the state of the code that the back end patches. -/
structure BreakpointState where
  /-- Maps a breakpoint location to the number of breakpoints at that location. -/
  bp_locs : GHashTable Int Int
  /-- The addresses whose instruction is patched. -/
  patched : List Int
  /-- The calls made into the back end, oldest first. -/
  arch_calls : List ArchCall

/-- Embedding of `breakpoints_init`, with no instruction patched. -/
def breakpoints_init : BreakpointState :=
  { bp_locs := [], patched := [], arch_calls := [] }

/-- Modelled from the spec: `mono_arch_set_breakpoint`, which patches the
instruction at the address. -/
def mono_arch_set_breakpoint (s : BreakpointState) (ip : Int) : BreakpointState :=
  { s with patched := ip :: s.patched.filter (fun a => decide (a ≠ ip)),
           arch_calls := s.arch_calls ++ [ArchCall.set_breakpoint ip] }

/-- Modelled from the spec: `mono_arch_clear_breakpoint`, which removes the patch of
the instruction at the address. -/
def mono_arch_clear_breakpoint (s : BreakpointState) (ip : Int) : BreakpointState :=
  { s with patched := s.patched.filter (fun a => decide (a ≠ ip)),
           arch_calls := s.arch_calls ++ [ArchCall.clear_breakpoint ip] }

/-- The value `GPOINTER_TO_INT (g_hash_table_lookup (bp_locs, ip))`. -/
def bp_locs_count (s : BreakpointState) (ip : Int) : Int :=
  match g_hash_table_lookup s.bp_locs ip with
  | some c => c
  | none => 0

/-- The loop of `insert_breakpoint` over the table: the entry at which it breaks,
`none` when it runs to the end. -/
def insert_breakpoint_scan (seq_points : List SeqPoint) (bp_il_offset : Int) : Option SeqPoint :=
  match seq_points with
  | [] => none
  | sp :: rest =>
    if sp.il_offset ≥ bp_il_offset then some sp else insert_breakpoint_scan rest bp_il_offset

/-- The instance that `insert_breakpoint` makes, `none` when it returns early. -/
def insert_breakpoint_inst (seq_points : List SeqPoint) (domain : Nat) (ji : MonoJitInfo)
    (bp : MonoBreakpoint) : Option BreakpointInstance :=
  match insert_breakpoint_scan seq_points bp.il_offset with
  | none => none
  | some sp =>
    some { il_offset := 0, native_offset := sp.native_offset,
           ip := (ji.code_start : Int) + sp.native_offset, ji := ji, domain := domain }

/-- Embedding of `insert_breakpoint` (with `MONO_ARCH_SOFT_DEBUG_SUPPORTED`): the new
state and the updated breakpoint. -/
def insert_breakpoint (s : BreakpointState) (seq_points : List SeqPoint) (domain : Nat)
    (ji : MonoJitInfo) (bp : MonoBreakpoint) : BreakpointState × MonoBreakpoint :=
  match insert_breakpoint_inst seq_points domain ji bp with
  | none => (s, bp)
  | some inst =>
    let bp1 := { bp with children := bp.children ++ [inst] }
    let count := bp_locs_count s inst.ip
    let s1 := { s with bp_locs := g_hash_table_insert s.bp_locs inst.ip (count + 1) }
    if count = 0 then (mono_arch_set_breakpoint s1 inst.ip, bp1) else (s1, bp1)

/-- Embedding of `remove_breakpoint` (with `MONO_ARCH_SOFT_DEBUG_SUPPORTED`); `none`
when the assertion `count > 0` fails. -/
def remove_breakpoint (s : BreakpointState) (inst : BreakpointInstance) :
    Option BreakpointState :=
  let count := bp_locs_count s inst.ip
  let s1 := { s with bp_locs := g_hash_table_insert s.bp_locs inst.ip (count - 1) }
  if ¬ (count > 0) then none
  else if count = 1 then some (mono_arch_clear_breakpoint s1 inst.ip)
  else some s1

/-- A call that inserts or removes a breakpoint instance. -/
inductive BpOp where
  | insert (seq_points : List SeqPoint) (domain : Nat) (ji : MonoJitInfo) (bp : MonoBreakpoint)
  | remove (inst : BreakpointInstance)

/-- A sequence of insertions and removals, with the instances inserted and not yet
removed. `none` when a removal is of an instance that is not among them, or when an
assertion fails. -/
def run_bp_ops (s : BreakpointState) (live : List BreakpointInstance) :
    List BpOp → Option (BreakpointState × List BreakpointInstance)
  | [] => some (s, live)
  | BpOp.insert seq_points domain ji bp :: rest =>
    let live1 :=
      match insert_breakpoint_inst seq_points domain ji bp with
      | none => live
      | some inst => inst :: live
    run_bp_ops (insert_breakpoint s seq_points domain ji bp).1 live1 rest
  | BpOp.remove inst :: rest =>
    if inst ∈ live then
      match remove_breakpoint s inst with
      | none => none
      | some s1 => run_bp_ops s1 (live.erase inst) rest
    else none

/-- The number of instances of the list that are at the address. -/
def instances_at (live : List BreakpointInstance) (ip : Int) : Int :=
  ((live.filter (fun i => decide (i.ip = ip))).length : Int)

/-- The invariant of `bp_locs`: the count of an address is the number of live
instances at it, and the address is patched exactly when the count is positive. -/
def bp_locs_consistent (s : BreakpointState) (live : List BreakpointInstance) : Prop :=
  (∀ ip, bp_locs_count s ip = instances_at live ip) ∧
  (∀ ip, ip ∈ s.patched ↔ bp_locs_count s ip > 0)

/-- A sequence-point table (used in the examples). -/
def seq_points_example : List SeqPoint :=
  [⟨0, 0, [1]⟩, ⟨4, 16, [2]⟩, ⟨9, 40, []⟩]

/-- A compiled method whose code starts at address 1000 (used in the examples). -/
def ji_example : MonoJitInfo := { method := 5, code_start := 1000 }


/-! ## Event requests, single stepping and the commands that suspend -/

def EVENT_KIND_VM_START : Int := 0
def EVENT_KIND_VM_DEATH : Int := 1
def EVENT_KIND_THREAD_START : Int := 2
def EVENT_KIND_THREAD_DEATH : Int := 3
def EVENT_KIND_APPDOMAIN_CREATE : Int := 4
def EVENT_KIND_APPDOMAIN_UNLOAD : Int := 5
def EVENT_KIND_METHOD_ENTRY : Int := 6
def EVENT_KIND_METHOD_EXIT : Int := 7
def EVENT_KIND_ASSEMBLY_LOAD : Int := 8
def EVENT_KIND_ASSEMBLY_UNLOAD : Int := 9
def EVENT_KIND_BREAKPOINT : Int := 10
def EVENT_KIND_STEP : Int := 11
def EVENT_KIND_TYPE_LOAD : Int := 12
def EVENT_KIND_EXCEPTION : Int := 13

def MOD_KIND_COUNT : Int := 1
def MOD_KIND_THREAD_ONLY : Int := 3
def MOD_KIND_LOCATION_ONLY : Int := 7
def MOD_KIND_EXCEPTION_ONLY : Int := 8
def MOD_KIND_STEP : Int := 10
def MOD_KIND_ASSEMBLY_ONLY : Int := 11

def STEP_DEPTH_OVER : Int := 1
def STEP_DEPTH_OUT : Int := 2

def STEP_SIZE_MIN : Int := 0
def STEP_SIZE_LINE : Int := 1

def CMD_VM_VERSION : Int := 1
def CMD_VM_ALL_THREADS : Int := 2
def CMD_VM_SUSPEND : Int := 3
def CMD_VM_RESUME : Int := 4
def CMD_VM_EXIT : Int := 5
def CMD_VM_DISPOSE : Int := 6
def CMD_VM_INVOKE_METHOD : Int := 7
def CMD_VM_SET_PROTOCOL_VERSION : Int := 8
def CMD_VM_ABORT_INVOKE : Int := 9

def CMD_EVENT_REQUEST_SET : Int := 1
def CMD_EVENT_REQUEST_CLEAR : Int := 2
def CMD_EVENT_REQUEST_CLEAR_ALL_BREAKPOINTS : Int := 3

/-- The struct `Modifier`, the arms of its union side by side. -/
structure Modifier where
  kind : Int
  count : Int
  thread : Nat
  exc_class : Nat
  assemblies : List Nat
  caught : Bool
  uncaught : Bool
deriving DecidableEq, Repr

/-- The struct `EventRequest`; `nmodifiers` is the length of `modifiers`, and `info`
is the address of the breakpoint or single-step request made for it. -/
structure EventRequest where
  id : Int
  event_kind : Int
  suspend_policy : Int
  info : Nat
  modifiers : List Modifier
deriving DecidableEq, Repr

/-- The struct `SingleStepReq` with its own address `ptr`; `req` is the id of the
owning event request and `bps` holds the addresses of its breakpoints. -/
structure SingleStepReq where
  ptr : Nat
  req : Int
  thread : Nat
  depth : Int
  size : Int
  last_sp : Nat
  start_sp : Nat
  last_method : Nat
  last_line : Int
  stepover_frame_method : Nat
  stepover_frame_count : Int
  global : Bool
  bps : List Nat
deriving DecidableEq, Repr

/-- The fields of `StackFrame` that single stepping reads, with the stack pointer of
the frame's context. -/
structure StackFrame where
  il_offset : Int
  domain : Nat
  method : Nat
  sp : Nat
deriving DecidableEq, Repr

/-- The breakpoint engine: `bp_locs` and the patched code, the array `breakpoints`
(each address with the `MonoBreakpoint` stored there) and the next address that an
allocation returns. -/
structure BpEngine where
  locs : BreakpointState
  breakpoints : List (Nat × MonoBreakpoint)
  next_ptr : Nat

/-- The globals of the agent that the commands below read or write. -/
structure AgentState where
  coord : SuspendState
  eng : BpEngine
  ss_req : Option SingleStepReq
  event_requests : List EventRequest
  event_request_id : Int
  vm_start_event_sent : Bool
  vm_death_event_sent : Bool
  disconnected : Bool
  send_pending_type_load_events : Bool
  /-- The threads for which `ves_icall_System_Threading_Thread_Abort` was called. -/
  thread_aborts : List Nat

/-- The agent after `mono_debugger_agent_init`, before any thread started. -/
def agent_init (debugger_thread_id : Nat) : AgentState :=
  { coord := suspend_init debugger_thread_id,
    eng := { locs := breakpoints_init, breakpoints := [], next_ptr := 1 },
    ss_req := none, event_requests := [], event_request_id := 0,
    vm_start_event_sent := false, vm_death_event_sent := false, disconnected := false,
    send_pending_type_load_events := false, thread_aborts := [] }

/-- The loop of `clear_breakpoint` over the children. -/
def remove_breakpoints (s : BreakpointState) : List BreakpointInstance → Option BreakpointState
  | [] => some s
  | inst :: rest =>
    match remove_breakpoint s inst with
    | none => none
    | some s1 => remove_breakpoints s1 rest

/-- Embedding of `clear_breakpoint` for the breakpoint at address `bp`; `none` when an
assertion fails or the address holds no breakpoint. -/
def clear_breakpoint (e : BpEngine) (bp : Nat) : Option BpEngine :=
  match g_hash_table_lookup e.breakpoints bp with
  | none => none
  | some b =>
    match remove_breakpoints e.locs b.children with
    | none => none
    | some locs1 =>
      some { e with locs := locs1, breakpoints := e.breakpoints.eraseP (fun x => decide (x.1 = bp)) }

/-- The loop of `ss_stop` over `ss_req->bps`. -/
def clear_breakpoints (e : BpEngine) : List Nat → Option BpEngine
  | [] => some e
  | bp :: rest =>
    match clear_breakpoint e bp with
    | none => none
    | some e1 => clear_breakpoints e1 rest

/-- Embedding of `ss_stop` for the current single-step request. -/
def ss_stop (s : AgentState) (req : SingleStepReq) : Option (AgentState × SingleStepReq) :=
  match clear_breakpoints s.eng req.bps with
  | none => none
  | some e1 =>
    let s1 := { s with eng := e1 }
    let req1 := { req with bps := [] }
    if req1.global then
      some ({ s1 with coord := stop_single_stepping s1.coord }, { req1 with global := false })
    else some (s1, req1)

/-- Embedding of `ss_destroy`; `none` when `req` is not the current request (an
assertion) or when `ss_stop` fails. -/
def ss_destroy (s : AgentState) (req : Nat) : Option AgentState :=
  match s.ss_req with
  | none => none
  | some r =>
    if r.ptr ≠ req then none
    else
      match ss_stop s r with
      | none => none
      | some (s1, _) => some { s1 with ss_req := none }

/-- Embedding of `g_ptr_array_remove_index_fast`: the last element takes the place of
the removed one. -/
def g_ptr_array_remove_index_fast {α : Type} (a : List α) (i : Nat) : List α :=
  match a.getLast? with
  | none => a
  | some last => if i + 1 = a.length then a.dropLast else (a.set i last).dropLast

/-- The loop of `clear_event_request`: the index of the first request with the id
and the kind, scanning from index `i`. -/
def find_event_request (reqs : List EventRequest) (req_id : Int) (etype : Int) (i : Nat) :
    Option (Nat × EventRequest) :=
  match reqs with
  | [] => none
  | req :: rest =>
    if req.id = req_id ∧ req.event_kind = etype then some (i, req)
    else find_event_request rest req_id etype (i + 1)

/-- Embedding of `clear_event_request`. -/
def clear_event_request (s : AgentState) (req_id : Int) (etype : Int) : Option AgentState :=
  match find_event_request s.event_requests req_id etype 0 with
  | none => some s
  | some (i, req) =>
    let s1 : Option AgentState :=
      if req.event_kind = EVENT_KIND_BREAKPOINT then
        (clear_breakpoint s.eng req.info).map (fun e => { s with eng := e })
      else some s
    let s2 : Option AgentState :=
      match s1 with
      | none => none
      | some t => if req.event_kind = EVENT_KIND_STEP then ss_destroy t req.info else some t
    let s3 : Option AgentState :=
      match s2 with
      | none => none
      | some t =>
        if req.event_kind = EVENT_KIND_METHOD_ENTRY then
          (clear_breakpoint t.eng req.info).map (fun e => { t with eng := e })
        else some t
    let s4 : Option AgentState :=
      match s3 with
      | none => none
      | some t =>
        if req.event_kind = EVENT_KIND_METHOD_EXIT then
          (clear_breakpoint t.eng req.info).map (fun e => { t with eng := e })
        else some t
    match s4 with
    | none => none
    | some t =>
      some { t with event_requests := g_ptr_array_remove_index_fast t.event_requests i }


/-- The first loop of `CMD_VM_DISPOSE`: `clear_event_request` for the request at index
0 while the array is not empty. The loop is run for at most `fuel` rounds; `none`
when an assertion fails or the rounds do not suffice. -/
def clear_all_event_requests (fuel : Nat) (s : AgentState) : Option AgentState :=
  match s.event_requests with
  | [] => some s
  | req :: _ =>
    match fuel with
    | 0 => none
    | fuel1 + 1 =>
      match clear_event_request s req.id req.event_kind with
      | none => none
      | some s1 => clear_all_event_requests fuel1 s1

/-- The loop `while (suspend_count > 0) resume_vm ()`, run for at most `fuel` rounds;
`none` when an assertion fails or the rounds do not suffice. -/
def resume_vm_all (fuel : Nat) (s : SuspendState) (cur : Nat) : Option SuspendState :=
  if s.suspend_count > 0 then
    match fuel with
    | 0 => none
    | fuel1 + 1 =>
      match resume_vm s cur with
      | none => none
      | some s1 => resume_vm_all fuel1 s1 cur
  else some s

/-- The case `CMD_VM_DISPOSE` of `vm_commands`. -/
def vm_dispose (s : AgentState) (cur : Nat) : Option (AgentState × Int) :=
  let s1 := { s with coord := wait_for_suspend (suspend_vm s.coord cur) }
  match clear_all_event_requests s1.event_requests.length s1 with
  | none => none
  | some s2 =>
    match resume_vm_all s2.coord.suspend_count.toNat s2.coord cur with
    | none => none
    | some c =>
      some ({ s2 with coord := c, disconnected := true, vm_start_event_sent := false,
                      send_pending_type_load_events := false }, ERR_NONE)

/-- The case `CMD_VM_INVOKE_METHOD` of `vm_commands`. -/
def vm_invoke_method (objs : ObjState) (s : AgentState) (cur : Nat) (id : Int) (p : List Nat) :
    Option (AgentState × Int) :=
  match decode_id p with
  | none => none
  | some objid =>
    let r := get_object objs objid.val
    if r.1 ≠ 0 then some (s, r.1)
    else
      let thread := r.2
      match decode_int objid.endbuf with
      | none => none
      | some flags =>
        let c1 := if s.coord.suspend_count ≠ 0 then wait_for_suspend s.coord else s.coord
        if !is_suspended c1 then some ({ s with coord := c1 }, ERR_NOT_SUSPENDED)
        else
          match g_hash_table_lookup c1.thread_to_tls thread with
          | none => none
          | some tls =>
            if !tls.really_suspended then some ({ s with coord := c1 }, ERR_NOT_SUSPENDED)
            else if tls.pending_invoke.isSome then
              some ({ s with coord := c1 }, ERR_NOT_SUSPENDED)
            else
              let invoke : InvokeData :=
                { id := id, flags := flags.val, p := flags.endbuf, has_ctx := false,
                  suspend_count := toUInt32 c1.suspend_count }
              let tls1 : DebuggerTlsData := { tls with pending_invoke := some invoke }
              let c2 := { c1 with thread_to_tls := g_hash_table_insert c1.thread_to_tls thread tls1 }
              let c3 :=
                if toUInt32 flags.val &&& INVOKE_FLAG_SINGLE_THREADED ≠ 0 then
                  resume_thread c2 cur thread
                else resume_vm c2 cur
              match c3 with
              | none => none
              | some c => some ({ s with coord := c }, ERR_NONE)

/-- The case `CMD_VM_ABORT_INVOKE` of `vm_commands`. -/
def vm_abort_invoke (objs : ObjState) (s : AgentState) (p : List Nat) :
    Option (AgentState × Int) :=
  match decode_id p with
  | none => none
  | some objid =>
    let r := get_object objs objid.val
    if r.1 ≠ 0 then some (s, r.1)
    else
      let thread := r.2
      match decode_int objid.endbuf with
      | none => none
      | some invoke_id =>
        match g_hash_table_lookup s.coord.thread_to_tls thread with
        | none => none
        | some tls =>
          if tls.abort_requested then some (s, ERR_NONE)
          else
            match tls.invoke with
            | [] => some (s, ERR_NO_INVOCATION)
            | invoke :: _ =>
              if invoke.id ≠ invoke_id.val then some (s, ERR_NO_INVOCATION)
              else
                let tls1 : DebuggerTlsData := { tls with abort_requested := true }
                let t := g_hash_table_insert s.coord.thread_to_tls thread tls1
                some ({ s with coord := { s.coord with thread_to_tls := t },
                               thread_aborts := s.thread_aborts ++ [thread] }, ERR_NONE)

/-- Embedding of `vm_commands`, run on the thread `cur`, for the commands
`CMD_VM_SUSPEND`, `CMD_VM_RESUME`, `CMD_VM_DISPOSE`, `CMD_VM_INVOKE_METHOD` and
`CMD_VM_ABORT_INVOKE` and for the command numbers outside the group. It returns the
new state and the error code; these commands add nothing to the reply. `none` when
an assertion fails, and for `CMD_VM_VERSION`, `CMD_VM_ALL_THREADS`, `CMD_VM_EXIT`
and `CMD_VM_SET_PROTOCOL_VERSION`, which are not embedded. -/
def vm_commands (objs : ObjState) (s : AgentState) (cur : Nat) (command : Int) (id : Int)
    (p : List Nat) : Option (AgentState × Int) :=
  if command = CMD_VM_SUSPEND then
    some ({ s with coord := wait_for_suspend (suspend_vm s.coord cur) }, ERR_NONE)
  else if command = CMD_VM_RESUME then
    if s.coord.suspend_count = 0 then some (s, ERR_NOT_SUSPENDED)
    else
      match resume_vm s.coord cur with
      | none => none
      | some c => some ({ s with coord := c }, ERR_NONE)
  else if command = CMD_VM_DISPOSE then vm_dispose s cur
  else if command = CMD_VM_INVOKE_METHOD then vm_invoke_method objs s cur id p
  else if command = CMD_VM_ABORT_INVOKE then vm_abort_invoke objs s p
  else if command = CMD_VM_VERSION ∨ command = CMD_VM_ALL_THREADS ∨ command = CMD_VM_EXIT
      ∨ command = CMD_VM_SET_PROTOCOL_VERSION then none
  else some (s, ERR_NOT_IMPLEMENTED)

/-- The end of `process_event` on the thread `cur`, from the test of the computed
suspend policy on (the packet is sent in between, and was sent successfully): the
context of the thread is saved, the VM is suspended and the thread parks. `none` for
`SUSPEND_POLICY_EVENT_THREAD` (`NOT_IMPLEMENTED`), for an unknown policy, and when
`suspend_current` fails. -/
def process_event_suspend (s : SuspendState) (cur : Nat) (suspend_policy : Int) :
    Option SuspendState :=
  let s1 :=
    if suspend_policy ≠ SUSPEND_POLICY_NONE then suspend_vm (save_thread_context s cur) cur
    else s
  if suspend_policy = SUSPEND_POLICY_NONE then some s1
  else if suspend_policy = SUSPEND_POLICY_ALL then suspend_current_enter s1 cur
  else none


/-- What the agent asks of the execution engine while it sets breakpoints and starts
single stepping: the sequence-point tables, the compiled code, the stack of a
suspended thread and the class hierarchy. -/
structure Runtime where
  /-- The table `domain_jit_info (domain)->seq_points` of a domain, in the order in
  which `g_hash_table_foreach` visits it. -/
  seq_points : Nat → GHashTable Nat (List SeqPoint)
  /-- The code that `mono_jit_find_compiled_method_with_jit_info`, or else the AOT
  lookup, finds for a method of a domain; `none` when both find nothing. -/
  compiled_code : Nat → Nat → Option MonoJitInfo
  is_inflated : Nat → Bool
  declaring_generic_method : Nat → Nat
  /-- The frames that `compute_frame_info` computes for a thread. -/
  frames : Nat → List StackFrame
  /-- The stack pointer of the saved context `tls->ctx` of a thread. -/
  context_sp : Nat → Nat
  /-- The field `tls->invoke_addr` of a thread. -/
  invoke_addr : Nat → Nat
  /-- The result of `compute_frame_count` for a thread. -/
  frame_count : Nat → Int
  /-- The source line of an IL offset of a method, when the debug information of
  the method has a location for it. -/
  source_line : Nat → Int → Option Int
  class_is_assignable_from : Nat → Nat → Bool
  /-- The class `mono_defaults.exception_class`. -/
  exception_class : Nat
  /-- The option `agent_config.defer`. -/
  defer : Bool

def METHOD_ENTRY_IL_OFFSET : Int := -1
def METHOD_EXIT_IL_OFFSET : Int := 0xffffff

/-- Embedding of `get_declaring_method`. -/
def get_declaring_method (rt : Runtime) (method : Nat) : Nat :=
  if method = 0 ∨ !rt.is_inflated method then method else rt.declaring_generic_method method

/-- Embedding of `bp_matches_method`. -/
def bp_matches_method (rt : Runtime) (bp : MonoBreakpoint) (method : Nat) : Bool :=
  decide (bp.method = 0 ∨ get_declaring_method rt bp.method = get_declaring_method rt method)

/-- Embedding of `set_bp_in_domain` with `set_bp_in_method_cb` and `set_bp_in_method`:
the walk over the sequence-point table of one domain. `none` when no code is found
for a matching method (an assertion). -/
def set_bp_in_domain (rt : Runtime) (domain : Nat) (locs : BreakpointState) (bp : MonoBreakpoint) :
    List (Nat × List SeqPoint) → Option (BreakpointState × MonoBreakpoint)
  | [] => some (locs, bp)
  | (method, seq_points) :: rest =>
    if bp_matches_method rt bp method then
      match rt.compiled_code domain method with
      | none => none
      | some ji =>
        let r := insert_breakpoint locs seq_points domain ji bp
        set_bp_in_domain rt domain r.1 r.2 rest
    else set_bp_in_domain rt domain locs bp rest

/-- The walk of `set_breakpoint` over the table `domains`. -/
def set_bp_in_domains (rt : Runtime) (locs : BreakpointState) (bp : MonoBreakpoint) :
    List Nat → Option (BreakpointState × MonoBreakpoint)
  | [] => some (locs, bp)
  | domain :: rest =>
    match set_bp_in_domain rt domain locs bp (rt.seq_points domain) with
    | none => none
    | some r => set_bp_in_domains rt r.1 r.2 rest

/-- Embedding of `set_breakpoint`; `domains` are the keys of the table `domains`.
Returns the engine and the address of the new breakpoint. -/
def set_breakpoint (rt : Runtime) (domains : List Nat) (e : BpEngine) (method : Nat)
    (il_offset : Int) (req : Int) : Option (BpEngine × Nat) :=
  let bp : MonoBreakpoint := { method := method, il_offset := il_offset, req := req, children := [] }
  match set_bp_in_domains rt e.locs bp domains with
  | none => none
  | some r =>
    some ({ locs := r.1, breakpoints := e.breakpoints ++ [(e.next_ptr, r.2)],
            next_ptr := e.next_ptr + 1 }, e.next_ptr)

/-- Embedding of `find_seq_point`: the entry with the IL offset, and the table
(`*info`); `none` when the method has no table in the domain (an assertion). -/
def find_seq_point (rt : Runtime) (domain : Nat) (method : Nat) (il_offset : Int) :
    Option (Option SeqPoint × List SeqPoint) :=
  match g_hash_table_lookup (rt.seq_points domain) method with
  | none => none
  | some seq_points => some (seq_points.find? (fun sp => decide (sp.il_offset = il_offset)), seq_points)

/-- Embedding of `is_parentframe_managed`, on the frames of the thread. -/
def is_parentframe_managed (rt : Runtime) (thread : Nat) (frames : List StackFrame) : Bool :=
  match frames with
  | _ :: parent :: _ => if rt.invoke_addr thread ≤ parent.sp then false else true
  | _ => false

/-- The first loop of `ss_start` for `STEP_DEPTH_OVER`: the walk up the frames while
the sequence point is the last of its method. `frames` are the frames from
`frame_index` on (none when `tls` is `NULL`). Returns `sp`, `info` and `method`. -/
def ss_start_find (rt : Runtime) (sp : Option SeqPoint) (info : List SeqPoint) (method : Nat)
    (frames : List StackFrame) : Option (Option SeqPoint × List SeqPoint × Nat) :=
  match sp with
  | none => some (none, info, method)
  | some p =>
    if p.next.length = 0 then
      match frames with
      | [] => some (none, info, method)
      | frame :: rest =>
        if frame.il_offset ≠ -1 then
          match find_seq_point rt frame.domain frame.method frame.il_offset with
          | none => none
          | some r => ss_start_find rt r.1 r.2 frame.method rest
        else some (none, info, frame.method)
    else some (sp, info, method)

/-- The second loop of `ss_start`: a breakpoint at every successor of the sequence
point. `none` when an index of `next` is outside the table. -/
def ss_start_set_bps (rt : Runtime) (domains : List Nat) (e : BpEngine) (info : List SeqPoint)
    (method : Nat) (req : Int) (bps : List Nat) : List Nat → Option (BpEngine × List Nat)
  | [] => some (e, bps)
  | i :: rest =>
    match info[i]? with
    | none => none
    | some next_sp =>
      match set_breakpoint rt domains e method next_sp.il_offset req with
      | none => none
      | some r => ss_start_set_bps rt domains r.1 info method req (bps ++ [r.2]) rest

/-- Embedding of `ss_start`. `frames` are the cached frames `tls->frames` of the
thread, `none` when `tls` is `NULL`. Returns the state and the updated request. -/
def ss_start (rt : Runtime) (domains : List Nat) (s : AgentState) (ss_req : SingleStepReq)
    (method : Nat) (sp : Option SeqPoint) (info : List SeqPoint)
    (frames : Option (List StackFrame)) : Option (AgentState × SingleStepReq) :=
  match ss_stop s ss_req with
  | none => none
  | some (s1, r1) =>
    let over : Option (AgentState × SingleStepReq) :=
      if r1.depth = STEP_DEPTH_OVER then
        let rest : List StackFrame :=
          match frames with
          | none => []
          | some fs => fs.drop 1
        match ss_start_find rt sp info method rest with
        | none => none
        | some (sp1, info1, method1) =>
          let set : Option (BpEngine × List Nat) :=
            match sp1 with
            | none => some (s1.eng, r1.bps)
            | some p =>
              if p.next.length > 0 then
                ss_start_set_bps rt domains s1.eng info1 method1 r1.req r1.bps p.next
              else some (s1.eng, r1.bps)
          match set with
          | none => none
          | some (e2, bps2) =>
            let r2 := { r1 with bps := bps2 }
            let r3 :=
              if frames.isSome ∧ r2.stepover_frame_count = 0 then
                { r2 with stepover_frame_method := method1,
                          stepover_frame_count := rt.frame_count r2.thread }
              else r2
            some ({ s1 with eng := e2 }, r3)
      else some (s1, r1)
    match over with
    | none => none
    | some (s3, r3) =>
      if r3.bps = [] then
        some ({ s3 with coord := start_single_stepping s3.coord }, { r3 with global := true })
      else some (s3, { r3 with global := false })


/-- Embedding of `ss_create` for the event request with id `req`. Returns the state,
the error code and the address stored in `req->info` (`NULL` when the request was not
made). `none` when an assertion fails. -/
def ss_create (rt : Runtime) (domains : List Nat) (s : AgentState) (thread : Nat) (size : Int)
    (depth : Int) (req : Int) : Option (AgentState × Int × Nat) :=
  if s.coord.suspend_count = 0 then some (s, ERR_NOT_SUSPENDED, 0)
  else
    let s0 := { s with coord := wait_for_suspend s.coord }
    if s0.ss_req.isSome then some (s0, ERR_NOT_IMPLEMENTED, 0)
    else
      let ptr := s0.eng.next_ptr
      let r0 : SingleStepReq :=
        { ptr := ptr, req := req, thread := thread, depth := depth, size := size, last_sp := 0,
          start_sp := 0, last_method := 0, last_line := 0, stepover_frame_method := 0,
          stepover_frame_count := 0, global := false, bps := [] }
      let s1 := { s0 with eng := { s0.eng with next_ptr := ptr + 1 }, ss_req := some r0 }
      match g_hash_table_lookup s1.coord.thread_to_tls thread with
      | none => none
      | some tls =>
        if !tls.has_context then none
        else
          let r1 := { r0 with start_sp := rt.context_sp thread, last_sp := rt.context_sp thread }
          let s2 := { s1 with ss_req := some r1 }
          let frames := rt.frames thread
          let line : Option (Option (AgentState × SingleStepReq) × Int) :=
            if r1.size = STEP_SIZE_LINE then
              match frames with
              | [] => some (none, ERR_NO_INVOCATION)
              | frame :: _ =>
                if r1.depth = STEP_DEPTH_OUT ∧ !is_parentframe_managed rt thread frames then
                  some (none, ERR_NO_INVOCATION)
                else
                  let last_line : Int :=
                    if frame.il_offset ≠ -1 then
                      match rt.source_line frame.method frame.il_offset with
                      | some row => row
                      | none => -1
                    else -1
                  let r2 := { r1 with last_method := frame.method, last_line := last_line }
                  some (some ({ s2 with ss_req := some r2 }, r2), 0)
            else some (some (s2, r1), 0)
          match line with
          | none => none
          | some (none, err) =>
            match ss_destroy s2 ptr with
            | none => none
            | some s3 => some (s3, err, ptr)
          | some (some (s3, r3), _) =>
            let over : Option (Option (Nat × Option SeqPoint × List SeqPoint) × Int) :=
              if r3.depth = STEP_DEPTH_OVER then
                match frames with
                | [] => some (none, ERR_NO_INVOCATION)
                | frame :: _ =>
                  if frame.il_offset ≠ -1 then
                    match find_seq_point rt frame.domain frame.method frame.il_offset with
                    | none => none
                    | some (none, _) => some (none, ERR_NOT_IMPLEMENTED)
                    | some (some sp, info) => some (some (frame.method, some sp, info), 0)
                  else some (some (0, none, []), 0)
              else some (some (0, none, []), 0)
            match over with
            | none => none
            | some (none, err) =>
              match ss_destroy s3 ptr with
              | none => none
              | some s4 => some (s4, err, ptr)
            | some (some (method, sp, info), _) =>
              match ss_start rt domains s3 r3 method sp info (some frames) with
              | none => none
              | some (s5, r5) => some ({ s5 with ss_req := some r5 }, 0, ptr)

/-- What the modifier loop of `CMD_EVENT_REQUEST_SET` has decoded so far. -/
structure DecodedModifiers where
  modifiers : List Modifier
  method : Nat
  location : Int
  step_thread_id : Int
  size : Int
  depth : Int
deriving DecidableEq, Repr

/-- The modifier zeroed by `g_malloc0`, with its kind. -/
def Modifier.zero (kind : Int) : Modifier :=
  { kind := kind, count := 0, thread := 0, exc_class := 0, assemblies := [], caught := false,
    uncaught := false }

/-- The loop over the assemblies of a `MOD_KIND_ASSEMBLY_ONLY` modifier. Returns the
error code, the assemblies and the position. -/
def decode_assemblies (ids : IdState) (n : Nat) (p : List Nat) (acc : List Nat) :
    Option (Int × List Nat × List Nat) :=
  match n with
  | 0 => some (0, acc, p)
  | n1 + 1 =>
    match decode_ptr_id ids p IdType.ID_ASSEMBLY with
    | none => none
    | some r =>
      if r.err ≠ 0 then some (r.err, acc, r.endbuf)
      else decode_assemblies ids n1 r.endbuf (acc ++ [r.val])

/-- The modifier loop of `CMD_EVENT_REQUEST_SET`, for the `n` modifiers still to be
read. Returns the error code, what was decoded and the position; `none` when a
decoding assertion fails. -/
def decode_modifiers (rt : Runtime) (ids : IdState) (objs : ObjState) (n : Nat) (p : List Nat)
    (acc : DecodedModifiers) : Option (Int × DecodedModifiers × List Nat) :=
  match n with
  | 0 => some (0, acc, p)
  | n1 + 1 =>
    match decode_byte p with
    | none => none
    | some mod =>
      let m := Modifier.zero mod.val
      if mod.val = MOD_KIND_COUNT then
        match decode_int mod.endbuf with
        | none => none
        | some c =>
          decode_modifiers rt ids objs n1 c.endbuf
            { acc with modifiers := acc.modifiers ++ [{ m with count := c.val }] }
      else if mod.val = MOD_KIND_LOCATION_ONLY then
        match decode_ptr_id ids mod.endbuf IdType.ID_METHOD with
        | none => none
        | some r =>
          if r.err ≠ 0 then some (r.err, acc, r.endbuf)
          else
            match decode_long r.endbuf with
            | none => none
            | some l =>
              decode_modifiers rt ids objs n1 l.endbuf
                { acc with modifiers := acc.modifiers ++ [m], method := r.val, location := l.val }
      else if mod.val = MOD_KIND_STEP then
        match decode_id mod.endbuf with
        | none => none
        | some t =>
          match decode_int t.endbuf with
          | none => none
          | some sz =>
            match decode_int sz.endbuf with
            | none => none
            | some d =>
              decode_modifiers rt ids objs n1 d.endbuf
                { acc with modifiers := acc.modifiers ++ [m], step_thread_id := t.val,
                           size := sz.val, depth := d.val }
      else if mod.val = MOD_KIND_THREAD_ONLY then
        match decode_id mod.endbuf with
        | none => none
        | some t =>
          let r := get_object objs t.val
          if r.1 ≠ 0 then some (r.1, acc, t.endbuf)
          else
            decode_modifiers rt ids objs n1 t.endbuf
              { acc with modifiers := acc.modifiers ++ [{ m with thread := r.2 }] }
      else if mod.val = MOD_KIND_EXCEPTION_ONLY then
        match decode_ptr_id ids mod.endbuf IdType.ID_TYPE with
        | none => none
        | some r =>
          if r.err ≠ 0 then some (r.err, acc, r.endbuf)
          else
            match decode_byte r.endbuf with
            | none => none
            | some caught =>
              match decode_byte caught.endbuf with
              | none => none
              | some uncaught =>
                let m1 := { m with caught := decide (caught.val ≠ 0),
                                   uncaught := decide (uncaught.val ≠ 0) }
                if r.val ≠ 0 then
                  if !rt.class_is_assignable_from rt.exception_class r.val then
                    some (ERR_INVALID_ARGUMENT, acc, uncaught.endbuf)
                  else
                    decode_modifiers rt ids objs n1 uncaught.endbuf
                      { acc with modifiers := acc.modifiers ++ [{ m1 with exc_class := r.val }] }
                else
                  decode_modifiers rt ids objs n1 uncaught.endbuf
                    { acc with modifiers := acc.modifiers ++ [m1] }
      else if mod.val = MOD_KIND_ASSEMBLY_ONLY then
        match decode_int mod.endbuf with
        | none => none
        | some cnt =>
          match decode_assemblies ids cnt.val.toNat cnt.endbuf [] with
          | none => none
          | some (err, assemblies, rest) =>
            if err ≠ 0 then some (err, acc, rest)
            else
              decode_modifiers rt ids objs n1 rest
                { acc with modifiers := acc.modifiers ++ [{ m with assemblies := assemblies }] }
      else some (ERR_NOT_IMPLEMENTED, acc, mod.endbuf)


/-- The loop of `CMD_EVENT_REQUEST_CLEAR_ALL_BREAKPOINTS` from index `i` on, run for
at most `fuel` rounds; `none` when an assertion fails or the rounds do not suffice. -/
def clear_all_breakpoints (fuel : Nat) (s : AgentState) (i : Nat) : Option AgentState :=
  match s.event_requests[i]? with
  | none => some s
  | some req =>
    match fuel with
    | 0 => none
    | fuel1 + 1 =>
      if req.event_kind = EVENT_KIND_BREAKPOINT then
        match clear_breakpoint s.eng req.info with
        | none => none
        | some e =>
          clear_all_breakpoints fuel1
            { s with eng := e,
                     event_requests := g_ptr_array_remove_index_fast s.event_requests i } i
      else clear_all_breakpoints fuel1 s (i + 1)

/-- The part of `CMD_EVENT_REQUEST_SET` that depends on the event kind, for the
request `req` under construction and the decoded modifiers `d`, in the state `s0`
in which the request id is already taken. Returns the state, the error code and the
request with its `info`. -/
def event_request_set_kind (rt : Runtime) (ids : IdState) (objs : ObjState) (s0 : AgentState)
    (cur : Nat) (d : DecodedModifiers) (req : EventRequest) :
    Option (AgentState × Int × EventRequest) :=
  if req.event_kind = EVENT_KIND_BREAKPOINT then
    if d.method = 0 then none
    else
      match set_breakpoint rt ids.domains s0.eng d.method d.location req.id with
      | none => none
      | some (e, bp) => some ({ s0 with eng := e }, 0, { req with info := bp })
  else if req.event_kind = EVENT_KIND_STEP then
    if d.step_thread_id = 0 then none
    else
      let r := get_object objs d.step_thread_id
      if r.1 ≠ 0 then some (s0, r.1, req)
      else
        match ss_create rt ids.domains s0 r.2 d.size d.depth req.id with
        | none => none
        | some (s1, err1, info) =>
          if err1 ≠ 0 then
            match resume_vm s1.coord cur with
            | none => none
            | some c => some ({ s1 with coord := c }, err1, req)
          else some (s1, 0, { req with info := info })
  else if req.event_kind = EVENT_KIND_METHOD_ENTRY then
    match set_breakpoint rt ids.domains s0.eng 0 METHOD_ENTRY_IL_OFFSET req.id with
    | none => none
    | some (e, bp) => some ({ s0 with eng := e }, 0, { req with info := bp })
  else if req.event_kind = EVENT_KIND_METHOD_EXIT then
    match set_breakpoint rt ids.domains s0.eng 0 METHOD_EXIT_IL_OFFSET req.id with
    | none => none
    | some (e, bp) => some ({ s0 with eng := e }, 0, { req with info := bp })
  else if req.event_kind = EVENT_KIND_EXCEPTION then some (s0, 0, req)
  else if req.event_kind = EVENT_KIND_TYPE_LOAD then some (s0, 0, req)
  else if req.modifiers.length ≠ 0 then some (s0, ERR_NOT_IMPLEMENTED, req)
  else some (s0, 0, req)

/-- The case `CMD_EVENT_REQUEST_SET` of `event_commands`. -/
def event_request_set (rt : Runtime) (ids : IdState) (objs : ObjState) (s : AgentState)
    (cur : Nat) (p : List Nat) : Option (AgentState × Int × List Nat) :=
  match decode_byte p with
  | none => none
  | some event_kind =>
    match decode_byte event_kind.endbuf with
    | none => none
    | some suspend_policy =>
      match decode_byte suspend_policy.endbuf with
      | none => none
      | some nmodifiers =>
        let id := s.event_request_id + 1
        let s0 := { s with event_request_id := id }
        match decode_modifiers rt ids objs nmodifiers.val.toNat nmodifiers.endbuf
            { modifiers := [], method := 0, location := 0, step_thread_id := 0, size := 0,
              depth := 0 } with
        | none => none
        | some (err, d, _) =>
          if err ≠ 0 then some (s0, err, [])
          else
            let req : EventRequest :=
              { id := id, event_kind := event_kind.val, suspend_policy := suspend_policy.val,
                info := 0, modifiers := d.modifiers }
            match event_request_set_kind rt ids objs s0 cur d req with
            | none => none
            | some (s1, err1, req1) =>
              if err1 ≠ 0 then some (s1, err1, [])
              else
                let s2 := { s1 with event_requests := s1.event_requests ++ [req1] }
                let s3 :=
                  if rt.defer ∧ EVENT_KIND_TYPE_LOAD = req1.event_kind then
                    { s2 with send_pending_type_load_events := true }
                  else s2
                some (s3, ERR_NONE, buffer_add_int (toUInt32 req1.id))

/-- Embedding of `event_commands`, run on the thread `cur`. Returns the new state,
the error code and the bytes added to the reply; `none` when an assertion fails. -/
def event_commands (rt : Runtime) (ids : IdState) (objs : ObjState) (s : AgentState)
    (cur : Nat) (command : Int) (p : List Nat) : Option (AgentState × Int × List Nat) :=
  if command = CMD_EVENT_REQUEST_SET then event_request_set rt ids objs s cur p
  else if command = CMD_EVENT_REQUEST_CLEAR then
    match decode_byte p with
    | none => none
    | some etype =>
      match decode_int etype.endbuf with
      | none => none
      | some req_id =>
        match clear_event_request s req_id.val etype.val with
        | none => none
        | some s1 => some (s1, ERR_NONE, [])
  else if command = CMD_EVENT_REQUEST_CLEAR_ALL_BREAKPOINTS then
    match clear_all_breakpoints s.event_requests.length s 0 with
    | none => none
    | some s1 => some (s1, ERR_NONE, [])
  else some (s, ERR_NOT_IMPLEMENTED, [])

/-- A command or thread event that reads or writes `suspend_count`. -/
inductive SuspendOp where
  /-- A command of the VM group, with its packet id and payload. -/
  | vm_command (command : Int) (id : Int) (p : List Nat)
  /-- A command of the event-request group, with its payload. -/
  | event_command (command : Int) (p : List Nat)
  /-- An event with the computed suspend policy, processed on a thread. -/
  | event (thread : Nat) (suspend_policy : Int)
  /-- A parked thread finds its wait condition false and leaves `suspend_current`. -/
  | leave (thread : Nat)
  /-- A thread starts its pending invoke. -/
  | invoke_begin (thread : Nat)
  /-- The method invoked by a thread returned. -/
  | invoke_end (thread : Nat)
  /-- A thread starts and is given its record. -/
  | thread_start (thread : Nat)
  /-- A notified thread runs the interrupt handler. -/
  | interrupt (thread : Nat) (ji : Nat) (last_frame_set : Bool)

/-- One step of the agent: a command on the debugger thread, or an event of a
runtime thread. The registries `ids` and `objs` are only read by these steps. -/
def SuspendOp.step (rt : Runtime) (ids : IdState) (objs : ObjState) (s : AgentState) :
    SuspendOp → Option AgentState
  | SuspendOp.vm_command command id p =>
    (vm_commands objs s s.coord.debugger_thread_id command id p).map Prod.fst
  | SuspendOp.event_command command p =>
    (event_commands rt ids objs s s.coord.debugger_thread_id command p).map (fun r => r.1)
  | SuspendOp.event thread suspend_policy =>
    (process_event_suspend s.coord thread suspend_policy).map (fun c => { s with coord := c })
  | SuspendOp.leave thread =>
    (suspend_current_leave s.coord thread).map (fun c => { s with coord := c })
  | SuspendOp.invoke_begin thread =>
    match g_hash_table_lookup s.coord.thread_to_tls thread with
    | none => none
    | some tls =>
      match invoke_method_begin tls with
      | none => none
      | some (tls1, _) =>
        let t := g_hash_table_insert s.coord.thread_to_tls thread tls1
        some { s with coord := { s.coord with thread_to_tls := t } }
  | SuspendOp.invoke_end thread =>
    match g_hash_table_lookup s.coord.thread_to_tls thread with
    | none => none
    | some tls =>
      match tls.invoke with
      | [] => none
      | invoke :: _ =>
        (invoke_method_end s.coord thread invoke).map (fun c => { s with coord := c })
  | SuspendOp.thread_start thread =>
    let t := g_hash_table_insert s.coord.thread_to_tls thread (thread_start_tls thread)
    some { s with coord := { s.coord with thread_to_tls := t } }
  | SuspendOp.interrupt thread ji last_frame_set =>
    match g_hash_table_lookup s.coord.thread_to_tls thread with
    | none => none
    | some tls =>
      let t := g_hash_table_insert s.coord.thread_to_tls thread
        (mono_debugger_agent_thread_interrupt tls ji last_frame_set).1
      some { s with coord := { s.coord with thread_to_tls := t } }

/-- A sequence of steps of the agent; `none` when one of them ends the process. -/
def run_suspend_ops (rt : Runtime) (ids : IdState) (objs : ObjState) (s : AgentState) :
    List SuspendOp → Option AgentState
  | [] => some s
  | op :: rest =>
    match op.step rt ids objs s with
    | none => none
    | some s1 => run_suspend_ops rt ids objs s1 rest


/-- An execution engine with no compiled method and no frames (used in the
examples). -/
def runtime_example : Runtime :=
  { seq_points := fun _ => [], compiled_code := fun _ _ => none, is_inflated := fun _ => false,
    declaring_generic_method := fun m => m, frames := fun _ => [], context_sp := fun _ => 0,
    invoke_addr := fun _ => 0, frame_count := fun _ => 0, source_line := fun _ _ => none,
    class_is_assignable_from := fun _ _ => false, exception_class := 0, defer := false }


/-- The record of a thread with another `resume_count`. -/
def DebuggerTlsData.with_resume_count (tls : DebuggerTlsData) (n : Nat) : DebuggerTlsData :=
  { tls with resume_count := n }

/-- The coordinator with the record of one thread replaced. -/
def SuspendState.with_tls (s : SuspendState) (thread : Nat) (tls : DebuggerTlsData) :
    SuspendState :=
  { s with thread_to_tls := g_hash_table_insert s.thread_to_tls thread tls }

/-- A coordinator suspended twice in which the threads 7 and 8 are parked (used in
the examples); the debugger thread is thread 1. -/
def parked_example : SuspendState :=
  { suspend_count := 2, threads_suspend_count := 0,
    thread_to_tls := [(7, suspend_current_park (thread_start_tls 7)),
                      (8, suspend_current_park (thread_start_tls 8))],
    ss_count := 1, arch_single_stepping := true, debugger_thread_id := 1 }

/-- An agent whose coordinator is `parked_example`. -/
def parked_agent_example : AgentState :=
  { agent_init 1 with coord := parked_example }

/-- An object registry in which the thread object at address 7 has id 1. -/
def thread_objs_example : ObjState :=
  (run_obj_ops objrefs_init [ObjOp.call_get_objref 7]).getD objrefs_init

def MONO_TYPE_VOID : Nat := 0x01
def MONO_TYPE_BOOLEAN : Nat := 0x02
def MONO_TYPE_CHAR : Nat := 0x03
def MONO_TYPE_I1 : Nat := 0x04
def MONO_TYPE_U1 : Nat := 0x05
def MONO_TYPE_I2 : Nat := 0x06
def MONO_TYPE_U2 : Nat := 0x07
def MONO_TYPE_I4 : Nat := 0x08
def MONO_TYPE_U4 : Nat := 0x09
def MONO_TYPE_I8 : Nat := 0x0a
def MONO_TYPE_U8 : Nat := 0x0b
def MONO_TYPE_R4 : Nat := 0x0c
def MONO_TYPE_R8 : Nat := 0x0d
def MONO_TYPE_STRING : Nat := 0x0e
def MONO_TYPE_PTR : Nat := 0x0f
def MONO_TYPE_VALUETYPE : Nat := 0x11
def MONO_TYPE_CLASS : Nat := 0x12
def MONO_TYPE_ARRAY : Nat := 0x14
def MONO_TYPE_GENERICINST : Nat := 0x15
def MONO_TYPE_I : Nat := 0x18
def MONO_TYPE_U : Nat := 0x19
def MONO_TYPE_OBJECT : Nat := 0x1c
def MONO_TYPE_SZARRAY : Nat := 0x1d

def VALUE_TYPE_ID_NULL : Nat := 0xf0

/-- The C `gint8` whose bit pattern is `n % 2^8`. -/
def toInt8 (n : Nat) : Int :=
  if n % 2 ^ 8 < 2 ^ 7 then ((n % 2 ^ 8 : Nat) : Int) else ((n % 2 ^ 8 : Nat) : Int) - 2 ^ 8

/-- The C `gint16` whose bit pattern is `n % 2^16`. -/
def toInt16 (n : Nat) : Int :=
  if n % 2 ^ 16 < 2 ^ 15 then ((n % 2 ^ 16 : Nat) : Int) else ((n % 2 ^ 16 : Nat) : Int) - 2 ^ 16

/-- The fields of a `MonoType` that the codec reads: the tag `t->type`, the flag
`t->byref` and the class or generic class `t->data`. -/
structure MonoType where
  type : Nat
  byref : Bool
  data : Nat
deriving DecidableEq, Repr

/-- A `MonoClassField`, as the loops over `mono_class_get_fields` see it: the type,
whether `f->type->attrs & FIELD_ATTRIBUTE_STATIC` is set, and the result of
`mono_field_is_deleted (f)`. -/
structure MonoClassField where
  type : MonoType
  is_static : Bool
  deleted : Bool
deriving DecidableEq, Repr

/-- The content of the memory at an address the codec reads or writes. A primitive
slot holds the bit pattern of its bytes; a reference slot holds an object pointer
(`0` is `NULL`); the storage of a value type holds, in the order of
`mono_class_get_fields`, the slots at `addr + f->offset - sizeof (MonoObject)` of the
fields that are neither static nor deleted; a slot of a `byref` type holds `NULL` or
the address of another slot. -/
inductive Value where
  | prim (bits : Nat)
  | ref (obj : Nat)
  | vtype (fields : List Value)
  | byref (target : Value)
  | byref_null
deriving Repr

/-- The slots that the field loop reads when it is started at the address of this
value: those of a value type, and a single slot at offset zero otherwise (a boxed or
native integer is the only field of its class). -/
def Value.fields : Value → List Value
  | Value.vtype vals => vals
  | v => [v]

/-- The metadata and heap of the runtime that the codec reads through calls and
macros declared outside this file. -/
structure Metadata where
  /-- The function `mono_class_from_mono_type`. -/
  class_from_mono_type : MonoType → Nat
  /-- The fields that `mono_class_get_fields` enumerates. -/
  class_fields : Nat → List MonoClassField
  /-- The bit `klass->enumtype`. -/
  class_enumtype : Nat → Nat
  /-- The bit `klass->valuetype`. -/
  class_valuetype : Nat → Bool
  /-- The field `klass->rank`. -/
  class_rank : Nat → Nat
  /-- The field `klass->byval_arg`. -/
  class_byval_arg : Nat → MonoType
  /-- The function `mono_type_generic_inst_is_valuetype`. -/
  generic_inst_is_valuetype : MonoType → Bool
  /-- The macro `MONO_TYPE_IS_REFERENCE`. -/
  type_is_reference : MonoType → Bool
  /-- The macro `MONO_TYPE_ISSTRUCT`. -/
  type_isstruct : MonoType → Bool
  /-- The function `mono_class_is_nullable`. -/
  class_is_nullable : Nat → Bool
  /-- The type argument `t->data.generic_class->context.class_inst->type_argv [0]`. -/
  type_argv0 : MonoType → MonoType
  /-- The function `mono_class_is_assignable_from`. -/
  class_is_assignable_from : Nat → Nat → Bool
  /-- The class `mono_defaults.string_class`. -/
  string_class : Nat
  /-- The class `obj->vtable->klass` of an object. -/
  object_class : Nat → Nat
  /-- The domain `obj->vtable->domain` of an object. -/
  object_domain : Nat → Nat
  /-- The storage `mono_object_unbox (obj)` of a boxed value. -/
  object_unbox : Nat → Value
  /-- The nullable value that `mono_nullable_init` stores for a boxed value or `NULL`. -/
  nullable_init : MonoType → Option Value → Value

/-- The fields that both field loops visit: not static and not deleted. -/
def instance_fields (md : Metadata) (klass : Nat) : List MonoClassField :=
  (md.class_fields klass).filter (fun f => !f.is_static && !f.deleted)

/-- The field loop of `buffer_add_value_full`; `recur` is the recursive call. A field
beyond the storage read is outside the embedding (`none`). -/
def buffer_add_fields
    (recur : IdState → ObjState → MonoType → Value → Option (IdState × ObjState × List Nat))
    (ids : IdState) (objs : ObjState) :
    List MonoClassField → List Value → Option (IdState × ObjState × List Nat)
  | [], _ => some (ids, objs, [])
  | _ :: _, [] => none
  | f :: fs, v :: vs =>
    match recur ids objs f.type v with
    | none => none
    | some (ids1, objs1, b1) =>
      match buffer_add_fields recur ids1 objs1 fs vs with
      | none => none
      | some (ids2, objs2, b2) => some (ids2, objs2, b1 ++ b2)

/-- The label `handle_vtype` of `buffer_add_value_full`: tag, enum flag, type id,
field count and the fields. A `NULL` class is dereferenced (`none`). -/
def buffer_add_vtype (md : Metadata)
    (recur : IdState → ObjState → MonoType → Value → Option (IdState × ObjState × List Nat))
    (ids : IdState) (objs : ObjState) (t : MonoType) (addr : Value) (domain : Nat) :
    Option (IdState × ObjState × List Nat) :=
  let klass := md.class_from_mono_type t
  if klass = 0 then none
  else
    match buffer_add_ptr_id ids domain IdType.ID_TYPE klass with
    | none => none
    | some (ids1, idbytes) =>
      let nfields := (instance_fields md klass).length
      match buffer_add_fields recur ids1 objs (instance_fields md klass) addr.fields with
      | none => none
      | some (ids2, objs2, bytes) =>
        some (ids2, objs2,
          buffer_add_byte MONO_TYPE_VALUETYPE ++ buffer_add_byte (md.class_enumtype klass)
            ++ idbytes ++ buffer_add_int (toUInt32 (nfields : Int)) ++ bytes)

/-- The label `handle_ref` of `buffer_add_value_full`. -/
def buffer_add_ref (md : Metadata)
    (recur : IdState → ObjState → MonoType → Value → Option (IdState × ObjState × List Nat))
    (ids : IdState) (objs : ObjState) (addr : Value) (domain : Nat) :
    Option (IdState × ObjState × List Nat) :=
  match addr with
  | Value.ref obj =>
    if obj = 0 then some (ids, objs, buffer_add_byte VALUE_TYPE_ID_NULL)
    else
      let klass := md.object_class obj
      if md.class_valuetype klass then
        buffer_add_vtype md recur ids objs (md.class_byval_arg klass) (md.object_unbox obj) domain
      else
        let tag :=
          if md.class_rank klass ≠ 0 then (md.class_byval_arg klass).type
          else if (md.class_byval_arg klass).type = MONO_TYPE_GENERICINST then MONO_TYPE_CLASS
          else (md.class_byval_arg klass).type
        match buffer_add_objid objs obj with
        | none => none
        | some (objs1, idbytes) => some (ids, objs1, buffer_add_byte tag ++ idbytes)
  | _ => none

/-- The slot of a primitive read through a pointer of the given C type. -/
def Value.bits : Value → Option Nat
  | Value.prim bits => some bits
  | _ => none

/-- The two `switch` statements of `buffer_add_value_full`, after the `byref` test;
`recur` is the recursive call on a field. A slot of another kind than the type
describes is outside the embedding, and `NOT_IMPLEMENTED` aborts (`none`). -/
def buffer_add_value_switch (md : Metadata)
    (recur : IdState → ObjState → MonoType → Value → Option (IdState × ObjState × List Nat))
    (ids : IdState) (objs : ObjState) (t : MonoType) (addr : Value) (domain : Nat)
    (as_vtype : Bool) : Option (IdState × ObjState × List Nat) :=
  if as_vtype = true ∧
      t.type ∈ [MONO_TYPE_BOOLEAN, MONO_TYPE_I1, MONO_TYPE_U1, MONO_TYPE_CHAR, MONO_TYPE_I2,
        MONO_TYPE_U2, MONO_TYPE_I4, MONO_TYPE_U4, MONO_TYPE_R4, MONO_TYPE_I8, MONO_TYPE_U8,
        MONO_TYPE_R8, MONO_TYPE_I, MONO_TYPE_U, MONO_TYPE_PTR] then
    buffer_add_vtype md recur ids objs t addr domain
  else if t.type = MONO_TYPE_VOID then
    some (ids, objs, buffer_add_byte t.type)
  else if t.type ∈ [MONO_TYPE_BOOLEAN, MONO_TYPE_I1, MONO_TYPE_U1] then
    addr.bits.map (fun bits =>
      (ids, objs, buffer_add_byte t.type ++ buffer_add_int (toUInt32 (toInt8 bits))))
  else if t.type ∈ [MONO_TYPE_CHAR, MONO_TYPE_I2, MONO_TYPE_U2] then
    addr.bits.map (fun bits =>
      (ids, objs, buffer_add_byte t.type ++ buffer_add_int (toUInt32 (toInt16 bits))))
  else if t.type ∈ [MONO_TYPE_I4, MONO_TYPE_U4, MONO_TYPE_R4] then
    addr.bits.map (fun bits =>
      (ids, objs, buffer_add_byte t.type ++ buffer_add_int (toUInt32 (toInt32 bits))))
  else if t.type ∈ [MONO_TYPE_I8, MONO_TYPE_U8, MONO_TYPE_R8] then
    addr.bits.map (fun bits =>
      (ids, objs, buffer_add_byte t.type ++ buffer_add_long (toUInt64 (toInt64 bits))))
  else if t.type ∈ [MONO_TYPE_I, MONO_TYPE_U] then
    buffer_add_vtype md recur ids objs t addr domain
  else if t.type = MONO_TYPE_PTR then
    addr.bits.map (fun bits =>
      (ids, objs, buffer_add_byte t.type ++ buffer_add_long (toUInt64 (toInt64 bits))))
  else if t.type ∈ [MONO_TYPE_STRING, MONO_TYPE_SZARRAY, MONO_TYPE_OBJECT, MONO_TYPE_CLASS,
      MONO_TYPE_ARRAY] then
    buffer_add_ref md recur ids objs addr domain
  else if t.type = MONO_TYPE_VALUETYPE then
    buffer_add_vtype md recur ids objs t addr domain
  else if t.type = MONO_TYPE_GENERICINST then
    if md.generic_inst_is_valuetype t then buffer_add_vtype md recur ids objs t addr domain
    else buffer_add_ref md recur ids objs addr domain
  else none

/-- Embedding of `buffer_add_value_full`: the registries after the call and the bytes
appended. The first argument bounds the nesting of value types; `none` is a run that
aborts, leaves the embedding or exceeds the bound. -/
def buffer_add_value_full (md : Metadata) :
    Nat → IdState → ObjState → MonoType → Value → Nat → Bool →
      Option (IdState × ObjState × List Nat)
  | 0, _, _, _, _, _, _ => none
  | depth + 1, ids, objs, t, addr, domain, as_vtype =>
    if t.byref = true then
      match addr with
      | Value.byref_null => some (ids, objs, buffer_add_byte VALUE_TYPE_ID_NULL)
      | Value.byref target =>
        buffer_add_value_switch md
          (fun i o ft fv => buffer_add_value_full md depth i o ft fv domain false)
          ids objs t target domain as_vtype
      | _ => none
    else
      buffer_add_value_switch md
        (fun i o ft fv => buffer_add_value_full md depth i o ft fv domain false)
        ids objs t addr domain as_vtype

/-- Embedding of `buffer_add_value`. -/
def buffer_add_value (md : Metadata) (depth : Nat) (ids : IdState) (objs : ObjState)
    (t : MonoType) (addr : Value) (domain : Nat) : Option (IdState × ObjState × List Nat) :=
  buffer_add_value_full md depth ids objs t addr domain false

/-- The outcome of a value decoder: the bound on nesting was exceeded, an assertion
failed, an `ErrorCode` was returned, or `ERR_NONE` with the value stored at `addr`
and the position `*endbuf`. -/
inductive Outcome (α : Type) where
  | exceeded
  | abort
  | err (code : Int)
  | ok (stored : α) (endbuf : List Nat)
deriving Repr

/-- A store of a decoded integer through a pointer to an integer of `width` bits. -/
def decode_store (width : Nat) (d : Option (Decoded Int)) : Outcome Value :=
  match d with
  | none => Outcome.abort
  | some x => Outcome.ok (Value.prim (x.val % 2 ^ width).toNat) x.endbuf

/-- The field loop of `decode_value_internal`; `recur` is the call of `decode_value`
on a field. -/
def decode_fields (recur : MonoType → List Nat → Outcome Value) :
    List MonoClassField → List Nat → Outcome (List Value)
  | [], buf => Outcome.ok [] buf
  | f :: fs, buf =>
    match recur f.type buf with
    | Outcome.exceeded => Outcome.exceeded
    | Outcome.abort => Outcome.abort
    | Outcome.err e => Outcome.err e
    | Outcome.ok v buf1 =>
      match decode_fields recur fs buf1 with
      | Outcome.exceeded => Outcome.exceeded
      | Outcome.abort => Outcome.abort
      | Outcome.err e => Outcome.err e
      | Outcome.ok vs buf2 => Outcome.ok (v :: vs) buf2

/-- The label `handle_vtype` of `decode_value_internal`. The count `nfields` is
decremented once per field decoded and then asserted to be zero. -/
def decode_vtype (md : Metadata) (recur : MonoType → List Nat → Outcome Value)
    (ids : IdState) (t : MonoType) (buf : List Nat) : Outcome Value :=
  match decode_byte buf with
  | none => Outcome.abort
  | some is_enum =>
    if is_enum.val ≠ 0 then Outcome.err ERR_NOT_IMPLEMENTED
    else
      match decode_ptr_id ids is_enum.endbuf IdType.ID_TYPE with
      | none => Outcome.abort
      | some klass =>
        if klass.err ≠ 0 then Outcome.err klass.err
        else if klass.val ≠ md.class_from_mono_type t then Outcome.err ERR_INVALID_ARGUMENT
        else
          match decode_int klass.endbuf with
          | none => Outcome.abort
          | some nfields =>
            if klass.val = 0 then Outcome.abort
            else
              match decode_fields recur (instance_fields md klass.val) nfields.endbuf with
              | Outcome.exceeded => Outcome.exceeded
              | Outcome.abort => Outcome.abort
              | Outcome.err e => Outcome.err e
              | Outcome.ok vals buf1 =>
                if nfields.val - (vals.length : Int) = 0 then Outcome.ok (Value.vtype vals) buf1
                else Outcome.abort

/-- The label `handle_ref` of `decode_value_internal`. -/
def decode_ref (md : Metadata) (objs : ObjState) (t : MonoType) (type : Int) (domain : Nat)
    (buf : List Nat) : Outcome Value :=
  if md.type_is_reference t = true then
    if type = (MONO_TYPE_OBJECT : Int) then
      match decode_id buf with
      | none => Outcome.abort
      | some objid =>
        let r := get_object objs objid.val
        if r.1 ≠ 0 then Outcome.err r.1
        else
          let klass := md.class_from_mono_type t
          if r.2 ≠ 0 ∧ md.class_is_assignable_from klass (md.object_class r.2) = false then
            Outcome.err ERR_INVALID_ARGUMENT
          else if r.2 ≠ 0 ∧ md.object_domain r.2 ≠ domain ∧ klass ≠ md.string_class then
            Outcome.err ERR_INVALID_ARGUMENT
          else Outcome.ok (Value.ref r.2) objid.endbuf
    else if type = (VALUE_TYPE_ID_NULL : Int) then Outcome.ok (Value.ref 0) buf
    else Outcome.err ERR_INVALID_ARGUMENT
  else Outcome.abort

/-- Embedding of `decode_value_internal`; `recur` is the call of `decode_value` on a
field, `type` the tag read from the wire. -/
def decode_value_internal (md : Metadata) (recur : MonoType → List Nat → Outcome Value)
    (ids : IdState) (objs : ObjState) (t : MonoType) (type : Int) (domain : Nat)
    (buf : List Nat) : Outcome Value :=
  if type ≠ (t.type : Int) ∧ md.type_is_reference t = false ∧
      ¬ (t.type = MONO_TYPE_I ∧ type = (MONO_TYPE_VALUETYPE : Int)) ∧
      ¬ (t.type = MONO_TYPE_U ∧ type = (MONO_TYPE_VALUETYPE : Int)) ∧
      ¬ (t.type = MONO_TYPE_PTR ∧ type = (MONO_TYPE_I8 : Int)) ∧
      ¬ (t.type = MONO_TYPE_GENERICINST ∧ type = (MONO_TYPE_VALUETYPE : Int)) then
    Outcome.err ERR_INVALID_ARGUMENT
  else if t.type = MONO_TYPE_BOOLEAN then decode_store 8 (decode_int buf)
  else if t.type = MONO_TYPE_CHAR then decode_store 16 (decode_int buf)
  else if t.type = MONO_TYPE_I1 then decode_store 8 (decode_int buf)
  else if t.type = MONO_TYPE_U1 then decode_store 8 (decode_int buf)
  else if t.type = MONO_TYPE_I2 then decode_store 16 (decode_int buf)
  else if t.type = MONO_TYPE_U2 then decode_store 16 (decode_int buf)
  else if t.type = MONO_TYPE_I4 then decode_store 32 (decode_int buf)
  else if t.type = MONO_TYPE_U4 then decode_store 32 (decode_int buf)
  else if t.type = MONO_TYPE_I8 then decode_store 64 (decode_long buf)
  else if t.type = MONO_TYPE_U8 then decode_store 64 (decode_long buf)
  else if t.type = MONO_TYPE_R4 then decode_store 32 (decode_int buf)
  else if t.type = MONO_TYPE_R8 then decode_store 64 (decode_long buf)
  else if t.type = MONO_TYPE_PTR then
    if type = (MONO_TYPE_I8 : Int) then decode_store 64 (decode_long buf) else Outcome.abort
  else if t.type = MONO_TYPE_GENERICINST then
    if md.type_isstruct t = true then decode_vtype md recur ids t buf
    else decode_ref md objs t type domain buf
  else if t.type = MONO_TYPE_I ∨ t.type = MONO_TYPE_U then
    if type = (MONO_TYPE_VALUETYPE : Int) then decode_vtype md recur ids t buf
    else Outcome.abort
  else if t.type = MONO_TYPE_VALUETYPE then decode_vtype md recur ids t buf
  else decode_ref md objs t type domain buf

/-- Embedding of `decode_value`. The first argument bounds the nesting of value
types. In the fallback for a nullable type `*endbuf` is set from the local `buf`,
the position after the tag. -/
def decode_value (md : Metadata) (ids : IdState) (objs : ObjState) :
    Nat → MonoType → Nat → List Nat → Outcome Value
  | 0, _, _, _ => Outcome.exceeded
  | depth + 1, t, domain, buf0 =>
    match decode_byte buf0 with
    | none => Outcome.abort
    | some type =>
      if t.type = MONO_TYPE_GENERICINST ∧
          md.class_is_nullable (md.class_from_mono_type t) = true then
        match decode_value_internal md (fun ft fb => decode_value md ids objs depth ft domain fb)
            ids objs t type.val domain type.endbuf with
        | Outcome.ok v e => Outcome.ok v e
        | Outcome.exceeded => Outcome.exceeded
        | Outcome.abort => Outcome.abort
        | Outcome.err _ =>
          if ((md.type_argv0 t).type : Int) = type.val then
            match decode_value_internal md
                (fun ft fb => decode_value md ids objs depth ft domain fb)
                ids objs (md.type_argv0 t) type.val domain type.endbuf with
            | Outcome.ok v _ => Outcome.ok (md.nullable_init t (some v)) type.endbuf
            | Outcome.exceeded => Outcome.exceeded
            | Outcome.abort => Outcome.abort
            | Outcome.err e => Outcome.err e
          else if type.val = (VALUE_TYPE_ID_NULL : Int) then
            Outcome.ok (md.nullable_init t none) type.endbuf
          else
            decode_value_internal md (fun ft fb => decode_value md ids objs depth ft domain fb)
              ids objs t type.val domain type.endbuf
      else
        decode_value_internal md (fun ft fb => decode_value md ids objs depth ft domain fb)
          ids objs t type.val domain type.endbuf


/-- The registry `b` is reached from `a` by calls of `get_id` alone. -/
def ids_grow (a b : IdState) : Prop :=
  ∃ ops : List IdOp, (∀ op ∈ ops, ∃ d k v, op = IdOp.call_get_id d k v) ∧
    run_id_ops a ops = some b

/-- The registry `b` is reached from `a` by calls of `get_objref` alone. -/
def objs_grow (a b : ObjState) : Prop :=
  ∃ ops : List ObjOp, (∀ op ∈ ops, ∃ o, op = ObjOp.call_get_objref o) ∧
    run_obj_ops a ops = some b

/-- The object registry is consistent and every id in it is positive. -/
def objs_inv (s : ObjState) : Prop :=
  objrefs_consistent s ∧ 0 ≤ s.objref_id ∧
  ∀ id ref, objrefs_lookup s id = some ref → 0 < id

/-- The recursive call of the encoder only adds to the registries. -/
def recur_grows
    (recur : IdState → ObjState → MonoType → Value → Option (IdState × ObjState × List Nat)) :
    Prop :=
  ∀ i o ft fv i1 o1 b, recur i o ft fv = some (i1, o1, b) → ids_grow i i1 ∧ objs_grow o o1


/-- Pairs every field with its slot and tests the pair; `false` when the counts
differ. -/
def supported_fields (p : MonoType → Value → Bool) : List MonoClassField → List Value → Bool
  | [], [] => true
  | f :: fs, v :: vs => p f.type v && supported_fields p fs vs
  | _, _ => false

/-- The types and values, nested to at most `depth` levels, for which the value
written is read back: a primitive with a bit pattern of its width; a reference type
holding `NULL` or an object that is not a boxed value, whose class has the tag
`MONO_TYPE_OBJECT`, is assignable to the expected class and lives in `domain` (or is
expected to be a string); a native integer, value type or generic value type whose
class is not an enum and whose instance fields are again of these kinds. -/
def supported (md : Metadata) (domain : Nat) : Nat → MonoType → Value → Bool
  | 0, _, _ => false
  | depth + 1, t, v =>
    !t.byref &&
    match v with
    | Value.prim bits =>
      (decide (t.type ∈ [MONO_TYPE_BOOLEAN, MONO_TYPE_I1, MONO_TYPE_U1]) && decide (bits < 2 ^ 8))
      || (decide (t.type ∈ [MONO_TYPE_CHAR, MONO_TYPE_I2, MONO_TYPE_U2]) && decide (bits < 2 ^ 16))
      || (decide (t.type ∈ [MONO_TYPE_I4, MONO_TYPE_U4, MONO_TYPE_R4]) && decide (bits < 2 ^ 32))
      || (decide (t.type ∈ [MONO_TYPE_I8, MONO_TYPE_U8, MONO_TYPE_R8]) && decide (bits < 2 ^ 64))
    | Value.ref obj =>
      (decide (t.type ∈ [MONO_TYPE_STRING, MONO_TYPE_SZARRAY, MONO_TYPE_OBJECT, MONO_TYPE_CLASS,
          MONO_TYPE_ARRAY])
        || (decide (t.type = MONO_TYPE_GENERICINST) && !md.generic_inst_is_valuetype t
          && !md.type_isstruct t))
      && md.type_is_reference t
      && (decide (obj = 0)
        || (!md.class_valuetype (md.object_class obj)
          && decide ((md.class_byval_arg (md.object_class obj)).type = MONO_TYPE_OBJECT)
          && md.class_is_assignable_from (md.class_from_mono_type t) (md.object_class obj)
          && (decide (md.object_domain obj = domain)
            || decide (md.class_from_mono_type t = md.string_class))))
    | Value.vtype vals =>
      (decide (t.type ∈ [MONO_TYPE_I, MONO_TYPE_U, MONO_TYPE_VALUETYPE])
        || (decide (t.type = MONO_TYPE_GENERICINST) && md.generic_inst_is_valuetype t
          && md.type_isstruct t))
      && decide (md.class_from_mono_type t ≠ 0)
      && decide (md.class_enumtype (md.class_from_mono_type t) % 256 = 0)
      && decide (vals.length < 2 ^ 31)
      && supported_fields (supported md domain depth)
        (instance_fields md (md.class_from_mono_type t)) vals
    | _ => false

/-- The decoder `dec`, run on the registries `ids2` and `objs2`, reads back what the
encoder `enc` wrote for the pairs that `p` accepts. -/
def recur_round_trips (p : MonoType → Value → Bool)
    (enc : IdState → ObjState → MonoType → Value → Option (IdState × ObjState × List Nat))
    (dec : MonoType → List Nat → Outcome Value) (ids2 : IdState) (objs2 : ObjState) : Prop :=
  ∀ i o ft fv i1 o1 b, ids_consistent i → objs_inv o → p ft fv = true →
    enc i o ft fv = some (i1, o1, b) → ids_grow i1 ids2 → objs_grow o1 objs2 →
    ∀ rest, dec ft (b ++ rest) = Outcome.ok fv rest


/-- The encoder `enc` returns for the pairs that `p` accepts. -/
def recur_succeeds (p : MonoType → Value → Bool)
    (enc : IdState → ObjState → MonoType → Value → Option (IdState × ObjState × List Nat)) :
    Prop :=
  ∀ i o ft fv, ids_consistent i → objs_inv o → p ft fv = true → ∃ r, enc i o ft fv = some r


/-- Example metadata (used in the examples): class 100 is an enum over `int`; class
101 is a structure with an `int` field, a static field, a `long` field and a field of
class `object`; class 102 is the string class and class 103 the class `object`;
object 500 is a string and object 501 an `object`, both of domain 1. -/
def metadata_example : Metadata :=
  { class_from_mono_type := fun t => t.data,
    class_fields := fun k =>
      if k = 100 then [⟨⟨MONO_TYPE_I4, false, 0⟩, false, false⟩]
      else if k = 101 then
        [⟨⟨MONO_TYPE_I4, false, 0⟩, false, false⟩, ⟨⟨MONO_TYPE_I4, false, 0⟩, true, false⟩,
         ⟨⟨MONO_TYPE_I8, false, 0⟩, false, false⟩, ⟨⟨MONO_TYPE_OBJECT, false, 103⟩, false, false⟩]
      else [],
    class_enumtype := fun k => if k = 100 then 1 else 0,
    class_valuetype := fun k => decide (k = 100 ∨ k = 101),
    class_rank := fun _ => 0,
    class_byval_arg := fun k =>
      if k = 100 ∨ k = 101 then ⟨MONO_TYPE_VALUETYPE, false, k⟩
      else if k = 102 then ⟨MONO_TYPE_STRING, false, k⟩
      else ⟨MONO_TYPE_OBJECT, false, k⟩,
    generic_inst_is_valuetype := fun _ => false,
    type_is_reference := fun t =>
      decide (t.type ∈ [MONO_TYPE_STRING, MONO_TYPE_SZARRAY, MONO_TYPE_CLASS, MONO_TYPE_OBJECT,
        MONO_TYPE_ARRAY, MONO_TYPE_GENERICINST]),
    type_isstruct := fun t => decide (t.type = MONO_TYPE_VALUETYPE ∧ t.data ≠ 100),
    class_is_nullable := fun _ => false,
    type_argv0 := fun t => t,
    class_is_assignable_from := fun k o => decide (k = o ∨ k = 103),
    string_class := 102,
    object_class := fun o => if o = 500 then 102 else 103,
    object_domain := fun _ => 1,
    object_unbox := fun _ => Value.vtype [],
    nullable_init := fun _ _ => Value.vtype [] }

/-- The type of the enum of `metadata_example`. -/
def enum_type_example : MonoType := ⟨MONO_TYPE_VALUETYPE, false, 100⟩

/-- The type of the structure of `metadata_example`. -/
def struct_type_example : MonoType := ⟨MONO_TYPE_VALUETYPE, false, 101⟩

/-- The type `string` of `metadata_example`. -/
def string_type_example : MonoType := ⟨MONO_TYPE_STRING, false, 102⟩

/-- A value of the structure of `metadata_example`. -/
def struct_value_example : Value :=
  Value.vtype [Value.prim 7, Value.prim (2 ^ 64 - 1), Value.ref 501]


/-! ## Packets and events (`send_packet`, `create_event_list`, `process_event`) -/

def CMD_SET_VM : Int := 1
def CMD_SET_OBJECT_REF : Int := 9
def CMD_SET_STRING_REF : Int := 10
def CMD_SET_THREAD : Int := 11
def CMD_SET_ARRAY_REF : Int := 13
def CMD_SET_EVENT_REQUEST : Int := 15
def CMD_SET_STACK_FRAME : Int := 16
def CMD_SET_APPDOMAIN : Int := 20
def CMD_SET_ASSEMBLY : Int := 21
def CMD_SET_METHOD : Int := 22
def CMD_SET_TYPE : Int := 23
def CMD_SET_MODULE : Int := 24
def CMD_SET_EVENT : Int := 64

def CMD_COMPOSITE : Int := 100

def HEADER_LENGTH : Nat := 11

/-- The conversion of a C `int` to `guint8`, as at a call of `buffer_add_byte`. -/
def toUInt8 (i : Int) : Nat := (i % 2 ^ 8).toNat

/-- The bytes `buf.buf [0 .. len)` that `send_packet` and `send_reply_packet` hand to
`transport_send`: the header with the `int` length `len`, then the data copied to
offset 11. `b8`, `b9` and `b10` are the three bytes after the id. -/
def packet_bytes (id : Int) (b8 b9 b10 : Nat) (data : List Nat) : List Nat :=
  let len : Int := toInt32 (data.length + 11)
  (buffer_add_int (toUInt32 len) ++ buffer_add_int (toUInt32 id) ++ buffer_add_byte b8
    ++ buffer_add_byte b9 ++ buffer_add_byte b10 ++ data).take len.toNat

/-- Embedding of `send_packet`, up to the call of `transport_send`: the bytes handed
to the transport. `id` is the incremented `packet_id`. -/
def send_packet (id : Int) (command_set command : Int) (data : List Nat) : List Nat :=
  packet_bytes id 0 (toUInt8 command_set) (toUInt8 command) data

/-- Embedding of `send_reply_packet`, up to the call of `transport_send`: the bytes
handed to the transport. -/
def send_reply_packet (id : Int) (error : Int) (data : List Nat) : List Nat :=
  packet_bytes id 0x80 (toUInt8 ((error >>> (8 : Nat)) % 2 ^ 8)) (toUInt8 error) data

/-- The fields of `EventInfo` that the agent reads: the exception and whether it is
caught. -/
structure EventInfo where
  exc : Nat
  caught : Bool
deriving DecidableEq, Repr

/-- What `create_event_list` and `process_event` ask of the execution engine and of
the configuration of the agent. A thread is one number in all its roles (thread id,
thread object, internal thread). -/
structure EventRuntime where
  /-- The class `ji->method->klass` of a compiled method. -/
  method_class : MonoJitInfo → Nat
  /-- The assembly `klass->image->assembly` of a class. -/
  class_assembly : Nat → Nat
  /-- The class `obj->vtable->klass` of an object. -/
  object_class : Nat → Nat
  class_is_assignable_from : Nat → Nat → Bool
  /-- The thread `mono_thread_get_main ()`. -/
  main_thread : Nat
  /-- The domain `mono_get_root_domain ()`. -/
  root_domain : Nat
  /-- The option `agent_config.defer`. -/
  defer : Bool
  /-- The option `agent_config.suspend`. -/
  suspend : Bool

/-- One round of the filter loop of `create_event_list`: the flag `filtered` and the
modifier after the round. `cur` is the current thread, `klass` the class computed
from `ji` or `arg` (`0` is `NULL`). -/
def apply_modifier (er : EventRuntime) (cur : Nat) (ei : Option EventInfo) (klass : Nat)
    (filtered : Bool) (mod : Modifier) : Bool × Modifier :=
  if mod.kind = MOD_KIND_COUNT then
    if mod.count > 0 then
      (decide (mod.count - 1 ≠ 0), { mod with count := mod.count - 1 })
    else (true, mod)
  else if mod.kind = MOD_KIND_THREAD_ONLY then
    (if mod.thread ≠ cur then true else filtered, mod)
  else if mod.kind = MOD_KIND_EXCEPTION_ONLY ∧ ei.isSome then
    match ei with
    | none => (filtered, mod)
    | some e =>
      let f1 :=
        if mod.exc_class ≠ 0 ∧
            er.class_is_assignable_from mod.exc_class (er.object_class e.exc) = false then true
        else filtered
      let f2 := if e.caught = true ∧ mod.caught = false then true else f1
      let f3 := if e.caught = false ∧ mod.uncaught = false then true else f2
      (f3, mod)
  else if mod.kind = MOD_KIND_ASSEMBLY_ONLY ∧ klass ≠ 0 then
    let found : Bool :=
      (mod.assemblies.takeWhile (fun a => decide (a ≠ 0))).contains (er.class_assembly klass)
    (if found = false then true else filtered, mod)
  else (filtered, mod)

/-- The filter loop of `create_event_list` over the modifiers of one request. -/
def apply_modifiers (er : EventRuntime) (cur : Nat) (ei : Option EventInfo) (klass : Nat) :
    Bool → List Modifier → Bool × List Modifier
  | filtered, [] => (filtered, [])
  | filtered, mod :: rest =>
    let r := apply_modifier er cur ei klass filtered mod
    let r2 := apply_modifiers er cur ei klass r.1 rest
    (r2.1, r.2 :: r2.2)

/-- The body of the loop of `create_event_list` for one request of the event kind:
whether the request is filtered out, and the request with its counts updated. -/
def filter_event_request (er : EventRuntime) (cur : Nat) (ei : Option EventInfo) (klass : Nat)
    (req : EventRequest) : Bool × EventRequest :=
  let r := apply_modifiers er cur ei klass false req.modifiers
  (r.1, { req with modifiers := r.2 })

/-- The loop of `create_event_list` over the array `reqs`, whose entries point into
the table: an entry is the index of the request. Returns the table, the list
`events` and `*suspend_policy`; `none` for an index outside the table. -/
def create_event_list_loop (er : EventRuntime) (cur : Nat) (event : Int)
    (ei : Option EventInfo) (klass : Nat) (table : List EventRequest) (events : List Int)
    (suspend_policy : Int) : List Nat → Option (List EventRequest × List Int × Int)
  | [] => some (table, events, suspend_policy)
  | i :: rest =>
    match table[i]? with
    | none => none
    | some req =>
      if req.event_kind = event then
        let r := filter_event_request er cur ei klass req
        if r.1 = false then
          create_event_list_loop er cur event ei klass (table.set i r.2) (events ++ [req.id])
            (max suspend_policy req.suspend_policy) rest
        else
          create_event_list_loop er cur event ei klass (table.set i r.2) events suspend_policy
            rest
      else create_event_list_loop er cur event ei klass table events suspend_policy rest

/-- The class `klass` that `create_event_list` computes from `ji`, or from `arg` for
a type load. -/
def event_class (er : EventRuntime) (event : Int) (ji : Option MonoJitInfo) (arg : Nat) : Nat :=
  match ji with
  | some j => er.method_class j
  | none => if event = EVENT_KIND_TYPE_LOAD then arg else 0

/-- Embedding of `create_event_list`, called on the thread `cur` with the table
`event_requests`. `reqs` holds the indexes of the requests of the array (`none` is
`NULL`: all requests). Returns the table, the request ids `events` and the suspend
policy. -/
def create_event_list (er : EventRuntime) (cur : Nat) (table : List EventRequest)
    (event : Int) (reqs : Option (List Nat)) (ji : Option MonoJitInfo)
    (ei : Option EventInfo) (arg : Nat) : Option (List EventRequest × List Int × Int) :=
  let indexes : List Nat :=
    match reqs with
    | some l => l
    | none => List.range table.length
  match create_event_list_loop er cur event ei (event_class er event ji arg) table []
      SUSPEND_POLICY_NONE indexes with
  | none => none
  | some (table1, events, suspend_policy) =>
    let events1 := if event = EVENT_KIND_VM_START then events ++ [0] else events
    let events2 := if event = EVENT_KIND_VM_DEATH then events1 ++ [0] else events1
    some (table1, events2, suspend_policy)

/-- Whether `create_event_list` reports the request for an event of the kind: the
kinds agree and the filter loop leaves `filtered` false. -/
def is_reported (er : EventRuntime) (cur : Nat) (event : Int) (ei : Option EventInfo)
    (klass : Nat) (req : EventRequest) : Bool :=
  decide (req.event_kind = event) && !(filter_event_request er cur ei klass req).1

/-- The request after the loop of `create_event_list` has visited it. -/
def visit_event_request (er : EventRuntime) (cur : Nat) (event : Int) (ei : Option EventInfo)
    (klass : Nat) (req : EventRequest) : EventRequest :=
  if req.event_kind = event then (filter_event_request er cur ei klass req).2 else req

/-- The ids of the requests at the indexes that are reported. -/
def reported_ids (er : EventRuntime) (cur : Nat) (event : Int) (ei : Option EventInfo)
    (klass : Nat) (table : List EventRequest) (indexes : List Nat) : List Int :=
  indexes.filterMap (fun j =>
    match table[j]? with
    | some r => if is_reported er cur event ei klass r then some r.id else none
    | none => none)

/-- The greatest suspend policy among `policy` and the requests at the indexes that
are reported. -/
def reported_policy (er : EventRuntime) (cur : Nat) (event : Int) (ei : Option EventInfo)
    (klass : Nat) (table : List EventRequest) (policy : Int) (indexes : List Nat) : Int :=
  indexes.foldl (fun p j =>
    match table[j]? with
    | some r => if is_reported er cur event ei klass r then max p r.suspend_policy else p
    | none => p) policy

/-- The arguments of one call of `create_event_list` for all requests: the current
thread, `ji`, `ei` and `arg`. -/
structure EventListCall where
  cur : Nat
  ji : Option MonoJitInfo
  ei : Option EventInfo
  arg : Nat

/-- Successive calls of `create_event_list` with `reqs == NULL` for events of one
kind. Returns the table after the last call and the list `events` of every call. -/
def create_event_list_calls (er : EventRuntime) (event : Int) :
    List EventRequest → List EventListCall → Option (List EventRequest × List (List Int))
  | table, [] => some (table, [])
  | table, c :: rest =>
    match create_event_list er c.cur table event none c.ji c.ei c.arg with
    | none => none
    | some (table1, events, _) =>
      match create_event_list_calls er event table1 rest with
      | none => none
      | some (table2, l) => some (table2, events :: l)

/-- An event request for thread starts with a count modifier (used in the examples). -/
def count_request_example (n : Int) : EventRequest :=
  { id := 5, event_kind := EVENT_KIND_THREAD_START, suspend_policy := 2, info := 0,
    modifiers := [{ Modifier.zero MOD_KIND_COUNT with count := n }] }

/-- An execution engine without classes, with main thread 2 and root domain 1, that
suspends on start (used in the examples). -/
def event_runtime_example : EventRuntime :=
  { method_class := fun _ => 0, class_assembly := fun _ => 0, object_class := fun _ => 0,
    class_is_assignable_from := fun _ _ => false, main_thread := 2, root_domain := 1,
    defer := false, suspend := true }


/-- Something the agent does that the outside can observe, in the order in which it
is done: a call of `suspend_vm` (with `suspend_count` after it), the creation of the
debugger thread, and bytes handed to `transport_send`. -/
inductive Effect where
  | suspend_vm (suspend_count : Int)
  | start_debugger_thread
  | transport_send (bytes : List Nat)
deriving DecidableEq, Repr

/-- The agent with the registries of ids, the flag `inited`, the counter `packet_id`
and the list of what it has done so far. -/
structure Session where
  agent : AgentState
  ids : IdState
  objs : ObjState
  inited : Bool
  packet_id : Int
  effects : List Effect

/-- The session of an initialised agent before any event. -/
def session_init (debugger_thread_id : Nat) : Session :=
  { agent := agent_init debugger_thread_id, ids := ids_init, objs := objrefs_init,
    inited := true, packet_id := 0, effects := [] }

/-- The part of the body of the loop of `process_event` that depends on the event
kind: the registries and the bytes added. `none` when a `NULL` pointer is
dereferenced or the kind is unknown (`g_assert_not_reached`). -/
def process_event_payload (er : EventRuntime) (ids : IdState) (objs : ObjState) (event : Int)
    (domain : Nat) (arg : Nat) (ei : Option EventInfo) (il_offset : Int) :
    Option (IdState × ObjState × List Nat) :=
  if event = EVENT_KIND_THREAD_START ∨ event = EVENT_KIND_THREAD_DEATH then some (ids, objs, [])
  else if event = EVENT_KIND_APPDOMAIN_CREATE ∨ event = EVENT_KIND_APPDOMAIN_UNLOAD then
    (buffer_add_ptr_id ids arg IdType.ID_DOMAIN arg).map (fun r => (r.1, objs, r.2))
  else if event = EVENT_KIND_METHOD_ENTRY ∨ event = EVENT_KIND_METHOD_EXIT then
    (buffer_add_ptr_id ids domain IdType.ID_METHOD arg).map (fun r => (r.1, objs, r.2))
  else if event = EVENT_KIND_ASSEMBLY_LOAD ∨ event = EVENT_KIND_ASSEMBLY_UNLOAD then
    (buffer_add_ptr_id ids domain IdType.ID_ASSEMBLY arg).map (fun r => (r.1, objs, r.2))
  else if event = EVENT_KIND_TYPE_LOAD then
    (buffer_add_ptr_id ids domain IdType.ID_TYPE arg).map (fun r => (r.1, objs, r.2))
  else if event = EVENT_KIND_BREAKPOINT ∨ event = EVENT_KIND_STEP then
    (buffer_add_ptr_id ids domain IdType.ID_METHOD arg).map
      (fun r => (r.1, objs, r.2 ++ buffer_add_long (toUInt64 il_offset)))
  else if event = EVENT_KIND_VM_START then
    (buffer_add_ptr_id ids er.root_domain IdType.ID_DOMAIN er.root_domain).map
      (fun r => (r.1, objs, r.2))
  else if event = EVENT_KIND_VM_DEATH then some (ids, objs, [])
  else if event = EVENT_KIND_EXCEPTION then
    match ei with
    | none => none
    | some e => (buffer_add_objid objs e.exc).map (fun r => (ids, r.1, r.2))
  else none

/-- The loop of `process_event` over the list `events`: the registries and the bytes
added for the events. `thread` is the thread reported. -/
def process_event_entries (er : EventRuntime) (event : Int) (thread : Nat) (domain : Nat)
    (arg : Nat) (ei : Option EventInfo) (il_offset : Int) (ids : IdState) (objs : ObjState) :
    List Int → Option (IdState × ObjState × List Nat)
  | [] => some (ids, objs, [])
  | req_id :: rest =>
    match buffer_add_objid objs thread with
    | none => none
    | some (objs1, thread_bytes) =>
      match process_event_payload er ids objs1 event domain arg ei il_offset with
      | none => none
      | some (ids2, objs2, payload) =>
        match process_event_entries er event thread domain arg ei il_offset ids2 objs2 rest with
        | none => none
        | some (ids3, objs3, bytes) =>
          some (ids3, objs3,
            buffer_add_byte (toUInt32 event) ++ buffer_add_int (toUInt32 req_id) ++ thread_bytes
              ++ payload ++ bytes)

/-- The suspend policy after the loop of `process_event` and the assignments that
follow it, for a list `events` that is not empty. -/
def process_event_policy (er : EventRuntime) (shutting_down : Bool) (event : Int)
    (suspend_policy : Int) : Int :=
  let p1 :=
    if event = EVENT_KIND_BREAKPOINT ∨ event = EVENT_KIND_STEP then SUSPEND_POLICY_ALL
    else suspend_policy
  let p2 :=
    if event = EVENT_KIND_VM_START then
      if er.defer = true then SUSPEND_POLICY_NONE
      else if er.suspend = true then SUSPEND_POLICY_ALL else SUSPEND_POLICY_NONE
    else p1
  let p3 := if event = EVENT_KIND_THREAD_DEATH then SUSPEND_POLICY_NONE else p2
  let p4 := if event = EVENT_KIND_VM_DEATH then SUSPEND_POLICY_NONE else p3
  if shutting_down = true then SUSPEND_POLICY_NONE else p4

/-- Whether `process_event` returns before it builds a packet. -/
def process_event_drops (s : Session) (shutting_down : Bool) (event : Int)
    (events : List Int) : Bool :=
  !s.inited
  || (!s.agent.vm_start_event_sent && decide (event ≠ EVENT_KIND_VM_START))
  || s.agent.vm_death_event_sent
  || (shutting_down && decide (event ≠ EVENT_KIND_VM_DEATH))
  || s.agent.disconnected
  || events.isEmpty


/-- The thread that `process_event`, called on the thread `cur`, reports in the
packet. -/
def process_event_thread (er : EventRuntime) (s : Session) (cur : Nat) (event : Int)
    (arg : Nat) : Nat :=
  if event = EVENT_KIND_VM_START ∧ arg ≠ 0 then arg
  else if s.agent.coord.debugger_thread_id = cur then er.main_thread else cur

/-- The first part of `process_event`, for an event that is not dropped, up to the
return of `send_packet`: the session at that point and the suspend policy computed.
It is called on the thread `cur` in the domain `domain`; `shutting_down` is the
result of `mono_runtime_is_shutting_down`. `none` when a `NULL` pointer is
dereferenced or an assertion fails while the packet is built. -/
def process_event_send (er : EventRuntime) (s : Session) (cur domain : Nat)
    (shutting_down : Bool) (event : Int) (arg : Nat) (ei : Option EventInfo) (il_offset : Int)
    (events : List Int) (suspend_policy : Int) : Option (Session × Int) :=
  match process_event_entries er event (process_event_thread er s cur event arg) domain arg ei
      il_offset s.ids s.objs events with
  | none => none
  | some (ids1, objs1, bytes) =>
    let policy := process_event_policy er shutting_down event suspend_policy
    let effects1 :=
      if event = EVENT_KIND_VM_START ∧ er.defer = false then
        s.effects ++ [Effect.start_debugger_thread]
      else s.effects
    let agent1 : AgentState :=
      if event = EVENT_KIND_VM_DEATH then { s.agent with vm_death_event_sent := true }
      else s.agent
    let coord2 : SuspendState :=
      if policy ≠ SUSPEND_POLICY_NONE then suspend_vm (save_thread_context agent1.coord cur) cur
      else agent1.coord
    let effects2 :=
      if policy ≠ SUSPEND_POLICY_NONE then effects1 ++ [Effect.suspend_vm coord2.suspend_count]
      else effects1
    let packet := send_packet (s.packet_id + 1) CMD_SET_EVENT CMD_COMPOSITE
      (buffer_add_byte (toUInt32 policy) ++ buffer_add_int (toUInt32 (events.length : Int))
        ++ bytes)
    some ({ agent := { agent1 with coord := coord2 }, ids := ids1, objs := objs1,
            inited := s.inited, packet_id := s.packet_id + 1,
            effects := effects2 ++ [Effect.transport_send packet] }, policy)

/-- The last part of `process_event`, after `send_packet` returned `send_success`:
the flag of the start event and the `switch` over the suspend policy, in which the
thread parks in `suspend_current`. `none` for `SUSPEND_POLICY_EVENT_THREAD`
(`NOT_IMPLEMENTED`), for an unknown policy, and when `suspend_current` fails. -/
def process_event_finish (s : Session) (cur : Nat) (send_success : Bool) (event : Int)
    (policy : Int) : Option Session :=
  if send_success = false then some s
  else
    let agent1 : AgentState :=
      if event = EVENT_KIND_VM_START then { s.agent with vm_start_event_sent := true }
      else s.agent
    if policy = SUSPEND_POLICY_NONE then some { s with agent := agent1 }
    else if policy = SUSPEND_POLICY_ALL then
      match suspend_current_enter agent1.coord cur with
      | none => none
      | some c => some { s with agent := { agent1 with coord := c } }
    else none

/-- Embedding of `process_event`, called on the thread `cur`, which does not own the
loader lock; `send_success` is the result of `transport_send`. -/
def process_event (er : EventRuntime) (s : Session) (cur domain : Nat)
    (shutting_down send_success : Bool) (event : Int) (arg : Nat) (ei : Option EventInfo)
    (il_offset : Int) (events : List Int) (suspend_policy : Int) : Option Session :=
  if process_event_drops s shutting_down event events = true then some s
  else
    match process_event_send er s cur domain shutting_down event arg ei il_offset events
        suspend_policy with
    | none => none
    | some (s1, policy) => process_event_finish s1 cur send_success event policy

/-- Embedding of `process_profiler_event`. -/
def process_profiler_event (er : EventRuntime) (s : Session) (cur domain : Nat)
    (shutting_down send_success : Bool) (event : Int) (arg : Nat) : Option Session :=
  match create_event_list er cur s.agent.event_requests event none none none arg with
  | none => none
  | some (table, events, suspend_policy) =>
    process_event er { s with agent := { s.agent with event_requests := table } } cur domain
      shutting_down send_success event arg none 0 events suspend_policy

/-- The arguments of one call of `process_event`. -/
structure ProcessEventCall where
  cur : Nat
  domain : Nat
  shutting_down : Bool
  send_success : Bool
  event : Int
  arg : Nat
  ei : Option EventInfo
  il_offset : Int
  events : List Int
  suspend_policy : Int

/-- Successive calls of `process_event`. -/
def process_event_calls (er : EventRuntime) (s : Session) : List ProcessEventCall → Option Session
  | [] => some s
  | c :: rest =>
    match process_event er s c.cur c.domain c.shutting_down c.send_success c.event c.arg c.ei
        c.il_offset c.events c.suspend_policy with
    | none => none
    | some s1 => process_event_calls er s1 rest

/-- A session in which the start event was sent, the thread 7 runs and a request
with id 5 asks to suspend all threads when a thread dies (used in the examples); the
debugger thread is thread 1. -/
def session_example : Session :=
  let a := agent_init 1
  let coord : SuspendState := { a.coord with thread_to_tls := [(7, thread_start_tls 7)] }
  let req : EventRequest :=
    { id := 5, event_kind := EVENT_KIND_THREAD_DEATH, suspend_policy := 2, info := 0,
      modifiers := [] }
  { session_init 1 with
    agent := { a with coord := coord, vm_start_event_sent := true, event_requests := [req] } }


/-- The session `session_example` with one request instead, `count_request_example 1`:
id 5, for thread-start events, policy suspend-all, reported by the first event. -/
def session_start_example : Session :=
  { session_example with
    agent := { session_example.agent with event_requests := [count_request_example 1] } }


/-! ## The command loop (debugger_thread) -/

/-- How one round of the loop of `debugger_thread` ends: the loop goes on, the loop is
left by `break`, or the process has called `exit`. -/
inductive LoopControl where
  | next
  | left
  | exited
deriving DecidableEq, Repr

/-- Embedding of `recv_length` on a connection that delivers the bytes `input` and is
closed after them: the bytes read (the result is their number) and the bytes left. -/
def recv_length (input : List Nat) (len : Nat) : List Nat × List Nat :=
  (input.take len, input.drop len)

/-- The state that a command handler reads and writes: the agent and the registries
of ids. -/
abbrev HandlerState : Type := AgentState × IdState × ObjState

/-- A command handler of one group, as a function of the command and the data of the
request: the new state, the error code returned and the bytes added to the reply.
`none` when the handler does not return. -/
abbrev CommandHandler : Type := Int → List Nat → HandlerState → Option (HandlerState × Int × List Nat)

/-- The command handlers that are not embedded. None of them calls `send_packet`,
`send_reply_packet` or `transport_send`. `vm_other` stands for the cases
`CMD_VM_VERSION`, `CMD_VM_ALL_THREADS` and `CMD_VM_SET_PROTOCOL_VERSION` of
`vm_commands`. -/
structure CommandHandlers where
  vm_other : CommandHandler
  domain_commands : CommandHandler
  assembly_commands : CommandHandler
  module_commands : CommandHandler
  type_commands : CommandHandler
  method_commands : CommandHandler
  thread_commands : CommandHandler
  frame_commands : CommandHandler
  array_commands : CommandHandler
  string_commands : CommandHandler
  object_commands : CommandHandler

/-- A handler of `CommandHandlers` run on the session. -/
def run_handler (f : CommandHandler) (s : Session) (command : Int) (p : List Nat) :
    Option (Session × Option (Int × List Nat)) :=
  match f command p (s.agent, s.ids, s.objs) with
  | none => none
  | some (st, err, buf) =>
    some ({ s with agent := st.1, ids := st.2.1, objs := st.2.2 }, some (err, buf))

/-- The result of an embedded handler, which works on the agent only, put back into
the session. -/
def agent_result (s : Session) (x : Option (AgentState × Int × List Nat)) :
    Option (Session × Option (Int × List Nat)) :=
  match x with
  | none => none
  | some (a, err, buf) => some ({ s with agent := a }, some (err, buf))

/-- Embedding of `mono_g_hash_table_find (tid_to_thread, is_really_suspended, NULL)`
over the threads of `tid_to_thread` in the order of the table: the first thread
whose record has `really_suspended`, 0 (`NULL`) when there is none. `none` when a
thread has no record (`g_assert (tls)`). -/
def find_really_suspended (c : SuspendState) : List Nat → Option Nat
  | [] => some 0
  | thread :: rest =>
    match g_hash_table_lookup c.thread_to_tls thread with
    | none => none
    | some tls => if tls.really_suspended then some thread else find_really_suspended c rest

/-- The case `CMD_VM_EXIT` of `vm_commands`, for a request with the id `id`, run on
the thread `cur` with the empty reply buffer of the loop. `exit_method` is the method
`System.Environment.Exit` (an assertion fails when it is `NULL`); the `InvokeData`
made for it is zeroed, its fields `method` and `args` are not embedded. The result
is the session and the error code returned, `none` in its place when `exit` was
called. -/
def vm_exit (s : Session) (cur : Nat) (tid_to_thread : List Nat) (exit_method : Nat) (id : Int)
    (p : List Nat) : Option (Session × Option Int) :=
  match decode_int p with
  | none => none
  | some _ =>
    let effects1 := s.effects ++ [Effect.transport_send (send_reply_packet id 0 [])]
    match clear_all_event_requests s.agent.event_requests.length s.agent with
    | none => none
    | some a2 =>
      let c3 := wait_for_suspend (suspend_vm a2.coord cur)
      if exit_method = 0 then none
      else
        match find_really_suspended c3 tid_to_thread with
        | none => none
        | some thread =>
          if thread ≠ 0 then
            match g_hash_table_lookup c3.thread_to_tls thread with
            | none => none
            | some tls =>
              let tls1 : DebuggerTlsData :=
                { tls with pending_invoke := some ⟨0, 0, [], false, 0⟩ }
              let c4 : SuspendState :=
                { c3 with thread_to_tls := g_hash_table_insert c3.thread_to_tls thread tls1 }
              match resume_vm_all c4.suspend_count.toNat c4 cur with
              | none => none
              | some c5 =>
                some ({ s with agent := { a2 with coord := c5 }, effects := effects1 },
                  some ERR_NONE)
          else
            match resume_vm_all c3.suspend_count.toNat c3 cur with
            | none => none
            | some c5 =>
              some ({ s with agent := { a2 with coord := c5 }, effects := effects1 }, none)

/-- Embedding of `vm_commands` as the loop of `debugger_thread` calls it, with the
reply buffer: the session, and the error code returned with the bytes added to the
reply, or `none` in their place when the process has exited. -/
def vm_commands_buf (h : CommandHandlers) (s : Session) (cur : Nat) (tid_to_thread : List Nat)
    (exit_method : Nat) (command id : Int) (p : List Nat) :
    Option (Session × Option (Int × List Nat)) :=
  if command = CMD_VM_EXIT then
    match vm_exit s cur tid_to_thread exit_method id p with
    | none => none
    | some (s1, r) => some (s1, r.map (fun err => (err, [])))
  else if command = CMD_VM_VERSION ∨ command = CMD_VM_ALL_THREADS
      ∨ command = CMD_VM_SET_PROTOCOL_VERSION then
    run_handler h.vm_other s command p
  else
    agent_result s ((vm_commands s.objs s.agent cur command id p).map (fun r => (r.1, r.2, [])))

/-- The `switch (command_set)` of `debugger_thread`. -/
def debugger_thread_dispatch (h : CommandHandlers) (rt : Runtime) (s : Session) (cur : Nat)
    (tid_to_thread : List Nat) (exit_method : Nat) (command_set command id : Int)
    (p : List Nat) : Option (Session × Option (Int × List Nat)) :=
  if command_set = CMD_SET_VM then
    vm_commands_buf h s cur tid_to_thread exit_method command id p
  else if command_set = CMD_SET_EVENT_REQUEST then
    agent_result s (event_commands rt s.ids s.objs s.agent cur command p)
  else if command_set = CMD_SET_APPDOMAIN then run_handler h.domain_commands s command p
  else if command_set = CMD_SET_ASSEMBLY then run_handler h.assembly_commands s command p
  else if command_set = CMD_SET_MODULE then run_handler h.module_commands s command p
  else if command_set = CMD_SET_TYPE then run_handler h.type_commands s command p
  else if command_set = CMD_SET_METHOD then run_handler h.method_commands s command p
  else if command_set = CMD_SET_THREAD then run_handler h.thread_commands s command p
  else if command_set = CMD_SET_STACK_FRAME then run_handler h.frame_commands s command p
  else if command_set = CMD_SET_ARRAY_REF then run_handler h.array_commands s command p
  else if command_set = CMD_SET_STRING_REF then run_handler h.string_commands s command p
  else if command_set = CMD_SET_OBJECT_REF then run_handler h.object_commands s command p
  else some (s, some (ERR_NOT_IMPLEMENTED, []))

/-- The header of a request, decoded as in `debugger_thread`. -/
structure Header where
  len : Int
  id : Int
  flags : Int
  command_set : Int
  command : Int
deriving DecidableEq, Repr

/-- The five `decode_*` calls of `debugger_thread` on the header. -/
def decode_header (header : List Nat) : Option Header :=
  match decode_int header with
  | none => none
  | some len =>
    match decode_int len.endbuf with
    | none => none
    | some id =>
      match decode_byte id.endbuf with
      | none => none
      | some flags =>
        match decode_byte flags.endbuf with
        | none => none
        | some command_set =>
          match decode_byte command_set.endbuf with
          | none => none
          | some command => some ⟨len.val, id.val, flags.val, command_set.val, command.val⟩

/-- The part of a round of `debugger_thread` after the data of the request was
read: the handler, then the reply unless `no_reply` is set. -/
def debugger_thread_reply (h : CommandHandlers) (rt : Runtime) (s : Session) (cur : Nat)
    (tid_to_thread : List Nat) (exit_method : Nat) (hd : Header) (data : List Nat) :
    Option (Session × LoopControl) :=
  match debugger_thread_dispatch h rt s cur tid_to_thread exit_method hd.command_set hd.command
      hd.id data with
  | none => none
  | some (s1, none) => some (s1, LoopControl.exited)
  | some (s1, some (err, buf)) =>
    let no_reply : Bool :=
      decide (hd.command_set = CMD_SET_VM ∧ err = 0 ∧ hd.command = CMD_VM_INVOKE_METHOD)
    let s2 : Session :=
      if no_reply = true then s1
      else { s1 with
             effects := s1.effects ++ [Effect.transport_send (send_reply_packet hd.id err buf)] }
    some (s2,
      if hd.command_set = CMD_SET_VM ∧ hd.command = CMD_VM_DISPOSE then LoopControl.left
      else LoopControl.next)

/-- One round of the loop of `debugger_thread`, run on the debugger thread `cur` with
the bytes `input` still to come from the connection: the session, the input left and
how the round ends. `none` when an assertion fails, when `g_malloc` is given a
negative size, or when a handler does not return. Of what the handlers do, only the
packets handed to the transport are recorded in `effects`. -/
def debugger_thread_step (h : CommandHandlers) (rt : Runtime) (s : Session) (cur : Nat)
    (tid_to_thread : List Nat) (exit_method : Nat) (input : List Nat) :
    Option (Session × List Nat × LoopControl) :=
  let header := (recv_length input HEADER_LENGTH).1
  let rest := (recv_length input HEADER_LENGTH).2
  if header.length ≠ HEADER_LENGTH then
    match vm_commands s.objs s.agent cur CMD_VM_DISPOSE 0 [] with
    | none => none
    | some (a, _) => some ({ s with agent := a }, rest, LoopControl.left)
  else
    match decode_header header with
    | none => none
    | some hd =>
      if hd.flags ≠ 0 then none
      else if hd.len - HEADER_LENGTH < 0 then none
      else
        let size := (hd.len - HEADER_LENGTH).toNat
        let data := if size > 0 then (recv_length rest size).1 else []
        let rest1 := if size > 0 then (recv_length rest size).2 else rest
        if size > 0 ∧ data.length ≠ size then some (s, rest1, LoopControl.left)
        else
          match debugger_thread_reply h rt s cur tid_to_thread exit_method hd data with
          | none => none
          | some (s2, ctl) => some (s2, rest1, ctl)

/-- The loop of `debugger_thread`, for at most `fuel` rounds; `none` when a round
gives `none` or the rounds do not suffice. -/
def debugger_thread_loop (h : CommandHandlers) (rt : Runtime) (cur : Nat)
    (tid_to_thread : List Nat) (exit_method : Nat) :
    Nat → Session → List Nat → Option (Session × LoopControl)
  | 0, _, _ => none
  | fuel + 1, s, input =>
    match debugger_thread_step h rt s cur tid_to_thread exit_method input with
    | none => none
    | some (s1, rest, LoopControl.next) =>
      debugger_thread_loop h rt cur tid_to_thread exit_method fuel s1 rest
    | some (s1, _, ctl) => some (s1, ctl)

/-- Handlers that answer every command with the error 0 and the byte 42 (used in the
examples). -/
def handlers_example : CommandHandlers :=
  let f : CommandHandler := fun _ _ st => some (st, 0, [42])
  { vm_other := f, domain_commands := f, assembly_commands := f, module_commands := f,
    type_commands := f, method_commands := f, thread_commands := f, frame_commands := f,
    array_commands := f, string_commands := f, object_commands := f }

/-- A session in which the VM is suspended once and thread 7 is parked in
`suspend_current`, as it is after a thread-start event of thread 7 was reported from
`session_start_example` with the policy suspend-all (used in the examples). -/
def session_parked_example : Session :=
  let c := session_start_example.agent.coord
  let coord : SuspendState :=
    { c with suspend_count := 1, ss_count := 1, arch_single_stepping := true,
             thread_to_tls :=
               [(7, { suspend_current_park (thread_start_tls 7) with has_context := true })] }
  { session_start_example with
    agent := { session_start_example.agent with
      coord := coord, event_requests := [count_request_example 0] },
    packet_id := 1 }


/-- An agent, suspended once, with an active single-step request of depth over and
size line for thread 7, owned by the event request 5 and holding the temporary
breakpoint at address 1 (used in the examples). -/
def agent_stepping_example : AgentState :=
  let a := agent_init 1
  let bp : MonoBreakpoint :=
    { method := 5, il_offset := 4, req := 5,
      children := [⟨0, 16, 1016, ji_example, 1⟩] }
  { a with
    coord := { a.coord with suspend_count := 1 },
    eng := { locs := { bp_locs := [(1016, 1)], patched := [1016],
                       arch_calls := [ArchCall.set_breakpoint 1016] },
             breakpoints := [(1, bp)], next_ptr := 3 },
    ss_req := some
      { ptr := 2, req := 5, thread := 7, depth := STEP_DEPTH_OVER, size := STEP_SIZE_LINE,
        last_sp := 100, start_sp := 100, last_method := 5, last_line := 3,
        stepover_frame_method := 5, stepover_frame_count := 1, global := false, bps := [1] },
    event_requests :=
      [{ id := 5, event_kind := EVENT_KIND_STEP, suspend_policy := 2, info := 2,
         modifiers := [Modifier.zero MOD_KIND_STEP] }],
    event_request_id := 5, vm_start_event_sent := true }

/-! ## The invariant of the breakpoints and the event requests -/

/-- All the instances of all the breakpoints of the array `breakpoints`. -/
def live_instances (e : BpEngine) : List BreakpointInstance :=
  e.breakpoints.flatMap (fun x => x.2.children)

/-- Whether `req->info` is a `MonoBreakpoint`: the kinds for which
`clear_event_request` calls `clear_breakpoint`. -/
def owns_breakpoint (req : EventRequest) : Bool :=
  decide (req.event_kind = EVENT_KIND_BREAKPOINT ∨ req.event_kind = EVENT_KIND_METHOD_ENTRY
    ∨ req.event_kind = EVENT_KIND_METHOD_EXIT)

/-- The addresses in `ss_req->bps`, none when `ss_req` is `NULL`. -/
def step_breakpoints (ss_req : Option SingleStepReq) : List Nat :=
  match ss_req with
  | none => []
  | some r => r.bps

/-- The addresses of the breakpoints that an event request or the single-step
request points to. -/
def owned_breakpoints (s : AgentState) : List Nat :=
  (s.event_requests.filter owns_breakpoint).map (fun r => r.info) ++ step_breakpoints s.ss_req

/-- The invariant that the commands which make and clear event requests keep: the
counts of `bp_locs` are those of the live instances; the breakpoints have distinct
addresses; the breakpoints that the requests point to exist and no two requests
share one; a step request in the table is the one of `ss_req`, and there is at most
one. -/
structure engine_wf (s : AgentState) : Prop where
  consistent : bp_locs_consistent s.eng.locs (live_instances s.eng)
  addrs_nodup : (s.eng.breakpoints.map (fun x => x.1)).Nodup
  owned_nodup : (owned_breakpoints s).Nodup
  owned_mem : ∀ a ∈ owned_breakpoints s, a ∈ s.eng.breakpoints.map (fun x => x.1)
  step_req : ∀ req ∈ s.event_requests, req.event_kind = EVENT_KIND_STEP →
    s.ss_req.map (fun r => r.ptr) = some req.info
  step_one :
    (s.event_requests.filter (fun r => decide (r.event_kind = EVENT_KIND_STEP))).length ≤ 1

/-- A check of `bp_locs_consistent` that can be evaluated: the two conditions at the
addresses that occur in `bp_locs`, in the patched code or in a live instance. -/
def bp_locs_check (s : BreakpointState) (live : List BreakpointInstance) : Bool :=
  (s.bp_locs.map (fun x => x.1) ++ s.patched ++ live.map (fun i => i.ip)).all (fun ip =>
    decide (bp_locs_count s ip = instances_at live ip)
      && decide (ip ∈ s.patched ↔ bp_locs_count s ip > 0))

/-- The breakpoint request with the id 6, whose breakpoint is at address 3 (used in
the examples). -/
def breakpoint_request_example : EventRequest :=
  { id := 6, event_kind := EVENT_KIND_BREAKPOINT, suspend_policy := 2, info := 3,
    modifiers := [Modifier.zero MOD_KIND_LOCATION_ONLY] }

/-- An agent, suspended once, with four event requests: the single-step request 5 of
`agent_stepping_example`, whose temporary breakpoint is at address 1; the breakpoint
request 6, whose breakpoint at address 3 has an instance at the same code address
1016; the thread-start request 7; and the breakpoint request 8, whose breakpoint at
address 4 has an instance at 1016 and one at 1040 (used in the examples). -/
def agent_requests_example : AgentState :=
  let a := agent_stepping_example
  let bp6 : MonoBreakpoint :=
    { method := 5, il_offset := 4, req := 6, children := [⟨0, 16, 1016, ji_example, 1⟩] }
  let bp8 : MonoBreakpoint :=
    { method := 5, il_offset := 4, req := 8,
      children := [⟨0, 16, 1016, ji_example, 1⟩, ⟨0, 40, 1040, ji_example, 2⟩] }
  { a with
    eng := { locs := { bp_locs := [(1016, 3), (1040, 1)], patched := [1040, 1016],
                       arch_calls := [ArchCall.set_breakpoint 1016,
                                      ArchCall.set_breakpoint 1040] },
             breakpoints := a.eng.breakpoints ++ [(3, bp6), (4, bp8)], next_ptr := 5 },
    event_requests := a.event_requests ++
      [breakpoint_request_example,
       { id := 7, event_kind := EVENT_KIND_THREAD_START, suspend_policy := 0, info := 0,
         modifiers := [] },
       { id := 8, event_kind := EVENT_KIND_BREAKPOINT, suspend_policy := 2, info := 4,
         modifiers := [Modifier.zero MOD_KIND_LOCATION_ONLY] }],
    event_request_id := 8 }

/-- The value `bp->req->event_kind` for a breakpoint whose request has the id `id`;
`none` when the table holds no such request (the pointer dangles). -/
def request_kind (table : List EventRequest) (id : Int) : Option Int :=
  (table.find? (fun r => decide (r.id = id))).map (fun r => r.event_kind)

/-- The inner loop of the first loop of `process_breakpoint_inner`, over the children
of the breakpoint `bp`: the ids of the requests added to `bp_reqs` and to
`ss_reqs_orig`. -/
def collect_breakpoint_children (table : List EventRequest) (ji : MonoJitInfo)
    (native_offset : Int) (bp : MonoBreakpoint) (acc : List Int × List Int) :
    List BreakpointInstance → Option (List Int × List Int)
  | [] => some acc
  | inst :: rest =>
    if inst.ji = ji ∧ inst.native_offset = native_offset then
      match request_kind table bp.req with
      | none => none
      | some kind =>
        if kind = EVENT_KIND_STEP then
          collect_breakpoint_children table ji native_offset bp (acc.1, acc.2 ++ [bp.req]) rest
        else
          collect_breakpoint_children table ji native_offset bp (acc.1 ++ [bp.req], acc.2) rest
    else collect_breakpoint_children table ji native_offset bp acc rest

/-- The first loop of `process_breakpoint_inner`, over the array `breakpoints`, for a
hit in the code `ji` at `native_offset`: the ids of the requests in `bp_reqs` and in
`ss_reqs_orig`. `none` when the request of a breakpoint hit is not in the table. -/
def collect_breakpoint_requests (table : List EventRequest) (ji : MonoJitInfo)
    (native_offset : Int) (acc : List Int × List Int) :
    List (Nat × MonoBreakpoint) → Option (List Int × List Int)
  | [] => some acc
  | x :: rest =>
    if x.2.method = 0 then collect_breakpoint_requests table ji native_offset acc rest
    else
      match collect_breakpoint_children table ji native_offset x.2 acc x.2.children with
      | none => none
      | some acc1 => collect_breakpoint_requests table ji native_offset acc1 rest

/-- The invariant that ties the breakpoints to the event requests: the requests have
distinct ids, and the request of a breakpoint is in the table and either points to
the breakpoint, when its kind is one that owns a breakpoint, or else is the request
of a temporary breakpoint of the single-step request. -/
structure owners_wf (s : AgentState) : Prop where
  ids_nodup : (s.event_requests.map (fun r => r.id)).Nodup
  owner : ∀ x ∈ s.eng.breakpoints,
    ∃ r ∈ s.event_requests, r.id = x.2.req ∧ (owns_breakpoint r = true → r.info = x.1) ∧
      (owns_breakpoint r = false → x.1 ∈ step_breakpoints s.ss_req)


/-! ## The handlers of single-step events and breakpoint hits -/

/-- Result of `decode_string`: the bytes copied into the new string (without the
terminating zero), the bytes left between `*endbuf` and `limit`, and by how many bytes
`*endbuf` lies beyond `limit` (`0` when it does not). -/
structure DecodedString where
  s : List Nat
  endbuf : List Nat
  past_limit : Nat
deriving DecidableEq, Repr

/-- Embedding of `decode_string`. `buf` are the bytes between `buf` and `limit`,
`beyond` the bytes that follow `limit` in memory, and `alloc_ok` tells for which
arguments `g_malloc` returns a block (it returns `NULL` or ends the process for the
others). The length read is a C `int`; `memcpy` takes it as a `size_t` of 64 bits and
reads that many bytes from the position after the prefix, whatever `limit` is.
`none` when the assertion of `decode_int` or `g_assert (s)` fails, and when the copy
runs out of the memory described. -/
def decode_string (alloc_ok : Int → Bool) (buf beyond : List Nat) : Option DecodedString :=
  match decode_int buf with
  | none => none
  | some len =>
    if alloc_ok (len.val + 1) = false then none
    else
      let count := toUInt64 len.val
      if (len.endbuf ++ beyond).length < count then none
      else
        some ⟨(len.endbuf ++ beyond).take count, len.endbuf.drop count,
          count - len.endbuf.length⟩


/-! ## The transport handshake (`transport_handshake`) -/

/-- The bytes of the string `"DWP-Handshake"` that `sprintf` writes to
`handshake_msg`, without the terminating zero. -/
def handshake_msg : List Nat := [68, 87, 80, 45, 72, 97, 110, 100, 115, 104, 97, 107, 101]

/-- Embedding of `memcmp` on the first `n` bytes of two arrays: zero when they agree,
else the difference of the first two bytes that differ. A comparison that runs beyond
the bytes given is not embedded and yields zero. -/
def memcmp : List Nat → List Nat → Nat → Int
  | _, _, 0 => 0
  | x :: a, y :: b, n + 1 => if x = y then memcmp a b n else (x : Int) - (y : Int)
  | _, _, _ + 1 => 0

/-- Embedding of `transport_handshake` on a connection that delivers the bytes
`input` and is closed after them: the result and the input left. `send_res` is the
last result of `send` and `sockopt_res` the result of `setsockopt`. The third
argument of `memcmp` is the value of `strlen (handshake_msg) != 0`, as the
parentheses of the source have it. The assignments to the protocol version are not
embedded. -/
def transport_handshake (send_res : Int) (input : List Nat) (sockopt_res : Int) :
    Bool × List Nat :=
  if -1 = send_res then (false, input)
  else
    let buf := (recv_length input handshake_msg.length).1
    let rest := (recv_length input handshake_msg.length).2
    if buf.length ≠ handshake_msg.length
        ∨ memcmp buf handshake_msg (if handshake_msg.length ≠ 0 then 1 else 0) ≠ 0 then
      (false, rest)
    else if 0 > sockopt_res then (false, rest)
    else (true, rest)

/-- Embedding of `wait_for_attach`: the agent, the result and the input left.
`listen_fd` is the listening socket and `conn_fd` the result of `transport_accept`. -/
def wait_for_attach (s : AgentState) (listen_fd conn_fd send_res : Int) (input : List Nat)
    (sockopt_res : Int) : AgentState × Bool × List Nat :=
  if listen_fd = -1 then (s, false, input)
  else if conn_fd = -1 then (s, false, input)
  else
    let r := transport_handshake send_res input sockopt_res
    let s1 := { s with disconnected := !r.1 }
    if s1.disconnected then (s1, false, r.2) else (s1, true, r.2)


/-- The agent `parked_agent_example` while thread 7 runs the invocation with id 4
(used in the examples). -/
def invoking_agent_example : AgentState :=
  { parked_agent_example with
    coord := parked_example.with_tls 7
      { thread_start_tls 7 with invoke := [⟨4, 0, [], false, 2⟩] } }


/-! ## The commands on object references (`object_commands`) -/

def CMD_OBJECT_REF_GET_TYPE : Int := 1
def CMD_OBJECT_REF_GET_VALUES : Int := 2
def CMD_OBJECT_REF_IS_COLLECTED : Int := 3
def CMD_OBJECT_REF_GET_ADDRESS : Int := 4
def CMD_OBJECT_REF_GET_DOMAIN : Int := 5
def CMD_OBJECT_REF_SET_VALUES : Int := 6

/-- Embedding of `object_commands`. The command `CMD_OBJECT_REF_IS_COLLECTED` and the
test of the object id that precedes the `switch` are embedded; the `switch` over the
other commands is the parameter `other`, which is given the command, the object, the
position after the id and the state. -/
def object_commands
    (other : Int → Nat → List Nat → HandlerState → Option (HandlerState × Int × List Nat)) :
    CommandHandler :=
  fun command p st =>
    if command = CMD_OBJECT_REF_IS_COLLECTED then
      match decode_id p with
      | none => none
      | some objid =>
        let r := get_object st.2.2 objid.val
        if r.1 ≠ 0 then some (st, 0, buffer_add_int 1) else some (st, 0, buffer_add_int 0)
    else
      match decode_id p with
      | none => none
      | some objid =>
        let r := get_object st.2.2 objid.val
        if r.1 ≠ 0 then some (st, r.1, []) else other command r.2 objid.endbuf st

/-- The session `session_example` with the object registry `objrefs_example`, in
which the object with id 1 was collected, after the object at address 200 was given
the id 2 (used in the examples). -/
def session_objects_example : Session :=
  { session_example with
    objs := (run_obj_ops objrefs_example [ObjOp.call_get_objref 200]).getD objrefs_init }

/-- The handlers `handlers_example` with the embedded `object_commands`. -/
def handlers_objects_example : CommandHandlers :=
  { handlers_example with object_commands := object_commands (fun _ _ _ st => some (st, 0, [])) }


/-- An event request for thread starts with a thread-only modifier for thread 8
followed by a count modifier of 1 (used in the examples). -/
def thread_count_request_example : EventRequest :=
  { id := 5, event_kind := EVENT_KIND_THREAD_START, suspend_policy := 2, info := 0,
    modifiers := [{ Modifier.zero MOD_KIND_THREAD_ONLY with thread := 8 },
                  { Modifier.zero MOD_KIND_COUNT with count := 1 }] }

/-- The request `thread_count_request_example` with its two modifiers in the other
order (used in the examples). -/
def count_thread_request_example : EventRequest :=
  { id := 5, event_kind := EVENT_KIND_THREAD_START, suspend_policy := 2, info := 0,
    modifiers := [{ Modifier.zero MOD_KIND_COUNT with count := 1 },
                  { Modifier.zero MOD_KIND_THREAD_ONLY with thread := 8 }] }


/-- The session `session_example` in which the thread object at address 7 has the
object id 1 (used in the examples); the VM is not suspended. -/
def session_thread_example : Session :=
  { session_example with objs := thread_objs_example }


/-- The session `session_example` with the registry `ids_example_unloaded`: the type
with id 1 and the method with id 1 belonged to a domain that was unloaded, the type
with id 2 is loaded (used in the examples). -/
def session_ids_example : Session :=
  { session_example with ids := ids_example_unloaded }


/-- The session `session_example` with the agent `agent_requests_example`: four event
requests, the VM suspended once (used in the examples). -/
def session_requests_example : Session :=
  { session_example with agent := agent_requests_example }


/-! ## The calls that turn single stepping on and off -/

/-- A call that reads or writes `ss_count`. The calls of `ss_create` and `ss_start`
carry the execution engine and the domains as they are at the time of the call. -/
inductive SsOp where
  /-- A call of `suspend_vm` on the thread `cur`. -/
  | call_suspend_vm (cur : Nat)
  /-- A call of `resume_vm` on the debugger thread. -/
  | call_resume_vm
  | call_ss_create (rt : Runtime) (domains : List Nat) (thread : Nat) (size depth : Int) (req : Int)
  /-- A call of `ss_start` for the current request `ss_req`. -/
  | call_ss_start (rt : Runtime) (domains : List Nat) (method : Nat) (sp : Option SeqPoint)
      (info : List SeqPoint) (frames : Option (List StackFrame))
  /-- A call of `ss_destroy` for the current request `ss_req`. -/
  | call_ss_destroy

/-- One call of `SsOp`. The function `ss_start` works on the request it is given; the
request is `ss_req`, so the updated request is stored back. `none` when an assertion
fails or there is no current request to start or destroy. -/
def SsOp.step (s : AgentState) : SsOp → Option AgentState
  | SsOp.call_suspend_vm cur => some { s with coord := suspend_vm s.coord cur }
  | SsOp.call_resume_vm =>
    (resume_vm s.coord s.coord.debugger_thread_id).map (fun c => { s with coord := c })
  | SsOp.call_ss_create rt domains thread size depth req =>
    (ss_create rt domains s thread size depth req).map (fun r => r.1)
  | SsOp.call_ss_start rt domains method sp info frames =>
    match s.ss_req with
    | none => none
    | some r =>
      (ss_start rt domains s r method sp info frames).map (fun x => { x.1 with ss_req := some x.2 })
  | SsOp.call_ss_destroy =>
    match s.ss_req with
    | none => none
    | some r => ss_destroy s r.ptr

/-- A sequence of calls, in order; `none` if one of them ends the process. -/
def run_ss_ops (s : AgentState) : List SsOp → Option AgentState
  | [] => some s
  | op :: rest =>
    match op.step s with
    | none => none
    | some s1 => run_ss_ops s1 rest

/-- Whether a single-step request exists and is in global mode. -/
def ss_req_global (s : AgentState) : Bool :=
  match s.ss_req with
  | some r => r.global
  | none => false

/-- The relation between `ss_count`, `suspend_count` and the mode `global` of the
single-step request, with the state of the execution engine. -/
def ss_count_ok (c : SuspendState) (global : Bool) : Prop :=
  0 ≤ c.suspend_count ∧
  c.ss_count = (if c.suspend_count > 0 then 1 else 0) + (if global = true then 1 else 0) ∧
  (c.arch_single_stepping = true ↔ c.ss_count > 0)

/-- The invariant of the breakpoint engine while single-step requests are made and
destroyed: `bp_locs` counts the live instances, the breakpoints have distinct
addresses below the next address to be allocated, and the breakpoints of the
single-step request are distinct breakpoints of the array. -/
structure step_wf (e : BpEngine) (bps : List Nat) : Prop where
  consistent : bp_locs_consistent e.locs (live_instances e)
  addrs_lt : ∀ a ∈ e.breakpoints.map (fun x => x.1), a < e.next_ptr
  addrs_nodup : (e.breakpoints.map (fun x => x.1)).Nodup
  bps_mem : ∀ a ∈ bps, a ∈ e.breakpoints.map (fun x => x.1)
  bps_nodup : bps.Nodup

/-- An execution engine in which the method 5 of `ji_example` is compiled in domain 1
with the sequence points `seq_points_example`, and thread 7 is stopped in it at IL
offset 0 (used in the examples). -/
def runtime_frames_example : Runtime :=
  { runtime_example with
    seq_points := fun d => if d = 1 then [(5, seq_points_example)] else [],
    compiled_code := fun d m => if d = 1 ∧ m = 5 then some ji_example else none,
    frames := fun t => if t = 7 then [⟨0, 1, 5, 100⟩] else [],
    context_sp := fun _ => 100 }

/-- The agent after `mono_debugger_agent_init` with the records of the threads that
have started since: no suspension, no event request, no breakpoint, `ss_count` 0. -/
def agent_attached (debugger_thread_id : Nat) (threads : GHashTable Nat DebuggerTlsData) :
    AgentState :=
  { agent_init debugger_thread_id with
    coord := { suspend_init debugger_thread_id with thread_to_tls := threads } }

/-- An agent with the thread 7, whose context is saved (used in the examples). -/
def agent_thread_example : AgentState :=
  agent_attached 1 [(7, { thread_start_tls 7 with has_context := true })]

/-- A sequence of calls: the VM is suspended, a step-over request is made for thread
7 (it sets a temporary breakpoint), the VM is resumed, and the request is started
again from a sequence point without successors, which puts it in global mode (used
in the examples). -/
def ss_ops_example : List SsOp :=
  [SsOp.call_suspend_vm 1,
   SsOp.call_ss_create runtime_frames_example [1] 7 STEP_SIZE_MIN STEP_DEPTH_OVER 5,
   SsOp.call_resume_vm,
   SsOp.call_ss_start runtime_frames_example [1] 5 (some ⟨9, 40, []⟩) seq_points_example none]

/-- The state at the end of `ss_ops_example`. -/
def agent_ss_example : AgentState :=
  (run_ss_ops agent_thread_example ss_ops_example).getD agent_thread_example


/-! ### The tags that `decode_value` accepts -/

/-- The test `t->type == MONO_TYPE_GENERICINST && mono_class_is_nullable (...)` at the
head of `decode_value`. -/
def is_nullable (md : Metadata) (t : MonoType) : Bool :=
  decide (t.type = MONO_TYPE_GENERICINST) && md.class_is_nullable (md.class_from_mono_type t)

/-- The tags that pass the two tests of `decode_value_internal` on the tag: for a
reference type the chain under `handle_ref` (`MONO_TYPE_OBJECT` or
`VALUE_TYPE_ID_NULL`), for any other type the test at the head of the function (the
tag of the type, or one of the four pairs it lists). -/
def tag_accepted (md : Metadata) (t : MonoType) (type : Int) : Bool :=
  if md.type_is_reference t = true then
    decide (type = (MONO_TYPE_OBJECT : Int) ∨ type = (VALUE_TYPE_ID_NULL : Int))
  else
    decide (type = (t.type : Int) ∨
      (t.type = MONO_TYPE_I ∧ type = (MONO_TYPE_VALUETYPE : Int)) ∨
      (t.type = MONO_TYPE_U ∧ type = (MONO_TYPE_VALUETYPE : Int)) ∨
      (t.type = MONO_TYPE_PTR ∧ type = (MONO_TYPE_I8 : Int)) ∨
      (t.type = MONO_TYPE_GENERICINST ∧ type = (MONO_TYPE_VALUETYPE : Int)))

/-- The tags that pass the tests of `decode_value`: those of `decode_value_internal`
and, for a nullable type, the tag of the type argument and `VALUE_TYPE_ID_NULL`. -/
def decode_value_accepts (md : Metadata) (t : MonoType) (type : Int) : Bool :=
  tag_accepted md t type ||
    (is_nullable md t &&
      decide (((md.type_argv0 t).type : Int) = type ∨ type = (VALUE_TYPE_ID_NULL : Int)))

/-- What the macros `MONO_TYPE_IS_REFERENCE` and `MONO_TYPE_ISSTRUCT` of the metadata
header guarantee for a type: a reference type has one of the five reference tags, or
is a generic instance that is not a structure. -/
def reference_kind (md : Metadata) (t : MonoType) : Bool :=
  !md.type_is_reference t ||
    decide (t.type ∈ [MONO_TYPE_STRING, MONO_TYPE_SZARRAY, MONO_TYPE_OBJECT, MONO_TYPE_CLASS,
      MONO_TYPE_ARRAY]) ||
    (decide (t.type = MONO_TYPE_GENERICINST) && !md.type_isstruct t)

/-- The tags of the types that `decode_value_internal` stores from one integer read
off the wire. -/
def primitive_types : List Nat :=
  [MONO_TYPE_BOOLEAN, MONO_TYPE_CHAR, MONO_TYPE_I1, MONO_TYPE_U1, MONO_TYPE_I2, MONO_TYPE_U2,
   MONO_TYPE_I4, MONO_TYPE_U4, MONO_TYPE_I8, MONO_TYPE_U8, MONO_TYPE_R4, MONO_TYPE_R8]

/-- Example metadata as `metadata_example`, where in addition class 104 is the
nullable generic instance over `int`, a structure and not a reference. -/
def metadata_nullable_example : Metadata :=
  { metadata_example with
    type_is_reference := fun t =>
      decide (t.type ∈ [MONO_TYPE_STRING, MONO_TYPE_SZARRAY, MONO_TYPE_CLASS, MONO_TYPE_OBJECT,
        MONO_TYPE_ARRAY] ∨ (t.type = MONO_TYPE_GENERICINST ∧ t.data ≠ 104)),
    type_isstruct := fun t =>
      decide ((t.type = MONO_TYPE_VALUETYPE ∧ t.data ≠ 100) ∨
        (t.type = MONO_TYPE_GENERICINST ∧ t.data = 104)),
    class_is_nullable := fun k => decide (k = 104),
    type_argv0 := fun _ => ⟨MONO_TYPE_I4, false, 0⟩ }

/-- The nullable type of `metadata_nullable_example`. -/
def nullable_type_example : MonoType := ⟨MONO_TYPE_GENERICINST, false, 104⟩


/-! ## Theorems -/

/-! ### Wire codec -/

theorem or_bytes (b0 b1 b2 b3 : Nat) (h1 : b1 < 256) (h2 : b2 < 256) (h3 : b3 < 256) :
    (b0 <<< 24) ||| (b1 <<< 16) ||| (b2 <<< 8) ||| (b3 <<< 0)
      = b0 * 2 ^ 24 + b1 * 2 ^ 16 + b2 * 2 ^ 8 + b3 := by
  have e1 : 2 ^ 8 * b2 + b3 = 2 ^ 8 * b2 ||| b3 := Nat.mul_add_lt_is_or (by omega) _
  have e2 : 2 ^ 16 * b1 + (2 ^ 8 * b2 + b3) = 2 ^ 16 * b1 ||| (2 ^ 8 * b2 + b3) :=
    Nat.mul_add_lt_is_or (by omega) _
  have e3 : 2 ^ 24 * b0 + (2 ^ 16 * b1 + (2 ^ 8 * b2 + b3))
      = 2 ^ 24 * b0 ||| (2 ^ 16 * b1 + (2 ^ 8 * b2 + b3)) :=
    Nat.mul_add_lt_is_or (by omega) _
  rw [Nat.shiftLeft_eq, Nat.shiftLeft_eq, Nat.shiftLeft_eq, Nat.shiftLeft_eq, Nat.or_assoc,
    Nat.or_assoc, Nat.pow_zero, Nat.mul_one, Nat.mul_comm b2, ← e1, Nat.mul_comm b1, ← e2,
    Nat.mul_comm b0, ← e3]
  omega

theorem buffer_add_int_eq (v : Nat) :
    buffer_add_int v = [v / 2 ^ 24 % 256, v / 2 ^ 16 % 256, v / 2 ^ 8 % 256, v % 256] := by
  simp only [buffer_add_int, Nat.shiftRight_eq_div_pow]
  have h : (0xff : Nat) = 2 ^ 8 - 1 := by norm_num
  rw [h, Nat.and_pow_two_sub_one_eq_mod, Nat.and_pow_two_sub_one_eq_mod,
    Nat.and_pow_two_sub_one_eq_mod, Nat.and_pow_two_sub_one_eq_mod]
  simp

/-- Decoding the four bytes written for a `guint32` gives back its `int` value. -/
theorem decode_int_buffer_add_int (v : Nat) (rest : List Nat) :
    decode_int (buffer_add_int v ++ rest) = some ⟨toInt32 v, rest⟩ := by
  rw [buffer_add_int_eq]
  simp only [List.cons_append, List.nil_append, decode_int]
  rw [or_bytes _ _ _ _ (Nat.mod_lt _ (by norm_num)) (Nat.mod_lt _ (by norm_num))
    (Nat.mod_lt _ (by norm_num))]
  have e : toInt32 (v / 2 ^ 24 % 256 * 2 ^ 24 + v / 2 ^ 16 % 256 * 2 ^ 16 + v / 2 ^ 8 % 256 * 2 ^ 8
      + v % 256) = toInt32 v := by
    unfold toInt32
    have : (v / 2 ^ 24 % 256 * 2 ^ 24 + v / 2 ^ 16 % 256 * 2 ^ 16 + v / 2 ^ 8 % 256 * 2 ^ 8
      + v % 256) % 2 ^ 32 = v % 2 ^ 32 := by omega
    rw [this]
  rw [e]

theorem toInt32_toUInt32 (i : Int) (h0 : 0 ≤ i) (h1 : i < 2 ^ 31) : toInt32 (toUInt32 i) = i := by
  unfold toInt32 toUInt32
  have e : (i % 2 ^ 32).toNat = i.toNat := by
    rw [Int.emod_eq_of_lt h0 (by omega)]
  rw [e]
  have h2 : i.toNat % 2 ^ 32 = i.toNat := Nat.mod_eq_of_lt (by omega)
  rw [h2]
  have h3 : i.toNat < 2 ^ 31 := by omega
  rw [if_pos h3]
  omega

/-! ### Hash tables -/

theorem g_hash_table_lookup_remove_self {κ α : Type} [DecidableEq κ] (t : GHashTable κ α)
    (key : κ) :
    g_hash_table_lookup (g_hash_table_remove t key) key = none := by
  induction t with
  | nil => rfl
  | cons e t ih =>
    obtain ⟨k, v⟩ := e
    by_cases h : k = key
    · simpa [g_hash_table_remove, List.filter, h] using ih
    · simpa [g_hash_table_remove, List.filter, h, g_hash_table_lookup] using ih

theorem g_hash_table_lookup_remove_ne {κ α : Type} [DecidableEq κ] (t : GHashTable κ α)
    (key key2 : κ)
    (hne : key2 ≠ key) :
    g_hash_table_lookup (g_hash_table_remove t key) key2 = g_hash_table_lookup t key2 := by
  induction t with
  | nil => rfl
  | cons e t ih =>
    obtain ⟨k, v⟩ := e
    by_cases h : k = key
    · subst h
      have h2 : ¬ k = key2 := fun e => hne e.symm
      simpa [g_hash_table_remove, List.filter, g_hash_table_lookup, h2] using ih
    · by_cases h3 : k = key2
      · subst h3
        simp [g_hash_table_remove, List.filter, g_hash_table_lookup, h]
      · simpa [g_hash_table_remove, List.filter, g_hash_table_lookup, h, h3] using ih

theorem g_hash_table_lookup_insert_self {κ α : Type} [DecidableEq κ] (t : GHashTable κ α)
    (key : κ) (v : α) :
    g_hash_table_lookup (g_hash_table_insert t key v) key = some v := by
  simp [g_hash_table_insert, g_hash_table_lookup]

theorem g_hash_table_lookup_insert_ne {κ α : Type} [DecidableEq κ] (t : GHashTable κ α)
    (key key2 : κ) (v : α)
    (hne : key2 ≠ key) :
    g_hash_table_lookup (g_hash_table_insert t key v) key2 = g_hash_table_lookup t key2 := by
  have h2 : ¬ key = key2 := fun e => hne e.symm
  simp only [g_hash_table_insert, g_hash_table_lookup, h2, if_false]
  exact g_hash_table_lookup_remove_ne t key key2 hne

/-! ### Id registry -/

/-- A known structure: `get_id` returns the id stored in its `Id` and leaves the
arrays and every table binding as they are. -/
theorem get_id_known (s : IdState) (d : Nat) (k : IdType) (v p : Nat) (e : Id)
    (hv : v ≠ 0) (hd : d ≠ 0) (hl : val_to_id_lookup s d k v = some p)
    (he : (s.ids k)[p]? = some e) :
    ∃ s1, get_id s d k v = some (s1, e.id) ∧ s1.ids = s.ids ∧
      ∀ d2 k2 v2, val_to_id_lookup s1 d2 k2 v2 = val_to_id_lookup s d2 k2 v2 := by
  unfold val_to_id_lookup at hl
  cases hi : s.agent_info d with
  | none => simp [hi] at hl
  | some info =>
    cases ht : info.val_to_id k with
    | none => simp [hi, ht] at hl
    | some t =>
      simp only [hi, ht] at hl
      simp only [get_id, hv, hd, if_false, hi, ht, hl, he]
      refine ⟨_, rfl, ?_, ?_⟩
      · rfl
      · intro d2 k2 v2
        unfold val_to_id_lookup
        by_cases hd2 : d2 = d
        · subst hd2
          by_cases hk2 : k2 = k
          · subst hk2
            simp [hi, ht]
          · simp [hi, Function.update_noteq hk2]
        · simp [Function.update_noteq hd2]

/-- An unknown structure: `get_id` appends one `Id` holding the new length and binds
the structure to it; no other binding changes. -/
theorem get_id_fresh (s : IdState) (d : Nat) (k : IdType) (v : Nat)
    (hv : v ≠ 0) (hd : d ≠ 0) (hl : val_to_id_lookup s d k v = none) :
    ∃ s1, get_id s d k v = some (s1, (((s.ids k).length + 1 : Nat) : Int)) ∧
      s1.ids k = s.ids k ++ [⟨(((s.ids k).length + 1 : Nat) : Int), d, v⟩] ∧
      (∀ k2, k2 ≠ k → s1.ids k2 = s.ids k2) ∧
      val_to_id_lookup s1 d k v = some (s.ids k).length ∧
      ∀ d2 k2 v2, ¬ (d2 = d ∧ k2 = k ∧ v2 = v) →
        val_to_id_lookup s1 d2 k2 v2 = val_to_id_lookup s d2 k2 v2 := by
  have hl2 : g_hash_table_lookup
      (match (match s.agent_info d with
              | some i => i
              | none => ({ val_to_id := fun _ => none } : AgentDomainInfo)).val_to_id k with
       | some t => t
       | none => []) v = none := by
    unfold val_to_id_lookup at hl
    cases hi : s.agent_info d with
    | none => simp [g_hash_table_lookup]
    | some info =>
      cases ht : info.val_to_id k with
      | none => simp [g_hash_table_lookup]
      | some t => simpa [hi, ht] using hl
  simp only [get_id, hv, hd, if_false, hl2]
  refine ⟨_, rfl, ?_, ?_, ?_, ?_⟩
  · simp
  · intro k2 hk2
    simp [Function.update_noteq hk2]
  · simp [val_to_id_lookup, g_hash_table_lookup_insert_self]
  · intro d2 k2 v2 hne
    unfold val_to_id_lookup
    by_cases hd2 : d2 = d
    · subst hd2
      by_cases hk2 : k2 = k
      · subst hk2
        have hv2 : v2 ≠ v := fun e => hne ⟨rfl, rfl, e⟩
        simp only [Function.update_same]
        rw [g_hash_table_lookup_insert_ne _ _ _ _ hv2]
        cases hi : s.agent_info d2 with
        | none => simp [g_hash_table_lookup]
        | some info =>
          cases ht : info.val_to_id k2 with
          | none => simp [g_hash_table_lookup, ht]
          | some t => simp [ht]
      · simp only [Function.update_same, Function.update_noteq hk2]
        cases hi : s.agent_info d2 with
        | none => simp
        | some info => simp
    · simp [Function.update_noteq hd2]

/-- Every successful `get_id` is one of three cases: a `NULL` value, a known
structure, or an unknown one. -/
theorem get_id_result (s s1 : IdState) (d : Nat) (k : IdType) (v : Nat) (i : Int)
    (h : get_id s d k v = some (s1, i)) :
    (v = 0 ∧ s1 = s ∧ i = 0) ∨
    (v ≠ 0 ∧ d ≠ 0 ∧ ∃ p e, val_to_id_lookup s d k v = some p ∧ (s.ids k)[p]? = some e ∧
      i = e.id ∧ s1.ids = s.ids ∧
      ∀ d2 k2 v2, val_to_id_lookup s1 d2 k2 v2 = val_to_id_lookup s d2 k2 v2) ∨
    (v ≠ 0 ∧ d ≠ 0 ∧ val_to_id_lookup s d k v = none ∧
      i = (((s.ids k).length + 1 : Nat) : Int) ∧
      s1.ids k = s.ids k ++ [⟨(((s.ids k).length + 1 : Nat) : Int), d, v⟩] ∧
      (∀ k2, k2 ≠ k → s1.ids k2 = s.ids k2) ∧
      val_to_id_lookup s1 d k v = some (s.ids k).length ∧
      ∀ d2 k2 v2, ¬ (d2 = d ∧ k2 = k ∧ v2 = v) →
        val_to_id_lookup s1 d2 k2 v2 = val_to_id_lookup s d2 k2 v2) := by
  by_cases hv : v = 0
  · left
    simp only [get_id, hv, if_true, Option.some.injEq, Prod.mk.injEq] at h
    exact ⟨hv, h.1.symm, h.2.symm⟩
  · right
    by_cases hd : d = 0
    · simp [get_id, hv, hd] at h
    · cases hl : val_to_id_lookup s d k v with
      | none =>
        right
        obtain ⟨s2, hg, h1, h2, h3, h4⟩ := get_id_fresh s d k v hv hd hl
        rw [hg] at h
        simp only [Option.some.injEq, Prod.mk.injEq] at h
        obtain ⟨hs, hi⟩ := h
        subst hs
        exact ⟨hv, hd, rfl, hi.symm, h1, h2, h3, h4⟩
      | some p =>
        left
        cases he : (s.ids k)[p]? with
        | none =>
          exfalso
          unfold val_to_id_lookup at hl
          cases hi : s.agent_info d with
          | none => simp [hi] at hl
          | some info =>
            cases ht : info.val_to_id k with
            | none => simp [hi, ht] at hl
            | some t =>
              simp only [hi, ht] at hl
              simp [get_id, hv, hd, hi, ht, hl, he] at h
        | some e =>
          obtain ⟨s2, hg, h1, h2⟩ := get_id_known s d k v p e hv hd hl he
          rw [hg] at h
          simp only [Option.some.injEq, Prod.mk.injEq] at h
          obtain ⟨hs, hi⟩ := h
          subst hs
          exact ⟨hv, hd, p, e, rfl, he, hi.symm, h1, h2⟩

theorem step_get_id (s s1 : IdState) (d : Nat) (k : IdType) (v : Nat)
    (h : (IdOp.call_get_id d k v).step s = some s1) : ∃ i, get_id s d k v = some (s1, i) := by
  simp only [IdOp.step] at h
  cases hg : get_id s d k v with
  | none => simp [hg] at h
  | some r =>
    obtain ⟨s2, i⟩ := r
    simp only [hg, Option.map_some', Option.some.injEq] at h
    subst h
    exact ⟨i, rfl⟩

/-- A registry call other than the unloading of `d` keeps the bindings of `d`. -/
theorem step_keeps_lookup (s s1 : IdState) (op : IdOp) (d : Nat) (k : IdType) (v p : Nat)
    (hstep : op.step s = some s1) (hop : op ≠ IdOp.call_free_domain_info d)
    (hl : val_to_id_lookup s d k v = some p) : val_to_id_lookup s1 d k v = some p := by
  cases op with
  | call_get_id d2 k2 v2 =>
    obtain ⟨i, hg⟩ := step_get_id s s1 d2 k2 v2 hstep
    rcases get_id_result s s1 d2 k2 v2 i hg with ⟨_, hs, _⟩ | ⟨_, _, _, _, _, _, _, _, hsame⟩ |
      ⟨_, _, hnone, _, _, _, _, hsame⟩
    · rw [hs]; exact hl
    · rw [hsame]; exact hl
    · by_cases heq : d = d2 ∧ k = k2 ∧ v = v2
      · obtain ⟨h1, h2, h3⟩ := heq
        subst h1 h2 h3
        rw [hl] at hnone
        cases hnone
      · rw [hsame d k v heq]; exact hl
  | call_free_domain_info d2 =>
    have hne : d ≠ d2 := fun e => hop (by rw [e])
    simp only [IdOp.step, mono_debugger_agent_free_domain_info] at hstep
    by_cases hd2 : d2 = 0
    · simp [hd2] at hstep
    · simp only [hd2, if_false, Option.some.injEq] at hstep
      subst hstep
      simpa [val_to_id_lookup, Function.update_noteq hne] using hl

/-- A registry call never removes a slot and never changes the id stored in it; the
slot itself is unchanged unless the call unloads its domain. -/
theorem step_keeps_slot (s s1 : IdState) (op : IdOp) (k : IdType) (j : Nat) (e : Id)
    (hstep : op.step s = some s1) (he : (s.ids k)[j]? = some e) :
    (s.ids k).length ≤ (s1.ids k).length ∧
    (∃ e1, (s1.ids k)[j]? = some e1 ∧ e1.id = e.id) ∧
    (op ≠ IdOp.call_free_domain_info e.domain → (s1.ids k)[j]? = some e) := by
  have hj : j < (s.ids k).length := by
    rcases Nat.lt_or_ge j (s.ids k).length with h | h
    · exact h
    · rw [List.getElem?_eq_none h] at he; cases he
  cases op with
  | call_get_id d2 k2 v2 =>
    obtain ⟨i, hg⟩ := step_get_id s s1 d2 k2 v2 hstep
    rcases get_id_result s s1 d2 k2 v2 i hg with ⟨_, hs, _⟩ | ⟨_, _, _, _, _, _, _, hids, _⟩ |
      ⟨_, _, _, _, happ, hoth, _, _⟩
    · subst hs; exact ⟨le_refl _, ⟨e, he, rfl⟩, fun _ => he⟩
    · rw [hids]; exact ⟨le_refl _, ⟨e, he, rfl⟩, fun _ => he⟩
    · by_cases hk : k = k2
      · subst hk
        rw [happ]
        have h2 : (s.ids k ++ [⟨(((s.ids k).length + 1 : Nat) : Int), d2, v2⟩])[j]? = some e := by
          rw [List.getElem?_append_left hj]; exact he
        exact ⟨by simp, ⟨e, h2, rfl⟩, fun _ => h2⟩
      · rw [hoth k hk]; exact ⟨le_refl _, ⟨e, he, rfl⟩, fun _ => he⟩
  | call_free_domain_info d2 =>
    simp only [IdOp.step, mono_debugger_agent_free_domain_info] at hstep
    by_cases hd2 : d2 = 0
    · simp [hd2] at hstep
    · simp only [hd2, if_false, Option.some.injEq] at hstep
      subst hstep
      refine ⟨by simp, ?_, ?_⟩
      · simp only [List.getElem?_map, he, Option.map_some']
        by_cases hdom : e.domain = d2
        · exact ⟨_, rfl, by simp [hdom]⟩
        · exact ⟨_, rfl, by simp [hdom]⟩
      · intro hop
        have hdom : ¬ e.domain = d2 := fun h => hop (by rw [h])
        simp [List.getElem?_map, he, hdom]

/-- Over a run that does not unload `d`, a binding of `d` and the slot it points to
are kept. -/
theorem run_keeps_binding (ops : List IdOp) (s s2 : IdState) (d : Nat) (k : IdType)
    (v p : Nat) (e : Id) (hrun : run_id_ops s ops = some s2)
    (hops : IdOp.call_free_domain_info d ∉ ops)
    (hl : val_to_id_lookup s d k v = some p) (he : (s.ids k)[p]? = some e)
    (hdom : e.domain = d) :
    val_to_id_lookup s2 d k v = some p ∧ (s2.ids k)[p]? = some e := by
  induction ops generalizing s with
  | nil =>
    simp only [run_id_ops, Option.some.injEq] at hrun
    subst hrun
    exact ⟨hl, he⟩
  | cons op rest ih =>
    simp only [run_id_ops] at hrun
    cases hstep : op.step s with
    | none => simp [hstep] at hrun
    | some s1 =>
      simp only [hstep] at hrun
      have hop : op ≠ IdOp.call_free_domain_info d := fun h => hops (by simp [h])
      have hrest : IdOp.call_free_domain_info d ∉ rest := fun h => hops (by simp [h])
      have hl1 := step_keeps_lookup s s1 op d k v p hstep hop hl
      have he1 := (step_keeps_slot s s1 op k p e hstep he).2.2 (by rw [hdom]; exact hop)
      exact ih s1 hrun hrest hl1 he1

/-- A structure never passed to `get_id` has no binding. -/
theorem run_keeps_unknown (ops : List IdOp) (s s2 : IdState) (d : Nat) (k : IdType) (v : Nat)
    (hrun : run_id_ops s ops = some s2) (hops : IdOp.call_get_id d k v ∉ ops)
    (hl : val_to_id_lookup s d k v = none) : val_to_id_lookup s2 d k v = none := by
  induction ops generalizing s with
  | nil =>
    simp only [run_id_ops, Option.some.injEq] at hrun
    subst hrun
    exact hl
  | cons op rest ih =>
    simp only [run_id_ops] at hrun
    cases hstep : op.step s with
    | none => simp [hstep] at hrun
    | some s1 =>
      simp only [hstep] at hrun
      have hop : op ≠ IdOp.call_get_id d k v := fun h => hops (by simp [h])
      have hrest : IdOp.call_get_id d k v ∉ rest := fun h => hops (by simp [h])
      refine ih s1 hrun hrest ?_
      cases op with
      | call_get_id d2 k2 v2 =>
        obtain ⟨i, hg⟩ := step_get_id s s1 d2 k2 v2 hstep
        have hne : ¬ (d = d2 ∧ k = k2 ∧ v = v2) := by
          rintro ⟨h1, h2, h3⟩
          exact hop (by rw [h1, h2, h3])
        rcases get_id_result s s1 d2 k2 v2 i hg with ⟨_, hs, _⟩ |
          ⟨_, _, _, _, _, _, _, _, hsame⟩ | ⟨_, _, _, _, _, _, _, hsame⟩
        · rw [hs]; exact hl
        · rw [hsame]; exact hl
        · rw [hsame d k v hne]; exact hl
      | call_free_domain_info d2 =>
        simp only [IdOp.step, mono_debugger_agent_free_domain_info] at hstep
        by_cases hd2 : d2 = 0
        · simp [hd2] at hstep
        · simp only [hd2, if_false, Option.some.injEq] at hstep
          subst hstep
          by_cases hdd : d = d2
          · subst hdd
            simp [val_to_id_lookup]
          · simpa [val_to_id_lookup, Function.update_noteq hdd] using hl

theorem ids_consistent_init : ids_consistent ids_init := by
  intro d k v p h
  simp [val_to_id_lookup, ids_init] at h

theorem ids_consistent_step (s s1 : IdState) (op : IdOp) (hstep : op.step s = some s1)
    (hc : ids_consistent s) : ids_consistent s1 := by
  intro d k v p hl
  cases op with
  | call_get_id d2 k2 v2 =>
    obtain ⟨i, hg⟩ := step_get_id s s1 d2 k2 v2 hstep
    rcases get_id_result s s1 d2 k2 v2 i hg with ⟨_, hs, _⟩ |
      ⟨_, _, _, _, _, _, _, hids, hsame⟩ | ⟨_, _, _, _, happ, hoth, hnew, hsame⟩
    · subst hs; exact hc d k v p hl
    · rw [hids]; rw [hsame] at hl; exact hc d k v p hl
    · by_cases heq : d = d2 ∧ k = k2 ∧ v = v2
      · obtain ⟨h1, h2, h3⟩ := heq
        subst h1 h2 h3
        rw [hnew] at hl
        simp only [Option.some.injEq] at hl
        subst hl
        rw [happ]
        simp
      · rw [hsame d k v heq] at hl
        have h0 := hc d k v p hl
        by_cases hk : k = k2
        · subst hk
          rw [happ]
          have hp : p < (s.ids k).length := by
            rcases Nat.lt_or_ge p (s.ids k).length with h | h
            · exact h
            · rw [List.getElem?_eq_none h] at h0; cases h0
          rw [List.getElem?_append_left hp]; exact h0
        · rw [hoth k hk]; exact h0
  | call_free_domain_info d2 =>
    simp only [IdOp.step, mono_debugger_agent_free_domain_info] at hstep
    by_cases hd2 : d2 = 0
    · simp [hd2] at hstep
    · simp only [hd2, if_false, Option.some.injEq] at hstep
      subst hstep
      by_cases hdd : d = d2
      · subst hdd
        simp [val_to_id_lookup] at hl
      · have hl0 : val_to_id_lookup s d k v = some p := by
          simpa [val_to_id_lookup, Function.update_noteq hdd] using hl
        have h0 := hc d k v p hl0
        simp [List.getElem?_map, h0, hdd]

theorem ids_consistent_run (ops : List IdOp) (s s2 : IdState)
    (hrun : run_id_ops s ops = some s2) (hc : ids_consistent s) : ids_consistent s2 := by
  induction ops generalizing s with
  | nil =>
    simp only [run_id_ops, Option.some.injEq] at hrun
    subst hrun
    exact hc
  | cons op rest ih =>
    simp only [run_id_ops] at hrun
    cases hstep : op.step s with
    | none => simp [hstep] at hrun
    | some s1 =>
      simp only [hstep] at hrun
      exact ih s1 hrun (ids_consistent_step s s1 op hstep hc)

/-- After a successful `get_id` for a structure, the structure is bound to a slot
that holds the returned id, the domain and the structure. -/
theorem get_id_binds (s s1 : IdState) (d : Nat) (k : IdType) (v : Nat) (i : Int)
    (hc : ids_consistent s) (hv : v ≠ 0) (hg : get_id s d k v = some (s1, i)) :
    d ≠ 0 ∧ ∃ p, val_to_id_lookup s1 d k v = some p ∧ (s1.ids k)[p]? = some ⟨i, d, v⟩ ∧
      i = ((p + 1 : Nat) : Int) := by
  rcases get_id_result s s1 d k v i hg with ⟨h0, _, _⟩ |
    ⟨_, hd, p, e, hl, he, hi, hids, hsame⟩ | ⟨_, hd, _, hi, happ, _, hnew, _⟩
  · exact absurd h0 hv
  · have h0 := hc d k v p hl
    rw [he] at h0
    simp only [Option.some.injEq] at h0
    subst h0
    refine ⟨hd, p, ?_, ?_, hi⟩
    · rw [hsame]; exact hl
    · rw [hids, hi]; exact he
  · refine ⟨hd, (s.ids k).length, hnew, ?_, hi⟩
    rw [happ, hi]
    simp

/-- Claim C3: `get_id` returns 0 for a `NULL` value and changes nothing; the first
call for a non-null (domain, kind, value) appends exactly one slot to the table of
that kind and returns the new length of the table; every later call for it, after
any registry calls that do not unload the domain, returns the same id and appends
nothing. -/
theorem get_id_first_and_later (pre later : List IdOp) (s : IdState) (d : Nat) (k : IdType)
    (v : Nat) (hs : run_id_ops ids_init pre = some s)
    (hfirst : IdOp.call_get_id d k v ∉ pre) (hd : d ≠ 0) (hv : v ≠ 0)
    (hlater : IdOp.call_free_domain_info d ∉ later) :
    (∀ d0 k0, get_id s d0 k0 0 = some (s, 0)) ∧
    ∃ s1, get_id s d k v = some (s1, (((s.ids k).length + 1 : Nat) : Int)) ∧
      s1.ids k = s.ids k ++ [⟨(((s.ids k).length + 1 : Nat) : Int), d, v⟩] ∧
      (∀ k2, k2 ≠ k → s1.ids k2 = s.ids k2) ∧
      ∀ s2, run_id_ops s1 later = some s2 →
        ∃ s3, get_id s2 d k v = some (s3, (((s.ids k).length + 1 : Nat) : Int)) ∧
          s3.ids = s2.ids := by
  refine ⟨fun d0 k0 => by simp [get_id], ?_⟩
  have hnone : val_to_id_lookup s d k v = none :=
    run_keeps_unknown pre ids_init s d k v hs hfirst (by simp [val_to_id_lookup, ids_init])
  obtain ⟨s1, hg, happ, hoth, hnew, _⟩ := get_id_fresh s d k v hv hd hnone
  refine ⟨s1, hg, happ, hoth, ?_⟩
  intro s2 hrun
  have hslot : (s1.ids k)[(s.ids k).length]?
      = some ⟨(((s.ids k).length + 1 : Nat) : Int), d, v⟩ := by
    rw [happ]; simp
  obtain ⟨hl2, he2⟩ := run_keeps_binding later s1 s2 d k v _ _ hrun hlater hnew hslot rfl
  obtain ⟨s3, hg3, hids3, _⟩ := get_id_known s2 d k v _ _ hv hd hl2 he2
  exact ⟨s3, hg3, hids3⟩

theorem get_id_first_and_later_witness :
    ∃ s1, get_id ids_example 1 IdType.ID_TYPE 80 = some (s1, 3) ∧
      ∀ s2, run_id_ops s1 [IdOp.call_get_id 2 IdType.ID_TYPE 90,
          IdOp.call_free_domain_info 2] = some s2 →
        ∃ s3, get_id s2 1 IdType.ID_TYPE 80 = some (s3, 3) ∧ s3.ids = s2.ids := by
  obtain ⟨_, s1, hg, _, _, hl⟩ := get_id_first_and_later
    [IdOp.call_get_id 1 IdType.ID_TYPE 50, IdOp.call_get_id 2 IdType.ID_TYPE 60,
     IdOp.call_get_id 1 IdType.ID_METHOD 70]
    [IdOp.call_get_id 2 IdType.ID_TYPE 90, IdOp.call_free_domain_info 2]
    ids_example 1 IdType.ID_TYPE 80 rfl (by decide) (by decide) (by decide) (by decide)
  exact ⟨s1, hg, hl⟩

/-- What `decode_ptr_id` returns for a buffer that starts with the id of a slot. -/
theorem decode_ptr_id_slot (s : IdState) (k : IdType) (p : Nat) (e : Id) (buf rest : List Nat)
    (hdec : decode_id buf = some ⟨((p + 1 : Nat) : Int), rest⟩)
    (he : (s.ids k)[p]? = some e) :
    decode_ptr_id s buf k =
      if e.domain = 0 then some ⟨0, 0, ERR_UNLOADED, rest⟩ else some ⟨e.val, e.domain, 0, rest⟩ := by
  have hp : p < (s.ids k).length := by
    rcases Nat.lt_or_ge p (s.ids k).length with h | h
    · exact h
    · rw [List.getElem?_eq_none h] at he; cases he
  have h1 : ¬ (((p + 1 : Nat) : Int) = 0) := by omega
  have h2 : ((p + 1 : Nat) : Int) > 0 ∧ ((p + 1 : Nat) : Int) ≤ ((s.ids k).length : Int) := by
    constructor <;> omega
  have h3 : (((p + 1 : Nat) : Int) - 1).toNat = p := by omega
  simp only [decode_ptr_id, hdec, h1, if_false, h2, and_self, if_true, h3, he]

/-- Claim C2: the id returned by `get_id` for a non-null value of a loaded domain
decodes, after any registry calls that do not unload that domain, to the value, the
domain and error 0; and a later `get_id` that returns the same id was made for the
same (domain, value) pair. The id is assumed to fit the 31 bits of a positive
`int`. -/
theorem decode_ptr_id_of_get_id (pre later : List IdOp) (s s1 s2 : IdState) (d : Nat)
    (k : IdType) (v : Nat) (i : Int) (rest : List Nat)
    (hs : run_id_ops ids_init pre = some s) (hv : v ≠ 0)
    (hg : get_id s d k v = some (s1, i))
    (hlater : IdOp.call_free_domain_info d ∉ later)
    (hrun : run_id_ops s1 later = some s2) (hi : i < 2 ^ 31) :
    decode_ptr_id s2 (buffer_add_id i ++ rest) k = some ⟨v, d, 0, rest⟩ ∧
    ∀ d2 v2 s3, v2 ≠ 0 → get_id s2 d2 k v2 = some (s3, i) → d2 = d ∧ v2 = v := by
  have hc : ids_consistent s := ids_consistent_run pre ids_init s hs ids_consistent_init
  obtain ⟨hd, p, hl1, he1, hip⟩ := get_id_binds s s1 d k v i hc hv hg
  obtain ⟨hl2, he2⟩ := run_keeps_binding later s1 s2 d k v p _ hrun hlater hl1 he1 rfl
  have hc1 : ids_consistent s1 :=
    ids_consistent_step s s1 (IdOp.call_get_id d k v)
      (by simp [IdOp.step, hg]) hc
  have hc2 : ids_consistent s2 := ids_consistent_run later s1 s2 hrun hc1
  constructor
  · have hdec : decode_id (buffer_add_id i ++ rest) = some ⟨((p + 1 : Nat) : Int), rest⟩ := by
      unfold decode_id buffer_add_id
      rw [decode_int_buffer_add_int, toInt32_toUInt32 i (by omega) hi, hip]
    rw [decode_ptr_id_slot s2 k p _ _ rest hdec he2]
    simp [hd]
  · intro d2 v2 s3 hv2 hg2
    rcases get_id_result s2 s3 d2 k v2 i hg2 with ⟨h0, _, _⟩ |
      ⟨_, _, p2, e2, hlb, heb, hib, _, _⟩ | ⟨_, _, _, hib, _, _, _, _⟩
    · exact absurd h0 hv2
    · have h0 := hc2 d2 k v2 p2 hlb
      rw [heb] at h0
      simp only [Option.some.injEq] at h0
      subst h0
      have hpp : p2 = p := by simp only at hib; omega
      subst hpp
      rw [he2] at heb
      simp only [Option.some.injEq, Id.mk.injEq] at heb
      exact ⟨heb.2.1.symm, heb.2.2.symm⟩
    · exfalso
      have hp : p < (s2.ids k).length := by
        rcases Nat.lt_or_ge p (s2.ids k).length with h | h
        · exact h
        · rw [List.getElem?_eq_none h] at he2; cases he2
      omega

theorem decode_ptr_id_of_get_id_witness :
    decode_ptr_id ids_example (buffer_add_id 2 ++ [7]) IdType.ID_TYPE = some ⟨60, 2, 0, [7]⟩ :=
  (decode_ptr_id_of_get_id
    [IdOp.call_get_id 1 IdType.ID_TYPE 50]
    [IdOp.call_get_id 1 IdType.ID_METHOD 70]
    ((run_id_ops ids_init [IdOp.call_get_id 1 IdType.ID_TYPE 50]).getD ids_init)
    ((run_id_ops ids_init [IdOp.call_get_id 1 IdType.ID_TYPE 50,
        IdOp.call_get_id 2 IdType.ID_TYPE 60]).getD ids_init)
    ids_example 2 IdType.ID_TYPE 60 2 [7] rfl (by decide) rfl (by decide) rfl (by decide)).1

/-- Claim C4: after `mono_debugger_agent_free_domain_info (d)` no slot is removed,
every id that decoded to an entity of domain `d` decodes to `NULL` with
`ERR_UNLOADED`, and every other id decodes exactly as before. -/
theorem free_domain_info_clears_ids (s s1 : IdState) (d : Nat)
    (h : mono_debugger_agent_free_domain_info s d = some s1) :
    (∀ k, (s1.ids k).length = (s.ids k).length) ∧
    (∀ k buf r, decode_ptr_id s buf k = some r → r.domain = d →
      decode_ptr_id s1 buf k = some ⟨0, 0, ERR_UNLOADED, r.endbuf⟩) ∧
    (∀ k buf r, decode_ptr_id s buf k = some r → r.domain ≠ d →
      decode_ptr_id s1 buf k = some r) ∧
    (∀ k buf, decode_ptr_id s buf k = none → decode_ptr_id s1 buf k = none) := by
  simp only [mono_debugger_agent_free_domain_info] at h
  by_cases hd : d = 0
  · simp [hd] at h
  simp only [hd, if_false, Option.some.injEq] at h
  subst h
  refine ⟨fun k => by simp, ?_, ?_, ?_⟩
  · intro k buf r hdec hdom
    unfold decode_ptr_id at hdec ⊢
    cases hid : decode_id buf with
    | none => simp [hid] at hdec
    | some x =>
      simp only [hid] at hdec ⊢
      generalize (x.val - 1).toNat = j at hdec ⊢
      by_cases h0 : x.val = 0
      · simp only [h0, if_true, Option.some.injEq] at hdec
        subst hdec
        exact absurd hdom.symm hd
      · simp only [h0, if_false] at hdec ⊢
        by_cases hr : x.val > 0 ∧ x.val ≤ ((s.ids k).length : Int)
        · simp only [hr, and_self, if_true, List.length_map, List.getElem?_map] at hdec ⊢
          cases he : (s.ids k)[j]? with
          | none => simp [he] at hdec
          | some e =>
            simp only [he, Option.map_some'] at hdec ⊢
            by_cases hz : e.domain = 0
            · simp only [hz, if_true, Option.some.injEq] at hdec
              subst hdec
              exact absurd hdom.symm hd
            · simp only [hz, if_false, Option.some.injEq] at hdec
              subst hdec
              simp only at hdom
              simp [hdom]
        · simp [hr] at hdec
  · intro k buf r hdec hdom
    unfold decode_ptr_id at hdec ⊢
    cases hid : decode_id buf with
    | none => simp [hid] at hdec
    | some x =>
      simp only [hid] at hdec ⊢
      generalize (x.val - 1).toNat = j at hdec ⊢
      by_cases h0 : x.val = 0
      · simpa [h0] using hdec
      · simp only [h0, if_false] at hdec ⊢
        by_cases hr : x.val > 0 ∧ x.val ≤ ((s.ids k).length : Int)
        · simp only [hr, and_self, if_true, List.length_map, List.getElem?_map] at hdec ⊢
          cases he : (s.ids k)[j]? with
          | none => simp [he] at hdec
          | some e =>
            simp only [he, Option.map_some'] at hdec ⊢
            by_cases hz : e.domain = 0
            · have hzd : ¬ e.domain = d := fun h => hd (by rw [← h, hz])
              have hzd2 : ¬ (0 = d) := fun h => hd h.symm
              simp only [hz, if_true] at hdec
              simp only [hzd, hzd2, if_false, hz, if_true]
              exact hdec
            · simp only [hz, if_false, Option.some.injEq] at hdec
              subst hdec
              simp only at hdom
              simp [hdom, hz]
        · simp [hr] at hdec
  · intro k buf hdec
    unfold decode_ptr_id at hdec ⊢
    cases hid : decode_id buf with
    | none => simp
    | some x =>
      simp only [hid] at hdec ⊢
      generalize (x.val - 1).toNat = j at hdec ⊢
      by_cases h0 : x.val = 0
      · simp [h0] at hdec
      · simp only [h0, if_false] at hdec ⊢
        by_cases hr : x.val > 0 ∧ x.val ≤ ((s.ids k).length : Int)
        · simp only [hr, and_self, if_true, List.length_map, List.getElem?_map] at hdec ⊢
          cases he : (s.ids k)[j]? with
          | none => simp
          | some e =>
            simp only [he] at hdec
            by_cases hz : e.domain = 0
            · simp [hz] at hdec
            · simp [hz] at hdec
        · simp [hr]

theorem free_domain_info_clears_ids_witness :
    decode_ptr_id ids_example_unloaded (buffer_add_id 1) IdType.ID_TYPE
        = some ⟨0, 0, ERR_UNLOADED, []⟩ ∧
    decode_ptr_id ids_example_unloaded (buffer_add_id 2) IdType.ID_TYPE
        = some ⟨60, 2, 0, []⟩ :=
  ⟨(free_domain_info_clears_ids ids_example ids_example_unloaded 1 rfl).2.1
      IdType.ID_TYPE (buffer_add_id 1) ⟨50, 1, 0, []⟩ (by decide) rfl,
   (free_domain_info_clears_ids ids_example ids_example_unloaded 1 rfl).2.2.1
      IdType.ID_TYPE (buffer_add_id 2) ⟨60, 2, 0, []⟩ (by decide) (by decide)⟩

/-! ### Object registry -/

theorem g_hash_table_lookup_map {κ α : Type} [DecidableEq κ] (t : GHashTable κ α) (f : α → α)
    (key : κ) :
    g_hash_table_lookup (t.map (fun e => (e.1, f e.2))) key
      = (g_hash_table_lookup t key).map f := by
  induction t with
  | nil => rfl
  | cons e t ih =>
    obtain ⟨k, v⟩ := e
    by_cases h : k = key
    · simp [g_hash_table_lookup, h]
    · simpa [g_hash_table_lookup, h] using ih

theorem get_target_new_weakref_self (g : GCHandles) (obj : Nat) :
    mono_gchandle_get_target (mono_gchandle_new_weakref g obj).1 g.next = obj := by
  simp [mono_gchandle_get_target, mono_gchandle_new_weakref, g_hash_table_lookup_insert_self]

theorem get_target_new_weakref_ne (g : GCHandles) (obj h : Nat) (hne : h ≠ g.next) :
    mono_gchandle_get_target (mono_gchandle_new_weakref g obj).1 h
      = mono_gchandle_get_target g h := by
  simp [mono_gchandle_get_target, mono_gchandle_new_weakref,
    g_hash_table_lookup_insert_ne _ _ _ _ hne]

theorem get_target_collect (g : GCHandles) (obj h : Nat) :
    mono_gchandle_get_target (gc_collect g obj) h
      = if mono_gchandle_get_target g h = obj then 0 else mono_gchandle_get_target g h := by
  have hm := g_hash_table_lookup_map g.target (fun x => if x = obj then 0 else x) h
  simp only [mono_gchandle_get_target, gc_collect]
  rw [hm]
  cases hl : g_hash_table_lookup g.target h with
  | none =>
    simp only [Option.map_none']
    split <;> rfl
  | some o => simp only [Option.map_some']

theorem masked_pointer_injective (a b : Nat) (h : masked_pointer a = masked_pointer b) :
    a = b := by
  unfold masked_pointer at h
  omega

/-- The tables and handles after `get_objref` made a new record. -/
theorem get_objref_mint (s s1 : ObjState) (obj : Nat) (t tbl : GHashTable Int ObjRef)
    (hobjs : s.objrefs = some t)
    (htbl : (match s.obj_to_objref with
        | some t => t
        | none => []) = tbl)
    (h1 : s1.objref_id = s.objref_id + 1)
    (h2 : s1.objrefs = some (g_hash_table_insert t (s.objref_id + 1)
      ⟨s.objref_id + 1, s.gc.next⟩))
    (h3 : s1.obj_to_objref = some (g_hash_table_insert tbl (masked_pointer obj)
      ⟨s.objref_id + 1, s.gc.next⟩))
    (h4 : s1.gc = (mono_gchandle_new_weakref s.gc obj).1) :
    s1.objref_id = s.objref_id + 1 ∧
    s1.gc = (mono_gchandle_new_weakref s.gc obj).1 ∧
    (∀ id, objrefs_lookup s1 id
      = if id = s.objref_id + 1 then some ⟨s.objref_id + 1, s.gc.next⟩
        else objrefs_lookup s id) ∧
    (∀ o, obj_to_objref_lookup s1 o
      = if o = obj then some ⟨s.objref_id + 1, s.gc.next⟩ else obj_to_objref_lookup s o) ∧
    ∃ t1, s1.objrefs = some t1 := by
  refine ⟨h1, h4, ?_, ?_, ⟨_, h2⟩⟩
  · intro id
    by_cases hid : id = s.objref_id + 1
    · subst hid
      simp [objrefs_lookup, h2, g_hash_table_lookup_insert_self]
    · simp [objrefs_lookup, h2, g_hash_table_lookup_insert_ne _ _ _ _ hid, hid, hobjs]
  · intro o
    by_cases hoo : o = obj
    · subst hoo
      simp [obj_to_objref_lookup, h3, g_hash_table_lookup_insert_self]
    · have hk : masked_pointer o ≠ masked_pointer obj :=
        fun e => hoo (masked_pointer_injective _ _ e)
      simp only [obj_to_objref_lookup, h3, g_hash_table_lookup_insert_ne _ _ _ _ hk, hoo,
        if_false]
      rw [← htbl]
      cases s.obj_to_objref with
      | none => simp [g_hash_table_lookup]
      | some t2 => rfl

/-- Every successful `get_objref` is one of three cases: a `NULL` object, an address
whose record still resolves to the object, or a new record. -/
theorem get_objref_result (s s1 : ObjState) (obj : Nat) (r : Option ObjRef)
    (h : get_objref s obj = some (s1, r)) :
    (obj = 0 ∧ s1 = s ∧ r = none) ∨
    (obj ≠ 0 ∧ ∃ ref, r = some ref ∧ obj_to_objref_lookup s obj = some ref ∧
      mono_gchandle_get_target s.gc ref.handle = obj ∧
      s1.objref_id = s.objref_id ∧ s1.objrefs = s.objrefs ∧ s1.gc = s.gc ∧
      ∀ o, obj_to_objref_lookup s1 o = obj_to_objref_lookup s o) ∨
    (obj ≠ 0 ∧
      (∀ ref, obj_to_objref_lookup s obj = some ref →
        mono_gchandle_get_target s.gc ref.handle ≠ obj) ∧
      r = some ⟨s.objref_id + 1, s.gc.next⟩ ∧
      s1.objref_id = s.objref_id + 1 ∧
      s1.gc = (mono_gchandle_new_weakref s.gc obj).1 ∧
      (∀ id, objrefs_lookup s1 id
        = if id = s.objref_id + 1 then some ⟨s.objref_id + 1, s.gc.next⟩
          else objrefs_lookup s id) ∧
      (∀ o, obj_to_objref_lookup s1 o
        = if o = obj then some ⟨s.objref_id + 1, s.gc.next⟩ else obj_to_objref_lookup s o) ∧
      ∃ t1, s1.objrefs = some t1) := by
  by_cases ho : obj = 0
  · left
    simp only [get_objref, ho, if_true, Option.some.injEq, Prod.mk.injEq] at h
    exact ⟨ho, h.1.symm, h.2.symm⟩
  right
  simp only [get_objref, ho, if_false] at h
  cases hf : g_hash_table_lookup (match s.obj_to_objref with
        | some t => t
        | none => []) (masked_pointer obj) with
  | none =>
    right
    simp only [hf] at h
    cases hobjs : s.objrefs with
    | none => simp [hobjs] at h
    | some t =>
      simp only [hobjs, Option.some.injEq, Prod.mk.injEq] at h
      obtain ⟨hs1, hr⟩ := h
      have hm := get_objref_mint s s1 obj t _ hobjs rfl (by rw [← hs1]) (by rw [← hs1]; rfl)
        (by rw [← hs1]; rfl) (by rw [← hs1])
      have hr2 : r = some ⟨s.objref_id + 1, s.gc.next⟩ := by rw [← hr]; rfl
      refine ⟨ho, ?_, hr2, hm⟩
      intro ref hl
      exfalso
      unfold obj_to_objref_lookup at hl
      cases ht : s.obj_to_objref with
      | none => simp [ht] at hl
      | some t =>
        simp only [ht] at hl hf
        rw [hl] at hf
        cases hf
  | some ref =>
    simp only [hf] at h
    have hl : obj_to_objref_lookup s obj = some ref := by
      unfold obj_to_objref_lookup
      cases ht : s.obj_to_objref with
      | none => simp [ht, g_hash_table_lookup] at hf
      | some t => simpa [ht] using hf
    by_cases hlive : mono_gchandle_get_target s.gc ref.handle = obj
    · left
      simp only [hlive, decide_True, Option.some.injEq, Prod.mk.injEq] at h
      obtain ⟨hs1, hr⟩ := h
      subst hs1
      refine ⟨ho, ref, hr.symm, hl, hlive, rfl, rfl, rfl, ?_⟩
      intro o
      unfold obj_to_objref_lookup
      cases ht : s.obj_to_objref with
      | none => simp [ht, g_hash_table_lookup] at hf
      | some t => rfl
    · right
      simp only [hlive, decide_False] at h
      cases hobjs : s.objrefs with
      | none => simp [hobjs] at h
      | some t =>
        simp only [hobjs, Option.some.injEq, Prod.mk.injEq] at h
        obtain ⟨hs1, hr⟩ := h
        have hm := get_objref_mint s s1 obj t _ hobjs rfl (by rw [← hs1]) (by rw [← hs1]; rfl)
          (by rw [← hs1]; rfl) (by rw [← hs1])
        have hr2 : r = some ⟨s.objref_id + 1, s.gc.next⟩ := by rw [← hr]; rfl
        refine ⟨ho, ?_, hr2, hm⟩
        intro ref2 hl2
        rw [hl] at hl2
        simp only [Option.some.injEq] at hl2
        subst hl2
        exact hlive

/-- What one event of the object registry preserves. -/
theorem obj_step_keeps (s s1 : ObjState) (op : ObjOp) (hstep : op.step s = some s1)
    (hc : objrefs_consistent s) :
    objrefs_consistent s1 ∧
    (∀ id ref, objrefs_lookup s id = some ref → objrefs_lookup s1 id = some ref) ∧
    (∀ h o, h < s.gc.next → o ≠ 0 → mono_gchandle_get_target s.gc h ≠ o →
      mono_gchandle_get_target s1.gc h ≠ o) ∧
    (∀ obj ref, obj ≠ 0 → op ≠ ObjOp.collect obj → obj_to_objref_lookup s obj = some ref →
      mono_gchandle_get_target s.gc ref.handle = obj →
      obj_to_objref_lookup s1 obj = some ref ∧
      mono_gchandle_get_target s1.gc ref.handle = obj) := by
  obtain ⟨hc1, hc2, hc3⟩ := hc
  cases op with
  | collect o =>
    simp only [ObjOp.step, Option.some.injEq] at hstep
    subst hstep
    refine ⟨⟨hc1, hc2, hc3⟩, fun _ _ h => h, ?_, ?_⟩
    · intro h o2 _ ho2 hne
      simp only [get_target_collect]
      split
      · exact fun e => ho2 e.symm
      · exact hne
    · intro obj ref _ hop hl ht
      refine ⟨hl, ?_⟩
      have hoo : ¬ obj = o := fun e => hop (by rw [e])
      simp only [get_target_collect, ht, hoo, if_false]
  | call_get_objref o =>
    simp only [ObjOp.step] at hstep
    cases hg : get_objref s o with
    | none => simp [hg] at hstep
    | some res =>
      obtain ⟨s2, r⟩ := res
      simp only [hg, Option.map_some', Option.some.injEq] at hstep
      subst hstep
      rcases get_objref_result s s2 o r hg with ⟨_, hs, _⟩ |
        ⟨_, ref0, _, _, _, hid, hobjs, hgc, hsame⟩ |
        ⟨ho, hdead, _, hid, hgc, hob, hoo, hex⟩
      · subst hs
        exact ⟨⟨hc1, hc2, hc3⟩, fun _ _ h => h, fun _ _ _ _ h => h, fun _ _ _ _ hl ht => ⟨hl, ht⟩⟩
      · have hlk : ∀ id, objrefs_lookup s2 id = objrefs_lookup s id := by
          intro id; simp only [objrefs_lookup, hobjs]
        refine ⟨⟨by rw [hobjs]; exact hc1, ?_, ?_⟩, ?_, ?_, ?_⟩
        · intro obj ref hl
          rw [hsame] at hl
          rw [hlk]
          exact hc2 obj ref hl
        · intro id ref hl
          rw [hlk] at hl
          rw [hid, hgc]
          exact hc3 id ref hl
        · intro id ref hl
          rw [hlk]; exact hl
        · intro h o2 _ _ hne
          rw [hgc]; exact hne
        · intro obj ref _ _ hl ht
          rw [hsame, hgc]
          exact ⟨hl, ht⟩
      · have hnext : s2.gc.next = s.gc.next + 1 := by rw [hgc]; rfl
        refine ⟨⟨hex, ?_, ?_⟩, ?_, ?_, ?_⟩
        · intro obj ref hl
          rw [hoo] at hl
          rw [hob]
          by_cases hobj : obj = o
          · simp only [hobj, if_true, Option.some.injEq] at hl
            subst hl
            simp
          · simp only [hobj, if_false] at hl
            have h3 := hc3 _ _ (hc2 obj ref hl)
            have hne : ¬ ref.id = s.objref_id + 1 := by omega
            simp only [hne, if_false]
            exact hc2 obj ref hl
        · intro id ref hl
          rw [hob] at hl
          by_cases hi : id = s.objref_id + 1
          · simp only [hi, if_true, Option.some.injEq] at hl
            subst hl
            simp only [hi, hid, hnext]
            exact ⟨trivial, le_refl _, by omega⟩
          · simp only [hi, if_false] at hl
            have h3 := hc3 id ref hl
            rw [hid, hnext]
            exact ⟨h3.1, by omega, by omega⟩
        · intro id ref hl
          rw [hob]
          have h3 := hc3 id ref hl
          have hne : ¬ id = s.objref_id + 1 := by omega
          simp only [hne, if_false]
          exact hl
        · intro h o2 hh _ hne
          rw [hgc, get_target_new_weakref_ne _ _ _ (by omega)]
          exact hne
        · intro obj ref _ _ hl ht
          have hobj : ¬ obj = o := by
            intro e
            subst e
            exact hdead ref hl ht
          rw [hoo]
          simp only [hobj, if_false]
          have h3 := hc3 _ _ (hc2 obj ref hl)
          refine ⟨hl, ?_⟩
          rw [hgc, get_target_new_weakref_ne _ _ _ (by omega)]
          exact ht

theorem objrefs_consistent_init : objrefs_consistent objrefs_init := by
  refine ⟨⟨[], rfl⟩, ?_, ?_⟩
  · intro obj ref h
    simp [obj_to_objref_lookup, objrefs_init] at h
  · intro id ref h
    simp [objrefs_lookup, objrefs_init, g_hash_table_lookup] at h

theorem objrefs_consistent_run (ops : List ObjOp) (s s2 : ObjState)
    (hrun : run_obj_ops s ops = some s2) (hc : objrefs_consistent s) :
    objrefs_consistent s2 := by
  induction ops generalizing s with
  | nil =>
    simp only [run_obj_ops, Option.some.injEq] at hrun
    subst hrun
    exact hc
  | cons op rest ih =>
    simp only [run_obj_ops] at hrun
    cases hstep : op.step s with
    | none => simp [hstep] at hrun
    | some s1 =>
      simp only [hstep] at hrun
      exact ih s1 hrun (obj_step_keeps s s1 op hstep hc).1

/-- While the object is not collected, the record bound to its address stays bound
and its handle keeps resolving to the object. -/
theorem run_keeps_live_record (ops : List ObjOp) (s s2 : ObjState) (obj : Nat) (ref : ObjRef)
    (hrun : run_obj_ops s ops = some s2) (hc : objrefs_consistent s) (hobj : obj ≠ 0)
    (hops : ObjOp.collect obj ∉ ops)
    (hl : obj_to_objref_lookup s obj = some ref)
    (ht : mono_gchandle_get_target s.gc ref.handle = obj) :
    obj_to_objref_lookup s2 obj = some ref ∧
    mono_gchandle_get_target s2.gc ref.handle = obj := by
  induction ops generalizing s with
  | nil =>
    simp only [run_obj_ops, Option.some.injEq] at hrun
    subst hrun
    exact ⟨hl, ht⟩
  | cons op rest ih =>
    simp only [run_obj_ops] at hrun
    cases hstep : op.step s with
    | none => simp [hstep] at hrun
    | some s1 =>
      simp only [hstep] at hrun
      have hop : op ≠ ObjOp.collect obj := fun h => hops (by simp [h])
      have hrest : ObjOp.collect obj ∉ rest := fun h => hops (by simp [h])
      obtain ⟨hc1, _, _, hk⟩ := obj_step_keeps s s1 op hstep hc
      obtain ⟨hl1, ht1⟩ := hk obj ref hobj hop hl ht
      exact ih s1 hrun hc1 hrest hl1 ht1

/-- A record whose handle does not resolve to `obj` stays bound to its id and never
resolves to `obj` later. -/
theorem run_keeps_stale_record (ops : List ObjOp) (s s2 : ObjState) (obj : Nat) (id : Int)
    (ref : ObjRef) (hrun : run_obj_ops s ops = some s2) (hc : objrefs_consistent s)
    (hobj : obj ≠ 0) (hl : objrefs_lookup s id = some ref)
    (ht : mono_gchandle_get_target s.gc ref.handle ≠ obj) :
    objrefs_lookup s2 id = some ref ∧ mono_gchandle_get_target s2.gc ref.handle ≠ obj := by
  induction ops generalizing s with
  | nil =>
    simp only [run_obj_ops, Option.some.injEq] at hrun
    subst hrun
    exact ⟨hl, ht⟩
  | cons op rest ih =>
    simp only [run_obj_ops] at hrun
    cases hstep : op.step s with
    | none => simp [hstep] at hrun
    | some s1 =>
      simp only [hstep] at hrun
      obtain ⟨hc1, hk, hd, _⟩ := obj_step_keeps s s1 op hstep hc
      have h3 := hc.2.2 id ref hl
      exact ih s1 hrun hc1 (hk id ref hl) (hd ref.handle obj h3.2.2 hobj ht)

/-- Claim C5: for an object whose address has a record, `get_objref` returns that
same record (and so the same wire id) on every request while the weak handle of the
record resolves to the object; when the handle resolves to another object or to
nothing, a new record is made whose id is greater than every id issued before, and
the old id never resolves to the object afterwards. -/
theorem get_objref_same_or_new (pre : List ObjOp) (s : ObjState) (obj : Nat) (ref : ObjRef)
    (hs : run_obj_ops objrefs_init pre = some s) (hobj : obj ≠ 0)
    (hrec : obj_to_objref_lookup s obj = some ref) :
    (mono_gchandle_get_target s.gc ref.handle = obj →
      ∀ later s2, ObjOp.collect obj ∉ later → run_obj_ops s later = some s2 →
        ∃ s3, get_objref s2 obj = some (s3, some ref)) ∧
    (mono_gchandle_get_target s.gc ref.handle ≠ obj →
      ∃ s1 ref1, get_objref s obj = some (s1, some ref1) ∧
        ref1.id = s.objref_id + 1 ∧
        (∀ id r, objrefs_lookup s id = some r → r.id < ref1.id) ∧
        ref.id < ref1.id ∧
        ∀ later s2, run_obj_ops s1 later = some s2 →
          (get_object_allow_null s2 ref.id).2 ≠ obj) := by
  have hc : objrefs_consistent s :=
    objrefs_consistent_run pre objrefs_init s hs objrefs_consistent_init
  constructor
  · intro hlive later s2 hno hrun
    obtain ⟨hl2, ht2⟩ := run_keeps_live_record later s s2 obj ref hrun hc hobj hno hrec hlive
    have hc2 := objrefs_consistent_run later s s2 hrun hc
    unfold obj_to_objref_lookup at hl2
    cases htb : s2.obj_to_objref with
    | none => simp [htb] at hl2
    | some t =>
      simp only [htb] at hl2
      simp only [get_objref, hobj, if_false, htb, hl2, ht2, decide_True]
      exact ⟨_, rfl⟩
  · intro hdead
    obtain ⟨t, hobjs⟩ := hc.1
    have hstale : objrefs_lookup s ref.id = some ref := hc.2.1 obj ref hrec
    have hg : ∃ s1, get_objref s obj = some (s1, some ⟨s.objref_id + 1, s.gc.next⟩) := by
      unfold obj_to_objref_lookup at hrec
      cases htb : s.obj_to_objref with
      | none => simp [htb] at hrec
      | some t0 =>
        simp only [htb] at hrec
        simp only [get_objref, hobj, if_false, htb, hrec, hdead, decide_False, hobjs]
        exact ⟨_, rfl⟩
    obtain ⟨s1, hg1⟩ := hg
    have hstep : (ObjOp.call_get_objref obj).step s = some s1 := by
      simp [ObjOp.step, hg1]
    obtain ⟨hc1, hk, hd, _⟩ := obj_step_keeps s s1 _ hstep hc
    refine ⟨s1, _, hg1, rfl, ?_, ?_, ?_⟩
    · intro id r hl
      have h3 := hc.2.2 id r hl
      show r.id < s.objref_id + 1
      omega
    · have h3 := hc.2.2 _ _ hstale
      show ref.id < s.objref_id + 1
      omega
    · intro later s2 hrun
      have h3 := hc.2.2 _ _ hstale
      obtain ⟨hl2, ht2⟩ := run_keeps_stale_record later s1 s2 obj ref.id ref hrun hc1 hobj
        (hk _ _ hstale) (hd ref.handle obj h3.2.2 hobj hdead)
      unfold get_object_allow_null
      by_cases hz : ref.id = 0
      · simp only [hz, if_true]
        exact fun e => hobj e.symm
      · simp only [hz, if_false]
        unfold objrefs_lookup at hl2
        cases hobjs2 : s2.objrefs with
        | none => simp [hobjs2] at hl2
        | some t2 =>
          simp only [hobjs2] at hl2
          simp only [hl2]
          split
          · exact fun e => hobj e.symm
          · exact ht2

theorem get_objref_same_or_new_witness :
    ∃ s1 ref1, get_objref objrefs_example 100 = some (s1, some ref1) ∧ ref1.id = 2 := by
  obtain ⟨s1, ref1, hg, hid, _⟩ :=
    (get_objref_same_or_new [ObjOp.call_get_objref 100, ObjOp.collect 100] objrefs_example 100
      ⟨1, 1⟩ rfl (by decide) rfl).2 (by decide)
  exact ⟨s1, ref1, hg, hid⟩

/-! ### Suspend/resume coordinator -/

theorem count_thread_foldl (l : GHashTable Nat DebuggerTlsData) (c : Int) :
    c ≤ l.foldl (fun count e => count_thread e.2 count) c ∧
    (l.foldl (fun count e => count_thread e.2 count) c = c ↔
      ∀ e ∈ l, e.2.attached = true → e.2.terminated = false → e.2.suspended = true) := by
  induction l generalizing c with
  | nil => simp
  | cons e l ih =>
    simp only [List.foldl_cons, List.mem_cons, forall_eq_or_imp]
    obtain ⟨h1, h2⟩ := ih (count_thread e.2 c)
    by_cases hp : (!e.2.suspended && !e.2.terminated && e.2.attached) = true
    · have hc : count_thread e.2 c = c + 1 := by simp only [count_thread, hp, if_true]
      rw [hc] at h1 h2 ⊢
      refine ⟨by omega, ?_⟩
      constructor
      · intro h; omega
      · intro h
        exfalso
        simp only [Bool.and_eq_true, Bool.not_eq_true'] at hp
        have := h.1 hp.2 hp.1.2
        rw [hp.1.1] at this
        cases this
    · have hc : count_thread e.2 c = c := by simp only [count_thread, hp]; rfl
      rw [hc] at h1 h2 ⊢
      refine ⟨h1, ?_⟩
      rw [h2]
      constructor
      · intro h
        refine ⟨?_, h⟩
        intro ha ht
        cases hs : e.2.suspended with
        | true => rfl
        | false => simp [hs, ht, ha] at hp
      · intro h; exact h.2

/-- Claim C7 as stated fails: after an interrupt taken in native code the only
attached thread is flagged `suspended` but not `really_suspended`, and `is_suspended`
returns true. -/
theorem is_suspended_really_suspended_counterexample :
    ¬ (is_suspended suspend_example = true ↔
        ∀ e ∈ suspend_example.thread_to_tls,
          e.2.attached = true → e.2.really_suspended = true) := by
  decide

/-- Claim C7, amended: `is_suspended` returns true if and only if every thread of the
thread table that is attached and not terminated has its `suspended` flag set. -/
theorem is_suspended_iff (s : SuspendState) :
    is_suspended s = true ↔
      ∀ e ∈ s.thread_to_tls, e.2.attached = true → e.2.terminated = false →
        e.2.suspended = true := by
  unfold is_suspended count_threads_to_wait_for
  rw [decide_eq_true_iff]
  exact (count_thread_foldl s.thread_to_tls 0).2

/-! ### Breakpoints -/

theorem bp_locs_count_insert (s : BreakpointState) (ip ip2 : Int) (c : Int)
    (patched : List Int) (calls : List ArchCall) :
    bp_locs_count { bp_locs := g_hash_table_insert s.bp_locs ip c, patched := patched,
                    arch_calls := calls } ip2
      = if ip2 = ip then c else bp_locs_count s ip2 := by
  unfold bp_locs_count
  by_cases h : ip2 = ip
  · subst h
    simp [g_hash_table_lookup_insert_self]
  · simp [g_hash_table_lookup_insert_ne _ _ _ _ h, h]

theorem instances_at_cons (inst : BreakpointInstance) (live : List BreakpointInstance)
    (ip : Int) :
    instances_at (inst :: live) ip = instances_at live ip + (if inst.ip = ip then 1 else 0) := by
  unfold instances_at
  by_cases h : inst.ip = ip
  · simp [List.filter, h]
  · simp [List.filter, h]

theorem instances_at_nonneg (live : List BreakpointInstance) (ip : Int) :
    0 ≤ instances_at live ip := by
  unfold instances_at
  omega

theorem instances_at_erase (inst : BreakpointInstance) (live : List BreakpointInstance)
    (ip : Int) (hmem : inst ∈ live) :
    instances_at (live.erase inst) ip
      = instances_at live ip - (if inst.ip = ip then 1 else 0) := by
  induction live with
  | nil => cases hmem
  | cons a l ih =>
    by_cases ha : a = inst
    · subst ha
      rw [List.erase_cons_head, instances_at_cons]
      omega
    · have hmem2 : inst ∈ l := by
        rcases List.mem_cons.mp hmem with h | h
        · exact absurd h.symm ha
        · exact h
      have hne : ¬ (a == inst) = true := by simpa using ha
      rw [List.erase_cons_tail hne, instances_at_cons, instances_at_cons, ih hmem2]
      omega

theorem instances_at_pos_of_mem (inst : BreakpointInstance) (live : List BreakpointInstance)
    (hmem : inst ∈ live) : 0 < instances_at live inst.ip := by
  induction live with
  | nil => cases hmem
  | cons a l ih =>
    rw [instances_at_cons]
    rcases List.mem_cons.mp hmem with h | h
    · subst h
      have := instances_at_nonneg l inst.ip
      simp
      omega
    · have := ih h
      split <;> omega

theorem insert_breakpoint_scan_first (seq_points : List SeqPoint) (x : Int) (sp : SeqPoint)
    (h : insert_breakpoint_scan seq_points x = some sp) :
    ∃ before after, seq_points = before ++ sp :: after ∧
      (∀ q ∈ before, q.il_offset < x) ∧ x ≤ sp.il_offset := by
  induction seq_points with
  | nil => simp [insert_breakpoint_scan] at h
  | cons a l ih =>
    simp only [insert_breakpoint_scan] at h
    by_cases ha : a.il_offset ≥ x
    · simp only [ha, if_true, Option.some.injEq] at h
      subst h
      exact ⟨[], l, rfl, by simp, ha⟩
    · simp only [ha, if_false] at h
      obtain ⟨before, after, h1, h2, h3⟩ := ih h
      refine ⟨a :: before, after, by rw [h1]; rfl, ?_, h3⟩
      intro q hq
      rcases List.mem_cons.mp hq with e | e
      · subst e; omega
      · exact h2 q e

theorem insert_breakpoint_scan_none (seq_points : List SeqPoint) (x : Int) :
    insert_breakpoint_scan seq_points x = none ↔ ∀ q ∈ seq_points, q.il_offset < x := by
  induction seq_points with
  | nil => simp [insert_breakpoint_scan]
  | cons a l ih =>
    simp only [insert_breakpoint_scan, List.mem_cons, forall_eq_or_imp]
    by_cases ha : a.il_offset ≥ x
    · simp only [ha, if_true]
      constructor
      · intro h; cases h
      · intro h; omega
    · simp only [ha, if_false, ih]
      constructor
      · intro h; exact ⟨by omega, h⟩
      · intro h; exact h.2

/-- An insertion keeps the invariant of `bp_locs`. -/
theorem insert_breakpoint_consistent (s : BreakpointState) (live : List BreakpointInstance)
    (seq_points : List SeqPoint) (domain : Nat) (ji : MonoJitInfo) (bp : MonoBreakpoint)
    (hc : bp_locs_consistent s live) :
    bp_locs_consistent (insert_breakpoint s seq_points domain ji bp).1
      (match insert_breakpoint_inst seq_points domain ji bp with
       | none => live
       | some inst => inst :: live) := by
  obtain ⟨h1, h2⟩ := hc
  unfold insert_breakpoint
  cases hi : insert_breakpoint_inst seq_points domain ji bp with
  | none => exact ⟨h1, h2⟩
  | some inst =>
    simp only
    by_cases h0 : bp_locs_count s inst.ip = 0
    · simp only [h0, if_true, mono_arch_set_breakpoint]
      constructor
      · intro ip
        rw [bp_locs_count_insert, instances_at_cons, ← h1 ip]
        by_cases e : ip = inst.ip
        · subst e; simp [h0]
        · have e2 : ¬ inst.ip = ip := fun h => e h.symm
          simp [e, e2]
      · intro ip
        rw [bp_locs_count_insert]
        by_cases e : ip = inst.ip
        · subst e; simp
        · simp only [e, if_false, List.mem_cons, false_or, List.mem_filter, decide_eq_true_eq,
            ne_eq, not_false_eq_true, and_true]
          exact h2 ip
    · simp only [h0, if_false]
      constructor
      · intro ip
        rw [bp_locs_count_insert, instances_at_cons, ← h1 ip]
        by_cases e : ip = inst.ip
        · subst e; simp
        · have e2 : ¬ inst.ip = ip := fun h => e h.symm
          simp [e, e2]
      · intro ip
        rw [bp_locs_count_insert]
        by_cases e : ip = inst.ip
        · rw [e]
          have hp := (h2 inst.ip).2
          have hn := instances_at_nonneg live inst.ip
          rw [← h1 inst.ip] at hn
          have hpos : bp_locs_count s inst.ip > 0 := by omega
          simp only [if_true]
          constructor
          · intro _; omega
          · intro _; exact hp hpos
        · simp only [e, if_false]
          exact h2 ip

/-- A removal of a live instance passes the assertion and keeps the invariant. -/
theorem remove_breakpoint_consistent (s : BreakpointState) (live : List BreakpointInstance)
    (inst : BreakpointInstance) (hc : bp_locs_consistent s live) (hmem : inst ∈ live) :
    ∃ s1, remove_breakpoint s inst = some s1 ∧ bp_locs_consistent s1 (live.erase inst) ∧
      s1.arch_calls = s.arch_calls ++
        (if bp_locs_count s inst.ip = 1 then [ArchCall.clear_breakpoint inst.ip] else []) := by
  obtain ⟨h1, h2⟩ := hc
  have hpos : bp_locs_count s inst.ip > 0 := by
    rw [h1]; exact instances_at_pos_of_mem inst live hmem
  unfold remove_breakpoint
  simp only [hpos, not_true_eq_false, if_false]
  by_cases hone : bp_locs_count s inst.ip = 1
  · simp only [hone, if_true]
    refine ⟨_, rfl, ⟨?_, ?_⟩, rfl⟩
    · intro ip
      simp only [mono_arch_clear_breakpoint]
      rw [bp_locs_count_insert, instances_at_erase inst live ip hmem, ← h1 ip]
      by_cases e : ip = inst.ip
      · subst e; simp [hone]
      · have e2 : ¬ inst.ip = ip := fun h => e h.symm
        simp [e, e2]
    · intro ip
      simp only [mono_arch_clear_breakpoint]
      rw [bp_locs_count_insert]
      by_cases e : ip = inst.ip
      · subst e; simp
      · simp only [e, if_false, List.mem_filter, decide_eq_true_eq, ne_eq, not_false_eq_true,
          and_true]
        exact h2 ip
  · simp only [hone, if_false]
    refine ⟨_, rfl, ⟨?_, ?_⟩, by simp⟩
    · intro ip
      rw [bp_locs_count_insert, instances_at_erase inst live ip hmem, ← h1 ip]
      by_cases e : ip = inst.ip
      · subst e; simp
      · have e2 : ¬ inst.ip = ip := fun h => e h.symm
        simp [e, e2]
    · intro ip
      rw [bp_locs_count_insert]
      by_cases e : ip = inst.ip
      · rw [e]
        simp only [if_true]
        constructor
        · intro _; omega
        · intro _; exact (h2 inst.ip).2 hpos
      · simp only [e, if_false]
        exact h2 ip

theorem run_bp_ops_consistent (ops : List BpOp) (s s2 : BreakpointState)
    (live live2 : List BreakpointInstance) (hc : bp_locs_consistent s live)
    (hrun : run_bp_ops s live ops = some (s2, live2)) : bp_locs_consistent s2 live2 := by
  induction ops generalizing s live with
  | nil =>
    simp only [run_bp_ops, Option.some.injEq, Prod.mk.injEq] at hrun
    obtain ⟨e1, e2⟩ := hrun
    subst e1 e2
    exact hc
  | cons op rest ih =>
    cases op with
    | insert seq_points domain ji bp =>
      simp only [run_bp_ops] at hrun
      exact ih _ _ (insert_breakpoint_consistent s live seq_points domain ji bp hc) hrun
    | remove inst =>
      simp only [run_bp_ops] at hrun
      by_cases hmem : inst ∈ live
      · simp only [hmem, if_true] at hrun
        obtain ⟨s1, hr, hc1, _⟩ := remove_breakpoint_consistent s live inst hc hmem
        rw [hr] at hrun
        exact ih _ _ hc1 hrun
      · simp [hmem] at hrun

theorem bp_locs_consistent_init : bp_locs_consistent breakpoints_init [] := by
  constructor
  · intro ip; rfl
  · intro ip
    simp [breakpoints_init, bp_locs_count, g_hash_table_lookup]

/-- Claim C9: `insert_breakpoint` binds the new instance to the first sequence point,
in table order, whose IL offset is at least the requested one, and the instruction
at that sequence point's native offset is patched afterwards; when no sequence point
has such an IL offset, no instance is added and the state is unchanged. -/
theorem insert_breakpoint_first_seq_point (ops : List BpOp) (s : BreakpointState)
    (live : List BreakpointInstance)
    (hrun : run_bp_ops breakpoints_init [] ops = some (s, live))
    (seq_points : List SeqPoint) (domain : Nat) (ji : MonoJitInfo) (bp : MonoBreakpoint) :
    ((∀ q ∈ seq_points, q.il_offset < bp.il_offset) →
      insert_breakpoint s seq_points domain ji bp = (s, bp)) ∧
    ((∃ q ∈ seq_points, bp.il_offset ≤ q.il_offset) →
      ∃ before sp after, seq_points = before ++ sp :: after ∧
        (∀ q ∈ before, q.il_offset < bp.il_offset) ∧ bp.il_offset ≤ sp.il_offset ∧
        (insert_breakpoint s seq_points domain ji bp).2.children
          = bp.children ++ [⟨0, sp.native_offset, (ji.code_start : Int) + sp.native_offset,
              ji, domain⟩] ∧
        (ji.code_start : Int) + sp.native_offset
          ∈ (insert_breakpoint s seq_points domain ji bp).1.patched) := by
  have hc := run_bp_ops_consistent ops breakpoints_init s [] live bp_locs_consistent_init hrun
  constructor
  · intro hall
    have hn := (insert_breakpoint_scan_none seq_points bp.il_offset).2 hall
    simp [insert_breakpoint, insert_breakpoint_inst, hn]
  · rintro ⟨q, hq, hle⟩
    cases hscan : insert_breakpoint_scan seq_points bp.il_offset with
    | none =>
      have := (insert_breakpoint_scan_none seq_points bp.il_offset).1 hscan q hq
      omega
    | some sp =>
      obtain ⟨before, after, h1, h2, h3⟩ :=
        insert_breakpoint_scan_first seq_points bp.il_offset sp hscan
      have hinst : insert_breakpoint_inst seq_points domain ji bp
          = some ⟨0, sp.native_offset, (ji.code_start : Int) + sp.native_offset, ji, domain⟩ := by
        simp [insert_breakpoint_inst, hscan]
      have hc1 := insert_breakpoint_consistent s live seq_points domain ji bp hc
      rw [hinst] at hc1
      simp only at hc1
      refine ⟨before, sp, after, h1, h2, h3, ?_, ?_⟩
      · unfold insert_breakpoint
        rw [hinst]
        simp only
        split <;> rfl
      · rw [hc1.2, hc1.1, instances_at_cons]
        have := instances_at_nonneg live ((ji.code_start : Int) + sp.native_offset)
        simp
        omega

theorem insert_breakpoint_first_seq_point_witness :
    ∃ before sp after, seq_points_example = before ++ sp :: after ∧
      (∀ q ∈ before, q.il_offset < 3) ∧ 3 ≤ sp.il_offset ∧
      (insert_breakpoint breakpoints_init seq_points_example 1 ji_example ⟨5, 3, 1, []⟩).2.children
        = [] ++ [⟨0, sp.native_offset, (ji_example.code_start : Int) + sp.native_offset,
            ji_example, 1⟩] ∧
      (ji_example.code_start : Int) + sp.native_offset
        ∈ (insert_breakpoint breakpoints_init seq_points_example 1 ji_example
            ⟨5, 3, 1, []⟩).1.patched :=
  (insert_breakpoint_first_seq_point [] breakpoints_init [] rfl seq_points_example 1 ji_example
    ⟨5, 3, 1, []⟩).2 ⟨⟨4, 16, [2]⟩, by decide, by decide⟩

/-- Claim C10: after every sequence of `insert_breakpoint` and `remove_breakpoint`
calls in which each removal is of an instance inserted earlier and not yet removed,
the count stored for an address is the number of live instances at the address and
the address is patched exactly when the count is positive; the next insertion writes
the patch only when the count was 0, and the next removal of a live instance removes
it only when the count was 1. -/
theorem bp_locs_counts_live_instances (ops : List BpOp) (s : BreakpointState)
    (live : List BreakpointInstance)
    (hrun : run_bp_ops breakpoints_init [] ops = some (s, live)) :
    (∀ ip, bp_locs_count s ip = instances_at live ip) ∧
    (∀ ip, ip ∈ s.patched ↔ bp_locs_count s ip > 0) ∧
    (∀ seq_points domain ji bp,
      (insert_breakpoint s seq_points domain ji bp).1.arch_calls = s.arch_calls ++
        (match insert_breakpoint_inst seq_points domain ji bp with
         | some inst =>
           if bp_locs_count s inst.ip = 0 then [ArchCall.set_breakpoint inst.ip] else []
         | none => [])) ∧
    (∀ inst, inst ∈ live →
      ∃ s1, remove_breakpoint s inst = some s1 ∧
        s1.arch_calls = s.arch_calls ++
          (if bp_locs_count s inst.ip = 1 then [ArchCall.clear_breakpoint inst.ip] else [])) := by
  have hc := run_bp_ops_consistent ops breakpoints_init s [] live bp_locs_consistent_init hrun
  refine ⟨hc.1, hc.2, ?_, ?_⟩
  · intro seq_points domain ji bp
    unfold insert_breakpoint
    cases hi : insert_breakpoint_inst seq_points domain ji bp with
    | none => simp
    | some inst =>
      simp only
      by_cases h0 : bp_locs_count s inst.ip = 0
      · simp [h0, mono_arch_set_breakpoint]
      · simp [h0]
  · intro inst hmem
    obtain ⟨s1, hr, _, hcalls⟩ := remove_breakpoint_consistent s live inst hc hmem
    exact ⟨s1, hr, hcalls⟩

theorem bp_locs_counts_live_instances_witness :
    bp_locs_count
      (insert_breakpoint
        (insert_breakpoint breakpoints_init seq_points_example 1 ji_example ⟨5, 3, 1, []⟩).1
        seq_points_example 1 ji_example ⟨5, 4, 2, []⟩).1 1016 = 2 :=
  (bp_locs_counts_live_instances
    [BpOp.insert seq_points_example 1 ji_example ⟨5, 3, 1, []⟩,
     BpOp.insert seq_points_example 1 ji_example ⟨5, 4, 2, []⟩]
    (insert_breakpoint
      (insert_breakpoint breakpoints_init seq_points_example 1 ji_example ⟨5, 3, 1, []⟩).1
      seq_points_example 1 ji_example ⟨5, 4, 2, []⟩).1
    [⟨0, 16, 1016, ji_example, 1⟩, ⟨0, 16, 1016, ji_example, 1⟩] rfl).1 1016

/-! ### The suspend count -/

theorem suspend_vm_count (s : SuspendState) (cur : Nat) :
    (suspend_vm s cur).suspend_count = s.suspend_count + 1 ∧
    (suspend_vm s cur).debugger_thread_id = s.debugger_thread_id := by
  unfold suspend_vm
  simp only
  split <;> simp [start_single_stepping]

theorem resume_vm_count (s s1 : SuspendState) (cur : Nat) (h : resume_vm s cur = some s1) :
    s.suspend_count > 0 ∧ s1.suspend_count = s.suspend_count - 1 ∧
    s1.debugger_thread_id = s.debugger_thread_id := by
  unfold resume_vm at h
  by_cases h1 : s.debugger_thread_id ≠ cur
  · simp [h1] at h
  · by_cases h2 : s.suspend_count > 0
    · simp only [h1, if_false, h2, not_true_eq_false] at h
      split at h
      · simp only [Option.some.injEq] at h
        subst h
        exact ⟨h2, by simp [stop_single_stepping], by simp [stop_single_stepping]⟩
      · simp only [Option.some.injEq] at h
        subst h
        exact ⟨h2, rfl, rfl⟩
    · simp [h1, h2] at h

theorem start_single_stepping_count (c : SuspendState) :
    (start_single_stepping c).suspend_count = c.suspend_count ∧
    (start_single_stepping c).debugger_thread_id = c.debugger_thread_id ∧
    (start_single_stepping c).thread_to_tls = c.thread_to_tls := ⟨rfl, rfl, rfl⟩

theorem toUInt32_of_nonneg (c : Int) (h0 : 0 ≤ c) (h1 : c < 2 ^ 32) : toUInt32 c = c.toNat := by
  unfold toUInt32
  rw [Int.emod_eq_of_lt h0 h1]

theorem toInt32_of_lt (n : Nat) (h : n < 2 ^ 31) : toInt32 n = (n : Int) := by
  unfold toInt32
  have h2 : n % 2 ^ 32 = n := Nat.mod_eq_of_lt (by omega)
  rw [h2, if_pos h]

/-- What `resume_thread` does when its assertions hold and the sum does not leave
the positive range of an `int`. -/
theorem resume_thread_eq (s : SuspendState) (t : Nat) (tls : DebuggerTlsData)
    (ht : g_hash_table_lookup s.thread_to_tls t = some tls) (hc : 0 < s.suspend_count)
    (hb : (tls.resume_count : Int) + s.suspend_count < 2 ^ 31) :
    resume_thread s s.debugger_thread_id t =
      some (s.with_tls t (tls.with_resume_count (tls.resume_count + s.suspend_count.toNat))) := by
  have h1 : toUInt32 s.suspend_count = s.suspend_count.toNat :=
    toUInt32_of_nonneg _ (by omega) (by omega)
  have h2 : (tls.resume_count + s.suspend_count.toNat) % 2 ^ 32
      = tls.resume_count + s.suspend_count.toNat := Nat.mod_eq_of_lt (by omega)
  simp only [resume_thread, ne_eq, not_true_eq_false, if_false, ht, hc, h1, h2]
  rfl

theorem suspend_current_leave_eq (c : SuspendState) (t : Nat) (x : DebuggerTlsData)
    (hl : g_hash_table_lookup c.thread_to_tls t = some x)
    (hw : suspend_wait_condition c x = false) :
    ∃ c1 y, suspend_current_leave c t = some c1 ∧
      g_hash_table_lookup c1.thread_to_tls t = some y ∧
      y.resume_count = x.resume_count ∧
      y.pending_invoke = x.pending_invoke.map (fun i => { i with has_ctx := true }) ∧
      y.invoke = x.invoke ∧
      c1.suspend_count = c.suspend_count ∧ c1.debugger_thread_id = c.debugger_thread_id := by
  simp only [suspend_current_leave, hl, hw, Bool.false_eq_true, if_false]
  cases hpi : x.pending_invoke with
  | none => exact ⟨_, _, rfl, g_hash_table_lookup_insert_self _ _ _, rfl, rfl, rfl, rfl, rfl⟩
  | some i => exact ⟨_, _, rfl, g_hash_table_lookup_insert_self _ _ _, rfl, rfl, rfl, rfl, rfl⟩

theorem invoke_method_end_single (c : SuspendState) (t : Nat) (x : DebuggerTlsData)
    (invoke : InvokeData) (rest : List InvokeData)
    (hl : g_hash_table_lookup c.thread_to_tls t = some x)
    (hi : x.invoke = invoke :: rest)
    (hsingle : toUInt32 invoke.flags &&& INVOKE_FLAG_SINGLE_THREADED ≠ 0)
    (hr : x.resume_count ≠ 0) (hdbg : c.debugger_thread_id ≠ t) :
    ∃ c1 y, invoke_method_end c t invoke = some c1 ∧
      g_hash_table_lookup c1.thread_to_tls t = some y ∧
      y.resume_count = (x.resume_count + 2 ^ 32 - invoke.suspend_count % 2 ^ 32) % 2 ^ 32 ∧
      c1.suspend_count = c.suspend_count := by
  cases hcx : invoke.has_ctx with
  | false =>
    simp only [invoke_method_end, hsingle, if_false, hl, ne_eq, not_false_eq_true, if_true, hr,
      hi, suspend_current_enter, hdbg, g_hash_table_lookup_insert_self, hcx, Bool.false_eq_true]
    exact ⟨_, _, rfl, g_hash_table_lookup_insert_self _ _ _, rfl, rfl⟩
  | true =>
    simp only [invoke_method_end, hsingle, if_false, hl, ne_eq, not_false_eq_true, if_true, hr,
      hi, suspend_current_enter, hdbg, g_hash_table_lookup_insert_self, hcx]
    exact ⟨_, _, rfl, g_hash_table_lookup_insert_self _ _ _, rfl, rfl⟩

/-- Claim C8: `resume_thread (t)`, called with `suspend_count = c > 0`, raises the
`resume_count` of `t` by `c` and changes neither `suspend_count` nor the record of
another thread; afterwards the wait condition of `t` is false and `t` leaves
`suspend_current`, while every other thread whose wait condition held stays parked;
and when `t` was resumed by a single-threaded `CMD_VM_INVOKE_METHOD`, its
`resume_count` is back to the old value once the invoke has completed. The sum
`resume_count + c` is assumed to stay in the positive range of an `int`. -/
theorem resume_thread_single_thread (rt : Runtime) (ids : IdState) (objs : ObjState)
    (s : AgentState) (t : Nat) (tls : DebuggerTlsData) (id : Int) (p : List Nat)
    (objid flags : Decoded Int)
    (ht : g_hash_table_lookup s.coord.thread_to_tls t = some tls)
    (hc : 0 < s.coord.suspend_count)
    (hb : (tls.resume_count : Int) + s.coord.suspend_count < 2 ^ 31)
    (hdbg : s.coord.debugger_thread_id ≠ t)
    (hp : decode_id p = some objid) (hobj : get_object objs objid.val = (0, t))
    (hf : decode_int objid.endbuf = some flags)
    (hsingle : toUInt32 flags.val &&& INVOKE_FLAG_SINGLE_THREADED ≠ 0)
    (hall : is_suspended s.coord = true) (hparked : tls.really_suspended = true)
    (hpending : tls.pending_invoke = none) :
    (∃ c1, resume_thread s.coord s.coord.debugger_thread_id t = some c1 ∧
      c1.suspend_count = s.coord.suspend_count ∧
      g_hash_table_lookup c1.thread_to_tls t
        = some (tls.with_resume_count (tls.resume_count + s.coord.suspend_count.toNat)) ∧
      (∀ t2, t2 ≠ t →
        g_hash_table_lookup c1.thread_to_tls t2 = g_hash_table_lookup s.coord.thread_to_tls t2) ∧
      suspend_wait_condition c1
        (tls.with_resume_count (tls.resume_count + s.coord.suspend_count.toNat)) = false ∧
      (∃ c2, suspend_current_leave c1 t = some c2) ∧
      (∀ t2 tls2, t2 ≠ t → g_hash_table_lookup s.coord.thread_to_tls t2 = some tls2 →
        suspend_wait_condition s.coord tls2 = true → suspend_current_leave c1 t2 = none)) ∧
    (∃ s4 tls4,
      run_suspend_ops rt ids objs s
        [SuspendOp.vm_command CMD_VM_INVOKE_METHOD id p, SuspendOp.leave t,
         SuspendOp.invoke_begin t, SuspendOp.invoke_end t] = some s4 ∧
      g_hash_table_lookup s4.coord.thread_to_tls t = some tls4 ∧
      tls4.resume_count = tls.resume_count ∧
      s4.coord.suspend_count = s.coord.suspend_count) := by
  have hwait : ∀ (c : SuspendState) (x : DebuggerTlsData),
      c.suspend_count = s.coord.suspend_count →
      x.resume_count = tls.resume_count + s.coord.suspend_count.toNat →
      suspend_wait_condition c x = false := by
    intro c x h1 h2
    unfold suspend_wait_condition
    rw [h1, h2, toInt32_of_lt _ (by omega)]
    simp only [decide_eq_false_iff_not, not_lt]
    omega
  constructor
  · refine ⟨_, resume_thread_eq s.coord t tls ht hc hb, rfl, ?_, ?_, ?_, ?_, ?_⟩
    · simp only [SuspendState.with_tls, g_hash_table_lookup_insert_self]
    · intro t2 h2
      simp only [SuspendState.with_tls, g_hash_table_lookup_insert_ne _ _ _ _ h2]
    · exact hwait _ _ rfl rfl
    · have hw := hwait
        (s.coord.with_tls t
          (tls.with_resume_count (tls.resume_count + s.coord.suspend_count.toNat)))
        (tls.with_resume_count (tls.resume_count + s.coord.suspend_count.toNat)) rfl rfl
      simp only [suspend_current_leave, SuspendState.with_tls, g_hash_table_lookup_insert_self]
      simp only [SuspendState.with_tls] at hw
      simp only [hw]
      exact ⟨_, rfl⟩
    · intro t2 tls2 h2 hl2 hw2
      have hw : suspend_wait_condition
          (s.coord.with_tls t
            (tls.with_resume_count (tls.resume_count + s.coord.suspend_count.toNat)))
          tls2 = true := hw2
      simp only [suspend_current_leave, SuspendState.with_tls,
        g_hash_table_lookup_insert_ne _ _ _ _ h2, hl2]
      simp only [SuspendState.with_tls] at hw
      simp only [hw, if_true]
  · -- the command
    have hne1 : ¬ (CMD_VM_INVOKE_METHOD = CMD_VM_SUSPEND) := by decide
    have hne2 : ¬ (CMD_VM_INVOKE_METHOD = CMD_VM_RESUME) := by decide
    have hne3 : ¬ (CMD_VM_INVOKE_METHOD = CMD_VM_DISPOSE) := by decide
    have hu : toUInt32 s.coord.suspend_count = s.coord.suspend_count.toNat :=
      toUInt32_of_nonneg _ (by omega) (by omega)
    have hc0 : s.coord.suspend_count ≠ 0 := by omega
    have hcmd : ∃ s1 x, vm_commands objs s s.coord.debugger_thread_id CMD_VM_INVOKE_METHOD id p
          = some (s1, ERR_NONE) ∧
        g_hash_table_lookup s1.coord.thread_to_tls t = some x ∧
        x.resume_count = tls.resume_count + s.coord.suspend_count.toNat ∧
        x.pending_invoke = some ⟨id, flags.val, flags.endbuf, false, s.coord.suspend_count.toNat⟩ ∧
        x.invoke = tls.invoke ∧
        s1.coord.suspend_count = s.coord.suspend_count ∧
        s1.coord.debugger_thread_id = s.coord.debugger_thread_id := by
      have hrt := resume_thread_eq
        (s.coord.with_tls t { tls with really_suspended := true, pending_invoke :=
          (some ⟨id, flags.val, flags.endbuf, false, s.coord.suspend_count.toNat⟩) }) t
        { tls with really_suspended := true, pending_invoke :=
          (some ⟨id, flags.val, flags.endbuf, false, s.coord.suspend_count.toNat⟩) }
        (by simp only [SuspendState.with_tls, g_hash_table_lookup_insert_self]) hc hb
      simp only [SuspendState.with_tls] at hrt
      simp only [vm_commands, hne1, hne2, hne3, if_false, if_true, vm_invoke_method, hp, hobj,
        ne_eq, not_true_eq_false, hf, hc0, not_false_eq_true, wait_for_suspend, hall,
        Bool.not_true, Bool.false_eq_true, ht, hparked, hpending, Option.isSome_none, hsingle, hu,
        hrt]
      exact ⟨_, _, rfl, g_hash_table_lookup_insert_self _ _ _, rfl, rfl, rfl, rfl, rfl⟩
    obtain ⟨s1, x1, h1, hl1, hr1, hp1, hi1, hc1, hd1⟩ := hcmd
    obtain ⟨c2, x2, h2, hl2, hr2, hp2, hi2, hc2, hd2⟩ :=
      suspend_current_leave_eq s1.coord t x1 hl1 (hwait _ _ hc1 hr1)
    have hb3 : ∃ x3, invoke_method_begin x2
        = some (x3, ⟨id, flags.val, flags.endbuf, true, s.coord.suspend_count.toNat⟩) ∧
        x3.resume_count = x2.resume_count ∧
        x3.invoke = ⟨id, flags.val, flags.endbuf, true, s.coord.suspend_count.toNat⟩
          :: tls.invoke := by
      simp only [invoke_method_begin, hp2, hp1, Option.map_some']
      exact ⟨_, rfl, rfl, by simp only [hi2, hi1]⟩
    obtain ⟨x3, h3, hr3, hi3⟩ := hb3
    obtain ⟨c4, x4, h4, hl4, hr4, hc4⟩ :=
      invoke_method_end_single
        ({ c2 with thread_to_tls := g_hash_table_insert c2.thread_to_tls t x3 }) t x3
        ⟨id, flags.val, flags.endbuf, true, s.coord.suspend_count.toNat⟩ tls.invoke
        (by simp only [g_hash_table_lookup_insert_self]) hi3 hsingle
        (by rw [hr3, hr2, hr1]; omega) (by simp only; rw [hd2, hd1]; exact hdbg)
    refine ⟨{ s1 with coord := c4 }, x4, ?_, hl4, ?_, ?_⟩
    · simp only [run_suspend_ops, SuspendOp.step, h1, Option.map_some', h2, hl2, h3,
        g_hash_table_lookup_insert_self, hi3, h4]
    · rw [hr4, hr3, hr2, hr1]
      simp only
      have hlt : s.coord.suspend_count.toNat % 2 ^ 32 = s.coord.suspend_count.toNat :=
        Nat.mod_eq_of_lt (by omega)
      rw [hlt]
      have : tls.resume_count + s.coord.suspend_count.toNat + 2 ^ 32 - s.coord.suspend_count.toNat
          = tls.resume_count + 2 ^ 32 := by omega
      rw [this]
      omega
    · simp only
      rw [hc4]
      simp only
      rw [hc2, hc1]

theorem resume_thread_single_thread_witness :
    g_hash_table_lookup parked_agent_example.coord.thread_to_tls 7
      = some (suspend_current_park (thread_start_tls 7)) ∧
    ((∃ c1, resume_thread parked_agent_example.coord
        parked_agent_example.coord.debugger_thread_id 7 = some c1 ∧
      c1.suspend_count = parked_agent_example.coord.suspend_count ∧
      g_hash_table_lookup c1.thread_to_tls 7
        = some ((suspend_current_park (thread_start_tls 7)).with_resume_count
            ((suspend_current_park (thread_start_tls 7)).resume_count
              + parked_agent_example.coord.suspend_count.toNat)) ∧
      (∀ t2, t2 ≠ 7 →
        g_hash_table_lookup c1.thread_to_tls t2
          = g_hash_table_lookup parked_agent_example.coord.thread_to_tls t2) ∧
      suspend_wait_condition c1
        ((suspend_current_park (thread_start_tls 7)).with_resume_count
          ((suspend_current_park (thread_start_tls 7)).resume_count
            + parked_agent_example.coord.suspend_count.toNat)) = false ∧
      (∃ c2, suspend_current_leave c1 7 = some c2) ∧
      (∀ t2 tls2, t2 ≠ 7 →
        g_hash_table_lookup parked_agent_example.coord.thread_to_tls t2 = some tls2 →
        suspend_wait_condition parked_agent_example.coord tls2 = true →
        suspend_current_leave c1 t2 = none)) ∧
    (∃ s4 tls4,
      run_suspend_ops runtime_example ids_init thread_objs_example parked_agent_example
        [SuspendOp.vm_command CMD_VM_INVOKE_METHOD 5 (buffer_add_id 1 ++ buffer_add_int 2),
         SuspendOp.leave 7, SuspendOp.invoke_begin 7, SuspendOp.invoke_end 7] = some s4 ∧
      g_hash_table_lookup s4.coord.thread_to_tls 7 = some tls4 ∧
      tls4.resume_count = (suspend_current_park (thread_start_tls 7)).resume_count ∧
      s4.coord.suspend_count = parked_agent_example.coord.suspend_count)) :=
  ⟨rfl,
    resume_thread_single_thread runtime_example ids_init thread_objs_example
      parked_agent_example 7 (suspend_current_park (thread_start_tls 7)) 5
      (buffer_add_id 1 ++ buffer_add_int 2) ⟨1, buffer_add_int 2⟩ ⟨2, []⟩
      rfl (by decide) (by decide) (by decide) rfl rfl rfl (by decide) rfl rfl rfl⟩

/-! ### Values on the wire -/

theorem toUInt32_toInt32 (n : Nat) : toUInt32 (toInt32 n) = n % 2 ^ 32 := by
  unfold toUInt32 toInt32
  split <;> omega

theorem store8_toInt8 (bits : Nat) (h : bits < 2 ^ 8) :
    (toInt32 (toUInt32 (toInt8 bits)) % 2 ^ 8).toNat = bits := by
  unfold toInt32 toUInt32 toInt8
  split <;> split <;> omega

theorem store16_toInt16 (bits : Nat) (h : bits < 2 ^ 16) :
    (toInt32 (toUInt32 (toInt16 bits)) % 2 ^ 16).toNat = bits := by
  unfold toInt32 toUInt32 toInt16
  split <;> split <;> omega

theorem store32_toInt32 (bits : Nat) (h : bits < 2 ^ 32) :
    (toInt32 (toUInt32 (toInt32 bits)) % 2 ^ 32).toNat = bits := by
  rw [toUInt32_toInt32]
  unfold toInt32
  split <;> omega

theorem toUInt64_toInt64 (n : Nat) : toUInt64 (toInt64 n) = n % 2 ^ 64 := by
  unfold toUInt64 toInt64
  split <;> omega

theorem decode_long_buffer_add_long (l : Nat) (rest : List Nat) :
    decode_long (buffer_add_long l ++ rest) = some ⟨toInt64 l, rest⟩ := by
  unfold decode_long buffer_add_long
  rw [List.append_assoc, decode_int_buffer_add_int]
  simp only
  rw [decode_int_buffer_add_int]
  simp only [toUInt32_toInt32]
  have e1 : 0xffffffff = 2 ^ 32 - 1 := by norm_num
  rw [e1, Nat.and_pow_two_sub_one_eq_mod, Nat.and_pow_two_sub_one_eq_mod]
  simp only [Nat.shiftRight_zero, Nat.mod_mod, Nat.shiftRight_eq_div_pow, Nat.shiftLeft_eq,
    pow_zero, Nat.div_one]
  have e2 : l / 2 ^ 32 % 2 ^ 32 * 2 ^ 32 ||| l % 2 ^ 32 = l / 2 ^ 32 % 2 ^ 32 * 2 ^ 32 + l % 2 ^ 32 := by
    rw [Nat.mul_comm]
    exact (Nat.mul_add_lt_is_or (Nat.mod_lt _ (by norm_num)) _).symm
  rw [e2]
  have e3 : toInt64 (l / 2 ^ 32 % 2 ^ 32 * 2 ^ 32 + l % 2 ^ 32) = toInt64 l := by
    unfold toInt64
    have : (l / 2 ^ 32 % 2 ^ 32 * 2 ^ 32 + l % 2 ^ 32) % 2 ^ 64 = l % 2 ^ 64 := by omega
    rw [this]
  rw [e3]

theorem store64_toInt64 (bits : Nat) (h : bits < 2 ^ 64) :
    (toInt64 (toUInt64 (toInt64 bits)) % 2 ^ 64).toNat = bits := by
  rw [toUInt64_toInt64]
  unfold toInt64
  split <;> omega

theorem run_id_ops_append (x y : List IdOp) (a : IdState) :
    run_id_ops a (x ++ y) = (run_id_ops a x).bind (fun m => run_id_ops m y) := by
  induction x generalizing a with
  | nil => simp [run_id_ops]
  | cons op rest ih =>
    simp only [List.cons_append, run_id_ops]
    cases h : op.step a with
    | none => simp
    | some s1 => simp [ih]

theorem run_obj_ops_append (x y : List ObjOp) (a : ObjState) :
    run_obj_ops a (x ++ y) = (run_obj_ops a x).bind (fun m => run_obj_ops m y) := by
  induction x generalizing a with
  | nil => simp [run_obj_ops]
  | cons op rest ih =>
    simp only [List.cons_append, run_obj_ops]
    cases h : op.step a with
    | none => simp
    | some s1 => simp [ih]

theorem ids_grow_refl (a : IdState) : ids_grow a a :=
  ⟨[], by simp, rfl⟩

theorem ids_grow_trans (a b c : IdState) (h1 : ids_grow a b) (h2 : ids_grow b c) :
    ids_grow a c := by
  obtain ⟨x, hx, rx⟩ := h1
  obtain ⟨y, hy, ry⟩ := h2
  refine ⟨x ++ y, ?_, ?_⟩
  · intro op hop
    rcases List.mem_append.mp hop with h | h
    · exact hx op h
    · exact hy op h
  · rw [run_id_ops_append, rx]
    exact ry

theorem ids_grow_get_id (a b : IdState) (d : Nat) (k : IdType) (v : Nat) (i : Int)
    (h : get_id a d k v = some (b, i)) : ids_grow a b := by
  refine ⟨[IdOp.call_get_id d k v], ?_, ?_⟩
  · intro op hop
    simp only [List.mem_singleton] at hop
    exact ⟨d, k, v, hop⟩
  · simp [run_id_ops, IdOp.step, h]

theorem objs_grow_refl (a : ObjState) : objs_grow a a :=
  ⟨[], by simp, rfl⟩

theorem objs_grow_trans (a b c : ObjState) (h1 : objs_grow a b) (h2 : objs_grow b c) :
    objs_grow a c := by
  obtain ⟨x, hx, rx⟩ := h1
  obtain ⟨y, hy, ry⟩ := h2
  refine ⟨x ++ y, ?_, ?_⟩
  · intro op hop
    rcases List.mem_append.mp hop with h | h
    · exact hx op h
    · exact hy op h
  · rw [run_obj_ops_append, rx]
    exact ry

theorem objs_grow_get_objref (a b : ObjState) (obj : Nat) (r : Option ObjRef)
    (h : get_objref a obj = some (b, r)) : objs_grow a b := by
  refine ⟨[ObjOp.call_get_objref obj], ?_, ?_⟩
  · intro op hop
    simp only [List.mem_singleton] at hop
    exact ⟨obj, hop⟩
  · simp [run_obj_ops, ObjOp.step, h]

theorem buffer_add_fields_grow
    (recur : IdState → ObjState → MonoType → Value → Option (IdState × ObjState × List Nat))
    (hr : recur_grows recur) (fs : List MonoClassField) :
    ∀ (vs : List Value) (i : IdState) (o : ObjState) (i1 : IdState) (o1 : ObjState)
      (b : List Nat), buffer_add_fields recur i o fs vs = some (i1, o1, b) →
      ids_grow i i1 ∧ objs_grow o o1 := by
  induction fs with
  | nil =>
    intro vs i o i1 o1 b h
    simp only [buffer_add_fields, Option.some.injEq, Prod.mk.injEq] at h
    obtain ⟨h1, h2, _⟩ := h
    subst h1 h2
    exact ⟨ids_grow_refl _, objs_grow_refl _⟩
  | cons f rest ih =>
    intro vs i o i1 o1 b h
    cases vs with
    | nil => simp [buffer_add_fields] at h
    | cons v vs =>
      simp only [buffer_add_fields] at h
      cases h1 : recur i o f.type v with
      | none => simp [h1] at h
      | some r1 =>
        obtain ⟨ia, oa, b1⟩ := r1
        simp only [h1] at h
        cases h2 : buffer_add_fields recur ia oa rest vs with
        | none => simp [h2] at h
        | some r2 =>
          obtain ⟨ib, ob, b2⟩ := r2
          simp only [h2, Option.some.injEq, Prod.mk.injEq] at h
          obtain ⟨e1, e2, _⟩ := h
          subst e1 e2
          obtain ⟨g1, g2⟩ := hr i o f.type v ia oa b1 h1
          obtain ⟨g3, g4⟩ := ih vs ia oa ib ob b2 h2
          exact ⟨ids_grow_trans _ _ _ g1 g3, objs_grow_trans _ _ _ g2 g4⟩

theorem buffer_add_vtype_grow (md : Metadata)
    (recur : IdState → ObjState → MonoType → Value → Option (IdState × ObjState × List Nat))
    (hr : recur_grows recur) (i : IdState) (o : ObjState) (t : MonoType) (v : Value)
    (domain : Nat) (i1 : IdState) (o1 : ObjState) (b : List Nat)
    (h : buffer_add_vtype md recur i o t v domain = some (i1, o1, b)) :
    ids_grow i i1 ∧ objs_grow o o1 := by
  unfold buffer_add_vtype at h
  simp only at h
  split at h
  · simp at h
  · unfold buffer_add_ptr_id at h
    cases hg : get_id i domain IdType.ID_TYPE (md.class_from_mono_type t) with
    | none => simp [hg] at h
    | some r =>
      obtain ⟨ia, id⟩ := r
      simp only [hg] at h
      cases hf : buffer_add_fields recur ia o (instance_fields md (md.class_from_mono_type t))
          v.fields with
      | none => simp [hf] at h
      | some r2 =>
        obtain ⟨ib, ob, b2⟩ := r2
        simp only [hf, Option.some.injEq, Prod.mk.injEq] at h
        obtain ⟨e1, e2, _⟩ := h
        subst e1 e2
        obtain ⟨g3, g4⟩ := buffer_add_fields_grow recur hr _ _ _ _ _ _ _ hf
        exact ⟨ids_grow_trans _ _ _ (ids_grow_get_id _ _ _ _ _ _ hg) g3, g4⟩

theorem buffer_add_ref_grow (md : Metadata)
    (recur : IdState → ObjState → MonoType → Value → Option (IdState × ObjState × List Nat))
    (hr : recur_grows recur) (i : IdState) (o : ObjState) (v : Value)
    (domain : Nat) (i1 : IdState) (o1 : ObjState) (b : List Nat)
    (h : buffer_add_ref md recur i o v domain = some (i1, o1, b)) :
    ids_grow i i1 ∧ objs_grow o o1 := by
  unfold buffer_add_ref at h
  cases v with
  | ref obj =>
    simp only at h
    split at h
    · simp only [Option.some.injEq, Prod.mk.injEq] at h
      obtain ⟨e1, e2, _⟩ := h
      subst e1 e2
      exact ⟨ids_grow_refl _, objs_grow_refl _⟩
    · split at h
      · exact buffer_add_vtype_grow md recur hr _ _ _ _ _ _ _ _ h
      · unfold buffer_add_objid get_objid at h
        cases hg : get_objref o obj with
        | none => simp [hg] at h
        | some r =>
          obtain ⟨oa, ref⟩ := r
          cases ref with
          | none => simp [hg] at h
          | some ref =>
            simp only [hg, Option.some.injEq, Prod.mk.injEq] at h
            obtain ⟨e1, e2, _⟩ := h
            subst e1 e2
            exact ⟨ids_grow_refl _, objs_grow_get_objref _ _ _ _ hg⟩
  | prim bits => simp at h
  | vtype fields => simp at h
  | byref target => simp at h
  | byref_null => simp at h

theorem bits_map_grow (v : Value) (i : IdState) (o : ObjState) (f : Nat → List Nat)
    (i1 : IdState) (o1 : ObjState) (b : List Nat)
    (h : v.bits.map (fun bits => (i, o, f bits)) = some (i1, o1, b)) :
    ids_grow i i1 ∧ objs_grow o o1 := by
  cases hb : v.bits with
  | none => simp [hb] at h
  | some bits =>
    simp only [hb, Option.map_some', Option.some.injEq, Prod.mk.injEq] at h
    obtain ⟨e1, e2, _⟩ := h
    subst e1 e2
    exact ⟨ids_grow_refl _, objs_grow_refl _⟩

theorem buffer_add_value_switch_grow (md : Metadata)
    (recur : IdState → ObjState → MonoType → Value → Option (IdState × ObjState × List Nat))
    (hr : recur_grows recur) (i : IdState) (o : ObjState) (t : MonoType) (v : Value)
    (domain : Nat) (as_vtype : Bool) (i1 : IdState) (o1 : ObjState) (b : List Nat)
    (h : buffer_add_value_switch md recur i o t v domain as_vtype = some (i1, o1, b)) :
    ids_grow i i1 ∧ objs_grow o o1 := by
  unfold buffer_add_value_switch at h
  by_cases c1 : as_vtype = true ∧
      t.type ∈ [MONO_TYPE_BOOLEAN, MONO_TYPE_I1, MONO_TYPE_U1, MONO_TYPE_CHAR, MONO_TYPE_I2,
        MONO_TYPE_U2, MONO_TYPE_I4, MONO_TYPE_U4, MONO_TYPE_R4, MONO_TYPE_I8, MONO_TYPE_U8,
        MONO_TYPE_R8, MONO_TYPE_I, MONO_TYPE_U, MONO_TYPE_PTR]
  · rw [if_pos c1] at h
    exact buffer_add_vtype_grow md recur hr _ _ _ _ _ _ _ _ h
  rw [if_neg c1] at h
  by_cases c2 : t.type = MONO_TYPE_VOID
  · rw [if_pos c2] at h
    simp only [Option.some.injEq, Prod.mk.injEq] at h
    obtain ⟨e1, e2, _⟩ := h
    subst e1 e2
    exact ⟨ids_grow_refl _, objs_grow_refl _⟩
  rw [if_neg c2] at h
  by_cases c3 : t.type ∈ [MONO_TYPE_BOOLEAN, MONO_TYPE_I1, MONO_TYPE_U1]
  · rw [if_pos c3] at h
    exact bits_map_grow _ _ _ _ _ _ _ h
  rw [if_neg c3] at h
  by_cases c4 : t.type ∈ [MONO_TYPE_CHAR, MONO_TYPE_I2, MONO_TYPE_U2]
  · rw [if_pos c4] at h
    exact bits_map_grow _ _ _ _ _ _ _ h
  rw [if_neg c4] at h
  by_cases c5 : t.type ∈ [MONO_TYPE_I4, MONO_TYPE_U4, MONO_TYPE_R4]
  · rw [if_pos c5] at h
    exact bits_map_grow _ _ _ _ _ _ _ h
  rw [if_neg c5] at h
  by_cases c6 : t.type ∈ [MONO_TYPE_I8, MONO_TYPE_U8, MONO_TYPE_R8]
  · rw [if_pos c6] at h
    exact bits_map_grow _ _ _ _ _ _ _ h
  rw [if_neg c6] at h
  by_cases c7 : t.type ∈ [MONO_TYPE_I, MONO_TYPE_U]
  · rw [if_pos c7] at h
    exact buffer_add_vtype_grow md recur hr _ _ _ _ _ _ _ _ h
  rw [if_neg c7] at h
  by_cases c8 : t.type = MONO_TYPE_PTR
  · rw [if_pos c8] at h
    exact bits_map_grow _ _ _ _ _ _ _ h
  rw [if_neg c8] at h
  by_cases c9 : t.type ∈ [MONO_TYPE_STRING, MONO_TYPE_SZARRAY, MONO_TYPE_OBJECT, MONO_TYPE_CLASS,
      MONO_TYPE_ARRAY]
  · rw [if_pos c9] at h
    exact buffer_add_ref_grow md recur hr _ _ _ _ _ _ _ h
  rw [if_neg c9] at h
  by_cases c10 : t.type = MONO_TYPE_VALUETYPE
  · rw [if_pos c10] at h
    exact buffer_add_vtype_grow md recur hr _ _ _ _ _ _ _ _ h
  rw [if_neg c10] at h
  by_cases c11 : t.type = MONO_TYPE_GENERICINST
  · rw [if_pos c11] at h
    by_cases c12 : md.generic_inst_is_valuetype t = true
    · rw [if_pos c12] at h
      exact buffer_add_vtype_grow md recur hr _ _ _ _ _ _ _ _ h
    · rw [if_neg c12] at h
      exact buffer_add_ref_grow md recur hr _ _ _ _ _ _ _ h
  · rw [if_neg c11] at h
    exact absurd h (by simp)

theorem buffer_add_value_full_grow (md : Metadata) (depth : Nat) :
    ∀ (i : IdState) (o : ObjState) (t : MonoType) (v : Value) (domain : Nat) (as_vtype : Bool)
      (i1 : IdState) (o1 : ObjState) (b : List Nat),
      buffer_add_value_full md depth i o t v domain as_vtype = some (i1, o1, b) →
      ids_grow i i1 ∧ objs_grow o o1 := by
  induction depth with
  | zero =>
    intro i o t v domain as_vtype i1 o1 b h
    simp [buffer_add_value_full] at h
  | succ n ih =>
    intro i o t v domain as_vtype i1 o1 b h
    have hr : recur_grows (fun i o ft fv => buffer_add_value_full md n i o ft fv domain false) :=
      fun i o ft fv i1 o1 b h => ih i o ft fv domain false i1 o1 b h
    unfold buffer_add_value_full at h
    split at h
    · cases v with
      | byref_null =>
        simp only [Option.some.injEq, Prod.mk.injEq] at h
        obtain ⟨e1, e2, _⟩ := h
        subst e1 e2
        exact ⟨ids_grow_refl _, objs_grow_refl _⟩
      | byref target =>
        exact buffer_add_value_switch_grow md _ hr _ _ _ _ _ _ _ _ _ h
      | prim bits => simp at h
      | ref obj => simp at h
      | vtype fields => simp at h
    · exact buffer_add_value_switch_grow md _ hr _ _ _ _ _ _ _ _ _ h

theorem ids_grow_consistent (a b : IdState) (h : ids_grow a b) (hc : ids_consistent a) :
    ids_consistent b := by
  obtain ⟨ops, _, hrun⟩ := h
  exact ids_consistent_run ops a b hrun hc

theorem ids_grow_keeps (a b : IdState) (h : ids_grow a b) (d : Nat) (k : IdType) (v p : Nat)
    (e : Id) (hl : val_to_id_lookup a d k v = some p) (he : (a.ids k)[p]? = some e)
    (hdom : e.domain = d) : (b.ids k)[p]? = some e := by
  obtain ⟨ops, hops, hrun⟩ := h
  have hno : IdOp.call_free_domain_info d ∉ ops := by
    intro hm
    obtain ⟨d2, k2, v2, e2⟩ := hops _ hm
    cases e2
  exact (run_keeps_binding ops a b d k v p e hrun hno hl he hdom).2

theorem objs_step_inv (s s1 : ObjState) (op : ObjOp) (hstep : op.step s = some s1)
    (hc : objs_inv s) : objs_inv s1 := by
  obtain ⟨hc1, hc2, hc3⟩ := hc
  refine ⟨(obj_step_keeps s s1 op hstep hc1).1, ?_, ?_⟩
  · cases op with
    | collect obj =>
      simp only [ObjOp.step, Option.some.injEq] at hstep
      subst hstep
      exact hc2
    | call_get_objref obj =>
      simp only [ObjOp.step, Option.map_eq_some', Prod.exists, exists_and_right,
        exists_eq_right] at hstep
      obtain ⟨r, hg⟩ := hstep
      rcases get_objref_result s s1 obj r hg with h | h | h
      · rw [h.2.1]; exact hc2
      · obtain ⟨_, ref, _, _, _, h4, _⟩ := h
        rw [h4]; exact hc2
      · obtain ⟨_, _, _, h4, _⟩ := h
        rw [h4]; omega
  · intro id ref hl
    cases op with
    | collect obj =>
      simp only [ObjOp.step, Option.some.injEq] at hstep
      subst hstep
      exact hc3 id ref hl
    | call_get_objref obj =>
      simp only [ObjOp.step, Option.map_eq_some', Prod.exists, exists_and_right,
        exists_eq_right] at hstep
      obtain ⟨r, hg⟩ := hstep
      rcases get_objref_result s s1 obj r hg with h | h | h
      · rw [h.2.1] at hl; exact hc3 id ref hl
      · obtain ⟨_, ref2, _, _, _, _, h5, _⟩ := h
        unfold objrefs_lookup at hl
        rw [h5] at hl
        exact hc3 id ref hl
      · obtain ⟨_, _, _, _, _, h6, _⟩ := h
        rw [h6] at hl
        by_cases e : id = s.objref_id + 1
        · omega
        · rw [if_neg e] at hl
          exact hc3 id ref hl

theorem objs_run_inv (ops : List ObjOp) (s s2 : ObjState)
    (hrun : run_obj_ops s ops = some s2) (hc : objs_inv s) : objs_inv s2 := by
  induction ops generalizing s with
  | nil =>
    simp only [run_obj_ops, Option.some.injEq] at hrun
    subst hrun
    exact hc
  | cons op rest ih =>
    simp only [run_obj_ops] at hrun
    cases hstep : op.step s with
    | none => simp [hstep] at hrun
    | some s1 =>
      simp only [hstep] at hrun
      exact ih s1 hrun (objs_step_inv s s1 op hstep hc)

theorem objs_inv_init : objs_inv objrefs_init := by
  refine ⟨objrefs_consistent_init, by decide, ?_⟩
  intro id ref hl
  simp [objrefs_lookup, objrefs_init, g_hash_table_lookup] at hl

theorem objs_grow_inv (a b : ObjState) (h : objs_grow a b) (hc : objs_inv a) : objs_inv b := by
  obtain ⟨ops, _, hrun⟩ := h
  exact objs_run_inv ops a b hrun hc

theorem objs_grow_keeps (a b : ObjState) (h : objs_grow a b) (hc : objrefs_consistent a)
    (obj : Nat) (ref : ObjRef) (hobj : obj ≠ 0)
    (hl : obj_to_objref_lookup a obj = some ref)
    (ht : mono_gchandle_get_target a.gc ref.handle = obj) :
    obj_to_objref_lookup b obj = some ref ∧ mono_gchandle_get_target b.gc ref.handle = obj := by
  obtain ⟨ops, hops, hrun⟩ := h
  have hno : ObjOp.collect obj ∉ ops := by
    intro hm
    obtain ⟨o2, e2⟩ := hops _ hm
    cases e2
  exact run_keeps_live_record ops a b obj ref hrun hc hobj hno hl ht

theorem supported_fields_length (p : MonoType → Value → Bool) (fs : List MonoClassField) :
    ∀ vs, supported_fields p fs vs = true → fs.length = vs.length := by
  induction fs with
  | nil =>
    intro vs h
    cases vs with
    | nil => rfl
    | cons v vs => simp [supported_fields] at h
  | cons f fs ih =>
    intro vs h
    cases vs with
    | nil => simp [supported_fields] at h
    | cons v vs =>
      simp only [supported_fields, Bool.and_eq_true] at h
      simp [ih vs h.2]

theorem decode_fields_buffer_add_fields (p : MonoType → Value → Bool)
    (enc : IdState → ObjState → MonoType → Value → Option (IdState × ObjState × List Nat))
    (dec : MonoType → List Nat → Outcome Value) (ids2 : IdState) (objs2 : ObjState)
    (hg : recur_grows enc) (hrt : recur_round_trips p enc dec ids2 objs2)
    (fs : List MonoClassField) :
    ∀ (vs : List Value) (i : IdState) (o : ObjState) (i1 : IdState) (o1 : ObjState)
      (b : List Nat), ids_consistent i → objs_inv o → supported_fields p fs vs = true →
      buffer_add_fields enc i o fs vs = some (i1, o1, b) → ids_grow i1 ids2 →
      objs_grow o1 objs2 → ∀ rest, decode_fields dec fs (b ++ rest) = Outcome.ok vs rest := by
  induction fs with
  | nil =>
    intro vs i o i1 o1 b _ _ hs h _ _ rest
    cases vs with
    | nil =>
      simp only [buffer_add_fields, Option.some.injEq, Prod.mk.injEq] at h
      obtain ⟨_, _, e⟩ := h
      subst e
      simp [decode_fields]
    | cons v vs => simp [supported_fields] at hs
  | cons f fs ih =>
    intro vs i o i1 o1 b hi ho hs h g1 g2 rest
    cases vs with
    | nil => simp [supported_fields] at hs
    | cons v vs =>
      simp only [supported_fields, Bool.and_eq_true] at hs
      simp only [buffer_add_fields] at h
      cases h1 : enc i o f.type v with
      | none => simp [h1] at h
      | some r1 =>
        obtain ⟨ia, oa, b1⟩ := r1
        simp only [h1] at h
        cases h2 : buffer_add_fields enc ia oa fs vs with
        | none => simp [h2] at h
        | some r2 =>
          obtain ⟨ib, ob, b2⟩ := r2
          simp only [h2, Option.some.injEq, Prod.mk.injEq] at h
          obtain ⟨e1, e2, e3⟩ := h
          subst e1 e2 e3
          obtain ⟨ga, gb⟩ := hg i o f.type v ia oa b1 h1
          obtain ⟨gc, gd⟩ := buffer_add_fields_grow enc hg fs vs ia oa ib ob b2 h2
          have hd := hrt i o f.type v ia oa b1 hi ho hs.1 h1 (ids_grow_trans _ _ _ gc g1)
            (objs_grow_trans _ _ _ gd g2) (b2 ++ rest)
          have ht := ih vs ia oa ib ob b2 (ids_grow_consistent _ _ ga hi)
            (objs_grow_inv _ _ gb ho) hs.2 h2 g1 g2 rest
          simp only [decode_fields, List.append_assoc, hd, ht]

theorem decode_id_buffer_add_id (id : Int) (rest : List Nat) (h0 : 0 ≤ id) (h1 : id < 2 ^ 31) :
    decode_id (buffer_add_id id ++ rest) = some ⟨id, rest⟩ := by
  unfold decode_id buffer_add_id
  rw [decode_int_buffer_add_int, toInt32_toUInt32 id h0 h1]

theorem decode_vtype_buffer_add_vtype (md : Metadata) (p : MonoType → Value → Bool)
    (enc : IdState → ObjState → MonoType → Value → Option (IdState × ObjState × List Nat))
    (dec : MonoType → List Nat → Outcome Value) (ids2 : IdState) (objs2 : ObjState)
    (hg : recur_grows enc) (hrt : recur_round_trips p enc dec ids2 objs2)
    (i : IdState) (o : ObjState) (t : MonoType) (vals : List Value) (domain : Nat)
    (i1 : IdState) (o1 : ObjState) (b : List Nat)
    (hi : ids_consistent i) (ho : objs_inv o) (hk : md.class_from_mono_type t ≠ 0)
    (he : md.class_enumtype (md.class_from_mono_type t) % 256 = 0)
    (hlen : vals.length < 2 ^ 31)
    (hs : supported_fields p (instance_fields md (md.class_from_mono_type t)) vals = true)
    (henc : buffer_add_vtype md enc i o t (Value.vtype vals) domain = some (i1, o1, b))
    (g1 : ids_grow i1 ids2) (g2 : objs_grow o1 objs2)
    (hb : (ids2.ids IdType.ID_TYPE).length < 2 ^ 31) :
    ∃ b1, b = MONO_TYPE_VALUETYPE :: b1 ∧
      ∀ rest, decode_vtype md dec ids2 t (b1 ++ rest) = Outcome.ok (Value.vtype vals) rest := by
  unfold buffer_add_vtype at henc
  simp only [hk, if_false, Value.fields] at henc
  unfold buffer_add_ptr_id at henc
  cases hgid : get_id i domain IdType.ID_TYPE (md.class_from_mono_type t) with
  | none => simp [hgid] at henc
  | some r =>
    obtain ⟨ia, id⟩ := r
    simp only [hgid] at henc
    cases hf : buffer_add_fields enc ia o (instance_fields md (md.class_from_mono_type t))
        vals with
    | none => simp [hf] at henc
    | some r2 =>
      obtain ⟨ib, ob, b2⟩ := r2
      simp only [hf, Option.some.injEq, Prod.mk.injEq] at henc
      obtain ⟨e1, e2, e3⟩ := henc
      subst e1 e2 e3
      obtain ⟨hd0, q, hq1, hq2, hq3⟩ := get_id_binds i ia domain IdType.ID_TYPE _ id hi hk hgid
      obtain ⟨gc, gd⟩ := buffer_add_fields_grow enc hg _ _ _ _ _ _ _ hf
      have gia : ids_grow ia ids2 := ids_grow_trans _ _ _ gc g1
      have hslot := ids_grow_keeps ia ids2 gia domain IdType.ID_TYPE _ q _ hq1 hq2 rfl
      have hqlt : q < (ids2.ids IdType.ID_TYPE).length := by
        by_contra hcon
        rw [List.getElem?_eq_none (by omega)] at hslot
        cases hslot
      have hflen := supported_fields_length p _ vals hs
      refine ⟨buffer_add_byte (md.class_enumtype (md.class_from_mono_type t)) ++ buffer_add_id id
        ++ buffer_add_int (toUInt32 ((instance_fields md (md.class_from_mono_type t)).length : Int))
        ++ b2, ?_, ?_⟩
      · simp [buffer_add_byte, MONO_TYPE_VALUETYPE]
      · intro rest
        have hdf := decode_fields_buffer_add_fields p enc dec ids2 objs2 hg hrt _ vals ia o ib ob
          b2 (ids_grow_consistent _ _ (ids_grow_get_id _ _ _ _ _ _ hgid) hi) ho hs hf g1 g2 rest
        have hdid : decode_id (buffer_add_id id ++
            (buffer_add_int (toUInt32 ((instance_fields md (md.class_from_mono_type t)).length
              : Int)) ++ (b2 ++ rest)))
            = some ⟨((q + 1 : Nat) : Int), buffer_add_int (toUInt32
              ((instance_fields md (md.class_from_mono_type t)).length : Int)) ++ (b2 ++ rest)⟩ := by
          rw [hq3]
          exact decode_id_buffer_add_id _ _ (by omega) (by omega)
        have hptr := decode_ptr_id_slot ids2 IdType.ID_TYPE q _ _ _ hdid hslot
        simp only [hd0, if_false] at hptr
        have hn : toInt32 (toUInt32 ((instance_fields md (md.class_from_mono_type t)).length : Int))
            = (vals.length : Int) := by
          rw [toInt32_toUInt32 _ (by omega) (by omega), hflen]
        simp only [decode_vtype, buffer_add_byte, List.append_assoc, List.singleton_append,
          List.cons_append, List.nil_append,
          decode_byte, he, Nat.cast_zero, ne_eq, not_true_eq_false, if_false, hptr,
          decode_int_buffer_add_int, hk, hdf, hn, sub_self, if_true]

theorem get_objref_live (s s1 : ObjState) (obj : Nat) (ref : ObjRef) (hobj : obj ≠ 0)
    (h : get_objref s obj = some (s1, some ref)) :
    obj_to_objref_lookup s1 obj = some ref ∧
    mono_gchandle_get_target s1.gc ref.handle = obj := by
  rcases get_objref_result s s1 obj (some ref) h with h1 | h1 | h1
  · exact absurd h1.1 hobj
  · obtain ⟨_, ref2, e, hl, ht, _, _, hgc, hsame⟩ := h1
    cases e
    rw [hsame, hgc]
    exact ⟨hl, ht⟩
  · obtain ⟨_, _, e, _, hgc, _, hl, _⟩ := h1
    cases e
    rw [hl, hgc]
    exact ⟨by simp, get_target_new_weakref_self _ _⟩

theorem get_object_live (s : ObjState) (obj : Nat) (ref : ObjRef) (hc : objs_inv s)
    (hobj : obj ≠ 0) (hl : obj_to_objref_lookup s obj = some ref)
    (ht : mono_gchandle_get_target s.gc ref.handle = obj) :
    get_object s ref.id = (0, obj) ∧ 0 < ref.id ∧ ref.id ≤ s.objref_id := by
  have h1 := hc.1.2.1 obj ref hl
  have h2 := hc.2.2 ref.id ref h1
  have h3 := (hc.1.2.2 ref.id ref h1).2.1
  refine ⟨?_, h2, h3⟩
  unfold objrefs_lookup at h1
  cases htb : s.objrefs with
  | none => simp [htb] at h1
  | some tb =>
    simp only [htb] at h1
    have hne : ref.id ≠ 0 := by omega
    simp [get_object, get_object_allow_null, hne, htb, h1, ht, hobj]

theorem decode_ref_buffer_add_ref (md : Metadata)
    (enc : IdState → ObjState → MonoType → Value → Option (IdState × ObjState × List Nat))
    (objs2 : ObjState) (i : IdState) (o : ObjState) (t : MonoType) (obj : Nat) (domain : Nat)
    (i1 : IdState) (o1 : ObjState) (b : List Nat) (ho : objs_inv o)
    (href : md.type_is_reference t = true)
    (hobj : obj = 0 ∨ (md.class_valuetype (md.object_class obj) = false ∧
      (md.class_byval_arg (md.object_class obj)).type = MONO_TYPE_OBJECT ∧
      md.class_is_assignable_from (md.class_from_mono_type t) (md.object_class obj) = true ∧
      (md.object_domain obj = domain ∨ md.class_from_mono_type t = md.string_class)))
    (henc : buffer_add_ref md enc i o (Value.ref obj) domain = some (i1, o1, b))
    (g2 : objs_grow o1 objs2) (hb : objs2.objref_id < 2 ^ 31) :
    ∃ tag b1, b = tag :: b1 ∧ (tag = VALUE_TYPE_ID_NULL ∨ tag = MONO_TYPE_OBJECT) ∧
      ∀ rest, decode_ref md objs2 t (tag : Int) domain (b1 ++ rest)
        = Outcome.ok (Value.ref obj) rest := by
  unfold buffer_add_ref at henc
  simp only at henc
  by_cases h0 : obj = 0
  · simp only [h0, if_true, Option.some.injEq, Prod.mk.injEq] at henc
    obtain ⟨_, _, e3⟩ := henc
    subst e3
    refine ⟨VALUE_TYPE_ID_NULL, [], by simp [buffer_add_byte, VALUE_TYPE_ID_NULL], Or.inl rfl, ?_⟩
    intro rest
    simp [decode_ref, href, h0, VALUE_TYPE_ID_NULL, MONO_TYPE_OBJECT]
  · obtain ⟨hv, htag, hass, hdom⟩ := hobj.resolve_left h0
    simp only [h0, if_false, hv, Bool.false_eq_true, htag] at henc
    unfold buffer_add_objid get_objid at henc
    cases hgo : get_objref o obj with
    | none => simp [hgo] at henc
    | some r =>
      obtain ⟨oa, ref⟩ := r
      cases ref with
      | none => simp [hgo] at henc
      | some ref =>
        simp only [hgo, Option.some.injEq, Prod.mk.injEq] at henc
        obtain ⟨_, e2, e3⟩ := henc
        subst e2 e3
        obtain ⟨hl, ht⟩ := get_objref_live o oa obj ref h0 hgo
        have hoa : objs_inv oa := objs_grow_inv _ _ (objs_grow_get_objref _ _ _ _ hgo) ho
        obtain ⟨hl2, ht2⟩ := objs_grow_keeps oa objs2 g2 hoa.1 obj ref h0 hl ht
        obtain ⟨hget, hpos, hle⟩ := get_object_live objs2 obj ref (objs_grow_inv _ _ g2 hoa) h0
          hl2 ht2
        refine ⟨MONO_TYPE_OBJECT, buffer_add_id ref.id, ?_, Or.inr rfl, ?_⟩
        · simp [buffer_add_byte, MONO_TYPE_OBJECT, MONO_TYPE_GENERICINST, MONO_TYPE_CLASS]
        · intro rest
          have hdid := decode_id_buffer_add_id ref.id rest (by omega) (by omega)
          rcases hdom with hdom | hdom
          · simp [decode_ref, href, hdid, hget, h0, hass, hdom]
          · rw [hdom] at hass
            simp [decode_ref, href, hdid, hget, h0, hass, hdom]

theorem switch_prim8 (md : Metadata)
    (enc : IdState → ObjState → MonoType → Value → Option (IdState × ObjState × List Nat))
    (i : IdState) (o : ObjState) (t : MonoType) (bits domain : Nat)
    (h : t.type ∈ [MONO_TYPE_BOOLEAN, MONO_TYPE_I1, MONO_TYPE_U1]) :
    buffer_add_value_switch md enc i o t (Value.prim bits) domain false
      = some (i, o, t.type :: buffer_add_int (toUInt32 (toInt8 bits))) := by
  simp only [List.mem_cons, List.mem_singleton, List.not_mem_nil, or_false] at h
  rcases h with h | h | h <;>
    simp [buffer_add_value_switch, h, Value.bits, buffer_add_byte, MONO_TYPE_VOID, MONO_TYPE_BOOLEAN, MONO_TYPE_CHAR, MONO_TYPE_I1, MONO_TYPE_U1,
      MONO_TYPE_I2, MONO_TYPE_U2, MONO_TYPE_I4, MONO_TYPE_U4, MONO_TYPE_I8, MONO_TYPE_U8,
      MONO_TYPE_R4, MONO_TYPE_R8, MONO_TYPE_STRING, MONO_TYPE_PTR, MONO_TYPE_VALUETYPE,
      MONO_TYPE_CLASS, MONO_TYPE_ARRAY, MONO_TYPE_GENERICINST, MONO_TYPE_I, MONO_TYPE_U,
      MONO_TYPE_OBJECT, MONO_TYPE_SZARRAY]

theorem internal_prim8 (md : Metadata) (recur : MonoType → List Nat → Outcome Value)
    (ids : IdState) (objs : ObjState) (t : MonoType) (domain : Nat) (buf : List Nat)
    (h : t.type ∈ [MONO_TYPE_BOOLEAN, MONO_TYPE_I1, MONO_TYPE_U1]) :
    decode_value_internal md recur ids objs t (t.type : Int) domain buf
      = decode_store 8 (decode_int buf) := by
  simp only [List.mem_cons, List.mem_singleton, List.not_mem_nil, or_false] at h
  rcases h with h | h | h <;>
    simp [decode_value_internal, h, MONO_TYPE_VOID, MONO_TYPE_BOOLEAN, MONO_TYPE_CHAR, MONO_TYPE_I1, MONO_TYPE_U1,
      MONO_TYPE_I2, MONO_TYPE_U2, MONO_TYPE_I4, MONO_TYPE_U4, MONO_TYPE_I8, MONO_TYPE_U8,
      MONO_TYPE_R4, MONO_TYPE_R8, MONO_TYPE_STRING, MONO_TYPE_PTR, MONO_TYPE_VALUETYPE,
      MONO_TYPE_CLASS, MONO_TYPE_ARRAY, MONO_TYPE_GENERICINST, MONO_TYPE_I, MONO_TYPE_U,
      MONO_TYPE_OBJECT, MONO_TYPE_SZARRAY]

theorem switch_prim16 (md : Metadata)
    (enc : IdState → ObjState → MonoType → Value → Option (IdState × ObjState × List Nat))
    (i : IdState) (o : ObjState) (t : MonoType) (bits domain : Nat)
    (h : t.type ∈ [MONO_TYPE_CHAR, MONO_TYPE_I2, MONO_TYPE_U2]) :
    buffer_add_value_switch md enc i o t (Value.prim bits) domain false
      = some (i, o, t.type :: buffer_add_int (toUInt32 (toInt16 bits))) := by
  simp only [List.mem_cons, List.mem_singleton, List.not_mem_nil, or_false] at h
  rcases h with h | h | h <;>
    simp [buffer_add_value_switch, h, Value.bits, buffer_add_byte, MONO_TYPE_VOID, MONO_TYPE_BOOLEAN, MONO_TYPE_CHAR, MONO_TYPE_I1, MONO_TYPE_U1,
      MONO_TYPE_I2, MONO_TYPE_U2, MONO_TYPE_I4, MONO_TYPE_U4, MONO_TYPE_I8, MONO_TYPE_U8,
      MONO_TYPE_R4, MONO_TYPE_R8, MONO_TYPE_STRING, MONO_TYPE_PTR, MONO_TYPE_VALUETYPE,
      MONO_TYPE_CLASS, MONO_TYPE_ARRAY, MONO_TYPE_GENERICINST, MONO_TYPE_I, MONO_TYPE_U,
      MONO_TYPE_OBJECT, MONO_TYPE_SZARRAY]

theorem internal_prim16 (md : Metadata) (recur : MonoType → List Nat → Outcome Value)
    (ids : IdState) (objs : ObjState) (t : MonoType) (domain : Nat) (buf : List Nat)
    (h : t.type ∈ [MONO_TYPE_CHAR, MONO_TYPE_I2, MONO_TYPE_U2]) :
    decode_value_internal md recur ids objs t (t.type : Int) domain buf
      = decode_store 16 (decode_int buf) := by
  simp only [List.mem_cons, List.mem_singleton, List.not_mem_nil, or_false] at h
  rcases h with h | h | h <;>
    simp [decode_value_internal, h, MONO_TYPE_VOID, MONO_TYPE_BOOLEAN, MONO_TYPE_CHAR, MONO_TYPE_I1, MONO_TYPE_U1,
      MONO_TYPE_I2, MONO_TYPE_U2, MONO_TYPE_I4, MONO_TYPE_U4, MONO_TYPE_I8, MONO_TYPE_U8,
      MONO_TYPE_R4, MONO_TYPE_R8, MONO_TYPE_STRING, MONO_TYPE_PTR, MONO_TYPE_VALUETYPE,
      MONO_TYPE_CLASS, MONO_TYPE_ARRAY, MONO_TYPE_GENERICINST, MONO_TYPE_I, MONO_TYPE_U,
      MONO_TYPE_OBJECT, MONO_TYPE_SZARRAY]

theorem switch_prim32 (md : Metadata)
    (enc : IdState → ObjState → MonoType → Value → Option (IdState × ObjState × List Nat))
    (i : IdState) (o : ObjState) (t : MonoType) (bits domain : Nat)
    (h : t.type ∈ [MONO_TYPE_I4, MONO_TYPE_U4, MONO_TYPE_R4]) :
    buffer_add_value_switch md enc i o t (Value.prim bits) domain false
      = some (i, o, t.type :: buffer_add_int (toUInt32 (toInt32 bits))) := by
  simp only [List.mem_cons, List.mem_singleton, List.not_mem_nil, or_false] at h
  rcases h with h | h | h <;>
    simp [buffer_add_value_switch, h, Value.bits, buffer_add_byte, MONO_TYPE_VOID, MONO_TYPE_BOOLEAN, MONO_TYPE_CHAR, MONO_TYPE_I1, MONO_TYPE_U1,
      MONO_TYPE_I2, MONO_TYPE_U2, MONO_TYPE_I4, MONO_TYPE_U4, MONO_TYPE_I8, MONO_TYPE_U8,
      MONO_TYPE_R4, MONO_TYPE_R8, MONO_TYPE_STRING, MONO_TYPE_PTR, MONO_TYPE_VALUETYPE,
      MONO_TYPE_CLASS, MONO_TYPE_ARRAY, MONO_TYPE_GENERICINST, MONO_TYPE_I, MONO_TYPE_U,
      MONO_TYPE_OBJECT, MONO_TYPE_SZARRAY]

theorem internal_prim32 (md : Metadata) (recur : MonoType → List Nat → Outcome Value)
    (ids : IdState) (objs : ObjState) (t : MonoType) (domain : Nat) (buf : List Nat)
    (h : t.type ∈ [MONO_TYPE_I4, MONO_TYPE_U4, MONO_TYPE_R4]) :
    decode_value_internal md recur ids objs t (t.type : Int) domain buf
      = decode_store 32 (decode_int buf) := by
  simp only [List.mem_cons, List.mem_singleton, List.not_mem_nil, or_false] at h
  rcases h with h | h | h <;>
    simp [decode_value_internal, h, MONO_TYPE_VOID, MONO_TYPE_BOOLEAN, MONO_TYPE_CHAR, MONO_TYPE_I1, MONO_TYPE_U1,
      MONO_TYPE_I2, MONO_TYPE_U2, MONO_TYPE_I4, MONO_TYPE_U4, MONO_TYPE_I8, MONO_TYPE_U8,
      MONO_TYPE_R4, MONO_TYPE_R8, MONO_TYPE_STRING, MONO_TYPE_PTR, MONO_TYPE_VALUETYPE,
      MONO_TYPE_CLASS, MONO_TYPE_ARRAY, MONO_TYPE_GENERICINST, MONO_TYPE_I, MONO_TYPE_U,
      MONO_TYPE_OBJECT, MONO_TYPE_SZARRAY]

theorem switch_prim64 (md : Metadata)
    (enc : IdState → ObjState → MonoType → Value → Option (IdState × ObjState × List Nat))
    (i : IdState) (o : ObjState) (t : MonoType) (bits domain : Nat)
    (h : t.type ∈ [MONO_TYPE_I8, MONO_TYPE_U8, MONO_TYPE_R8]) :
    buffer_add_value_switch md enc i o t (Value.prim bits) domain false
      = some (i, o, t.type :: buffer_add_long (toUInt64 (toInt64 bits))) := by
  simp only [List.mem_cons, List.mem_singleton, List.not_mem_nil, or_false] at h
  rcases h with h | h | h <;>
    simp [buffer_add_value_switch, h, Value.bits, buffer_add_byte, MONO_TYPE_VOID, MONO_TYPE_BOOLEAN, MONO_TYPE_CHAR, MONO_TYPE_I1, MONO_TYPE_U1,
      MONO_TYPE_I2, MONO_TYPE_U2, MONO_TYPE_I4, MONO_TYPE_U4, MONO_TYPE_I8, MONO_TYPE_U8,
      MONO_TYPE_R4, MONO_TYPE_R8, MONO_TYPE_STRING, MONO_TYPE_PTR, MONO_TYPE_VALUETYPE,
      MONO_TYPE_CLASS, MONO_TYPE_ARRAY, MONO_TYPE_GENERICINST, MONO_TYPE_I, MONO_TYPE_U,
      MONO_TYPE_OBJECT, MONO_TYPE_SZARRAY]

theorem internal_prim64 (md : Metadata) (recur : MonoType → List Nat → Outcome Value)
    (ids : IdState) (objs : ObjState) (t : MonoType) (domain : Nat) (buf : List Nat)
    (h : t.type ∈ [MONO_TYPE_I8, MONO_TYPE_U8, MONO_TYPE_R8]) :
    decode_value_internal md recur ids objs t (t.type : Int) domain buf
      = decode_store 64 (decode_long buf) := by
  simp only [List.mem_cons, List.mem_singleton, List.not_mem_nil, or_false] at h
  rcases h with h | h | h <;>
    simp [decode_value_internal, h, MONO_TYPE_VOID, MONO_TYPE_BOOLEAN, MONO_TYPE_CHAR, MONO_TYPE_I1, MONO_TYPE_U1,
      MONO_TYPE_I2, MONO_TYPE_U2, MONO_TYPE_I4, MONO_TYPE_U4, MONO_TYPE_I8, MONO_TYPE_U8,
      MONO_TYPE_R4, MONO_TYPE_R8, MONO_TYPE_STRING, MONO_TYPE_PTR, MONO_TYPE_VALUETYPE,
      MONO_TYPE_CLASS, MONO_TYPE_ARRAY, MONO_TYPE_GENERICINST, MONO_TYPE_I, MONO_TYPE_U,
      MONO_TYPE_OBJECT, MONO_TYPE_SZARRAY]

theorem switch_vtype (md : Metadata)
    (enc : IdState → ObjState → MonoType → Value → Option (IdState × ObjState × List Nat))
    (i : IdState) (o : ObjState) (t : MonoType) (v : Value) (domain : Nat)
    (h : t.type ∈ [MONO_TYPE_I, MONO_TYPE_U, MONO_TYPE_VALUETYPE] ∨
      (t.type = MONO_TYPE_GENERICINST ∧ md.generic_inst_is_valuetype t = true)) :
    buffer_add_value_switch md enc i o t v domain false
      = buffer_add_vtype md enc i o t v domain := by
  simp only [List.mem_cons, List.mem_singleton, List.not_mem_nil, or_false] at h
  rcases h with (h | h | h) | ⟨h, h2⟩ <;>
    simp [buffer_add_value_switch, h, MONO_TYPE_VOID, MONO_TYPE_BOOLEAN, MONO_TYPE_CHAR, MONO_TYPE_I1, MONO_TYPE_U1,
      MONO_TYPE_I2, MONO_TYPE_U2, MONO_TYPE_I4, MONO_TYPE_U4, MONO_TYPE_I8, MONO_TYPE_U8,
      MONO_TYPE_R4, MONO_TYPE_R8, MONO_TYPE_STRING, MONO_TYPE_PTR, MONO_TYPE_VALUETYPE,
      MONO_TYPE_CLASS, MONO_TYPE_ARRAY, MONO_TYPE_GENERICINST, MONO_TYPE_I, MONO_TYPE_U,
      MONO_TYPE_OBJECT, MONO_TYPE_SZARRAY]
  simp [MONO_TYPE_GENERICINST] at h
  simp [h, h2]

theorem internal_vtype (md : Metadata) (recur : MonoType → List Nat → Outcome Value)
    (ids : IdState) (objs : ObjState) (t : MonoType) (domain : Nat) (buf : List Nat)
    (h : t.type ∈ [MONO_TYPE_I, MONO_TYPE_U, MONO_TYPE_VALUETYPE] ∨
      (t.type = MONO_TYPE_GENERICINST ∧ md.type_isstruct t = true)) :
    decode_value_internal md recur ids objs t (MONO_TYPE_VALUETYPE : Int) domain buf
      = decode_vtype md recur ids t buf := by
  simp only [List.mem_cons, List.mem_singleton, List.not_mem_nil, or_false] at h
  rcases h with (h | h | h) | ⟨h, h2⟩ <;>
    simp [decode_value_internal, h, MONO_TYPE_VOID, MONO_TYPE_BOOLEAN, MONO_TYPE_CHAR, MONO_TYPE_I1, MONO_TYPE_U1,
      MONO_TYPE_I2, MONO_TYPE_U2, MONO_TYPE_I4, MONO_TYPE_U4, MONO_TYPE_I8, MONO_TYPE_U8,
      MONO_TYPE_R4, MONO_TYPE_R8, MONO_TYPE_STRING, MONO_TYPE_PTR, MONO_TYPE_VALUETYPE,
      MONO_TYPE_CLASS, MONO_TYPE_ARRAY, MONO_TYPE_GENERICINST, MONO_TYPE_I, MONO_TYPE_U,
      MONO_TYPE_OBJECT, MONO_TYPE_SZARRAY]
  simp [MONO_TYPE_GENERICINST] at h
  simp [h, h2]

theorem switch_ref (md : Metadata)
    (enc : IdState → ObjState → MonoType → Value → Option (IdState × ObjState × List Nat))
    (i : IdState) (o : ObjState) (t : MonoType) (v : Value) (domain : Nat)
    (h : t.type ∈ [MONO_TYPE_STRING, MONO_TYPE_SZARRAY, MONO_TYPE_OBJECT, MONO_TYPE_CLASS,
        MONO_TYPE_ARRAY] ∨
      (t.type = MONO_TYPE_GENERICINST ∧ md.generic_inst_is_valuetype t = false)) :
    buffer_add_value_switch md enc i o t v domain false
      = buffer_add_ref md enc i o v domain := by
  simp only [List.mem_cons, List.mem_singleton, List.not_mem_nil, or_false] at h
  rcases h with (h | h | h | h | h) | ⟨h, h2⟩ <;>
    simp [buffer_add_value_switch, h, MONO_TYPE_VOID, MONO_TYPE_BOOLEAN, MONO_TYPE_CHAR, MONO_TYPE_I1, MONO_TYPE_U1,
      MONO_TYPE_I2, MONO_TYPE_U2, MONO_TYPE_I4, MONO_TYPE_U4, MONO_TYPE_I8, MONO_TYPE_U8,
      MONO_TYPE_R4, MONO_TYPE_R8, MONO_TYPE_STRING, MONO_TYPE_PTR, MONO_TYPE_VALUETYPE,
      MONO_TYPE_CLASS, MONO_TYPE_ARRAY, MONO_TYPE_GENERICINST, MONO_TYPE_I, MONO_TYPE_U,
      MONO_TYPE_OBJECT, MONO_TYPE_SZARRAY]
  simp [MONO_TYPE_GENERICINST] at h
  simp [h, h2]

theorem internal_ref (md : Metadata) (recur : MonoType → List Nat → Outcome Value)
    (ids : IdState) (objs : ObjState) (t : MonoType) (type : Int) (domain : Nat)
    (buf : List Nat)
    (h : t.type ∈ [MONO_TYPE_STRING, MONO_TYPE_SZARRAY, MONO_TYPE_OBJECT, MONO_TYPE_CLASS,
        MONO_TYPE_ARRAY] ∨
      (t.type = MONO_TYPE_GENERICINST ∧ md.type_isstruct t = false))
    (href : md.type_is_reference t = true) :
    decode_value_internal md recur ids objs t type domain buf
      = decode_ref md objs t type domain buf := by
  simp only [List.mem_cons, List.mem_singleton, List.not_mem_nil, or_false] at h
  rcases h with (h | h | h | h | h) | ⟨h, h2⟩ <;>
    simp [decode_value_internal, h, href, MONO_TYPE_VOID, MONO_TYPE_BOOLEAN, MONO_TYPE_CHAR, MONO_TYPE_I1, MONO_TYPE_U1,
      MONO_TYPE_I2, MONO_TYPE_U2, MONO_TYPE_I4, MONO_TYPE_U4, MONO_TYPE_I8, MONO_TYPE_U8,
      MONO_TYPE_R4, MONO_TYPE_R8, MONO_TYPE_STRING, MONO_TYPE_PTR, MONO_TYPE_VALUETYPE,
      MONO_TYPE_CLASS, MONO_TYPE_ARRAY, MONO_TYPE_GENERICINST, MONO_TYPE_I, MONO_TYPE_U,
      MONO_TYPE_OBJECT, MONO_TYPE_SZARRAY]
  simp [MONO_TYPE_GENERICINST] at h
  simp [h, h2]

theorem decode_value_cons (md : Metadata) (ids : IdState) (objs : ObjState) (depth : Nat)
    (t : MonoType) (domain tag : Nat) (buf : List Nat) (v : Value) (e : List Nat)
    (h : decode_value_internal md (fun ft fb => decode_value md ids objs depth ft domain fb)
      ids objs t (tag : Int) domain buf = Outcome.ok v e) :
    decode_value md ids objs (depth + 1) t domain (tag :: buf) = Outcome.ok v e := by
  simp only [decode_value, decode_byte]
  split
  · rw [h]
  · exact h

theorem buffer_add_value_full_recur_grows (md : Metadata) (depth domain : Nat) :
    recur_grows (fun i o ft fv => buffer_add_value_full md depth i o ft fv domain false) :=
  fun i o ft fv i1 o1 b h => buffer_add_value_full_grow md depth i o ft fv domain false i1 o1 b h

theorem round_trip_step (md : Metadata) (domain depth : Nat) (ids2 : IdState)
    (objs2 : ObjState) (hb1 : (ids2.ids IdType.ID_TYPE).length < 2 ^ 31)
    (hb2 : objs2.objref_id < 2 ^ 31)
    (ih : recur_round_trips (supported md domain depth)
      (fun i o ft fv => buffer_add_value_full md depth i o ft fv domain false)
      (fun ft fb => decode_value md ids2 objs2 depth ft domain fb) ids2 objs2) :
    recur_round_trips (supported md domain (depth + 1))
      (fun i o ft fv => buffer_add_value_full md (depth + 1) i o ft fv domain false)
      (fun ft fb => decode_value md ids2 objs2 (depth + 1) ft domain fb) ids2 objs2 := by
  intro i o t v i1 o1 b hi ho hs henc g1 g2 rest
  simp only [supported, Bool.and_eq_true, Bool.not_eq_true'] at hs
  obtain ⟨hby, hs⟩ := hs
  simp only [buffer_add_value_full, hby, Bool.false_eq_true, if_false] at henc
  cases v with
  | prim bits =>
    simp only [Bool.or_eq_true, Bool.and_eq_true, decide_eq_true_eq] at hs
    rcases hs with ((⟨ht, hbits⟩ | ⟨ht, hbits⟩) | ⟨ht, hbits⟩) | ⟨ht, hbits⟩
    · rw [switch_prim8 md _ i o t bits domain ht] at henc
      simp only [Option.some.injEq, Prod.mk.injEq] at henc
      obtain ⟨_, _, e⟩ := henc
      subst e
      simp only [List.cons_append]
      apply decode_value_cons
      rw [internal_prim8 md _ _ _ t domain _ ht, decode_int_buffer_add_int]
      simp only [decode_store, store8_toInt8 bits hbits]
    · rw [switch_prim16 md _ i o t bits domain ht] at henc
      simp only [Option.some.injEq, Prod.mk.injEq] at henc
      obtain ⟨_, _, e⟩ := henc
      subst e
      simp only [List.cons_append]
      apply decode_value_cons
      rw [internal_prim16 md _ _ _ t domain _ ht, decode_int_buffer_add_int]
      simp only [decode_store, store16_toInt16 bits hbits]
    · rw [switch_prim32 md _ i o t bits domain ht] at henc
      simp only [Option.some.injEq, Prod.mk.injEq] at henc
      obtain ⟨_, _, e⟩ := henc
      subst e
      simp only [List.cons_append]
      apply decode_value_cons
      rw [internal_prim32 md _ _ _ t domain _ ht, decode_int_buffer_add_int]
      simp only [decode_store, store32_toInt32 bits hbits]
    · rw [switch_prim64 md _ i o t bits domain ht] at henc
      simp only [Option.some.injEq, Prod.mk.injEq] at henc
      obtain ⟨_, _, e⟩ := henc
      subst e
      simp only [List.cons_append]
      apply decode_value_cons
      rw [internal_prim64 md _ _ _ t domain _ ht, decode_long_buffer_add_long]
      simp only [decode_store, store64_toInt64 bits hbits]
  | ref obj =>
    simp only [Bool.or_eq_true, Bool.and_eq_true, decide_eq_true_eq, Bool.not_eq_true'] at hs
    obtain ⟨⟨htag, href⟩, hobj⟩ := hs
    have htag1 : t.type ∈ [MONO_TYPE_STRING, MONO_TYPE_SZARRAY, MONO_TYPE_OBJECT,
        MONO_TYPE_CLASS, MONO_TYPE_ARRAY] ∨
        (t.type = MONO_TYPE_GENERICINST ∧ md.generic_inst_is_valuetype t = false) := by
      rcases htag with h | h
      · exact Or.inl h
      · exact Or.inr ⟨h.1.1, h.1.2⟩
    have htag2 : t.type ∈ [MONO_TYPE_STRING, MONO_TYPE_SZARRAY, MONO_TYPE_OBJECT,
        MONO_TYPE_CLASS, MONO_TYPE_ARRAY] ∨
        (t.type = MONO_TYPE_GENERICINST ∧ md.type_isstruct t = false) := by
      rcases htag with h | h
      · exact Or.inl h
      · exact Or.inr ⟨h.1.1, h.2⟩
    rw [switch_ref md _ i o t _ domain htag1] at henc
    have hobj1 : obj = 0 ∨ (md.class_valuetype (md.object_class obj) = false ∧
        (md.class_byval_arg (md.object_class obj)).type = MONO_TYPE_OBJECT ∧
        md.class_is_assignable_from (md.class_from_mono_type t) (md.object_class obj) = true ∧
        (md.object_domain obj = domain ∨ md.class_from_mono_type t = md.string_class)) := by
      rcases hobj with h | h
      · exact Or.inl h
      · exact Or.inr ⟨h.1.1.1, h.1.1.2, h.1.2, h.2⟩
    obtain ⟨tag, b1, e, _, hdec⟩ := decode_ref_buffer_add_ref md _ objs2 i o t obj domain i1 o1 b
      ho href hobj1 henc g2 hb2
    subst e
    simp only [List.cons_append]
    apply decode_value_cons
    rw [internal_ref md _ _ _ t _ domain _ htag2 href]
    exact hdec rest
  | vtype vals =>
    simp only [Bool.or_eq_true, Bool.and_eq_true, decide_eq_true_eq] at hs
    obtain ⟨⟨⟨⟨htag, hk⟩, he⟩, hlen⟩, hf⟩ := hs
    have htag1 : t.type ∈ [MONO_TYPE_I, MONO_TYPE_U, MONO_TYPE_VALUETYPE] ∨
        (t.type = MONO_TYPE_GENERICINST ∧ md.generic_inst_is_valuetype t = true) := by
      rcases htag with h | h
      · exact Or.inl h
      · exact Or.inr ⟨h.1.1, h.1.2⟩
    have htag2 : t.type ∈ [MONO_TYPE_I, MONO_TYPE_U, MONO_TYPE_VALUETYPE] ∨
        (t.type = MONO_TYPE_GENERICINST ∧ md.type_isstruct t = true) := by
      rcases htag with h | h
      · exact Or.inl h
      · exact Or.inr ⟨h.1.1, h.2⟩
    rw [switch_vtype md _ i o t _ domain htag1] at henc
    obtain ⟨b1, e, hdec⟩ := decode_vtype_buffer_add_vtype md (supported md domain depth) _ _
      ids2 objs2 (buffer_add_value_full_recur_grows md depth domain) ih i o t vals domain i1 o1 b
      hi ho hk he hlen hf henc g1 g2 hb1
    subst e
    simp only [List.cons_append]
    apply decode_value_cons
    have hint := internal_vtype md
      (fun ft fb => decode_value md ids2 objs2 depth ft domain fb) ids2 objs2 t domain
      (b1 ++ rest) htag2
    rw [hint]
    exact hdec rest
  | byref target => simp at hs
  | byref_null => simp at hs

theorem round_trip_all (md : Metadata) (domain : Nat) (ids2 : IdState)
    (objs2 : ObjState) (hb1 : (ids2.ids IdType.ID_TYPE).length < 2 ^ 31)
    (hb2 : objs2.objref_id < 2 ^ 31) (depth : Nat) :
    recur_round_trips (supported md domain depth)
      (fun i o ft fv => buffer_add_value_full md depth i o ft fv domain false)
      (fun ft fb => decode_value md ids2 objs2 depth ft domain fb) ids2 objs2 := by
  induction depth with
  | zero =>
    intro i o t v i1 o1 b _ _ hs
    simp [supported] at hs
  | succ n ih => exact round_trip_step md domain n ids2 objs2 hb1 hb2 ih

theorem get_id_succeeds (s : IdState) (d : Nat) (k : IdType) (v : Nat)
    (hc : ids_consistent s) (hd : d ≠ 0) : ∃ r, get_id s d k v = some r := by
  by_cases hv : v = 0
  · simp only [get_id, hv, if_true]
    exact ⟨_, rfl⟩
  · cases hl : val_to_id_lookup s d k v with
    | none =>
      obtain ⟨s1, h, _⟩ := get_id_fresh s d k v hv hd hl
      exact ⟨_, h⟩
    | some p =>
      obtain ⟨s1, h, _⟩ := get_id_known s d k v p _ hv hd hl (hc d k v p hl)
      exact ⟨_, h⟩

theorem get_objref_succeeds (s : ObjState) (obj : Nat) (hc : objs_inv s) (hobj : obj ≠ 0) :
    ∃ s1 ref, get_objref s obj = some (s1, some ref) := by
  obtain ⟨tb, htb⟩ := hc.1.1
  unfold get_objref
  simp only [hobj, if_false, htb]
  split
  · exact ⟨_, _, rfl⟩
  · exact ⟨_, _, rfl⟩

theorem buffer_add_fields_succeeds (p : MonoType → Value → Bool)
    (enc : IdState → ObjState → MonoType → Value → Option (IdState × ObjState × List Nat))
    (hg : recur_grows enc) (hs : recur_succeeds p enc) (fs : List MonoClassField) :
    ∀ (vs : List Value) (i : IdState) (o : ObjState), ids_consistent i → objs_inv o →
      supported_fields p fs vs = true → ∃ r, buffer_add_fields enc i o fs vs = some r := by
  induction fs with
  | nil =>
    intro vs i o _ _ _
    simp only [buffer_add_fields]
    exact ⟨_, rfl⟩
  | cons f fs ih =>
    intro vs i o hi ho hsup
    cases vs with
    | nil => simp [supported_fields] at hsup
    | cons v vs =>
      simp only [supported_fields, Bool.and_eq_true] at hsup
      obtain ⟨⟨ia, oa, b1⟩, h1⟩ := hs i o f.type v hi ho hsup.1
      obtain ⟨ga, gb⟩ := hg i o f.type v ia oa b1 h1
      obtain ⟨⟨ib, ob, b2⟩, h2⟩ := ih vs ia oa (ids_grow_consistent _ _ ga hi)
        (objs_grow_inv _ _ gb ho) hsup.2
      simp only [buffer_add_fields, h1, h2]
      exact ⟨_, rfl⟩

theorem buffer_add_vtype_succeeds (md : Metadata) (p : MonoType → Value → Bool)
    (enc : IdState → ObjState → MonoType → Value → Option (IdState × ObjState × List Nat))
    (hg : recur_grows enc) (hs : recur_succeeds p enc) (i : IdState) (o : ObjState)
    (t : MonoType) (vals : List Value) (domain : Nat) (hi : ids_consistent i)
    (ho : objs_inv o) (hd : domain ≠ 0) (hk : md.class_from_mono_type t ≠ 0)
    (hsup : supported_fields p (instance_fields md (md.class_from_mono_type t)) vals = true) :
    ∃ r, buffer_add_vtype md enc i o t (Value.vtype vals) domain = some r := by
  obtain ⟨⟨ia, id⟩, hgid⟩ := get_id_succeeds i domain IdType.ID_TYPE (md.class_from_mono_type t)
    hi hd
  obtain ⟨⟨ib, ob, b2⟩, hf⟩ := buffer_add_fields_succeeds p enc hg hs _ vals ia o
    (ids_grow_consistent _ _ (ids_grow_get_id _ _ _ _ _ _ hgid) hi) ho hsup
  simp only [buffer_add_vtype, hk, if_false, buffer_add_ptr_id, hgid, Value.fields, hf]
  exact ⟨_, rfl⟩

theorem buffer_add_ref_succeeds (md : Metadata)
    (enc : IdState → ObjState → MonoType → Value → Option (IdState × ObjState × List Nat))
    (i : IdState) (o : ObjState) (obj : Nat) (domain : Nat) (ho : objs_inv o)
    (hobj : obj = 0 ∨ md.class_valuetype (md.object_class obj) = false) :
    ∃ r, buffer_add_ref md enc i o (Value.ref obj) domain = some r := by
  by_cases h0 : obj = 0
  · simp only [buffer_add_ref, h0, if_true]
    exact ⟨_, rfl⟩
  · have hv := hobj.resolve_left h0
    obtain ⟨s1, ref, hgo⟩ := get_objref_succeeds o obj ho h0
    simp only [buffer_add_ref, h0, if_false, hv, Bool.false_eq_true, buffer_add_objid,
      get_objid, hgo]
    exact ⟨_, rfl⟩

theorem buffer_add_value_succeeds (md : Metadata) (domain : Nat) (hd : domain ≠ 0)
    (depth : Nat) :
    recur_succeeds (supported md domain depth)
      (fun i o ft fv => buffer_add_value_full md depth i o ft fv domain false) := by
  induction depth with
  | zero =>
    intro i o t v _ _ hs
    simp [supported] at hs
  | succ n ih =>
    intro i o t v hi ho hs
    simp only [supported, Bool.and_eq_true, Bool.not_eq_true'] at hs
    obtain ⟨hby, hs⟩ := hs
    simp only [buffer_add_value_full, hby, Bool.false_eq_true, if_false]
    cases v with
    | prim bits =>
      simp only [Bool.or_eq_true, Bool.and_eq_true, decide_eq_true_eq] at hs
      rcases hs with ((⟨ht, _⟩ | ⟨ht, _⟩) | ⟨ht, _⟩) | ⟨ht, _⟩
      · exact ⟨_, switch_prim8 md _ i o t bits domain ht⟩
      · exact ⟨_, switch_prim16 md _ i o t bits domain ht⟩
      · exact ⟨_, switch_prim32 md _ i o t bits domain ht⟩
      · exact ⟨_, switch_prim64 md _ i o t bits domain ht⟩
    | ref obj =>
      simp only [Bool.or_eq_true, Bool.and_eq_true, decide_eq_true_eq, Bool.not_eq_true'] at hs
      obtain ⟨⟨htag, _⟩, hobj⟩ := hs
      have htag1 : t.type ∈ [MONO_TYPE_STRING, MONO_TYPE_SZARRAY, MONO_TYPE_OBJECT,
          MONO_TYPE_CLASS, MONO_TYPE_ARRAY] ∨
          (t.type = MONO_TYPE_GENERICINST ∧ md.generic_inst_is_valuetype t = false) := by
        rcases htag with h | h
        · exact Or.inl h
        · exact Or.inr ⟨h.1.1, h.1.2⟩
      rw [switch_ref md _ i o t _ domain htag1]
      apply buffer_add_ref_succeeds md _ i o obj domain ho
      rcases hobj with h | h
      · exact Or.inl h
      · exact Or.inr h.1.1.1
    | vtype vals =>
      simp only [Bool.or_eq_true, Bool.and_eq_true, decide_eq_true_eq] at hs
      obtain ⟨⟨⟨⟨htag, hk⟩, _⟩, _⟩, hf⟩ := hs
      have htag1 : t.type ∈ [MONO_TYPE_I, MONO_TYPE_U, MONO_TYPE_VALUETYPE] ∨
          (t.type = MONO_TYPE_GENERICINST ∧ md.generic_inst_is_valuetype t = true) := by
        rcases htag with h | h
        · exact Or.inl h
        · exact Or.inr ⟨h.1.1, h.1.2⟩
      rw [switch_vtype md _ i o t _ domain htag1]
      exact buffer_add_vtype_succeeds md (supported md domain n) _
        (buffer_add_value_full_recur_grows md n domain) ih i o t vals domain hi ho hd hk hf
    | byref target => simp at hs
    | byref_null => simp at hs

/-- A pointer is written under the tag `MONO_TYPE_PTR`, and `decode_value`, given
those bytes and the pointer type, fails the assertion `type == MONO_TYPE_I8`. -/
theorem decode_value_pointer_aborts :
    ∃ ids1 objs1,
      buffer_add_value metadata_example 1 ids_init objrefs_init ⟨MONO_TYPE_PTR, false, 0⟩
        (Value.prim 4096) 1 = some (ids1, objs1, [15, 0, 0, 0, 0, 0, 0, 16, 0]) ∧
      decode_value metadata_example ids1 objs1 1 ⟨MONO_TYPE_PTR, false, 0⟩ 1
        [15, 0, 0, 0, 0, 0, 0, 16, 0] = Outcome.abort :=
  ⟨_, _, rfl, rfl⟩

/-- Claim C1 (as stated, refuted): the enum value 7 is written by `buffer_add_value`
as a value type with the enum flag set, and `decode_value`, given those bytes and the
type of the enum, returns `ERR_NOT_IMPLEMENTED`; a string object is written under the
tag `MONO_TYPE_STRING` with its object id, and `decode_value`, given those bytes and
the type `string`, returns `ERR_INVALID_ARGUMENT`. -/
theorem decode_value_buffer_add_value_counterexample :
    (∃ ids1 objs1,
      buffer_add_value metadata_example 2 ids_init objrefs_init enum_type_example
        (Value.vtype [Value.prim 7]) 1
        = some (ids1, objs1, [17, 1, 0, 0, 0, 1, 0, 0, 0, 1, 8, 0, 0, 0, 7]) ∧
      decode_value metadata_example ids1 objs1 2 enum_type_example 1
        [17, 1, 0, 0, 0, 1, 0, 0, 0, 1, 8, 0, 0, 0, 7] = Outcome.err ERR_NOT_IMPLEMENTED) ∧
    (∃ ids1 objs1,
      buffer_add_value metadata_example 2 ids_init objrefs_init string_type_example
        (Value.ref 500) 1 = some (ids1, objs1, [14, 0, 0, 0, 1]) ∧
      decode_value metadata_example ids1 objs1 2 string_type_example 1 [14, 0, 0, 0, 1]
        = Outcome.err ERR_INVALID_ARGUMENT) :=
  ⟨⟨_, _, rfl, rfl⟩, ⟨_, _, rfl, rfl⟩⟩

/-- Claim C1 (amended): in registries reached from their initial state, for a type
and value that `supported` accepts (a primitive, a reference holding `NULL` or an
object whose class has the tag `MONO_TYPE_OBJECT`, or a value type that is not an enum
and whose instance fields are again supported), `buffer_add_value` returns, and when
the ids in the registries afterwards fit a positive `int`, `decode_value` run on the
bytes written, followed by any rest, returns `ERR_NONE`, stores the value and leaves
exactly the rest. -/
theorem decode_value_buffer_add_value (md : Metadata) (pre : List IdOp) (opre : List ObjOp)
    (ids : IdState) (objs : ObjState) (depth domain : Nat) (t : MonoType) (v : Value)
    (hids : run_id_ops ids_init pre = some ids)
    (hobjs : run_obj_ops objrefs_init opre = some objs)
    (hd : domain ≠ 0)
    (hs : supported md domain depth t v = true) :
    ∃ ids1 objs1 bytes,
      buffer_add_value md depth ids objs t v domain = some (ids1, objs1, bytes) ∧
      ((ids1.ids IdType.ID_TYPE).length < 2 ^ 31 → objs1.objref_id < 2 ^ 31 →
        ∀ rest, decode_value md ids1 objs1 depth t domain (bytes ++ rest)
          = Outcome.ok v rest) := by
  have hi : ids_consistent ids := ids_consistent_run pre ids_init ids hids ids_consistent_init
  have ho : objs_inv objs := objs_run_inv opre objrefs_init objs hobjs objs_inv_init
  obtain ⟨⟨ids1, objs1, bytes⟩, henc⟩ := buffer_add_value_succeeds md domain hd depth ids objs t v
    hi ho hs
  refine ⟨ids1, objs1, bytes, henc, ?_⟩
  intro hb1 hb2 rest
  exact round_trip_all md domain ids1 objs1 hb1 hb2 depth ids objs t v ids1 objs1 bytes hi ho hs
    henc (ids_grow_refl _) (objs_grow_refl _) rest

theorem decode_value_buffer_add_value_witness :
    supported metadata_example 1 2 struct_type_example struct_value_example = true ∧
    ∃ ids1 objs1 bytes,
      buffer_add_value metadata_example 2 ids_init objrefs_init struct_type_example
        struct_value_example 1 = some (ids1, objs1, bytes) ∧
      ((ids1.ids IdType.ID_TYPE).length < 2 ^ 31 → objs1.objref_id < 2 ^ 31 →
        ∀ rest, decode_value metadata_example ids1 objs1 2 struct_type_example 1
          (bytes ++ rest) = Outcome.ok struct_value_example rest) :=
  ⟨rfl, decode_value_buffer_add_value metadata_example [] [] ids_init objrefs_init 2 1
    struct_type_example struct_value_example rfl rfl (by decide) rfl⟩

/-! ### Packets and events -/

theorem buffer_add_int_length (v : Nat) : (buffer_add_int v).length = 4 := rfl

/-- Claim C18: `send_reply_packet` hands the transport exactly `n + 11` bytes for a
payload of `n` bytes: the length `n + 11` and the request id as big-endian 32-bit
integers, the flag byte `0x80`, the high and the low byte of the error code, and then
the payload unchanged. The length is assumed to fit a positive `int`. -/
theorem send_reply_packet_layout (id error : Int) (data : List Nat)
    (hn : data.length + 11 < 2 ^ 31) :
    send_reply_packet id error data
      = [(data.length + 11) / 2 ^ 24 % 256, (data.length + 11) / 2 ^ 16 % 256,
         (data.length + 11) / 2 ^ 8 % 256, (data.length + 11) % 256,
         toUInt32 id / 2 ^ 24 % 256, toUInt32 id / 2 ^ 16 % 256, toUInt32 id / 2 ^ 8 % 256,
         toUInt32 id % 256,
         0x80, (error / 256 % 256).toNat, (error % 256).toNat] ++ data ∧
    (send_reply_packet id error data).length = data.length + 11 ∧
    decode_int (send_reply_packet id error data)
      = some ⟨((data.length + 11 : Nat) : Int),
          (send_reply_packet id error data).drop 4⟩ := by
  have hlen : toInt32 (data.length + 11) = ((data.length + 11 : Nat) : Int) :=
    toInt32_of_lt _ hn
  have hu : toUInt32 ((data.length + 11 : Nat) : Int) = data.length + 11 := by
    rw [toUInt32_of_nonneg _ (by omega) (by omega)]
    omega
  have hsh : error >>> (8 : Nat) = error / 256 := by
    rw [Int.shiftRight_eq_div_pow]
    norm_num
  have hb : (error / 256 % 2 ^ 8 % 2 ^ 8).toNat % 256 = (error / 256 % 256).toNat := by omega
  have hc : (error % 2 ^ 8).toNat % 256 = (error % 256).toNat := by omega
  have e1 : send_reply_packet id error data
      = [(data.length + 11) / 2 ^ 24 % 256, (data.length + 11) / 2 ^ 16 % 256,
         (data.length + 11) / 2 ^ 8 % 256, (data.length + 11) % 256,
         toUInt32 id / 2 ^ 24 % 256, toUInt32 id / 2 ^ 16 % 256, toUInt32 id / 2 ^ 8 % 256,
         toUInt32 id % 256,
         0x80, (error / 256 % 256).toNat, (error % 256).toNat] ++ data := by
    simp only [send_reply_packet, packet_bytes, hlen, hu, buffer_add_int_eq, buffer_add_byte,
      toUInt8, hsh, hb, hc, Int.toNat_ofNat, List.cons_append, List.nil_append, List.append_assoc,
      List.singleton_append]
    rw [List.take_of_length_le]
    simp
  refine ⟨e1, ?_, ?_⟩
  · rw [e1]
    simp
  · rw [e1]
    simp only [List.cons_append, decode_int, List.drop_succ_cons, List.drop_zero]
    rw [or_bytes _ _ _ _ (Nat.mod_lt _ (by norm_num)) (Nat.mod_lt _ (by norm_num))
      (Nat.mod_lt _ (by norm_num))]
    have e2 : (data.length + 11) / 2 ^ 24 % 256 * 2 ^ 24 + (data.length + 11) / 2 ^ 16 % 256 * 2 ^ 16
        + (data.length + 11) / 2 ^ 8 % 256 * 2 ^ 8 + (data.length + 11) % 256
        = data.length + 11 := by omega
    rw [e2, hlen]


theorem reported_ids_set (er : EventRuntime) (cur : Nat) (event : Int) (ei : Option EventInfo)
    (klass : Nat) (table : List EventRequest) (i : Nat) (x : EventRequest) (idx : List Nat)
    (h : i ∉ idx) :
    reported_ids er cur event ei klass (table.set i x) idx
      = reported_ids er cur event ei klass table idx := by
  unfold reported_ids
  apply List.filterMap_congr
  intro j hj
  have hne : i ≠ j := fun e => h (e ▸ hj)
  rw [List.getElem?_set_ne hne]

theorem reported_policy_set (er : EventRuntime) (cur : Nat) (event : Int)
    (ei : Option EventInfo) (klass : Nat) (table : List EventRequest) (i : Nat)
    (x : EventRequest) (idx : List Nat) (h : i ∉ idx) :
    ∀ p, reported_policy er cur event ei klass (table.set i x) p idx
      = reported_policy er cur event ei klass table p idx := by
  induction idx with
  | nil => intro p; rfl
  | cons j rest ih =>
    intro p
    have hne : i ≠ j := fun e => h (e ▸ List.mem_cons_self _ _)
    have hr : i ∉ rest := fun hm => h (List.mem_cons_of_mem _ hm)
    simp only [reported_policy, List.foldl_cons, List.getElem?_set_ne hne]
    exact ih hr _

theorem create_event_list_loop_spec (er : EventRuntime) (cur : Nat) (event : Int)
    (ei : Option EventInfo) (klass : Nat) (idx : List Nat) :
    ∀ (table : List EventRequest) (events : List Int) (policy : Int), idx.Nodup →
      (∀ j ∈ idx, j < table.length) →
      ∃ table1, create_event_list_loop er cur event ei klass table events policy idx
          = some (table1, events ++ reported_ids er cur event ei klass table idx,
              reported_policy er cur event ei klass table policy idx) ∧
        table1.length = table.length ∧
        ∀ j, table1[j]? = if j ∈ idx then
            (table[j]?).map (visit_event_request er cur event ei klass)
          else table[j]? := by
  induction idx with
  | nil =>
    intro table events policy _ _
    exact ⟨table, by simp [create_event_list_loop, reported_ids, reported_policy], rfl,
      by simp⟩
  | cons i rest ih =>
    intro table events policy hnd hlt
    have hi : i < table.length := hlt i (List.mem_cons_self _ _)
    have hirest : i ∉ rest := (List.nodup_cons.mp hnd).1
    have hnd2 : rest.Nodup := (List.nodup_cons.mp hnd).2
    have hget : table[i]? = some table[i] := List.getElem?_eq_getElem hi
    generalize table[i] = req at hget
    by_cases hk : req.event_kind = event
    · have hlt2 : ∀ j ∈ rest, j < (table.set i
          (filter_event_request er cur ei klass req).2).length := by
        intro j hj
        rw [List.length_set]
        exact hlt j (List.mem_cons_of_mem _ hj)
      by_cases hf : (filter_event_request er cur ei klass req).1 = false
      · obtain ⟨t1, h1, h2, h3⟩ := ih (table.set i (filter_event_request er cur ei klass req).2)
          (events ++ [req.id]) (max policy req.suspend_policy) hnd2 hlt2
        refine ⟨t1, ?_, ?_, ?_⟩
        · simp only [create_event_list_loop, hget, hk, if_true, hf, h1]
          rw [reported_ids_set _ _ _ _ _ _ _ _ _ hirest, reported_policy_set _ _ _ _ _ _ _ _ _ hirest]
          simp [reported_ids, reported_policy, hget, is_reported, hk, hf]
        · rw [h2, List.length_set]
        · intro j
          rw [h3 j]
          by_cases hj : j = i
          · subst hj
            simp [hirest, hget, visit_event_request, hk, hi]
          · have hne : i ≠ j := fun e => hj e.symm
            by_cases hjr : j ∈ rest
            · simp [hjr, List.getElem?_set_ne hne]
            · simp [hjr, hj, List.getElem?_set_ne hne]
      · obtain ⟨t1, h1, h2, h3⟩ := ih (table.set i (filter_event_request er cur ei klass req).2)
          events policy hnd2 hlt2
        refine ⟨t1, ?_, ?_, ?_⟩
        · simp only [create_event_list_loop, hget, hk, if_true, hf, if_false, h1]
          rw [reported_ids_set _ _ _ _ _ _ _ _ _ hirest, reported_policy_set _ _ _ _ _ _ _ _ _ hirest]
          simp [reported_ids, reported_policy, hget, is_reported, hk, hf]
        · rw [h2, List.length_set]
        · intro j
          rw [h3 j]
          by_cases hj : j = i
          · subst hj
            simp [hirest, hget, visit_event_request, hk, hi]
          · have hne : i ≠ j := fun e => hj e.symm
            by_cases hjr : j ∈ rest
            · simp [hjr, List.getElem?_set_ne hne]
            · simp [hjr, hj, List.getElem?_set_ne hne]
    · obtain ⟨t1, h1, h2, h3⟩ := ih table events policy hnd2
        (fun j hj => hlt j (List.mem_cons_of_mem _ hj))
      refine ⟨t1, ?_, h2, ?_⟩
      · simp only [create_event_list_loop, hget, hk, if_false, h1]
        simp [reported_ids, reported_policy, hget, is_reported, hk]
      · intro j
        rw [h3 j]
        by_cases hj : j = i
        · subst hj
          simp [hirest, hget, visit_event_request, hk]
        · by_cases hjr : j ∈ rest
          · simp [hjr]
          · simp [hjr, hj]


theorem reported_ids_append (er : EventRuntime) (cur : Nat) (event : Int)
    (ei : Option EventInfo) (klass : Nat) (l : List EventRequest) (a : EventRequest) :
    reported_ids er cur event ei klass (l ++ [a]) (List.range l.length)
      = reported_ids er cur event ei klass l (List.range l.length) := by
  unfold reported_ids
  apply List.filterMap_congr
  intro j hj
  rw [List.getElem?_append_left (List.mem_range.mp hj)]

theorem reported_ids_range (er : EventRuntime) (cur : Nat) (event : Int)
    (ei : Option EventInfo) (klass : Nat) (table : List EventRequest) :
    reported_ids er cur event ei klass table (List.range table.length)
      = (table.filter (is_reported er cur event ei klass)).map (fun r => r.id) := by
  induction table using List.reverseRecOn with
  | nil => rfl
  | append_singleton l a ih =>
    rw [List.length_append, List.length_singleton, List.range_succ]
    unfold reported_ids at ih ⊢
    rw [List.filterMap_append]
    have h1 := reported_ids_append er cur event ei klass l a
    unfold reported_ids at h1
    rw [h1, ih]
    by_cases hr : is_reported er cur event ei klass a = true
    · simp [List.filter_append, hr]
    · simp [List.filter_append, hr]

theorem create_event_list_all (er : EventRuntime) (cur : Nat) (table : List EventRequest)
    (event : Int) (ji : Option MonoJitInfo) (ei : Option EventInfo) (arg : Nat) :
    create_event_list er cur table event none ji ei arg
      = some (table.map (visit_event_request er cur event ei (event_class er event ji arg)),
          (table.filter (is_reported er cur event ei (event_class er event ji arg))).map
              (fun r => r.id)
            ++ (if event = EVENT_KIND_VM_START then [0] else [])
            ++ (if event = EVENT_KIND_VM_DEATH then [0] else []),
          reported_policy er cur event ei (event_class er event ji arg) table
            SUSPEND_POLICY_NONE (List.range table.length)) := by
  obtain ⟨t1, h1, h2, h3⟩ := create_event_list_loop_spec er cur event ei
    (event_class er event ji arg)
    (List.range table.length) table [] SUSPEND_POLICY_NONE (List.nodup_range _)
    (fun j hj => List.mem_range.mp hj)
  have ht : t1 = table.map (visit_event_request er cur event ei
      (event_class er event ji arg)) := by
    apply List.ext_getElem?
    intro j
    rw [h3 j, List.getElem?_map]
    by_cases hj : j < table.length
    · simp [List.mem_range, hj]
    · simp [List.mem_range, hj, List.getElem?_eq_none (Nat.le_of_not_lt hj)]
  simp only [create_event_list, h1, ht, reported_ids_range, List.nil_append]
  have d1 : ¬ (EVENT_KIND_VM_START = EVENT_KIND_VM_DEATH) := by decide
  have d2 : ¬ (EVENT_KIND_VM_DEATH = EVENT_KIND_VM_START) := by decide
  by_cases e1 : event = EVENT_KIND_VM_START
  · simp [e1, d1]
  · by_cases e2 : event = EVENT_KIND_VM_DEATH
    · simp [e2, d2]
    · simp [e1, e2]


theorem send_reply_packet_layout_witness :
    send_reply_packet 7 102 [1, 2, 3]
      = [([1, 2, 3].length + 11) / 2 ^ 24 % 256, ([1, 2, 3].length + 11) / 2 ^ 16 % 256,
         ([1, 2, 3].length + 11) / 2 ^ 8 % 256, ([1, 2, 3].length + 11) % 256,
         toUInt32 7 / 2 ^ 24 % 256, toUInt32 7 / 2 ^ 16 % 256, toUInt32 7 / 2 ^ 8 % 256,
         toUInt32 7 % 256,
         0x80, ((102 : Int) / 256 % 256).toNat, ((102 : Int) % 256).toNat] ++ [1, 2, 3] ∧
    (send_reply_packet 7 102 [1, 2, 3]).length = [1, 2, 3].length + 11 ∧
    decode_int (send_reply_packet 7 102 [1, 2, 3])
      = some ⟨(([1, 2, 3].length + 11 : Nat) : Int),
          (send_reply_packet 7 102 [1, 2, 3]).drop 4⟩ :=
  send_reply_packet_layout 7 102 [1, 2, 3] (by decide)

theorem is_reported_count (er : EventRuntime) (cur : Nat) (event : Int) (ei : Option EventInfo)
    (klass : Nat) (req : EventRequest) (m : Modifier) (hk : req.event_kind = event)
    (hm : req.modifiers = [m]) (hc : m.kind = MOD_KIND_COUNT) :
    (is_reported er cur event ei klass req = true ↔ m.count = 1) ∧
    ∃ m1, (visit_event_request er cur event ei klass req).modifiers = [m1] ∧
      m1.kind = MOD_KIND_COUNT ∧ m1.count = (if m.count > 0 then m.count - 1 else m.count) ∧
      (visit_event_request er cur event ei klass req).id = req.id ∧
      (visit_event_request er cur event ei klass req).event_kind = req.event_kind := by
  by_cases hpos : m.count > 0
  · constructor
    · simp only [is_reported, hk, decide_True, Bool.true_and, filter_event_request, hm,
        apply_modifiers, apply_modifier, hc, if_true, hpos, Bool.not_eq_true',
        decide_eq_false_iff_not, ne_eq, not_not]
      omega
    · refine ⟨{ m with count := m.count - 1 }, ?_, hc, ?_, ?_, ?_⟩
      · simp only [visit_event_request, hk, if_true, filter_event_request, hm, apply_modifiers,
          apply_modifier, hc, hpos]
      · simp only [hpos, if_true]
      · simp only [visit_event_request, hk, if_true, filter_event_request]
      · simp only [visit_event_request, hk, if_true, filter_event_request]
  · constructor
    · simp only [is_reported, hk, decide_True, Bool.true_and, filter_event_request, hm,
        apply_modifiers, apply_modifier, hc, if_true, hpos, if_false, Bool.not_true,
        Bool.false_eq_true, false_iff]
      omega
    · refine ⟨m, ?_, hc, ?_, ?_, ?_⟩
      · simp only [visit_event_request, hk, if_true, filter_event_request, hm, apply_modifiers,
          apply_modifier, hc, hpos, if_false]
      · simp only [hpos, if_false]
      · simp only [visit_event_request, hk, if_true, filter_event_request]
      · simp only [visit_event_request, hk, if_true, filter_event_request]

theorem visit_event_request_id (er : EventRuntime) (cur : Nat) (event : Int)
    (ei : Option EventInfo) (klass : Nat) (req : EventRequest) :
    (visit_event_request er cur event ei klass req).id = req.id := by
  unfold visit_event_request filter_event_request
  split <;> rfl

theorem mem_reported_iff (er : EventRuntime) (cur : Nat) (event : Int) (ei : Option EventInfo)
    (klass : Nat) (table : List EventRequest) (i : Nat) (req : EventRequest)
    (hreq : table[i]? = some req) (hid : req.id ≠ 0)
    (huniq : ∀ j r, table[j]? = some r → r.id = req.id → j = i) :
    req.id ∈ (table.filter (is_reported er cur event ei klass)).map (fun r => r.id)
        ++ (if event = EVENT_KIND_VM_START then [0] else [])
        ++ (if event = EVENT_KIND_VM_DEATH then [0] else [])
      ↔ is_reported er cur event ei klass req = true := by
  constructor
  · intro h
    rcases List.mem_append.mp h with h | h
    · rcases List.mem_append.mp h with h | h
      · obtain ⟨r, hr, hrid⟩ := List.mem_map.mp h
        obtain ⟨hrt, hrep⟩ := List.mem_filter.mp hr
        obtain ⟨j, hj⟩ := List.getElem?_of_mem hrt
        have hji := huniq j r hj hrid
        rw [hji, hreq] at hj
        cases hj
        exact hrep
      · split at h
        · simp only [List.mem_singleton] at h
          exact absurd h hid
        · simp at h
    · split at h
      · simp only [List.mem_singleton] at h
        exact absurd h hid
      · simp at h
  · intro h
    apply List.mem_append_left
    apply List.mem_append_left
    exact List.mem_map.mpr ⟨req, List.mem_filter.mpr ⟨List.getElem?_mem hreq, h⟩, rfl⟩

theorem count_modifier_calls (er : EventRuntime) (event : Int) (calls : List EventListCall) :
    ∀ (table : List EventRequest) (i : Nat) (req : EventRequest) (m : Modifier),
      table[i]? = some req → req.event_kind = event → req.modifiers = [m] →
      m.kind = MOD_KIND_COUNT → req.id ≠ 0 →
      (∀ j r, table[j]? = some r → r.id = req.id → j = i) →
      ∃ table1 evs req1 m1,
        create_event_list_calls er event table calls = some (table1, evs) ∧
        evs.length = calls.length ∧
        (∀ (k : Nat) (e : List Int), evs[k]? = some e → (req.id ∈ e ↔ (k : Int) + 1 = m.count)) ∧
        table1[i]? = some req1 ∧ req1.id = req.id ∧ req1.event_kind = event ∧
        req1.modifiers = [m1] ∧ m1.kind = MOD_KIND_COUNT ∧
        m1.count = (if m.count > 0 then max (m.count - calls.length) 0 else m.count) := by
  induction calls with
  | nil =>
    intro table i req m hreq hk hm hc _ _
    refine ⟨table, [], req, m, rfl, rfl, ?_, hreq, rfl, hk, hm, hc, ?_⟩
    · intro k e h
      simp at h
    · simp only [List.length_nil, Nat.cast_zero, sub_zero, max_def]
      split_ifs <;> omega
  | cons c rest ih =>
    intro table i req m hreq hk hm hc hid huniq
    obtain ⟨ev0, pol0, hcall, hmem⟩ : ∃ ev0 pol0,
        create_event_list er c.cur table event none c.ji c.ei c.arg
          = some (table.map (visit_event_request er c.cur event c.ei
              (event_class er event c.ji c.arg)), ev0, pol0) ∧
        (req.id ∈ ev0 ↔ is_reported er c.cur event c.ei (event_class er event c.ji c.arg) req
          = true) :=
      ⟨_, _, create_event_list_all er c.cur table event c.ji c.ei c.arg,
        mem_reported_iff er c.cur event c.ei _ table i req hreq hid huniq⟩
    obtain ⟨hrep, m2, hm2, hc2, hcount2, hid2, hk2⟩ := is_reported_count er c.cur event c.ei
      (event_class er event c.ji c.arg) req m hk hm hc
    have hreq2 : (table.map (visit_event_request er c.cur event c.ei
        (event_class er event c.ji c.arg)))[i]?
        = some (visit_event_request er c.cur event c.ei (event_class er event c.ji c.arg) req) := by
      rw [List.getElem?_map, hreq]
      rfl
    have huniq2 : ∀ j r, (table.map (visit_event_request er c.cur event c.ei
        (event_class er event c.ji c.arg)))[j]? = some r →
        r.id = (visit_event_request er c.cur event c.ei
          (event_class er event c.ji c.arg) req).id → j = i := by
      intro j r hj hr
      rw [List.getElem?_map] at hj
      cases hg : table[j]? with
      | none => simp [hg] at hj
      | some r0 =>
        simp only [hg, Option.map_some', Option.some.injEq] at hj
        subst hj
        rw [visit_event_request_id, visit_event_request_id] at hr
        exact huniq j r0 hg hr
    obtain ⟨table1, evs, req1, m1, hrun, hlen, hev, ht1, hid1, hk1, hm1, hc1, hcount1⟩ :=
      ih _ i _ m2 hreq2 (hk2.trans hk) hm2 hc2 (by rw [hid2]; exact hid) huniq2
    refine ⟨table1, ev0 :: evs, req1, m1, ?_, ?_, ?_, ht1, hid1.trans hid2, hk1, hm1, hc1, ?_⟩
    · simp only [create_event_list_calls, hcall, hrun]
    · simp only [List.length_cons, hlen]
    · intro k e h
      cases k with
      | zero =>
        simp only [List.getElem?_cons_zero, Option.some.injEq] at h
        subst h
        rw [hmem, hrep]
        constructor <;> intro h <;> push_cast at h ⊢ <;> omega
      | succ k =>
        simp only [List.getElem?_cons_succ] at h
        have h2 := hev k e h
        rw [hid2] at h2
        rw [h2, hcount2]
        split_ifs <;> push_cast <;> omega
    · rw [hcount1, hcount2]
      simp only [List.length_cons, max_def]
      split_ifs <;> push_cast at * <;> omega

/-- Claim C15 (as stated, refuted): a request with a count modifier of 1 is reported
for the first thread start and, its count exhausted, is filtered out for the second
one. -/
theorem count_modifier_counterexample :
    create_event_list_calls event_runtime_example EVENT_KIND_THREAD_START
      [count_request_example 1] [⟨7, none, none, 0⟩, ⟨7, none, none, 0⟩]
      = some ([count_request_example 0], [[5], []]) := by
  decide

/-- Claim C15 (amended): for a request of the event kind whose only modifier is a
count modifier `N >= 1`, over successive calls of `create_event_list` for matching
events the request is reported by the `N`-th call and by no other, neither before nor
after, and the count after the calls is `N` less the number of calls, or 0 once it is
exhausted. The id of the request is not 0 and no other request has it. -/
theorem count_modifier_reports_once (er : EventRuntime) (event : Int)
    (calls : List EventListCall) (table : List EventRequest) (i : Nat) (req : EventRequest)
    (m : Modifier) (hreq : table[i]? = some req) (hk : req.event_kind = event)
    (hm : req.modifiers = [m]) (hc : m.kind = MOD_KIND_COUNT) (hn : 1 ≤ m.count)
    (hid : req.id ≠ 0)
    (huniq : ∀ j r, table[j]? = some r → r.id = req.id → j = i) :
    ∃ table1 evs req1 m1,
      create_event_list_calls er event table calls = some (table1, evs) ∧
      evs.length = calls.length ∧
      (∀ (k : Nat) (e : List Int), evs[k]? = some e → (req.id ∈ e ↔ (k : Int) + 1 = m.count)) ∧
      table1[i]? = some req1 ∧ req1.id = req.id ∧ req1.modifiers = [m1] ∧
      m1.kind = MOD_KIND_COUNT ∧ m1.count = max (m.count - calls.length) 0 := by
  obtain ⟨table1, evs, req1, m1, h1, h2, h3, h4, h5, _, h7, h8, h9⟩ :=
    count_modifier_calls er event calls table i req m hreq hk hm hc hid huniq
  refine ⟨table1, evs, req1, m1, h1, h2, h3, h4, h5, h7, h8, ?_⟩
  rw [h9, if_pos (by omega)]

theorem count_modifier_reports_once_witness :
    ∃ table1 evs req1 m1,
      create_event_list_calls event_runtime_example EVENT_KIND_THREAD_START
        [count_request_example 2]
        [⟨7, none, none, 0⟩, ⟨7, none, none, 0⟩, ⟨7, none, none, 0⟩] = some (table1, evs) ∧
      evs.length = [(⟨7, none, none, 0⟩ : EventListCall), ⟨7, none, none, 0⟩,
        ⟨7, none, none, 0⟩].length ∧
      (∀ (k : Nat) (e : List Int), evs[k]? = some e →
        ((count_request_example 2).id ∈ e
          ↔ (k : Int) + 1 = ({ Modifier.zero MOD_KIND_COUNT with count := 2 } : Modifier).count)) ∧
      table1[0]? = some req1 ∧ req1.id = (count_request_example 2).id ∧ req1.modifiers = [m1] ∧
      m1.kind = MOD_KIND_COUNT ∧
      m1.count = max (({ Modifier.zero MOD_KIND_COUNT with count := 2 } : Modifier).count
        - [(⟨7, none, none, 0⟩ : EventListCall), ⟨7, none, none, 0⟩,
            ⟨7, none, none, 0⟩].length) 0 :=
  count_modifier_reports_once event_runtime_example EVENT_KIND_THREAD_START
    [⟨7, none, none, 0⟩, ⟨7, none, none, 0⟩, ⟨7, none, none, 0⟩] [count_request_example 2] 0
    (count_request_example 2) { Modifier.zero MOD_KIND_COUNT with count := 2 } rfl rfl rfl rfl
    (by decide) (by decide)
    (by
      intro j r h _
      cases j with
      | zero => rfl
      | succ j => simp at h)

/-! ### Process_event -/

theorem process_event_of_drops (er : EventRuntime) (s : Session) (c : ProcessEventCall)
    (h : process_event_drops s c.shutting_down c.event c.events = true) :
    process_event er s c.cur c.domain c.shutting_down c.send_success c.event c.arg c.ei
      c.il_offset c.events c.suspend_policy = some s := by
  simp only [process_event, h, if_true]

theorem process_event_calls_disconnected (er : EventRuntime) (s : Session)
    (h : s.agent.disconnected = true) (calls : List ProcessEventCall) :
    process_event_calls er s calls = some s := by
  induction calls with
  | nil => rfl
  | cons c rest ih =>
    have hd : process_event_drops s c.shutting_down c.event c.events = true := by
      simp [process_event_drops, h]
    simp only [process_event_calls, process_event_of_drops er s c hd, ih]

/-- Claim C16: when the agent is not initialised, or the start event was not sent and
the event is not the start event, or the death event was sent, or the client is
disconnected, `process_event` returns with the whole state as it was: no packet is
handed to the transport and neither `suspend_count` nor the record of a thread
changes; and from a disconnected session every sequence of calls of `process_event`
leaves the state, and so the list of packets sent, unchanged. -/
theorem process_event_dropped (er : EventRuntime) (s : Session) (cur domain : Nat)
    (shutting_down send_success : Bool) (event : Int) (arg : Nat) (ei : Option EventInfo)
    (il_offset : Int) (events : List Int) (suspend_policy : Int)
    (h : s.inited = false ∨
      (s.agent.vm_start_event_sent = false ∧ event ≠ EVENT_KIND_VM_START) ∨
      s.agent.vm_death_event_sent = true ∨ s.agent.disconnected = true) :
    process_event er s cur domain shutting_down send_success event arg ei il_offset events
      suspend_policy = some s ∧
    (s.agent.disconnected = true →
      ∀ calls : List ProcessEventCall, process_event_calls er s calls = some s) := by
  constructor
  · have hd : process_event_drops s shutting_down event events = true := by
      rcases h with h | h | h | h
      · simp [process_event_drops, h]
      · simp [process_event_drops, h.1, h.2]
      · simp [process_event_drops, h]
      · simp [process_event_drops, h]
    simp only [process_event, hd, if_true]
  · intro hdis calls
    exact process_event_calls_disconnected er s hdis calls

theorem process_event_dropped_witness :
    process_event event_runtime_example (session_init 1) 7 1 false true EVENT_KIND_THREAD_START
      7 none 0 [5] 2 = some (session_init 1) ∧
    ((session_init 1).agent.disconnected = true →
      ∀ calls : List ProcessEventCall,
        process_event_calls event_runtime_example (session_init 1) calls
          = some (session_init 1)) :=
  process_event_dropped event_runtime_example (session_init 1) 7 1 false true
    EVENT_KIND_THREAD_START 7 none 0 [5] 2 (Or.inr (Or.inl ⟨rfl, by decide⟩))

theorem packet_bytes_eq (id : Int) (b8 b9 b10 : Nat) (data : List Nat)
    (hn : data.length + 11 < 2 ^ 31) :
    packet_bytes id b8 b9 b10 data
      = buffer_add_int (data.length + 11) ++ buffer_add_int (toUInt32 id)
          ++ [b8 % 256, b9 % 256, b10 % 256] ++ data := by
  have hlen : toInt32 (data.length + 11) = ((data.length + 11 : Nat) : Int) :=
    toInt32_of_lt _ hn
  have hu : toUInt32 ((data.length + 11 : Nat) : Int) = data.length + 11 := by
    rw [toUInt32_of_nonneg _ (by omega) (by omega)]
    omega
  simp only [packet_bytes, hlen, hu, buffer_add_byte, Int.toNat_ofNat, List.append_assoc,
    List.singleton_append, List.cons_append, List.nil_append]
  rw [List.take_of_length_le]
  simp only [List.length_append, List.length_cons, buffer_add_int_length]
  omega

theorem packet_bytes_get_11 (id : Int) (b8 b9 b10 x : Nat) (rest : List Nat)
    (hn : rest.length + 12 < 2 ^ 31) :
    (packet_bytes id b8 b9 b10 (x :: rest))[11]? = some x := by
  rw [packet_bytes_eq id b8 b9 b10 (x :: rest) (by simp only [List.length_cons]; omega)]
  simp [buffer_add_int_eq]

theorem reported_policy_cons (er : EventRuntime) (cur : Nat) (event : Int)
    (ei : Option EventInfo) (klass : Nat) (table : List EventRequest) (p : Int) (j : Nat)
    (idx : List Nat) :
    reported_policy er cur event ei klass table p (j :: idx)
      = reported_policy er cur event ei klass table
          (match table[j]? with
           | some r => if is_reported er cur event ei klass r then max p r.suspend_policy else p
           | none => p) idx := rfl

theorem reported_policy_ge_init (er : EventRuntime) (cur : Nat) (event : Int)
    (ei : Option EventInfo) (klass : Nat) (table : List EventRequest) (idx : List Nat) (p : Int) :
    p ≤ reported_policy er cur event ei klass table p idx := by
  induction idx generalizing p with
  | nil => exact le_refl _
  | cons j idx ih =>
    rw [reported_policy_cons]
    refine le_trans ?_ (ih _)
    cases table[j]? with
    | none => exact le_refl _
    | some r =>
      simp only
      split_ifs
      · exact le_max_left _ _
      · exact le_refl _

theorem reported_policy_ge (er : EventRuntime) (cur : Nat) (event : Int)
    (ei : Option EventInfo) (klass : Nat) (table : List EventRequest) (idx : List Nat) (p : Int)
    (j : Nat) (r : EventRequest) (hj : j ∈ idx) (hr : table[j]? = some r)
    (hrep : is_reported er cur event ei klass r = true) :
    r.suspend_policy ≤ reported_policy er cur event ei klass table p idx := by
  induction idx generalizing p with
  | nil => cases hj
  | cons k idx ih =>
    rw [reported_policy_cons]
    rcases List.mem_cons.mp hj with h | h
    · subst h
      rw [hr]
      simp only [hrep, if_true]
      exact le_trans (le_max_right _ _) (reported_policy_ge_init _ _ _ _ _ _ _ _)
    · exact ih _ h

theorem reported_policy_attained (er : EventRuntime) (cur : Nat) (event : Int)
    (ei : Option EventInfo) (klass : Nat) (table : List EventRequest) (idx : List Nat) (p : Int) :
    reported_policy er cur event ei klass table p idx = p ∨
    ∃ r ∈ table, is_reported er cur event ei klass r = true ∧
      r.suspend_policy = reported_policy er cur event ei klass table p idx := by
  induction idx generalizing p with
  | nil => exact Or.inl rfl
  | cons k idx ih =>
    rw [reported_policy_cons]
    cases hk : table[k]? with
    | none => exact ih p
    | some r =>
      simp only
      by_cases hrep : is_reported er cur event ei klass r = true
      · simp only [hrep, if_true]
        rcases ih (max p r.suspend_policy) with h | h
        · rw [h]
          rcases max_cases p r.suspend_policy with ⟨e, _⟩ | ⟨e, _⟩
          · exact Or.inl e
          · exact Or.inr ⟨r, List.getElem?_mem hk, hrep, e.symm⟩
        · exact Or.inr h
      · simp only [hrep]
        exact ih p

theorem save_thread_context_count (c : SuspendState) (cur : Nat) :
    (save_thread_context c cur).suspend_count = c.suspend_count := by
  unfold save_thread_context
  cases g_hash_table_lookup c.thread_to_tls cur <;> rfl

theorem process_event_send_spec (er : EventRuntime) (s : Session) (cur domain : Nat)
    (shutting_down : Bool) (event : Int) (arg : Nat) (ei : Option EventInfo) (il_offset : Int)
    (events : List Int) (suspend_policy : Int) (ids1 : IdState) (objs1 : ObjState)
    (bytes : List Nat)
    (hentries : process_event_entries er event (process_event_thread er s cur event arg) domain
      arg ei il_offset s.ids s.objs events = some (ids1, objs1, bytes)) :
    ∃ s1, process_event_send er s cur domain shutting_down event arg ei il_offset events
        suspend_policy
        = some (s1, process_event_policy er shutting_down event suspend_policy) ∧
      s1.effects
        = s.effects
          ++ (if event = EVENT_KIND_VM_START ∧ er.defer = false then
                [Effect.start_debugger_thread] else [])
          ++ (if process_event_policy er shutting_down event suspend_policy ≠ SUSPEND_POLICY_NONE
              then [Effect.suspend_vm (s.agent.coord.suspend_count + 1)] else [])
          ++ [Effect.transport_send (send_packet (s.packet_id + 1) CMD_SET_EVENT CMD_COMPOSITE
                (buffer_add_byte (toUInt32 (process_event_policy er shutting_down event
                    suspend_policy))
                  ++ buffer_add_int (toUInt32 (events.length : Int)) ++ bytes))] ∧
      s1.agent.coord
        = (if process_event_policy er shutting_down event suspend_policy ≠ SUSPEND_POLICY_NONE
           then suspend_vm (save_thread_context s.agent.coord cur) cur else s.agent.coord) := by
  simp only [process_event_send, hentries]
  generalize process_event_policy er shutting_down event suspend_policy = p
  have hc : (suspend_vm (save_thread_context s.agent.coord cur) cur).suspend_count
      = s.agent.coord.suspend_count + 1 := by
    rw [(suspend_vm_count _ _).1, save_thread_context_count]
  have hd : (if event = EVENT_KIND_VM_DEATH then { s.agent with vm_death_event_sent := true }
      else s.agent).coord = s.agent.coord := by
    split_ifs <;> rfl
  refine ⟨_, rfl, ?_, ?_⟩
  · simp only [hd, hc]
    by_cases hp : p = SUSPEND_POLICY_NONE
    · by_cases hv : event = EVENT_KIND_VM_START ∧ er.defer = false
      · simp only [hp, ne_eq, not_true_eq_false, if_false, if_pos hv, List.append_nil]
      · simp only [hp, ne_eq, not_true_eq_false, if_false, if_neg hv, List.append_nil]
    · by_cases hv : event = EVENT_KIND_VM_START ∧ er.defer = false
      · simp only [ne_eq, hp, not_false_eq_true, if_true, if_pos hv, hc]
      · simp only [ne_eq, hp, not_false_eq_true, if_true, if_neg hv, List.append_nil, hc]
  · simp only [hd]

/-- Claim C17 (as stated, refuted): for a thread-start event with the policy
suspend-all, `process_event` calls `suspend_vm`, which takes `suspend_count` to 1,
before it hands the packet to the transport. -/
theorem process_event_send_first_counterexample :
    (process_event event_runtime_example session_example 7 1 false true
        EVENT_KIND_THREAD_START 7 none 0 [5] 2).map (fun s => s.effects)
      = some [Effect.suspend_vm 1,
          Effect.transport_send
            [0, 0, 0, 25, 0, 0, 0, 1, 0, 64, 100, 2, 0, 0, 0, 1, 2, 0, 0, 0, 5, 0, 0, 0, 1]] := by
  decide

/-- Claim C17 (amended): for every event that is not dropped and whose effective
suspend policy is not none, `process_event` first starts suspending
(`save_thread_context` and `suspend_vm`, which increments `suspend_count` and
notifies the threads) and then hands the composite packet to the transport; the
calling thread parks, in `process_event_finish`, only after the packet has been
sent, and not at all when sending failed. -/
theorem process_event_suspend_then_send (er : EventRuntime) (s : Session) (cur domain : Nat)
    (shutting_down send_success : Bool) (event : Int) (arg : Nat) (ei : Option EventInfo)
    (il_offset : Int) (events : List Int) (suspend_policy : Int) (ids1 : IdState)
    (objs1 : ObjState) (bytes : List Nat)
    (hnd : process_event_drops s shutting_down event events = false)
    (hentries : process_event_entries er event (process_event_thread er s cur event arg) domain
      arg ei il_offset s.ids s.objs events = some (ids1, objs1, bytes))
    (hp : process_event_policy er shutting_down event suspend_policy ≠ SUSPEND_POLICY_NONE) :
    ∃ s1 pre pkt,
      process_event_send er s cur domain shutting_down event arg ei il_offset events
          suspend_policy
        = some (s1, process_event_policy er shutting_down event suspend_policy) ∧
      s1.effects = s.effects ++ pre
        ++ [Effect.suspend_vm (s.agent.coord.suspend_count + 1), Effect.transport_send pkt] ∧
      (∀ e ∈ pre, e = Effect.start_debugger_thread) ∧
      s1.agent.coord = suspend_vm (save_thread_context s.agent.coord cur) cur ∧
      s1.agent.coord.suspend_count = s.agent.coord.suspend_count + 1 ∧
      process_event er s cur domain shutting_down send_success event arg ei il_offset events
          suspend_policy
        = process_event_finish s1 cur send_success event
            (process_event_policy er shutting_down event suspend_policy) ∧
      (send_success = false →
        process_event er s cur domain shutting_down send_success event arg ei il_offset events
          suspend_policy = some s1) := by
  obtain ⟨s1, h1, h2, h3⟩ := process_event_send_spec er s cur domain shutting_down event arg ei
    il_offset events suspend_policy ids1 objs1 bytes hentries
  rw [if_pos hp] at h2 h3
  have hpe : process_event er s cur domain shutting_down send_success event arg ei il_offset
      events suspend_policy
      = process_event_finish s1 cur send_success event
          (process_event_policy er shutting_down event suspend_policy) := by
    simp only [process_event, hnd, h1, Bool.false_eq_true, if_false]
  refine ⟨s1, (if event = EVENT_KIND_VM_START ∧ er.defer = false then
      [Effect.start_debugger_thread] else []),
    send_packet (s.packet_id + 1) CMD_SET_EVENT CMD_COMPOSITE
      (buffer_add_byte (toUInt32 (process_event_policy er shutting_down event suspend_policy))
        ++ buffer_add_int (toUInt32 (events.length : Int)) ++ bytes),
    h1, ?_, ?_, h3, ?_, hpe, ?_⟩
  · rw [h2]
    simp only [List.append_assoc, List.singleton_append]
  · intro e he
    split_ifs at he
    · simpa using he
    · cases he
  · rw [h3, (suspend_vm_count _ _).1, save_thread_context_count]
  · intro hs
    rw [hpe]
    simp only [process_event_finish, hs, if_true]

theorem process_event_suspend_then_send_witness :
    ∃ s1 pre pkt,
      process_event_send event_runtime_example session_example 7 1 false
          EVENT_KIND_THREAD_START 7 none 0 [5] 2
        = some (s1, process_event_policy event_runtime_example false EVENT_KIND_THREAD_START 2) ∧
      s1.effects = session_example.effects ++ pre
        ++ [Effect.suspend_vm (session_example.agent.coord.suspend_count + 1),
            Effect.transport_send pkt] ∧
      (∀ e ∈ pre, e = Effect.start_debugger_thread) ∧
      s1.agent.coord = suspend_vm (save_thread_context session_example.agent.coord 7) 7 ∧
      s1.agent.coord.suspend_count = session_example.agent.coord.suspend_count + 1 ∧
      process_event event_runtime_example session_example 7 1 false true
          EVENT_KIND_THREAD_START 7 none 0 [5] 2
        = process_event_finish s1 7 true EVENT_KIND_THREAD_START
            (process_event_policy event_runtime_example false EVENT_KIND_THREAD_START 2) ∧
      (true = false →
        process_event event_runtime_example session_example 7 1 false true
          EVENT_KIND_THREAD_START 7 none 0 [5] 2 = some s1) :=
  process_event_suspend_then_send event_runtime_example session_example 7 1 false true
    EVENT_KIND_THREAD_START 7 none 0 [5] 2 _ _ _ (by decide) rfl (by decide)

theorem process_event_policy_eq (er : EventRuntime) (s : Session) (shutting_down : Bool)
    (event : Int) (events : List Int) (policy : Int)
    (hnd : process_event_drops s shutting_down event events = false) :
    process_event_policy er shutting_down event policy
      = (if event = EVENT_KIND_BREAKPOINT ∨ event = EVENT_KIND_STEP then SUSPEND_POLICY_ALL
         else if event = EVENT_KIND_THREAD_DEATH ∨ event = EVENT_KIND_VM_DEATH then
           SUSPEND_POLICY_NONE
         else if event = EVENT_KIND_VM_START then
           (if er.defer = false ∧ er.suspend = true then SUSPEND_POLICY_ALL
            else SUSPEND_POLICY_NONE)
         else policy) := by
  have hsd : shutting_down = true → event = EVENT_KIND_VM_DEATH := by
    intro h
    by_contra hne
    simp [process_event_drops, h, hne] at hnd
  have d1 : ¬ (EVENT_KIND_VM_DEATH = EVENT_KIND_BREAKPOINT) := by decide
  have d2 : ¬ (EVENT_KIND_VM_DEATH = EVENT_KIND_STEP) := by decide
  have d3 : ¬ (EVENT_KIND_THREAD_DEATH = EVENT_KIND_BREAKPOINT) := by decide
  have d4 : ¬ (EVENT_KIND_THREAD_DEATH = EVENT_KIND_STEP) := by decide
  have d5 : ¬ (EVENT_KIND_VM_START = EVENT_KIND_BREAKPOINT) := by decide
  have d6 : ¬ (EVENT_KIND_VM_START = EVENT_KIND_STEP) := by decide
  have d7 : ¬ (EVENT_KIND_VM_START = EVENT_KIND_THREAD_DEATH) := by decide
  have d8 : ¬ (EVENT_KIND_VM_START = EVENT_KIND_VM_DEATH) := by decide
  have d9 : ¬ (EVENT_KIND_BREAKPOINT = EVENT_KIND_VM_START) := by decide
  have d10 : ¬ (EVENT_KIND_STEP = EVENT_KIND_VM_START) := by decide
  have d11 : ¬ (EVENT_KIND_BREAKPOINT = EVENT_KIND_THREAD_DEATH) := by decide
  have d12 : ¬ (EVENT_KIND_STEP = EVENT_KIND_THREAD_DEATH) := by decide
  have d13 : ¬ (EVENT_KIND_BREAKPOINT = EVENT_KIND_VM_DEATH) := by decide
  have d14 : ¬ (EVENT_KIND_STEP = EVENT_KIND_VM_DEATH) := by decide
  unfold process_event_policy
  simp only
  by_cases hvd : event = EVENT_KIND_VM_DEATH
  · subst hvd
    simp [d1, d2]
  · have hs : shutting_down = false := by
      cases shutting_down
      · rfl
      · exact absurd (hsd rfl) hvd
    subst hs
    simp only [Bool.false_eq_true, if_false, if_neg hvd]
    by_cases htd : event = EVENT_KIND_THREAD_DEATH
    · subst htd
      simp [d3, d4]
    · simp only [if_neg htd, htd, hvd, or_self, if_false]
      by_cases hvs : event = EVENT_KIND_VM_START
      · subst hvs
        simp only [if_true, d5, d6, or_self, if_false]
        cases er.defer <;> cases er.suspend <;> simp
      · simp only [if_neg hvs]

/-- Claim C14 (as stated, refuted): a request with the policy suspend-all matches a
thread-death event, and `create_event_list` returns the policy 2 for it, yet the
suspend-policy byte (at offset 11) of the packet that is sent is 0. -/
theorem process_event_policy_byte_counterexample :
    (create_event_list event_runtime_example 7 session_example.agent.event_requests
        EVENT_KIND_THREAD_DEATH none none none 7).map (fun r => r.2) = some ([5], 2) ∧
    (process_profiler_event event_runtime_example session_example 7 1 false true
        EVENT_KIND_THREAD_DEATH 7).map (fun s => s.effects)
      = some [Effect.transport_send
          [0, 0, 0, 25, 0, 0, 0, 1, 0, 64, 100, 0, 0, 0, 0, 1, 3, 0, 0, 0, 5, 0, 0, 0, 1]] := by
  decide

/-- Claim C14 (amended): for an event that is not dropped, with the list of events
and the policy that `create_event_list` returns for the table of requests, the
policy returned is the greatest suspend policy among the requests reported (none
when there is none), and the suspend-policy byte of the packet that `process_event`
sends, at offset 11, is: suspend-all for a breakpoint or step event, none for a
thread-death or VM-death event, for the VM-start event suspend-all when the agent
is configured to suspend and not to defer and none otherwise, and the policy
returned by `create_event_list` for every other kind. -/
theorem process_event_policy_byte (er : EventRuntime) (s : Session) (cur domain : Nat)
    (shutting_down send_success : Bool) (event : Int) (ji : Option MonoJitInfo) (arg : Nat)
    (ei : Option EventInfo) (il_offset : Int) (table1 : List EventRequest) (events : List Int)
    (policy : Int) (ids1 : IdState) (objs1 : ObjState) (bytes : List Nat)
    (hl : create_event_list er cur s.agent.event_requests event none ji ei arg
      = some (table1, events, policy))
    (hnd : process_event_drops s shutting_down event events = false)
    (hentries : process_event_entries er event (process_event_thread er s cur event arg) domain
      arg ei il_offset s.ids s.objs events = some (ids1, objs1, bytes))
    (hlen : bytes.length + 16 < 2 ^ 31) :
    (∀ r ∈ s.agent.event_requests,
      is_reported er cur event ei (event_class er event ji arg) r = true →
      r.suspend_policy ≤ policy) ∧
    (policy = SUSPEND_POLICY_NONE ∨
      ∃ r ∈ s.agent.event_requests,
        is_reported er cur event ei (event_class er event ji arg) r = true ∧
        r.suspend_policy = policy) ∧
    ∃ s1 sent pkt,
      process_event_send er { s with agent := { s.agent with event_requests := table1 } } cur
          domain shutting_down event arg ei il_offset events policy
        = some (s1, process_event_policy er shutting_down event policy) ∧
      process_event er { s with agent := { s.agent with event_requests := table1 } } cur domain
          shutting_down send_success event arg ei il_offset events policy
        = process_event_finish s1 cur send_success event
            (process_event_policy er shutting_down event policy) ∧
      s1.effects = sent ++ [Effect.transport_send pkt] ∧
      (∀ b, Effect.transport_send b ∉ sent.drop s.effects.length) ∧
      pkt[11]? = some (toUInt8
        (if event = EVENT_KIND_BREAKPOINT ∨ event = EVENT_KIND_STEP then SUSPEND_POLICY_ALL
         else if event = EVENT_KIND_THREAD_DEATH ∨ event = EVENT_KIND_VM_DEATH then
           SUSPEND_POLICY_NONE
         else if event = EVENT_KIND_VM_START then
           (if er.defer = false ∧ er.suspend = true then SUSPEND_POLICY_ALL
            else SUSPEND_POLICY_NONE)
         else policy)) := by
  rw [create_event_list_all] at hl
  simp only [Option.some.injEq, Prod.mk.injEq] at hl
  obtain ⟨_, _, hpol⟩ := hl
  refine ⟨?_, ?_, ?_⟩
  · intro r hr hrep
    obtain ⟨j, hj, hjr⟩ := List.getElem_of_mem hr
    rw [← hpol]
    exact reported_policy_ge er cur event ei _ _ _ _ j r (List.mem_range.mpr hj)
      (by rw [List.getElem?_eq_getElem hj, hjr]) hrep
  · rw [← hpol]
    exact reported_policy_attained er cur event ei _ s.agent.event_requests _ _
  · obtain ⟨s1, h1, h2, _⟩ := process_event_send_spec er
      { s with agent := { s.agent with event_requests := table1 } } cur domain shutting_down
      event arg ei il_offset events policy ids1 objs1 bytes hentries
    have hnd1 : process_event_drops { s with agent := { s.agent with event_requests := table1 } }
        shutting_down event events = false := hnd
    refine ⟨s1, _, _, h1, ?_, h2, ?_, ?_⟩
    · simp only [process_event, hnd1, h1, Bool.false_eq_true, if_false]
    · intro b hb
      simp only [List.append_assoc, List.drop_left] at hb
      rcases List.mem_append.mp hb with h | h
      · split_ifs at h
        · simp at h
        · cases h
      · split_ifs at h
        · simp at h
        · cases h
    · rw [← process_event_policy_eq er s shutting_down event events policy hnd]
      simp only [send_packet, buffer_add_byte, List.singleton_append, List.cons_append]
      rw [packet_bytes_get_11 _ _ _ _ _ _ (by
        simp only [List.length_append, buffer_add_int_length, List.length_nil]
        omega)]
      simp only [toUInt32, toUInt8, Option.some.injEq]
      omega

theorem process_event_policy_byte_witness :
    (∀ r ∈ session_start_example.agent.event_requests,
      is_reported event_runtime_example 7 EVENT_KIND_THREAD_START none
        (event_class event_runtime_example EVENT_KIND_THREAD_START none 7) r = true →
      r.suspend_policy ≤ 2) ∧
    ((2 : Int) = SUSPEND_POLICY_NONE ∨
      ∃ r ∈ session_start_example.agent.event_requests,
        is_reported event_runtime_example 7 EVENT_KIND_THREAD_START none
          (event_class event_runtime_example EVENT_KIND_THREAD_START none 7) r = true ∧
        r.suspend_policy = 2) ∧
    ∃ s1 sent pkt,
      process_event_send event_runtime_example
          { session_start_example with
            agent := { session_start_example.agent with
              event_requests := [count_request_example 0] } } 7 1 false
          EVENT_KIND_THREAD_START 7 none 0 [5] 2
        = some (s1, process_event_policy event_runtime_example false EVENT_KIND_THREAD_START 2) ∧
      process_event event_runtime_example
          { session_start_example with
            agent := { session_start_example.agent with
              event_requests := [count_request_example 0] } } 7 1 false true
          EVENT_KIND_THREAD_START 7 none 0 [5] 2
        = process_event_finish s1 7 true EVENT_KIND_THREAD_START
            (process_event_policy event_runtime_example false EVENT_KIND_THREAD_START 2) ∧
      s1.effects = sent ++ [Effect.transport_send pkt] ∧
      (∀ b, Effect.transport_send b ∉ sent.drop session_start_example.effects.length) ∧
      pkt[11]? = some (toUInt8
        (if EVENT_KIND_THREAD_START = EVENT_KIND_BREAKPOINT
            ∨ EVENT_KIND_THREAD_START = EVENT_KIND_STEP then SUSPEND_POLICY_ALL
         else if EVENT_KIND_THREAD_START = EVENT_KIND_THREAD_DEATH
            ∨ EVENT_KIND_THREAD_START = EVENT_KIND_VM_DEATH then
           SUSPEND_POLICY_NONE
         else if EVENT_KIND_THREAD_START = EVENT_KIND_VM_START then
           (if event_runtime_example.defer = false ∧ event_runtime_example.suspend = true then
              SUSPEND_POLICY_ALL
            else SUSPEND_POLICY_NONE)
         else 2)) :=
  process_event_policy_byte event_runtime_example session_start_example 7 1 false true
    EVENT_KIND_THREAD_START none 7 none 0 [count_request_example 0] [5] 2
    _ _ _ (by decide) (by decide) rfl (by decide)

/-! ### The command loop -/

theorem decode_header_request (id command_set command : Int) (n : Nat) (tail : List Nat)
    (hn : n + 11 < 2 ^ 31) (hid : 0 ≤ id ∧ id < 2 ^ 31)
    (hcs : 0 ≤ command_set ∧ command_set < 256) (hc : 0 ≤ command ∧ command < 256) :
    decode_header (buffer_add_int (n + 11) ++ buffer_add_int (toUInt32 id)
        ++ [0 % 256, toUInt8 command_set % 256, toUInt8 command % 256] ++ tail)
      = some ⟨((n + 11 : Nat) : Int), id, 0, command_set, command⟩ := by
  unfold decode_header
  simp only [List.append_assoc]
  rw [decode_int_buffer_add_int]
  simp only
  rw [decode_int_buffer_add_int]
  simp only [decode_byte, List.cons_append, List.nil_append]
  rw [toInt32_of_lt _ hn, toInt32_toUInt32 id hid.1 hid.2]
  have e1 : ((toUInt8 command_set % 256 : Nat) : Int) = command_set := by
    unfold toUInt8
    omega
  have e2 : ((toUInt8 command % 256 : Nat) : Int) = command := by
    unfold toUInt8
    omega
  simp only [e1, e2]
  rfl

theorem debugger_thread_step_request (h : CommandHandlers) (rt : Runtime) (s : Session)
    (cur : Nat) (tid_to_thread : List Nat) (exit_method : Nat) (id command_set command : Int)
    (data rest : List Nat) (hn : data.length + 11 < 2 ^ 31) (hid : 0 ≤ id ∧ id < 2 ^ 31)
    (hcs : 0 ≤ command_set ∧ command_set < 256) (hc : 0 ≤ command ∧ command < 256) :
    debugger_thread_step h rt s cur tid_to_thread exit_method
        (send_packet id command_set command data ++ rest)
      = (debugger_thread_reply h rt s cur tid_to_thread exit_method
          ⟨((data.length + 11 : Nat) : Int), id, 0, command_set, command⟩ data).map
          (fun r => (r.1, rest, r.2)) := by
  have hp : send_packet id command_set command data ++ rest
      = (buffer_add_int (data.length + 11) ++ buffer_add_int (toUInt32 id)
          ++ [0 % 256, toUInt8 command_set % 256, toUInt8 command % 256]) ++ (data ++ rest) := by
    unfold send_packet
    rw [packet_bytes_eq _ _ _ _ _ hn]
    simp only [List.append_assoc]
  have hl : (buffer_add_int (data.length + 11) ++ buffer_add_int (toUInt32 id)
      ++ [0 % 256, toUInt8 command_set % 256, toUInt8 command % 256]).length = 11 := by
    simp only [List.length_append, buffer_add_int_length, List.length_cons, List.length_nil]
  have hh := decode_header_request id command_set command data.length [] hn hid hcs hc
  rw [List.append_nil] at hh
  unfold debugger_thread_step recv_length
  simp only [HEADER_LENGTH]
  rw [hp, List.take_left' hl, List.drop_left' hl, hh]
  simp only [hl, ne_eq, not_true_eq_false, if_false]
  have e : (((data.length + 11 : Nat) : Int) - ((11 : Nat) : Int)).toNat = data.length := by
    omega
  have e2 : ¬ (((data.length + 11 : Nat) : Int) - ((11 : Nat) : Int) < 0) := by omega
  simp only [e, e2, if_false]
  by_cases hz : data.length > 0
  · simp only [hz, if_true, List.take_left, List.drop_left, true_and]
    cases debugger_thread_reply h rt s cur tid_to_thread exit_method
        ⟨((data.length + 11 : Nat) : Int), id, 0, command_set, command⟩ data with
    | none => rfl
    | some r => rfl
  · have hd : data = [] := List.eq_nil_of_length_eq_zero (by omega)
    subst hd
    simp only [List.length_nil, gt_iff_lt, lt_self_iff_false, if_false, false_and]
    generalize debugger_thread_reply h rt s cur tid_to_thread exit_method _ _ = x
    cases x with
    | none => rfl
    | some r => rfl

theorem run_handler_effects (f : CommandHandler) (s s1 : Session) (command : Int) (p : List Nat)
    (r : Option (Int × List Nat)) (hr : run_handler f s command p = some (s1, r)) :
    s1.effects = s.effects ∧ r.isSome = true := by
  unfold run_handler at hr
  cases hf : f command p (s.agent, s.ids, s.objs) with
  | none => simp [hf] at hr
  | some v =>
    simp only [hf, Option.some.injEq, Prod.mk.injEq] at hr
    obtain ⟨h1, h2⟩ := hr
    subst h1
    subst h2
    exact ⟨rfl, rfl⟩

theorem agent_result_effects (s s1 : Session) (x : Option (AgentState × Int × List Nat))
    (r : Option (Int × List Nat)) (hr : agent_result s x = some (s1, r)) :
    s1.effects = s.effects ∧ r.isSome = true := by
  unfold agent_result at hr
  cases x with
  | none => simp at hr
  | some v =>
    simp only [Option.some.injEq, Prod.mk.injEq] at hr
    obtain ⟨h1, h2⟩ := hr
    subst h1
    subst h2
    exact ⟨rfl, rfl⟩

theorem debugger_thread_dispatch_effects (h : CommandHandlers) (rt : Runtime) (s s1 : Session)
    (cur : Nat) (tid_to_thread : List Nat) (exit_method : Nat) (command_set command id : Int)
    (p : List Nat) (r : Option (Int × List Nat))
    (hne : ¬ (command_set = CMD_SET_VM ∧ command = CMD_VM_EXIT))
    (hd : debugger_thread_dispatch h rt s cur tid_to_thread exit_method command_set command id p
      = some (s1, r)) :
    s1.effects = s.effects ∧ r.isSome = true := by
  unfold debugger_thread_dispatch at hd
  by_cases h1 : command_set = CMD_SET_VM
  · rw [if_pos h1] at hd
    have hx : command ≠ CMD_VM_EXIT := fun e => hne ⟨h1, e⟩
    unfold vm_commands_buf at hd
    rw [if_neg hx] at hd
    generalize vm_commands s.objs s.agent cur command id p = x at hd
    by_cases h2 : command = CMD_VM_VERSION ∨ command = CMD_VM_ALL_THREADS
        ∨ command = CMD_VM_SET_PROTOCOL_VERSION
    · rw [if_pos h2] at hd
      exact run_handler_effects _ _ _ _ _ _ hd
    · rw [if_neg h2] at hd
      exact agent_result_effects _ _ _ _ hd
  · rw [if_neg h1] at hd
    generalize event_commands rt s.ids s.objs s.agent cur command p = x at hd
    by_cases h2 : command_set = CMD_SET_EVENT_REQUEST
    · rw [if_pos h2] at hd
      exact agent_result_effects _ _ _ _ hd
    rw [if_neg h2] at hd
    by_cases k0 : command_set = CMD_SET_APPDOMAIN
    · rw [if_pos k0] at hd
      exact run_handler_effects _ _ _ _ _ _ hd
    rw [if_neg k0] at hd
    by_cases k1 : command_set = CMD_SET_ASSEMBLY
    · rw [if_pos k1] at hd
      exact run_handler_effects _ _ _ _ _ _ hd
    rw [if_neg k1] at hd
    by_cases k2 : command_set = CMD_SET_MODULE
    · rw [if_pos k2] at hd
      exact run_handler_effects _ _ _ _ _ _ hd
    rw [if_neg k2] at hd
    by_cases k3 : command_set = CMD_SET_TYPE
    · rw [if_pos k3] at hd
      exact run_handler_effects _ _ _ _ _ _ hd
    rw [if_neg k3] at hd
    by_cases k4 : command_set = CMD_SET_METHOD
    · rw [if_pos k4] at hd
      exact run_handler_effects _ _ _ _ _ _ hd
    rw [if_neg k4] at hd
    by_cases k5 : command_set = CMD_SET_THREAD
    · rw [if_pos k5] at hd
      exact run_handler_effects _ _ _ _ _ _ hd
    rw [if_neg k5] at hd
    by_cases k6 : command_set = CMD_SET_STACK_FRAME
    · rw [if_pos k6] at hd
      exact run_handler_effects _ _ _ _ _ _ hd
    rw [if_neg k6] at hd
    by_cases k7 : command_set = CMD_SET_ARRAY_REF
    · rw [if_pos k7] at hd
      exact run_handler_effects _ _ _ _ _ _ hd
    rw [if_neg k7] at hd
    by_cases k8 : command_set = CMD_SET_STRING_REF
    · rw [if_pos k8] at hd
      exact run_handler_effects _ _ _ _ _ _ hd
    rw [if_neg k8] at hd
    by_cases k9 : command_set = CMD_SET_OBJECT_REF
    · rw [if_pos k9] at hd
      exact run_handler_effects _ _ _ _ _ _ hd
    rw [if_neg k9] at hd
    simp only [Option.some.injEq, Prod.mk.injEq] at hd
    obtain ⟨e1, e2⟩ := hd
    subst e1
    subst e2
    exact ⟨rfl, rfl⟩

/-- Claim C19 (the request that breaks it): a VM exit request with the id 3, read
while thread 7 is parked in `suspend_current`, is answered by two reply packets
with the id 3: `vm_commands` sends one before it hands the exit to the suspended
thread and returns `ERR_NONE`, and the loop, whose `no_reply` is set for the invoke
command only, sends another. -/
theorem vm_exit_replies_twice :
    (debugger_thread_step handlers_example runtime_example session_parked_example 1 [7] 9
        (send_packet 3 CMD_SET_VM CMD_VM_EXIT [0, 0, 0, 0])).map
      (fun r => (r.1.effects, r.2))
      = some ([Effect.transport_send [0, 0, 0, 11, 0, 0, 0, 3, 128, 0, 0],
               Effect.transport_send [0, 0, 0, 11, 0, 0, 0, 3, 128, 0, 0]],
              [], LoopControl.next) := by
  decide

/-- Claim C19 (every request but the VM exit command): for a request with the id
`id` whose handler returns, one round of the command loop reads exactly the request
and hands the transport exactly one packet, the reply with the id `id`, the error
code of the handler and the bytes the handler added, except that it sends nothing
for a VM invoke-method command whose handler returned the error 0; for a command
set that is not one of the twelve known ones the error is `ERR_NOT_IMPLEMENTED` and
the payload is empty. -/
theorem debugger_thread_replies_once (h : CommandHandlers) (rt : Runtime) (s : Session)
    (cur : Nat) (tid_to_thread : List Nat) (exit_method : Nat) (id command_set command : Int)
    (data rest : List Nat) (s1 : Session) (r : Option (Int × List Nat))
    (hn : data.length + 11 < 2 ^ 31) (hid : 0 ≤ id ∧ id < 2 ^ 31)
    (hcs : 0 ≤ command_set ∧ command_set < 256) (hc : 0 ≤ command ∧ command < 256)
    (hne : ¬ (command_set = CMD_SET_VM ∧ command = CMD_VM_EXIT))
    (hd : debugger_thread_dispatch h rt s cur tid_to_thread exit_method command_set command id
      data = some (s1, r)) :
    ∃ err buf s2 ctl, r = some (err, buf) ∧
      debugger_thread_step h rt s cur tid_to_thread exit_method
          (send_packet id command_set command data ++ rest) = some (s2, rest, ctl) ∧
      s2.effects = s.effects
        ++ (if command_set = CMD_SET_VM ∧ err = 0 ∧ command = CMD_VM_INVOKE_METHOD then []
            else [Effect.transport_send (send_reply_packet id err buf)]) ∧
      (ctl = LoopControl.left ↔ (command_set = CMD_SET_VM ∧ command = CMD_VM_DISPOSE)) ∧
      (command_set ∉ [CMD_SET_VM, CMD_SET_EVENT_REQUEST, CMD_SET_APPDOMAIN, CMD_SET_ASSEMBLY,
          CMD_SET_MODULE, CMD_SET_TYPE, CMD_SET_METHOD, CMD_SET_THREAD, CMD_SET_STACK_FRAME,
          CMD_SET_ARRAY_REF, CMD_SET_STRING_REF, CMD_SET_OBJECT_REF] →
        err = ERR_NOT_IMPLEMENTED ∧ buf = []) := by
  obtain ⟨he, hs⟩ := debugger_thread_dispatch_effects h rt s s1 cur tid_to_thread exit_method
    command_set command id data r hne hd
  cases r with
  | none => simp at hs
  | some v =>
    obtain ⟨err, buf⟩ := v
    have hstep := debugger_thread_step_request h rt s cur tid_to_thread exit_method id
      command_set command data rest hn hid hcs hc
    simp only [debugger_thread_reply, hd, Option.map_some'] at hstep
    refine ⟨err, buf, _, _, rfl, hstep, ?_, ?_, ?_⟩
    · by_cases hnr : command_set = CMD_SET_VM ∧ err = 0 ∧ command = CMD_VM_INVOKE_METHOD
      · simp only [hnr, and_self, decide_True, if_true, he, List.append_nil]
      · simp only [hnr, decide_False, Bool.false_eq_true, if_false, he]
    · by_cases hdis : command_set = CMD_SET_VM ∧ command = CMD_VM_DISPOSE
      · simp only [hdis, and_self, if_true]
      · simp only [hdis, if_false]
        simp
    · intro hmem
      simp only [List.mem_cons, List.mem_singleton, not_or, List.not_mem_nil, not_false_eq_true,
        and_true] at hmem
      obtain ⟨m1, m2, m3, m4, m5, m6, m7, m8, m9, m10, m11, m12⟩ := hmem
      unfold debugger_thread_dispatch at hd
      rw [if_neg m1, if_neg m2, if_neg m3, if_neg m4, if_neg m5, if_neg m6, if_neg m7, if_neg m8,
        if_neg m9, if_neg m10, if_neg m11, if_neg m12] at hd
      simp only [Option.some.injEq, Prod.mk.injEq] at hd
      exact ⟨hd.2.1.symm, hd.2.2.symm⟩

theorem debugger_thread_replies_once_witness :
    ∃ err buf s2 ctl, some ((0 : Int), [42]) = some (err, buf) ∧
      debugger_thread_step handlers_example runtime_example session_start_example 1 [7] 9
          (send_packet 3 CMD_SET_TYPE 4 [0, 0, 0, 0] ++ [1, 2]) = some (s2, [1, 2], ctl) ∧
      s2.effects = session_start_example.effects
        ++ (if CMD_SET_TYPE = CMD_SET_VM ∧ err = 0 ∧ (4 : Int) = CMD_VM_INVOKE_METHOD then []
            else [Effect.transport_send (send_reply_packet 3 err buf)]) ∧
      (ctl = LoopControl.left ↔ (CMD_SET_TYPE = CMD_SET_VM ∧ (4 : Int) = CMD_VM_DISPOSE)) ∧
      (CMD_SET_TYPE ∉ [CMD_SET_VM, CMD_SET_EVENT_REQUEST, CMD_SET_APPDOMAIN, CMD_SET_ASSEMBLY,
          CMD_SET_MODULE, CMD_SET_TYPE, CMD_SET_METHOD, CMD_SET_THREAD, CMD_SET_STACK_FRAME,
          CMD_SET_ARRAY_REF, CMD_SET_STRING_REF, CMD_SET_OBJECT_REF] →
        err = ERR_NOT_IMPLEMENTED ∧ buf = []) :=
  debugger_thread_replies_once handlers_example runtime_example session_start_example 1 [7] 9 3
    CMD_SET_TYPE 4 [0, 0, 0, 0] [1, 2] session_start_example (some (0, [42])) (by decide)
    (by decide) (by decide) (by decide) (by decide) rfl

/-! ### Single stepping -/

/-- Claim C13: the agent holds at most one single-step request, in `ss_req`; when
one is active, `ss_create` returns an error code, `ERR_NOT_SUSPENDED` when the VM is
not suspended and `ERR_NOT_IMPLEMENTED` otherwise, makes no request (`req->info`
stays `NULL`) and leaves the whole state as it was: the active request with its
thread, depth, size, temporary breakpoints and owning event request, the breakpoint
engine and the table of event requests. -/
theorem ss_create_while_active (rt : Runtime) (domains : List Nat) (s : AgentState)
    (thread : Nat) (size depth req : Int) (r : SingleStepReq) (h : s.ss_req = some r) :
    ss_create rt domains s thread size depth req
      = some (s, (if s.coord.suspend_count = 0 then ERR_NOT_SUSPENDED else ERR_NOT_IMPLEMENTED),
          0) ∧
    (if s.coord.suspend_count = 0 then ERR_NOT_SUSPENDED else ERR_NOT_IMPLEMENTED) ≠ ERR_NONE ∧
    ∀ s1 err info, ss_create rt domains s thread size depth req = some (s1, err, info) →
      s1.ss_req = some r ∧ s1.eng.breakpoints = s.eng.breakpoints ∧
      s1.eng.locs.patched = s.eng.locs.patched ∧ s1.event_requests = s.event_requests := by
  have e : ss_create rt domains s thread size depth req
      = some (s, (if s.coord.suspend_count = 0 then ERR_NOT_SUSPENDED
          else ERR_NOT_IMPLEMENTED), 0) := by
    unfold ss_create
    by_cases hz : s.coord.suspend_count = 0
    · simp only [hz, if_true]
    · simp only [hz, if_false, h, Option.isSome_some, if_true, wait_for_suspend]
      rw [← h]
  refine ⟨e, ?_, ?_⟩
  · split_ifs <;> decide
  · intro s1 err info hs
    rw [e] at hs
    simp only [Option.some.injEq, Prod.mk.injEq] at hs
    obtain ⟨e1, _, _⟩ := hs
    subst e1
    exact ⟨h, rfl, rfl, rfl⟩

theorem ss_create_while_active_witness :
    ss_create runtime_example [1] agent_stepping_example 7 STEP_SIZE_LINE STEP_DEPTH_OVER 6
      = some (agent_stepping_example,
          (if agent_stepping_example.coord.suspend_count = 0 then ERR_NOT_SUSPENDED
           else ERR_NOT_IMPLEMENTED), 0) ∧
    (if agent_stepping_example.coord.suspend_count = 0 then ERR_NOT_SUSPENDED
      else ERR_NOT_IMPLEMENTED) ≠ ERR_NONE ∧
    ∀ s1 err info,
      ss_create runtime_example [1] agent_stepping_example 7 STEP_SIZE_LINE STEP_DEPTH_OVER 6
        = some (s1, err, info) →
      s1.ss_req = some
        { ptr := 2, req := 5, thread := 7, depth := STEP_DEPTH_OVER, size := STEP_SIZE_LINE,
          last_sp := 100, start_sp := 100, last_method := 5, last_line := 3,
          stepover_frame_method := 5, stepover_frame_count := 1, global := false, bps := [1] } ∧
      s1.eng.breakpoints = agent_stepping_example.eng.breakpoints ∧
      s1.eng.locs.patched = agent_stepping_example.eng.locs.patched ∧
      s1.event_requests = agent_stepping_example.event_requests :=
  ss_create_while_active runtime_example [1] agent_stepping_example 7 STEP_SIZE_LINE
    STEP_DEPTH_OVER 6 _ rfl

/-! ### The invariant of the breakpoints and the event requests -/

theorem instances_at_append (l1 l2 : List BreakpointInstance) (ip : Int) :
    instances_at (l1 ++ l2) ip = instances_at l1 ip + instances_at l2 ip := by
  unfold instances_at
  rw [List.filter_append, List.length_append]
  push_cast
  rfl

theorem instances_at_nil (ip : Int) : instances_at [] ip = 0 := rfl

theorem bp_locs_consistent_congr (s : BreakpointState) (l1 l2 : List BreakpointInstance)
    (h : ∀ ip, instances_at l1 ip = instances_at l2 ip) (hc : bp_locs_consistent s l1) :
    bp_locs_consistent s l2 :=
  ⟨fun ip => by rw [← h ip]; exact hc.1 ip, hc.2⟩

theorem exists_instance_at (live : List BreakpointInstance) (ip : Int)
    (h : 0 < instances_at live ip) : ∃ inst ∈ live, inst.ip = ip := by
  unfold instances_at at h
  have hl : 0 < (live.filter (fun i => decide (i.ip = ip))).length := by omega
  obtain ⟨x, hx⟩ := List.exists_mem_of_length_pos hl
  rw [List.mem_filter] at hx
  exact ⟨x, hx.1, by simpa using hx.2⟩

theorem remove_breakpoint_ip (s : BreakpointState) (i1 i2 : BreakpointInstance)
    (h : i1.ip = i2.ip) : remove_breakpoint s i1 = remove_breakpoint s i2 := by
  unfold remove_breakpoint
  rw [h]

/-- The loop of `clear_breakpoint` succeeds on instances that are live, and leaves
the counts of the instances that remain. -/
theorem remove_breakpoints_consistent (l : List BreakpointInstance) (s : BreakpointState)
    (live : List BreakpointInstance) (hc : bp_locs_consistent s live)
    (hle : ∀ ip, instances_at l ip ≤ instances_at live ip) :
    ∃ s1, remove_breakpoints s l = some s1 ∧
      ∀ live1, (∀ ip, instances_at live1 ip = instances_at live ip - instances_at l ip) →
        bp_locs_consistent s1 live1 := by
  induction l generalizing s live with
  | nil =>
    refine ⟨s, rfl, fun live1 h1 => ?_⟩
    exact bp_locs_consistent_congr s live live1 (fun ip => by
      rw [h1 ip, instances_at_nil]; omega) hc
  | cons inst rest ih =>
    have hpos : 0 < instances_at live inst.ip := by
      have h1 := hle inst.ip
      rw [instances_at_cons] at h1
      have h2 := instances_at_nonneg rest inst.ip
      simp only [if_true] at h1
      omega
    obtain ⟨inst1, hmem, hip⟩ := exists_instance_at live inst.ip hpos
    obtain ⟨s1, hr, hc1, _⟩ := remove_breakpoint_consistent s live inst1 hc hmem
    have hle1 : ∀ ip, instances_at rest ip ≤ instances_at (live.erase inst1) ip := by
      intro ip
      rw [instances_at_erase inst1 live ip hmem, hip]
      have h1 := hle ip
      rw [instances_at_cons] at h1
      omega
    obtain ⟨s2, hr2, hc2⟩ := ih s1 (live.erase inst1) hc1 hle1
    refine ⟨s2, ?_, fun live1 h1 => hc2 live1 (fun ip => ?_)⟩
    · simp only [remove_breakpoints]
      rw [remove_breakpoint_ip s inst inst1 hip.symm, hr]
      exact hr2
    · rw [h1 ip, instances_at_erase inst1 live ip hmem, hip, instances_at_cons]
      omega

theorem lookup_of_mem_addr {α : Type} (t : GHashTable Nat α) (k : Nat)
    (h : k ∈ t.map (fun x => x.1)) : ∃ v, g_hash_table_lookup t k = some v := by
  induction t with
  | nil => cases h
  | cons a l ih =>
    obtain ⟨k1, v1⟩ := a
    simp only [g_hash_table_lookup]
    by_cases e : k1 = k
    · exact ⟨v1, by simp [e]⟩
    · simp only [e, if_false]
      apply ih
      simp only [List.map_cons, List.mem_cons] at h
      rcases h with h | h
      · exact absurd h.symm e
      · exact h

theorem mem_of_lookup {α : Type} (t : GHashTable Nat α) (k : Nat) (v : α)
    (h : g_hash_table_lookup t k = some v) : (k, v) ∈ t := by
  induction t with
  | nil => cases h
  | cons a l ih =>
    obtain ⟨k1, v1⟩ := a
    simp only [g_hash_table_lookup] at h
    by_cases e : k1 = k
    · simp only [e, if_true, Option.some.injEq] at h
      rw [e, h]
      exact List.mem_cons_self _ _
    · simp only [e, if_false] at h
      exact List.mem_cons_of_mem _ (ih h)

theorem lookup_of_mem_nodup {α : Type} (t : GHashTable Nat α) (k : Nat) (v : α)
    (hn : (t.map (fun x => x.1)).Nodup) (h : (k, v) ∈ t) :
    g_hash_table_lookup t k = some v := by
  induction t with
  | nil => cases h
  | cons a l ih =>
    obtain ⟨k1, v1⟩ := a
    simp only [List.map_cons, List.nodup_cons] at hn
    simp only [g_hash_table_lookup]
    rcases List.mem_cons.mp h with h1 | h1
    · simp only [Prod.mk.injEq] at h1
      simp [h1.1, h1.2]
    · have hne : k1 ≠ k := by
        intro e
        apply hn.1
        rw [e]
        exact List.mem_map.mpr ⟨(k, v), h1, rfl⟩
      simp only [hne, if_false]
      exact ih hn.2 h1

theorem instances_at_eraseP (t : List (Nat × MonoBreakpoint)) (bp : Nat) (b : MonoBreakpoint)
    (h : g_hash_table_lookup t bp = some b) (ip : Int) :
    instances_at ((t.eraseP (fun x => decide (x.1 = bp))).flatMap (fun x => x.2.children)) ip
      = instances_at (t.flatMap (fun x => x.2.children)) ip - instances_at b.children ip := by
  induction t with
  | nil => cases h
  | cons a l ih =>
    obtain ⟨k1, v1⟩ := a
    simp only [g_hash_table_lookup] at h
    by_cases e : k1 = bp
    · simp only [e, if_true, Option.some.injEq] at h
      subst h
      simp only [List.eraseP_cons, e, decide_True, cond_true, List.flatMap_cons,
        instances_at_append]
      omega
    · simp only [e, if_false] at h
      simp only [List.eraseP_cons, e, decide_False, cond_false, List.flatMap_cons,
        instances_at_append, ih h]
      omega

theorem mem_addrs_eraseP (t : List (Nat × MonoBreakpoint)) (bp a : Nat)
    (hn : (t.map (fun x => x.1)).Nodup) :
    a ∈ (t.eraseP (fun x => decide (x.1 = bp))).map (fun x => x.1)
      ↔ a ∈ t.map (fun x => x.1) ∧ a ≠ bp := by
  induction t with
  | nil => simp
  | cons x l ih =>
    simp only [List.map_cons, List.nodup_cons] at hn
    by_cases e : x.1 = bp
    · simp only [List.eraseP_cons, e, decide_True, cond_true, List.map_cons, List.mem_cons]
      constructor
      · intro h
        refine ⟨Or.inr h, ?_⟩
        intro e2
        apply hn.1
        rw [e, ← e2]
        exact h
      · rintro ⟨h | h, h2⟩
        · exact absurd h h2
        · exact h
    · simp only [List.eraseP_cons, e, decide_False, cond_false, List.map_cons, List.mem_cons,
        ih hn.2]
      constructor
      · rintro (h | ⟨h, h2⟩)
        · exact ⟨Or.inl h, by rw [h]; exact e⟩
        · exact ⟨Or.inr h, h2⟩
      · rintro ⟨h | h, h2⟩
        · exact Or.inl h
        · exact Or.inr ⟨h, h2⟩

theorem nodup_addrs_eraseP (t : List (Nat × MonoBreakpoint)) (bp : Nat)
    (hn : (t.map (fun x => x.1)).Nodup) :
    ((t.eraseP (fun x => decide (x.1 = bp))).map (fun x => x.1)).Nodup :=
  List.Nodup.sublist ((List.eraseP_sublist t).map _) hn

theorem mem_eraseP_breakpoints (t : List (Nat × MonoBreakpoint)) (bp : Nat)
    (x : Nat × MonoBreakpoint) (hn : (t.map (fun y => y.1)).Nodup) :
    x ∈ t.eraseP (fun y => decide (y.1 = bp)) ↔ x ∈ t ∧ x.1 ≠ bp := by
  constructor
  · intro h
    have h1 : x ∈ t := (List.eraseP_sublist t).subset h
    have h2 := (mem_addrs_eraseP t bp x.1 hn).mp (List.mem_map.mpr ⟨x, h, rfl⟩)
    exact ⟨h1, h2.2⟩
  · rintro ⟨h1, h2⟩
    exact (List.mem_eraseP_of_neg (by simpa using h2)).mpr h1

/-- What `clear_breakpoint` does to a breakpoint that is in the array. -/
theorem clear_breakpoint_spec (e : BpEngine) (bp : Nat)
    (hc : bp_locs_consistent e.locs (live_instances e))
    (hm : bp ∈ e.breakpoints.map (fun x => x.1)) :
    ∃ e1, clear_breakpoint e bp = some e1 ∧
      bp_locs_consistent e1.locs (live_instances e1) ∧
      e1.breakpoints = e.breakpoints.eraseP (fun x => decide (x.1 = bp)) ∧
      e1.next_ptr = e.next_ptr := by
  obtain ⟨b, hb⟩ := lookup_of_mem_addr e.breakpoints bp hm
  have hle : ∀ ip, instances_at b.children ip ≤ instances_at (live_instances e) ip := by
    intro ip
    have h1 := instances_at_eraseP e.breakpoints bp b hb ip
    have h2 := instances_at_nonneg
      ((e.breakpoints.eraseP (fun x => decide (x.1 = bp))).flatMap (fun x => x.2.children)) ip
    unfold live_instances
    omega
  obtain ⟨s1, hr, hc1⟩ := remove_breakpoints_consistent b.children e.locs (live_instances e) hc hle
  refine ⟨{ e with locs := s1,
                   breakpoints := e.breakpoints.eraseP (fun x => decide (x.1 = bp)) }, ?_, ?_,
    rfl, rfl⟩
  · simp only [clear_breakpoint, hb, hr]
  · apply hc1
    intro ip
    exact instances_at_eraseP e.breakpoints bp b hb ip

/-- The loop of `ss_stop` over breakpoints that are in the array. -/
theorem clear_breakpoints_spec (bps : List Nat) (e : BpEngine)
    (hc : bp_locs_consistent e.locs (live_instances e))
    (hn : (e.breakpoints.map (fun x => x.1)).Nodup)
    (hm : ∀ a ∈ bps, a ∈ e.breakpoints.map (fun x => x.1)) (hd : bps.Nodup) :
    ∃ e1, clear_breakpoints e bps = some e1 ∧
      bp_locs_consistent e1.locs (live_instances e1) ∧
      (e1.breakpoints.map (fun x => x.1)).Nodup ∧
      (∀ x, x ∈ e1.breakpoints ↔ x ∈ e.breakpoints ∧ x.1 ∉ bps) ∧
      e1.next_ptr = e.next_ptr := by
  induction bps generalizing e with
  | nil => exact ⟨e, rfl, hc, hn, fun x => by simp, rfl⟩
  | cons bp rest ih =>
    obtain ⟨e1, h1, hc1, hb1, hp1⟩ := clear_breakpoint_spec e bp hc (hm bp (List.mem_cons_self _ _))
    have hn1 : (e1.breakpoints.map (fun x => x.1)).Nodup := by
      rw [hb1]
      exact nodup_addrs_eraseP _ _ hn
    rw [List.nodup_cons] at hd
    have hm1 : ∀ a ∈ rest, a ∈ e1.breakpoints.map (fun x => x.1) := by
      intro a ha
      rw [hb1, mem_addrs_eraseP _ _ _ hn]
      refine ⟨hm a (List.mem_cons_of_mem _ ha), ?_⟩
      intro e2
      exact hd.1 (e2 ▸ ha)
    obtain ⟨e2, h2, hc2, hn2, hx2, hp2⟩ := ih e1 hc1 hn1 hm1 hd.2
    refine ⟨e2, ?_, hc2, hn2, ?_, by rw [hp2, hp1]⟩
    · simp only [clear_breakpoints, h1]
      exact h2
    · intro x
      rw [hx2 x, hb1, mem_eraseP_breakpoints _ _ _ hn]
      simp only [List.mem_cons, not_or]
      tauto

theorem mem_addrs_of_mem (t : List (Nat × MonoBreakpoint)) (t1 : List (Nat × MonoBreakpoint))
    (bps : List Nat) (h : ∀ x, x ∈ t1 ↔ x ∈ t ∧ x.1 ∉ bps) (a : Nat) :
    a ∈ t1.map (fun x => x.1) ↔ a ∈ t.map (fun x => x.1) ∧ a ∉ bps := by
  simp only [List.mem_map]
  constructor
  · rintro ⟨x, hx, rfl⟩
    exact ⟨⟨x, ((h x).mp hx).1, rfl⟩, ((h x).mp hx).2⟩
  · rintro ⟨⟨x, hx, rfl⟩, h2⟩
    exact ⟨x, (h x).mpr ⟨hx, h2⟩, rfl⟩

theorem find_event_request_spec (reqs : List EventRequest) (req_id etype : Int) (k i : Nat)
    (req : EventRequest) (h : find_event_request reqs req_id etype k = some (i, req)) :
    ∃ pre post, reqs = pre ++ req :: post ∧ i = k + pre.length ∧ req.id = req_id ∧
      req.event_kind = etype ∧ ∀ r ∈ pre, ¬ (r.id = req_id ∧ r.event_kind = etype) := by
  induction reqs generalizing k with
  | nil => cases h
  | cons a l ih =>
    simp only [find_event_request] at h
    by_cases e : a.id = req_id ∧ a.event_kind = etype
    · simp only [e, and_self, if_true, Option.some.injEq, Prod.mk.injEq] at h
      obtain ⟨h1, h2⟩ := h
      subst h2
      exact ⟨[], l, rfl, by simp [h1], e.1, e.2, fun r hr => by cases hr⟩
    · rw [if_neg e] at h
      obtain ⟨pre, post, h1, h2, h3, h4, h5⟩ := ih (k + 1) h
      refine ⟨a :: pre, post, by rw [h1]; rfl, by simp only [List.length_cons]; omega, h3, h4, ?_⟩
      intro r hr
      rcases List.mem_cons.mp hr with hr | hr
      · rw [hr]; exact e
      · exact h5 r hr

theorem g_ptr_array_remove_index_fast_perm {α : Type} (pre post : List α) (x : α) :
    (g_ptr_array_remove_index_fast (pre ++ x :: post) pre.length).Perm (pre ++ post) := by
  unfold g_ptr_array_remove_index_fast
  rcases List.eq_nil_or_concat post with hp | ⟨init, last, hp⟩
  · subst hp
    have h1 : (pre ++ [x]).getLast? = some x := by simp
    simp only [h1, List.length_append, List.length_singleton, if_true, List.append_nil]
    rw [List.dropLast_concat]
  · rw [List.concat_eq_append] at hp
    subst hp
    have e : pre ++ x :: (init ++ [last]) = (pre ++ x :: init) ++ [last] := by
      simp only [List.append_assoc, List.cons_append]
    rw [e]
    have h2 : ¬ (pre.length + 1 = ((pre ++ x :: init) ++ [last]).length) := by
      simp only [List.length_append, List.length_cons, List.length_singleton, List.length_nil]
      omega
    simp only [List.getLast?_concat, h2, if_false]
    have h3 : ((pre ++ x :: init) ++ [last]).set pre.length last
        = (pre ++ last :: init) ++ [last] := by
      rw [List.set_append_left _ _ (by simp only [List.length_append, List.length_cons]; omega),
        List.set_append_right _ _ (le_refl _)]
      simp only [Nat.sub_self, List.set_cons_zero]
    rw [h3, List.dropLast_concat]
    have h4 : (pre ++ (init ++ [last])).Perm (pre ++ last :: init) := by
      apply List.Perm.append_left
      exact (List.perm_append_singleton last init)
    exact h4.symm

theorem clear_event_request_owner (s : AgentState) (req_id etype : Int) (i : Nat)
    (req : EventRequest) (hf : find_event_request s.event_requests req_id etype 0 = some (i, req))
    (ho : owns_breakpoint req = true) :
    clear_event_request s req_id etype
      = (clear_breakpoint s.eng req.info).map (fun e =>
          { s with eng := e,
                   event_requests := g_ptr_array_remove_index_fast s.event_requests i }) := by
  unfold clear_event_request
  rw [hf]
  simp only [owns_breakpoint, decide_eq_true_eq] at ho
  rcases ho with hk | hk | hk
  · simp only [hk, EVENT_KIND_BREAKPOINT, EVENT_KIND_STEP, EVENT_KIND_METHOD_ENTRY,
      EVENT_KIND_METHOD_EXIT, if_true]
    cases hcb : clear_breakpoint s.eng req.info with
    | none => simp [hcb]
    | some e => simp [hcb]
  · simp only [hk, EVENT_KIND_BREAKPOINT, EVENT_KIND_STEP, EVENT_KIND_METHOD_ENTRY,
      EVENT_KIND_METHOD_EXIT, if_true]
    cases hcb : clear_breakpoint s.eng req.info with
    | none => simp [hcb]
    | some e => simp [hcb]
  · simp only [hk, EVENT_KIND_BREAKPOINT, EVENT_KIND_STEP, EVENT_KIND_METHOD_ENTRY,
      EVENT_KIND_METHOD_EXIT, if_true]
    cases hcb : clear_breakpoint s.eng req.info with
    | none => simp [hcb]
    | some e => simp [hcb]

theorem clear_event_request_step (s : AgentState) (req_id etype : Int) (i : Nat)
    (req : EventRequest) (hf : find_event_request s.event_requests req_id etype 0 = some (i, req))
    (hk : req.event_kind = EVENT_KIND_STEP) :
    clear_event_request s req_id etype
      = (ss_destroy s req.info).map (fun t =>
          { t with event_requests := g_ptr_array_remove_index_fast t.event_requests i }) := by
  unfold clear_event_request
  rw [hf]
  simp only [hk, EVENT_KIND_BREAKPOINT, EVENT_KIND_STEP, EVENT_KIND_METHOD_ENTRY,
    EVENT_KIND_METHOD_EXIT, if_true]
  cases hcb : ss_destroy s req.info with
  | none => simp [hcb]
  | some e => simp [hcb]

theorem clear_event_request_other (s : AgentState) (req_id etype : Int) (i : Nat)
    (req : EventRequest) (hf : find_event_request s.event_requests req_id etype 0 = some (i, req))
    (ho : owns_breakpoint req = false) (hk : req.event_kind ≠ EVENT_KIND_STEP) :
    clear_event_request s req_id etype
      = some { s with
          event_requests := g_ptr_array_remove_index_fast s.event_requests i } := by
  unfold clear_event_request
  rw [hf]
  simp only [owns_breakpoint, decide_eq_false_iff_not, not_or] at ho
  simp only [ho.1, ho.2.1, ho.2.2, hk, if_false]

theorem owned_perm_of_owner (pre post : List EventRequest) (req : EventRequest)
    (ss_req : Option SingleStepReq) (ho : owns_breakpoint req = true) :
    (((pre ++ req :: post).filter owns_breakpoint).map (fun r => r.info)
        ++ step_breakpoints ss_req).Perm
      (req.info :: ((((pre ++ post).filter owns_breakpoint).map (fun r => r.info))
        ++ step_breakpoints ss_req)) := by
  rw [← List.cons_append]
  apply List.Perm.append_right
  simp only [List.filter_append, List.filter_cons, ho, if_true, List.map_append, List.map_cons]
  exact List.perm_middle

theorem owned_eq_of_not_owner (pre post : List EventRequest) (req : EventRequest)
    (ho : owns_breakpoint req = false) :
    ((pre ++ req :: post).filter owns_breakpoint).map (fun r => r.info)
      = ((pre ++ post).filter owns_breakpoint).map (fun r => r.info) := by
  simp [List.filter_append, List.filter_cons, ho]

theorem step_filter_le (pre post : List EventRequest) (req : EventRequest) :
    ((pre ++ post).filter (fun r => decide (r.event_kind = EVENT_KIND_STEP))).length
      + (if req.event_kind = EVENT_KIND_STEP then 1 else 0)
      = ((pre ++ req :: post).filter
          (fun r => decide (r.event_kind = EVENT_KIND_STEP))).length := by
  by_cases h : req.event_kind = EVENT_KIND_STEP
  · simp [List.filter_append, List.filter_cons, h]
    omega
  · simp [List.filter_append, List.filter_cons, h]

theorem not_owner_of_step (req : EventRequest) (hk : req.event_kind = EVENT_KIND_STEP) :
    owns_breakpoint req = false := by
  simp [owns_breakpoint, hk, EVENT_KIND_STEP, EVENT_KIND_BREAKPOINT, EVENT_KIND_METHOD_ENTRY,
    EVENT_KIND_METHOD_EXIT]

/-- What `ss_destroy` does to the current request when its breakpoints are in the
array. -/
theorem ss_destroy_spec (s : AgentState) (r : SingleStepReq)
    (hc : bp_locs_consistent s.eng.locs (live_instances s.eng))
    (hn : (s.eng.breakpoints.map (fun x => x.1)).Nodup) (hs : s.ss_req = some r)
    (hm : ∀ a ∈ r.bps, a ∈ s.eng.breakpoints.map (fun x => x.1)) (hd : r.bps.Nodup) :
    ∃ s1, ss_destroy s r.ptr = some s1 ∧ s1.ss_req = none ∧
      s1.event_requests = s.event_requests ∧
      bp_locs_consistent s1.eng.locs (live_instances s1.eng) ∧
      (s1.eng.breakpoints.map (fun x => x.1)).Nodup ∧
      (∀ x, x ∈ s1.eng.breakpoints ↔ x ∈ s.eng.breakpoints ∧ x.1 ∉ r.bps) ∧
      s1.coord.suspend_count = s.coord.suspend_count ∧
      s1.coord.debugger_thread_id = s.coord.debugger_thread_id := by
  obtain ⟨e1, h1, hc1, hn1, hx1, _⟩ := clear_breakpoints_spec r.bps s.eng hc hn hm hd
  unfold ss_destroy
  simp only [hs, ne_eq, not_true_eq_false, if_false, ss_stop, h1]
  by_cases hg : r.global = true
  · simp only [hg, if_true]
    exact ⟨_, rfl, rfl, rfl, hc1, hn1, hx1, by simp [stop_single_stepping],
      by simp [stop_single_stepping]⟩
  · simp only [hg, Bool.false_eq_true, if_false]
    exact ⟨_, rfl, rfl, rfl, hc1, hn1, hx1, rfl, rfl⟩

theorem step_req_exists (s : AgentState) (req : EventRequest)
    (h : s.ss_req.map (fun r => r.ptr) = some req.info) :
    ∃ r, s.ss_req = some r ∧ r.ptr = req.info := by
  cases hs : s.ss_req with
  | none => simp [hs] at h
  | some r =>
    simp only [hs, Option.map_some', Option.some.injEq] at h
    exact ⟨r, rfl, h⟩

/-- The call `clear_event_request` for a request that is in the table returns, keeps
the invariant, and leaves the table without the request found (up to the order).
For a request that owns a breakpoint the breakpoint leaves the array, and nothing
else does. -/
theorem clear_event_request_wf (s : AgentState) (req_id etype : Int) (i : Nat)
    (req : EventRequest) (hw : engine_wf s)
    (hf : find_event_request s.event_requests req_id etype 0 = some (i, req)) :
    ∃ s1 pre post, clear_event_request s req_id etype = some s1 ∧ engine_wf s1 ∧
      s.event_requests = pre ++ req :: post ∧ s1.event_requests.Perm (pre ++ post) ∧
      (∀ r ∈ pre, ¬ (r.id = req_id ∧ r.event_kind = etype)) ∧
      s1.coord.suspend_count = s.coord.suspend_count ∧
      s1.coord.debugger_thread_id = s.coord.debugger_thread_id ∧
      (owns_breakpoint req = true →
        s1.eng.breakpoints = s.eng.breakpoints.eraseP (fun x => decide (x.1 = req.info)) ∧
        s1.ss_req = s.ss_req ∧
        bp_locs_consistent s1.eng.locs (live_instances s1.eng)) := by
  obtain ⟨pre, post, ht, hi, _, _, hpre⟩ := find_event_request_spec _ _ _ _ _ _ hf
  have hi2 : i = pre.length := by omega
  obtain ⟨T1, hT1⟩ : ∃ T1, T1 = g_ptr_array_remove_index_fast s.event_requests i := ⟨_, rfl⟩
  have hperm : T1.Perm (pre ++ post) := by
    rw [hT1, ht, hi2]
    exact g_ptr_array_remove_index_fast_perm pre post req
  have hsub : ∀ r, r ∈ pre ++ post → r ∈ s.event_requests := by
    intro r hr
    rw [ht]
    simp only [List.mem_append, List.mem_cons] at hr ⊢
    tauto
  have hstep1 := step_filter_le pre post req
  rw [← ht] at hstep1
  have hone := hw.step_one
  by_cases ho : owns_breakpoint req = true
  · -- the request owns a breakpoint
    have hown := hw.owned_nodup
    unfold owned_breakpoints at hown
    rw [ht] at hown
    have hp := owned_perm_of_owner pre post req s.ss_req ho
    rw [hp.nodup_iff, List.nodup_cons] at hown
    have hmemi : req.info ∈ s.eng.breakpoints.map (fun x => x.1) := by
      apply hw.owned_mem
      unfold owned_breakpoints
      rw [ht]
      exact hp.mem_iff.mpr (List.mem_cons_self _ _)
    obtain ⟨e1, h1, hc1, hb1, _⟩ := clear_breakpoint_spec s.eng req.info hw.consistent hmemi
    refine ⟨{ s with eng := e1, event_requests := T1 },
      pre, post, ?_, ?_, ht, hperm, hpre, rfl, rfl, fun _ => ⟨hb1, rfl, hc1⟩⟩
    · rw [clear_event_request_owner s req_id etype i req hf ho, h1, hT1]
      rfl
    · have hpo : (owned_breakpoints { s with eng := e1, event_requests := T1 }).Perm
          ((((pre ++ post).filter owns_breakpoint).map (fun r => r.info))
            ++ step_breakpoints s.ss_req) := by
        unfold owned_breakpoints
        exact List.Perm.append_right _ ((hperm.filter _).map _)
      refine ⟨hc1, ?_, ?_, ?_, ?_, ?_⟩
      · simp only [hb1]
        exact nodup_addrs_eraseP _ _ hw.addrs_nodup
      · exact hpo.nodup_iff.mpr hown.2
      · intro a ha
        have ha1 := hpo.mem_iff.mp ha
        simp only [hb1]
        rw [mem_addrs_eraseP _ _ _ hw.addrs_nodup]
        refine ⟨?_, ?_⟩
        · apply hw.owned_mem
          unfold owned_breakpoints
          rw [ht]
          exact hp.mem_iff.mpr (List.mem_cons_of_mem _ ha1)
        · intro e
          exact hown.1 (e ▸ ha1)
      · intro r hr hk
        exact hw.step_req r (hsub r (hperm.mem_iff.mp hr)) hk
      · simp only
        rw [(hperm.filter _).length_eq]
        omega
  · have ho2 : owns_breakpoint req = false := by simpa using ho
    have hoe := owned_eq_of_not_owner pre post req ho2
    by_cases hk : req.event_kind = EVENT_KIND_STEP
    · -- the single-step request
      obtain ⟨r, hr1, hr2⟩ := step_req_exists s req (hw.step_req req (by rw [ht]; simp) hk)
      have hown := hw.owned_nodup
      unfold owned_breakpoints at hown
      rw [hr1] at hown
      simp only [step_breakpoints] at hown
      have hbm : ∀ a ∈ r.bps, a ∈ s.eng.breakpoints.map (fun x => x.1) := by
        intro a ha
        apply hw.owned_mem
        unfold owned_breakpoints
        rw [hr1]
        exact List.mem_append_right _ ha
      obtain ⟨s1, hd1, hd2, hd3, hd4, hd5, hd6, hd7, hd8⟩ := ss_destroy_spec s r hw.consistent
        hw.addrs_nodup hr1 hbm (List.Nodup.of_append_right hown)
      rw [hr2] at hd1
      refine ⟨{ s1 with event_requests := T1 },
        pre, post, ?_, ?_, ht, hperm, hpre, hd7, hd8, fun h => absurd h ho⟩
      · rw [clear_event_request_step s req_id etype i req hf hk, hd1, hT1, ← hd3]
        rfl
      · have hnostep : ∀ x ∈ pre ++ post, x.event_kind ≠ EVENT_KIND_STEP := by
          intro x hx hxk
          have hpos : 0 < ((pre ++ post).filter
              (fun r => decide (r.event_kind = EVENT_KIND_STEP))).length :=
            List.length_pos_of_mem (List.mem_filter.mpr ⟨hx, by simpa using hxk⟩)
          simp only [hk, if_true] at hstep1
          omega
        have hperm1 : T1.Perm (pre ++ post) := hperm
        have hpo : (owned_breakpoints { s1 with event_requests := T1 }).Perm
            (((pre ++ post).filter owns_breakpoint).map (fun r => r.info)) := by
          unfold owned_breakpoints
          simp only [hd2, step_breakpoints, List.append_nil]
          exact (hperm1.filter _).map _
        have hnd : ((((pre ++ post).filter owns_breakpoint).map (fun r => r.info))).Nodup := by
          rw [← hoe, ← ht]
          exact List.Nodup.of_append_left hown
        refine ⟨hd4, hd5, hpo.nodup_iff.mpr hnd, ?_, ?_, ?_⟩
        · intro a ha
          have ha1 := hpo.mem_iff.mp ha
          rw [← hoe, ← ht] at ha1
          rw [mem_addrs_of_mem _ _ _ hd6]
          refine ⟨?_, ?_⟩
          · apply hw.owned_mem
            unfold owned_breakpoints
            exact List.mem_append_left _ ha1
          · intro hb
            exact (List.disjoint_of_nodup_append hown) ha1 hb
        · intro x hx hxk
          exact absurd hxk (hnostep x (hperm1.mem_iff.mp hx))
        · simp only
          rw [(hperm1.filter _).length_eq]
          simp only [hk, if_true] at hstep1
          omega
    · -- a request without breakpoint
      refine ⟨{ s with event_requests := T1 },
        pre, post, ?_, ?_, ht, hperm, hpre, rfl, rfl, fun h => absurd h ho⟩
      · rw [hT1]
        exact clear_event_request_other s req_id etype i req hf ho2 hk
      · have hpo : (owned_breakpoints { s with event_requests := T1 }).Perm
            (owned_breakpoints s) := by
          unfold owned_breakpoints
          simp only
          rw [ht, hoe]
          exact List.Perm.append_right _ ((hperm.filter _).map _)
        refine ⟨hw.consistent, hw.addrs_nodup, hpo.nodup_iff.mpr hw.owned_nodup, ?_, ?_, ?_⟩
        · intro a ha
          exact hw.owned_mem a (hpo.mem_iff.mp ha)
        · intro r hr hrk
          exact hw.step_req r (hsub r (hperm.mem_iff.mp hr)) hrk
        · simp only
          rw [(hperm.filter _).length_eq]
          omega

theorem lookup_none_of_not_mem {α : Type} (t : GHashTable Int α) (k : Int)
    (h : k ∉ t.map (fun x => x.1)) : g_hash_table_lookup t k = none := by
  induction t with
  | nil => rfl
  | cons a l ih =>
    obtain ⟨k1, v1⟩ := a
    simp only [List.map_cons, List.mem_cons, not_or] at h
    simp only [g_hash_table_lookup]
    rw [if_neg (fun e => h.1 e.symm)]
    exact ih h.2

theorem instances_at_zero_of_not_mem (live : List BreakpointInstance) (ip : Int)
    (h : ip ∉ live.map (fun i => i.ip)) : instances_at live ip = 0 := by
  unfold instances_at
  have : live.filter (fun i => decide (i.ip = ip)) = [] := by
    rw [List.filter_eq_nil_iff]
    intro a ha hip
    apply h
    exact List.mem_map.mpr ⟨a, ha, by simpa using hip⟩
  rw [this]
  rfl

theorem bp_locs_consistent_of_check (s : BreakpointState) (live : List BreakpointInstance)
    (h : bp_locs_check s live = true) : bp_locs_consistent s live := by
  unfold bp_locs_check at h
  rw [List.all_eq_true] at h
  have key : ∀ ip, bp_locs_count s ip = instances_at live ip ∧
      (ip ∈ s.patched ↔ bp_locs_count s ip > 0) := by
    intro ip
    by_cases hm : ip ∈ s.bp_locs.map (fun x => x.1) ++ s.patched ++ live.map (fun i => i.ip)
    · have := h ip hm
      simp only [Bool.and_eq_true, decide_eq_true_eq] at this
      exact this
    · simp only [List.mem_append, not_or] at hm
      have h1 : bp_locs_count s ip = 0 := by
        unfold bp_locs_count
        rw [lookup_none_of_not_mem _ _ hm.1.1]
      rw [h1, instances_at_zero_of_not_mem _ _ hm.2]
      refine ⟨rfl, ?_⟩
      constructor
      · intro hp; exact absurd hp hm.1.2
      · intro hp; omega
  exact ⟨fun ip => (key ip).1, fun ip => (key ip).2⟩

theorem engine_wf_example : engine_wf agent_requests_example :=
  ⟨bp_locs_consistent_of_check _ _ (by decide), by decide, by decide, by decide, by decide,
    by decide⟩

theorem engine_wf_coord (s : AgentState) (c : SuspendState) (hw : engine_wf s) :
    engine_wf { s with coord := c } :=
  ⟨hw.consistent, hw.addrs_nodup, hw.owned_nodup, hw.owned_mem, hw.step_req, hw.step_one⟩

/-- The first loop of `CMD_VM_DISPOSE` ends with an empty table, after as many rounds
as there are requests. -/
theorem clear_all_event_requests_spec (k : Nat) (s : AgentState) (hw : engine_wf s)
    (hk : s.event_requests.length = k) :
    ∃ s1, (∀ n, k ≤ n → clear_all_event_requests n s = some s1) ∧ s1.event_requests = [] ∧
      engine_wf s1 ∧ s1.coord.suspend_count = s.coord.suspend_count ∧
      s1.coord.debugger_thread_id = s.coord.debugger_thread_id := by
  induction k generalizing s with
  | zero =>
    have ht : s.event_requests = [] := List.eq_nil_of_length_eq_zero hk
    refine ⟨s, ?_, ht, hw, rfl, rfl⟩
    intro n _
    cases n <;> simp [clear_all_event_requests, ht]
  | succ m ih =>
    cases ht : s.event_requests with
    | nil => simp [ht] at hk
    | cons req rest =>
      have hf : find_event_request s.event_requests req.id req.event_kind 0 = some (0, req) := by
        rw [ht]
        simp [find_event_request]
      obtain ⟨s1, pre, post, h1, hw1, ht1, hp1, _, hc1, hd1, _⟩ :=
        clear_event_request_wf s req.id req.event_kind 0 req hw hf
      have hlen : s1.event_requests.length = m := by
        rw [hp1.length_eq]
        have : (pre ++ req :: post).length = m + 1 := by rw [← ht1]; exact hk
        simp only [List.length_append, List.length_cons] at this ⊢
        omega
      obtain ⟨s2, h2, he2, hw2, hc2, hd2⟩ := ih s1 hw1 hlen
      refine ⟨s2, ?_, he2, hw2, by rw [hc2, hc1], by rw [hd2, hd1]⟩
      intro n hn
      obtain ⟨n1, rfl⟩ : ∃ n1, n = n1 + 1 := ⟨n - 1, by omega⟩
      unfold clear_all_event_requests
      simp only [ht]
      rw [h1]
      exact h2 n1 (by omega)

/-- The second loop of `CMD_VM_DISPOSE`, run on the debugger thread, ends with
`suspend_count` 0, after `suspend_count` rounds. -/
theorem resume_vm_all_spec (k : Nat) (c : SuspendState) (cur : Nat)
    (hcur : c.debugger_thread_id = cur) (hk : c.suspend_count = (k : Int)) :
    ∃ c1, (∀ n, k ≤ n → resume_vm_all n c cur = some c1) ∧ c1.suspend_count = 0 ∧
      c1.debugger_thread_id = c.debugger_thread_id := by
  induction k generalizing c with
  | zero =>
    refine ⟨c, ?_, by simpa using hk, rfl⟩
    intro n _
    have h0 : ¬ (c.suspend_count > 0) := by rw [hk]; simp
    cases n <;> simp [resume_vm_all, h0]
  | succ m ih =>
    have hpos : c.suspend_count > 0 := by rw [hk]; push_cast; omega
    cases hr : resume_vm c cur with
    | none =>
      unfold resume_vm at hr
      simp only [hcur, ne_eq, not_true_eq_false, if_false, hpos] at hr
      split at hr <;> cases hr
    | some c1 =>
      obtain ⟨_, hc1, hd1⟩ := resume_vm_count c c1 cur hr
      obtain ⟨c2, h2, hz2, hd2⟩ := ih c1 (by rw [hd1]; exact hcur) (by
        rw [hc1, hk]; push_cast; omega)
      refine ⟨c2, ?_, hz2, by rw [hd2, hd1]⟩
      intro n hn
      obtain ⟨n1, rfl⟩ : ∃ n1, n = n1 + 1 := ⟨n - 1, by omega⟩
      unfold resume_vm_all
      simp only [hpos, if_true, hr]
      exact h2 n1 (by omega)

/-- Claim C20: the VM dispose command, run on the debugger thread in a state that
satisfies the invariant of the event requests, returns `ERR_NONE` and leaves the
table of event requests empty, `suspend_count` 0 and `disconnected` set, whatever
the suspend depth and the requests before it; the loop that clears the requests
ends after as many rounds as there were requests, and the loop that drains the
suspend depth after `suspend_count + 1` rounds. -/
theorem vm_dispose_clears (objs : ObjState) (s : AgentState) (cur : Nat) (id : Int)
    (p : List Nat) (hw : engine_wf s) (hcur : s.coord.debugger_thread_id = cur)
    (h0 : 0 ≤ s.coord.suspend_count) :
    ∃ s2 c3 s3,
      (∀ n, s.event_requests.length ≤ n →
        clear_all_event_requests n
          { s with coord := wait_for_suspend (suspend_vm s.coord cur) } = some s2) ∧
      (∀ n, (s.coord.suspend_count + 1).toNat ≤ n → resume_vm_all n s2.coord cur = some c3) ∧
      vm_commands objs s cur CMD_VM_DISPOSE id p = some (s3, ERR_NONE) ∧
      s3.event_requests = [] ∧ s3.coord.suspend_count = 0 ∧ s3.disconnected = true := by
  have hsv := suspend_vm_count s.coord cur
  obtain ⟨s2, h2, he2, _, hc2, hd2⟩ := clear_all_event_requests_spec s.event_requests.length
    { s with coord := wait_for_suspend (suspend_vm s.coord cur) } (engine_wf_coord s _ hw) rfl
  simp only [wait_for_suspend] at hc2 hd2
  rw [hsv.1] at hc2
  rw [hsv.2] at hd2
  obtain ⟨c3, h3, hz3, _⟩ := resume_vm_all_spec (s.coord.suspend_count + 1).toNat s2.coord cur
    (by rw [hd2]; exact hcur) (by rw [hc2]; omega)
  obtain ⟨s3, hs3⟩ : ∃ s3 : AgentState, s3 = { s2 with coord := c3, disconnected := true, vm_start_event_sent := false, send_pending_type_load_events := false } := ⟨_, rfl⟩
  refine ⟨s2, c3, s3, h2, h3, ?_, by rw [hs3]; exact he2, by rw [hs3]; exact hz3, by rw [hs3]⟩
  have d1 : ¬ (CMD_VM_DISPOSE = CMD_VM_SUSPEND) := by decide
  have d2 : ¬ (CMD_VM_DISPOSE = CMD_VM_RESUME) := by decide
  simp only [vm_commands, d1, d2, if_false, if_true, vm_dispose]
  rw [h2 _ (le_refl _)]
  simp only
  rw [h3 _ (by rw [hc2]), hs3]

theorem vm_dispose_clears_witness :
    ∃ s2 c3 s3,
      (∀ n, agent_requests_example.event_requests.length ≤ n →
        clear_all_event_requests n
          { agent_requests_example with
            coord := wait_for_suspend (suspend_vm agent_requests_example.coord 1) } = some s2) ∧
      (∀ n, (agent_requests_example.coord.suspend_count + 1).toNat ≤ n →
        resume_vm_all n s2.coord 1 = some c3) ∧
      vm_commands objrefs_init agent_requests_example 1 CMD_VM_DISPOSE 9 []
        = some (s3, ERR_NONE) ∧
      s3.event_requests = [] ∧ s3.coord.suspend_count = 0 ∧ s3.disconnected = true :=
  vm_dispose_clears objrefs_init agent_requests_example 1 9 [] engine_wf_example rfl
    (by decide)

/-! ### Clearing a breakpoint request -/

theorem request_kind_of_mem (table : List EventRequest) (r : EventRequest)
    (hn : (table.map (fun r => r.id)).Nodup) (hr : r ∈ table) :
    request_kind table r.id = some r.event_kind := by
  unfold request_kind
  induction table with
  | nil => cases hr
  | cons a l ih =>
    simp only [List.map_cons, List.nodup_cons] at hn
    rcases List.mem_cons.mp hr with h | h
    · subst h
      simp [List.find?]
    · have hne : a.id ≠ r.id := by
        intro e
        apply hn.1
        rw [e]
        exact List.mem_map.mpr ⟨r, h, rfl⟩
      simp only [List.find?, hne, decide_False]
      exact ih hn.2 h

theorem collect_breakpoint_children_spec (table : List EventRequest) (ji : MonoJitInfo)
    (native_offset : Int) (bp : MonoBreakpoint) (kind : Int)
    (hk : request_kind table bp.req = some kind) (children : List BreakpointInstance)
    (acc : List Int × List Int) :
    ∃ acc1, collect_breakpoint_children table ji native_offset bp acc children = some acc1 ∧
      (∀ id, id ∈ acc1.1 ↔ id ∈ acc.1 ∨ (id = bp.req ∧ kind ≠ EVENT_KIND_STEP ∧
        ∃ inst ∈ children, inst.ji = ji ∧ inst.native_offset = native_offset)) ∧
      (∀ id, id ∈ acc1.2 ↔ id ∈ acc.2 ∨ (id = bp.req ∧ kind = EVENT_KIND_STEP ∧
        ∃ inst ∈ children, inst.ji = ji ∧ inst.native_offset = native_offset)) := by
  induction children generalizing acc with
  | nil => exact ⟨acc, rfl, fun id => by simp, fun id => by simp⟩
  | cons inst rest ih =>
    simp only [collect_breakpoint_children, hk]
    by_cases hm : inst.ji = ji ∧ inst.native_offset = native_offset
    · rw [if_pos hm]
      by_cases hs : kind = EVENT_KIND_STEP
      · rw [if_pos hs]
        obtain ⟨acc1, h1, h2, h3⟩ := ih (acc.1, acc.2 ++ [bp.req])
        refine ⟨acc1, h1, fun id => ?_, fun id => ?_⟩
        · rw [h2 id]
          simp only [List.mem_cons, exists_eq_or_imp]
          constructor
          · rintro (h | ⟨_, h, _⟩)
            · exact Or.inl h
            · exact absurd hs h
          · rintro (h | ⟨_, h, _⟩)
            · exact Or.inl h
            · exact absurd hs h
        · rw [h3 id]
          simp only [List.mem_append, List.mem_singleton, List.mem_cons, exists_eq_or_imp, List.not_mem_nil, or_false]
          constructor
          · rintro ((h | h) | ⟨h1, h2, h3⟩)
            · exact Or.inl h
            · exact Or.inr ⟨h, hs, Or.inl hm⟩
            · exact Or.inr ⟨h1, h2, Or.inr h3⟩
          · rintro (h | ⟨h1, h2, h3⟩)
            · exact Or.inl (Or.inl h)
            · exact Or.inl (Or.inr h1)
      · rw [if_neg hs]
        obtain ⟨acc1, h1, h2, h3⟩ := ih (acc.1 ++ [bp.req], acc.2)
        refine ⟨acc1, h1, fun id => ?_, fun id => ?_⟩
        · rw [h2 id]
          simp only [List.mem_append, List.mem_singleton, List.mem_cons, exists_eq_or_imp, List.not_mem_nil, or_false]
          constructor
          · rintro ((h | h) | ⟨h1, h2, h3⟩)
            · exact Or.inl h
            · exact Or.inr ⟨h, hs, Or.inl hm⟩
            · exact Or.inr ⟨h1, h2, Or.inr h3⟩
          · rintro (h | ⟨h1, h2, h3⟩)
            · exact Or.inl (Or.inl h)
            · exact Or.inl (Or.inr h1)
        · rw [h3 id]
          simp only [List.mem_cons, exists_eq_or_imp]
          constructor
          · rintro (h | ⟨_, h, _⟩)
            · exact Or.inl h
            · exact absurd h hs
          · rintro (h | ⟨_, h, _⟩)
            · exact Or.inl h
            · exact absurd h hs
    · rw [if_neg hm]
      obtain ⟨acc1, h1, h2, h3⟩ := ih acc
      refine ⟨acc1, h1, fun id => ?_, fun id => ?_⟩
      · rw [h2 id]
        simp only [List.mem_cons, exists_eq_or_imp]
        constructor
        · rintro (h | ⟨h1, h2, h3⟩)
          · exact Or.inl h
          · exact Or.inr ⟨h1, h2, Or.inr h3⟩
        · rintro (h | ⟨h1, h2, h3 | h3⟩)
          · exact Or.inl h
          · exact absurd h3 hm
          · exact Or.inr ⟨h1, h2, h3⟩
      · rw [h3 id]
        simp only [List.mem_cons, exists_eq_or_imp]
        constructor
        · rintro (h | ⟨h1, h2, h3⟩)
          · exact Or.inl h
          · exact Or.inr ⟨h1, h2, Or.inr h3⟩
        · rintro (h | ⟨h1, h2, h3 | h3⟩)
          · exact Or.inl h
          · exact absurd h3 hm
          · exact Or.inr ⟨h1, h2, h3⟩

/-- What the first loop of `process_breakpoint_inner` collects when the request of
every breakpoint is in the table. -/
theorem collect_breakpoint_requests_spec (table : List EventRequest) (ji : MonoJitInfo)
    (native_offset : Int) (bps : List (Nat × MonoBreakpoint)) (acc : List Int × List Int)
    (hn : (table.map (fun r => r.id)).Nodup)
    (hown : ∀ x ∈ bps, ∃ r ∈ table, r.id = x.2.req) :
    ∃ acc1, collect_breakpoint_requests table ji native_offset acc bps = some acc1 ∧
      (∀ id, id ∈ acc1.1 ↔ id ∈ acc.1 ∨ ∃ x ∈ bps, x.2.method ≠ 0 ∧ id = x.2.req ∧
        request_kind table x.2.req ≠ some EVENT_KIND_STEP ∧
        ∃ inst ∈ x.2.children, inst.ji = ji ∧ inst.native_offset = native_offset) ∧
      (∀ id, id ∈ acc1.2 ↔ id ∈ acc.2 ∨ ∃ x ∈ bps, x.2.method ≠ 0 ∧ id = x.2.req ∧
        request_kind table x.2.req = some EVENT_KIND_STEP ∧
        ∃ inst ∈ x.2.children, inst.ji = ji ∧ inst.native_offset = native_offset) := by
  induction bps generalizing acc with
  | nil => exact ⟨acc, rfl, fun id => by simp, fun id => by simp⟩
  | cons x rest ih =>
    have hown1 : ∀ y ∈ rest, ∃ r ∈ table, r.id = y.2.req :=
      fun y hy => hown y (List.mem_cons_of_mem _ hy)
    simp only [collect_breakpoint_requests]
    by_cases hm : x.2.method = 0
    · rw [if_pos hm]
      obtain ⟨acc1, h1, h2, h3⟩ := ih acc hown1
      refine ⟨acc1, h1, fun id => ?_, fun id => ?_⟩
      · rw [h2 id]
        simp only [List.mem_cons, exists_eq_or_imp, hm, ne_eq, not_true_eq_false, false_and,
          false_or]
      · rw [h3 id]
        simp only [List.mem_cons, exists_eq_or_imp, hm, ne_eq, not_true_eq_false, false_and,
          false_or]
    · rw [if_neg hm]
      obtain ⟨r, hr, hid⟩ := hown x (List.mem_cons_self _ _)
      have hk : request_kind table x.2.req = some r.event_kind := by
        rw [← hid]
        exact request_kind_of_mem table r hn hr
      obtain ⟨acc0, h0, h01, h02⟩ := collect_breakpoint_children_spec table ji native_offset x.2
        r.event_kind hk x.2.children acc
      rw [h0]
      obtain ⟨acc1, h1, h2, h3⟩ := ih acc0 hown1
      refine ⟨acc1, h1, fun id => ?_, fun id => ?_⟩
      · rw [h2 id, h01 id]
        simp only [List.mem_cons, exists_eq_or_imp, hk, ne_eq, Option.some.injEq, hm,
          not_false_eq_true, true_and]
        exact or_assoc
      · rw [h3 id, h02 id]
        simp only [List.mem_cons, exists_eq_or_imp, hk, ne_eq, Option.some.injEq, hm,
          not_false_eq_true, true_and]
        exact or_assoc

theorem find_event_request_of_mem (table : List EventRequest) (req : EventRequest)
    (hn : (table.map (fun r => r.id)).Nodup) (hreq : req ∈ table) (k : Nat) :
    ∃ i, find_event_request table req.id req.event_kind k = some (i, req) := by
  induction table generalizing k with
  | nil => cases hreq
  | cons a l ih =>
    simp only [List.map_cons, List.nodup_cons] at hn
    simp only [find_event_request]
    rcases List.mem_cons.mp hreq with h | h
    · subst h
      exact ⟨k, by simp⟩
    · have hne : a.id ≠ req.id := by
        intro e
        apply hn.1
        rw [e]
        exact List.mem_map.mpr ⟨req, h, rfl⟩
      have hc : ¬ (a.id = req.id ∧ a.event_kind = req.event_kind) := fun e => hne e.1
      rw [if_neg hc]
      exact ih hn.2 h (k + 1)

theorem owns_breakpoint_of_kind (req : EventRequest)
    (hk : req.event_kind = EVENT_KIND_BREAKPOINT) : owns_breakpoint req = true := by
  simp [owns_breakpoint, hk]

theorem owner_info_injective (table : List EventRequest) (r1 r2 : EventRequest)
    (hn : ((table.filter owns_breakpoint).map (fun r => r.info)).Nodup)
    (h1 : r1 ∈ table) (h2 : r2 ∈ table) (o1 : owns_breakpoint r1 = true)
    (o2 : owns_breakpoint r2 = true) (he : r1.info = r2.info) : r1 = r2 :=
  List.inj_on_of_nodup_map hn (List.mem_filter.mpr ⟨h1, o1⟩) (List.mem_filter.mpr ⟨h2, o2⟩) he

/-- Claim C11: in a state that satisfies the invariants of the event requests,
`clear_event_request` for a breakpoint request that is in the table returns; after
it no request of the table has the id, the breakpoint of the request is not in the
array `breakpoints`, the count of every code address has gone down by the number of
instances that the breakpoint had there, and a hit at any place collects no event
for the request; a different breakpoint request keeps its breakpoint: the address
of each of its instances is still patched, and a hit there still collects it. -/
theorem clear_event_request_breakpoint (s : AgentState) (req : EventRequest)
    (hw : engine_wf s) (ho : owners_wf s) (hreq : req ∈ s.event_requests)
    (hk : req.event_kind = EVENT_KIND_BREAKPOINT) :
    ∃ s1 b, clear_event_request s req.id EVENT_KIND_BREAKPOINT = some s1 ∧
      (req.info, b) ∈ s.eng.breakpoints ∧
      (∀ r ∈ s1.event_requests, r.id ≠ req.id) ∧
      (∀ x ∈ s1.eng.breakpoints, x.1 ≠ req.info) ∧
      (∀ ip, bp_locs_count s1.eng.locs ip
        = bp_locs_count s.eng.locs ip - instances_at b.children ip) ∧
      (∀ ji native_offset, ∃ bp_reqs ss_reqs,
        collect_breakpoint_requests s1.event_requests ji native_offset ([], [])
          s1.eng.breakpoints = some (bp_reqs, ss_reqs) ∧
        req.id ∉ bp_reqs ∧ req.id ∉ ss_reqs) ∧
      (∀ other ∈ s.event_requests, other ≠ req → other.event_kind = EVENT_KIND_BREAKPOINT →
        ∀ b1, (other.info, b1) ∈ s.eng.breakpoints → b1.method ≠ 0 → ∀ inst ∈ b1.children,
          inst.ip ∈ s1.eng.locs.patched ∧
          ∃ bp_reqs ss_reqs,
            collect_breakpoint_requests s1.event_requests inst.ji inst.native_offset ([], [])
              s1.eng.breakpoints = some (bp_reqs, ss_reqs) ∧
            other.id ∈ bp_reqs) := by
  have hown := owns_breakpoint_of_kind req hk
  obtain ⟨i, hf⟩ := find_event_request_of_mem s.event_requests req ho.ids_nodup hreq 0
  rw [hk] at hf
  obtain ⟨s1, pre, post, h1, hw1, ht, hperm, _, _, _, hb⟩ :=
    clear_event_request_wf s req.id EVENT_KIND_BREAKPOINT i req hw hf
  obtain ⟨hb1, hss1, hc1⟩ := hb hown
  -- the breakpoint of the request
  have hmemi : req.info ∈ s.eng.breakpoints.map (fun x => x.1) := by
    apply hw.owned_mem
    unfold owned_breakpoints
    exact List.mem_append_left _ (List.mem_map.mpr ⟨req, List.mem_filter.mpr ⟨hreq, hown⟩, rfl⟩)
  obtain ⟨b, hlb⟩ := lookup_of_mem_addr s.eng.breakpoints req.info hmemi
  have hbm : (req.info, b) ∈ s.eng.breakpoints := mem_of_lookup _ _ _ hlb
  -- the table after the call
  have hids := ho.ids_nodup
  rw [ht, List.map_append, List.map_cons] at hids
  have hids2 : (req.id :: ((pre ++ post).map (fun r => r.id))).Nodup := by
    rw [List.map_append]
    exact (List.perm_middle.nodup_iff).mp hids
  rw [List.nodup_cons] at hids2
  have hmem1 : ∀ r, r ∈ s1.event_requests ↔ r ∈ pre ++ post := fun r => hperm.mem_iff
  have hnoid : ∀ r ∈ s1.event_requests, r.id ≠ req.id := by
    intro r hr e
    apply hids2.1
    rw [← e]
    exact List.mem_map.mpr ⟨r, (hmem1 r).mp hr, rfl⟩
  have hn1 : (s1.event_requests.map (fun r => r.id)).Nodup :=
    ((hperm.map _).nodup_iff).mpr hids2.2
  have hsub : ∀ r, r ∈ s.event_requests → r ≠ req → r ∈ s1.event_requests := by
    intro r hr hne
    rw [hmem1 r]
    rw [ht] at hr
    simp only [List.mem_append, List.mem_cons] at hr ⊢
    rcases hr with h | h | h
    · exact Or.inl h
    · exact absurd h hne
    · exact Or.inr h
  have hbp1 : ∀ x, x ∈ s1.eng.breakpoints ↔ x ∈ s.eng.breakpoints ∧ x.1 ≠ req.info := by
    intro x
    rw [hb1]
    exact mem_eraseP_breakpoints _ _ _ hw.addrs_nodup
  -- the requests of the breakpoints that remain are in the table
  have hown1 : ∀ x ∈ s1.eng.breakpoints, ∃ r ∈ s1.event_requests, r.id = x.2.req := by
    intro x hx
    obtain ⟨hx1, hx2⟩ := (hbp1 x).mp hx
    obtain ⟨r, hr, hid, hinfo, _⟩ := ho.owner x hx1
    refine ⟨r, hsub r hr ?_, hid⟩
    intro e
    rw [e] at hinfo
    exact hx2 (hinfo hown).symm
  refine ⟨s1, b, h1, hbm, hnoid, fun x hx => ((hbp1 x).mp hx).2, ?_, ?_, ?_⟩
  · intro ip
    rw [hc1.1 ip, hw.consistent.1 ip]
    unfold live_instances
    rw [hb1]
    exact instances_at_eraseP s.eng.breakpoints req.info b hlb ip
  · intro ji native_offset
    obtain ⟨acc1, ha, ha1, ha2⟩ := collect_breakpoint_requests_spec s1.event_requests ji
      native_offset s1.eng.breakpoints ([], []) hn1 hown1
    refine ⟨acc1.1, acc1.2, ha, ?_, ?_⟩
    · intro hin
      rcases (ha1 req.id).mp hin with h | ⟨x, hx, _, hid, _⟩
      · cases h
      · obtain ⟨r, hr, hrid⟩ := hown1 x hx
        exact hnoid r hr (by rw [hrid, hid])
    · intro hin
      rcases (ha2 req.id).mp hin with h | ⟨x, hx, _, hid, _⟩
      · cases h
      · obtain ⟨r, hr, hrid⟩ := hown1 x hx
        exact hnoid r hr (by rw [hrid, hid])
  · intro other hother hne hko b1 hb1m hmeth inst hinst
    have hoo := owns_breakpoint_of_kind other hko
    have hinfo_ne : other.info ≠ req.info := by
      intro e
      apply hne
      have hnd : ((s.event_requests.filter owns_breakpoint).map (fun r => r.info)).Nodup := by
        have := hw.owned_nodup
        unfold owned_breakpoints at this
        exact List.Nodup.of_append_left this
      exact owner_info_injective s.event_requests other req hnd hother hreq hoo hown e
    have hx1 : (other.info, b1) ∈ s1.eng.breakpoints := (hbp1 _).mpr ⟨hb1m, hinfo_ne⟩
    have hother1 : other ∈ s1.event_requests := hsub other hother hne
    -- the request of the breakpoint is `other`
    have hreq1 : b1.req = other.id := by
      obtain ⟨r, hr, hid, hinfo, hstep⟩ := ho.owner (other.info, b1) hb1m
      by_cases hro : owns_breakpoint r = true
      · have hnd : ((s.event_requests.filter owns_breakpoint).map (fun r => r.info)).Nodup := by
          have := hw.owned_nodup
          unfold owned_breakpoints at this
          exact List.Nodup.of_append_left this
        have e := owner_info_injective s.event_requests r other hnd hr hother hro hoo (hinfo hro)
        rw [← hid, e]
      · exfalso
        have h1 := hstep (by simpa using hro)
        have hnd := hw.owned_nodup
        unfold owned_breakpoints at hnd
        exact (List.disjoint_of_nodup_append hnd)
          (List.mem_map.mpr ⟨other, List.mem_filter.mpr ⟨hother, hoo⟩, rfl⟩) h1
    constructor
    · rw [hc1.2 inst.ip, hc1.1 inst.ip]
      apply instances_at_pos_of_mem
      unfold live_instances
      exact List.mem_flatMap.mpr ⟨(other.info, b1), hx1, hinst⟩
    · obtain ⟨acc1, ha, ha1, _⟩ := collect_breakpoint_requests_spec s1.event_requests inst.ji
        inst.native_offset s1.eng.breakpoints ([], []) hn1 hown1
      refine ⟨acc1.1, acc1.2, ha, ?_⟩
      rw [ha1 other.id]
      refine Or.inr ⟨(other.info, b1), hx1, hmeth, hreq1.symm, ?_, inst, hinst, rfl, rfl⟩
      rw [hreq1, request_kind_of_mem s1.event_requests other hn1 hother1, hko]
      decide

theorem owners_wf_example : owners_wf agent_requests_example :=
  ⟨by decide, by decide⟩

theorem clear_event_request_breakpoint_witness :
    ∃ s1 b, clear_event_request agent_requests_example breakpoint_request_example.id
        EVENT_KIND_BREAKPOINT = some s1 ∧
      (breakpoint_request_example.info, b) ∈ agent_requests_example.eng.breakpoints ∧
      (∀ r ∈ s1.event_requests, r.id ≠ breakpoint_request_example.id) ∧
      (∀ x ∈ s1.eng.breakpoints, x.1 ≠ breakpoint_request_example.info) ∧
      (∀ ip, bp_locs_count s1.eng.locs ip
        = bp_locs_count agent_requests_example.eng.locs ip - instances_at b.children ip) ∧
      (∀ ji native_offset, ∃ bp_reqs ss_reqs,
        collect_breakpoint_requests s1.event_requests ji native_offset ([], [])
          s1.eng.breakpoints = some (bp_reqs, ss_reqs) ∧
        breakpoint_request_example.id ∉ bp_reqs ∧ breakpoint_request_example.id ∉ ss_reqs) ∧
      (∀ other ∈ agent_requests_example.event_requests, other ≠ breakpoint_request_example →
        other.event_kind = EVENT_KIND_BREAKPOINT →
        ∀ b1, (other.info, b1) ∈ agent_requests_example.eng.breakpoints → b1.method ≠ 0 →
        ∀ inst ∈ b1.children,
          inst.ip ∈ s1.eng.locs.patched ∧
          ∃ bp_reqs ss_reqs,
            collect_breakpoint_requests s1.event_requests inst.ji inst.native_offset ([], [])
              s1.eng.breakpoints = some (bp_reqs, ss_reqs) ∧
            other.id ∈ bp_reqs) :=
  clear_event_request_breakpoint agent_requests_example breakpoint_request_example
    engine_wf_example owners_wf_example (by decide) rfl

/-! ### Step events -/

theorem toInt32_range (n : Nat) : -(2 : Int) ^ 31 ≤ toInt32 n ∧ toInt32 n < 2 ^ 31 := by
  unfold toInt32
  split <;> omega

theorem decode_int_range (buf : List Nat) (d : Decoded Int) (h : decode_int buf = some d) :
    -(2 : Int) ^ 31 ≤ d.val ∧ d.val < 2 ^ 31 ∧ buf.length = 4 + d.endbuf.length
      ∧ d.endbuf = buf.drop 4 := by
  match buf, h with
  | b0 :: b1 :: b2 :: b3 :: rest, h =>
    simp only [decode_int, Option.some.injEq] at h
    subst h
    exact ⟨(toInt32_range _).1, (toInt32_range _).2, by simp [List.length_cons]; omega, rfl⟩

/-- The length prefix 5 with only two bytes before `limit`: the copy takes the three
bytes that follow `limit` as well, and `*endbuf` ends three bytes beyond `limit`. -/
theorem decode_string_reads_past_limit :
    decode_string (fun n => decide (0 < n)) [0, 0, 0, 5, 1, 2] [9, 9, 9, 9]
      = some ⟨[1, 2, 9, 9, 9], [], 3⟩ := by
  decide

/-- Claim C30, the part that holds: for every buffer whose four-byte prefix decodes
to `len`, a negative `len` makes `decode_string` fail (the allocation fails or the
copy of `(size_t) len` bytes leaves the memory), and a `len` that is not negative and
not larger than the number of bytes left before `limit` makes it return exactly the
`len` bytes after the prefix and advance by `4 + len`, when `g_malloc` returns a
block. -/
theorem decode_string_in_bounds (alloc_ok : Int → Bool) (buf beyond : List Nat)
    (len : Decoded Int) (hd : decode_int buf = some len) :
    (len.val < 0 → buf.length + beyond.length < 2 ^ 63 →
      decode_string alloc_ok buf beyond = none) ∧
    (0 ≤ len.val → len.val ≤ (len.endbuf.length : Int) → alloc_ok (len.val + 1) = true →
      decode_string alloc_ok buf beyond
        = some ⟨(buf.drop 4).take len.val.toNat, buf.drop (4 + len.val.toNat), 0⟩) := by
  obtain ⟨hlo, hhi, hlen, hdrop⟩ := decode_int_range buf len hd
  constructor
  · intro hneg hmem
    unfold decode_string
    simp only [hd]
    by_cases ha : alloc_ok (len.val + 1) = false
    · rw [if_pos ha]
    · rw [if_neg ha]
      have hc : (len.endbuf ++ beyond).length < toUInt64 len.val := by
        unfold toUInt64
        rw [List.length_append]
        omega
      rw [if_pos hc]
  · intro h0 hfit ha
    unfold decode_string
    simp only [hd]
    have hna : ¬ (alloc_ok (len.val + 1) = false) := by simp [ha]
    rw [if_neg hna]
    have hc : toUInt64 len.val = len.val.toNat := by
      unfold toUInt64
      rw [Int.emod_eq_of_lt h0 (by omega)]
    have hle : len.val.toNat ≤ len.endbuf.length := by omega
    have hnl : ¬ ((len.endbuf ++ beyond).length < toUInt64 len.val) := by
      rw [hc, List.length_append]
      omega
    rw [if_neg hnl, hc]
    have e1 : (len.endbuf ++ beyond).take len.val.toNat = len.endbuf.take len.val.toNat :=
      List.take_append_of_le_length hle
    have e2 : len.val.toNat - len.endbuf.length = 0 := by omega
    rw [e1, e2, hdrop, List.drop_drop]

theorem decode_string_in_bounds_witness :
    decode_int [0, 0, 0, 2, 1, 2, 7] = some ⟨2, [1, 2, 7]⟩ ∧
    decode_string (fun n => decide (0 < n)) [0, 0, 0, 2, 1, 2, 7] [9]
      = some ⟨[1, 2], [7], 0⟩ :=
  ⟨by decide,
   (decode_string_in_bounds (fun n => decide (0 < n)) [0, 0, 0, 2, 1, 2, 7] [9] ⟨2, [1, 2, 7]⟩
      (by decide)).2 (by decide) (by decide) (by decide)⟩

/-! ### The transport handshake -/

theorem memcmp_one (a b : List Nat) (x y : Nat) :
    memcmp (x :: a) (y :: b) 1 = 0 ↔ x = y := by
  unfold memcmp
  by_cases h : x = y
  · simp [h, memcmp]
  · simp only [h, if_false, iff_false]
    omega

/-- A reply of 13 bytes that agrees with the magic string in its first byte only:
the handshake succeeds and the session is left connected. -/
theorem transport_handshake_first_byte_only :
    transport_handshake 13 [68, 0, 0, 0, 0, 0, 0, 0, 0, 0, 0, 0, 0] 0 = (true, []) ∧
    (wait_for_attach (agent_init 1) 3 4 13 [68, 0, 0, 0, 0, 0, 0, 0, 0, 0, 0, 0, 0] 0).1.disconnected
      = false := by
  decide

/-- Claim C27, the part that holds: `transport_handshake` succeeds exactly when the
message was sent, the peer answers with 13 bytes of which the first is the first
byte of the magic string, and `setsockopt` succeeds; so for every reply of 13 bytes
that differs from the magic string in its first byte the handshake fails, and
`wait_for_attach` leaves the session disconnected. -/
theorem transport_handshake_first_byte (send_res sockopt_res : Int) (input : List Nat) :
    ((transport_handshake send_res input sockopt_res).1 = true ↔
      send_res ≠ -1 ∧ 13 ≤ input.length ∧ input.head? = some 68 ∧ 0 ≤ sockopt_res) ∧
    (∀ (s : AgentState) (listen_fd conn_fd : Int), listen_fd ≠ -1 → conn_fd ≠ -1 →
      13 ≤ input.length → input.head? ≠ some 68 →
      (wait_for_attach s listen_fd conn_fd send_res input sockopt_res).1.disconnected = true ∧
      (wait_for_attach s listen_fd conn_fd send_res input sockopt_res).2.1 = false) := by
  have key : (transport_handshake send_res input sockopt_res).1 = true ↔
      send_res ≠ -1 ∧ 13 ≤ input.length ∧ input.head? = some 68 ∧ 0 ≤ sockopt_res := by
    unfold transport_handshake
    by_cases hs : -1 = send_res
    · rw [if_pos hs]
      simp only [Bool.false_eq_true, false_iff, not_and]
      intro h
      exact absurd hs.symm h
    · rw [if_neg hs]
      have hl : handshake_msg.length = 13 := rfl
      simp only [recv_length, hl, List.length_take]
      have h1 : (if (13 : Nat) ≠ 0 then 1 else 0) = 1 := rfl
      rw [h1]
      by_cases hlen : 13 ≤ input.length
      · have hm : min 13 input.length = 13 := by omega
        match input, hlen with
        | x :: rest, hlen =>
          have hmc : memcmp (List.take 13 (x :: rest)) handshake_msg 1 = 0 ↔ x = 68 := by
            show memcmp (x :: List.take 12 rest) (68 :: _) 1 = 0 ↔ x = 68
            exact memcmp_one _ _ _ _
          by_cases hx : x = 68
          · have h0 : memcmp (List.take 13 (x :: rest)) handshake_msg 1 = 0 := hmc.mpr hx
            simp only [hm, h0, ne_eq, not_true_eq_false, or_self, if_false]
            by_cases hso : 0 > sockopt_res
            · rw [if_pos hso]
              simp only [Bool.false_eq_true, false_iff, not_and, not_le]
              intro _ _ _
              exact hso
            · rw [if_neg hso]
              simp only [true_iff]
              refine ⟨fun e => hs e.symm, hlen, by simp [hx], by omega⟩
          · have h0 : memcmp (List.take 13 (x :: rest)) handshake_msg 1 ≠ 0 :=
              fun e => hx (hmc.mp e)
            rw [if_pos (Or.inr h0)]
            simp only [Bool.false_eq_true, false_iff, not_and]
            intro _ _ hh
            simp only [List.head?_cons, Option.some.injEq] at hh
            exact absurd hh hx
      · have hm : min 13 input.length ≠ 13 := by omega
        rw [if_pos (Or.inl hm)]
        simp only [Bool.false_eq_true, false_iff, not_and]
        intro _ h
        exact absurd h hlen
  refine ⟨key, ?_⟩
  intro s listen_fd conn_fd hl hc hlen hx
  have hf : (transport_handshake send_res input sockopt_res).1 = false := by
    cases hv : (transport_handshake send_res input sockopt_res).1
    · rfl
    · exact absurd (key.mp hv).2.2.1 hx
  unfold wait_for_attach
  simp only [hl, hc, if_false, hf, Bool.not_false, if_true, and_self]

theorem transport_handshake_first_byte_witness :
    (wait_for_attach (agent_init 1) 3 4 13
        [100, 87, 80, 45, 72, 97, 110, 100, 115, 104, 97, 107, 101] 0).1.disconnected = true :=
  ((transport_handshake_first_byte 13 0
      [100, 87, 80, 45, 72, 97, 110, 100, 115, 104, 97, 107, 101]).2 (agent_init 1) 3 4
      (by decide) (by decide) (by decide) (by decide)).1

/-! ### Aborting an invoke -/

/-- Claim C22: the abort-invoke command, for a thread object that resolves to a
thread with a record. While no abort is requested it returns `ERR_NO_INVOCATION` and
leaves the whole state as it was (no abort requested, `abort_requested` still false)
when the thread has no invocation in progress or the id of its current invocation
differs from the given id; when the ids match it returns `ERR_NONE`, requests the
abort of the thread once and sets `abort_requested`. When an abort is already
requested it returns `ERR_NONE` and leaves the state as it was. -/
theorem vm_abort_invoke_checks (objs : ObjState) (s : AgentState) (cur : Nat) (id : Int)
    (p : List Nat) (objid invoke_id : Decoded Int) (thread : Nat) (tls : DebuggerTlsData)
    (hp : decode_id p = some objid) (ho : get_object objs objid.val = (0, thread))
    (hi : decode_int objid.endbuf = some invoke_id)
    (ht : g_hash_table_lookup s.coord.thread_to_tls thread = some tls) :
    (tls.abort_requested = false →
      (tls.invoke = [] ∨ ∃ inv rest, tls.invoke = inv :: rest ∧ inv.id ≠ invoke_id.val) →
      vm_commands objs s cur CMD_VM_ABORT_INVOKE id p = some (s, ERR_NO_INVOCATION)) ∧
    (tls.abort_requested = false →
      ∀ inv rest, tls.invoke = inv :: rest → inv.id = invoke_id.val →
      ∃ s1, vm_commands objs s cur CMD_VM_ABORT_INVOKE id p = some (s1, ERR_NONE) ∧
        s1.thread_aborts = s.thread_aborts ++ [thread] ∧
        g_hash_table_lookup s1.coord.thread_to_tls thread
          = some { tls with abort_requested := true }) ∧
    (tls.abort_requested = true →
      vm_commands objs s cur CMD_VM_ABORT_INVOKE id p = some (s, ERR_NONE)) := by
  have d1 : ¬ (CMD_VM_ABORT_INVOKE = CMD_VM_SUSPEND) := by decide
  have d2 : ¬ (CMD_VM_ABORT_INVOKE = CMD_VM_RESUME) := by decide
  have d3 : ¬ (CMD_VM_ABORT_INVOKE = CMD_VM_DISPOSE) := by decide
  have d4 : ¬ (CMD_VM_ABORT_INVOKE = CMD_VM_INVOKE_METHOD) := by decide
  have hv : vm_commands objs s cur CMD_VM_ABORT_INVOKE id p = vm_abort_invoke objs s p := by
    simp only [vm_commands, d1, d2, d3, d4, if_false, if_true]
  have h0 : ¬ ((0 : Int) ≠ 0) := by simp
  rw [hv]
  refine ⟨?_, ?_, ?_⟩
  · intro ha hno
    unfold vm_abort_invoke
    simp only [hp, ho, h0, if_false, hi, ht, ha, Bool.false_eq_true]
    rcases hno with he | ⟨inv, rest, he, hne⟩
    · simp only [he]
    · simp only [he]
      rw [if_pos hne]
  · intro ha inv rest he heq
    unfold vm_abort_invoke
    simp only [hp, ho, h0, if_false, hi, ht, ha, Bool.false_eq_true, he]
    have hnn : ¬ (inv.id ≠ invoke_id.val) := fun h => h heq
    rw [if_neg hnn]
    exact ⟨_, rfl, rfl, g_hash_table_lookup_insert_self _ _ _⟩
  · intro ha
    unfold vm_abort_invoke
    simp only [hp, ho, h0, if_false, hi, ht, ha, if_true]

theorem vm_abort_invoke_checks_witness :
    (∃ s1, vm_commands thread_objs_example parked_agent_example 1 CMD_VM_ABORT_INVOKE 9
        [0, 0, 0, 1, 0, 0, 0, 4] = some (s1, ERR_NO_INVOCATION) ∧ s1.thread_aborts = []) ∧
    (∃ s1, vm_commands thread_objs_example invoking_agent_example 1 CMD_VM_ABORT_INVOKE 9
        [0, 0, 0, 1, 0, 0, 0, 4] = some (s1, ERR_NONE) ∧
      s1.thread_aborts = invoking_agent_example.thread_aborts ++ [7] ∧
      g_hash_table_lookup s1.coord.thread_to_tls 7
        = some { thread_start_tls 7 with invoke := [⟨4, 0, [], false, 2⟩],
                                         abort_requested := true }) :=
  ⟨⟨parked_agent_example,
    (vm_abort_invoke_checks thread_objs_example parked_agent_example 1 9
      [0, 0, 0, 1, 0, 0, 0, 4] ⟨1, [0, 0, 0, 4]⟩ ⟨4, []⟩ 7
      (suspend_current_park (thread_start_tls 7)) (by decide) (by decide) (by decide)
      (by decide)).1 rfl (Or.inl rfl),
    rfl⟩,
   (vm_abort_invoke_checks thread_objs_example invoking_agent_example 1 9
      [0, 0, 0, 1, 0, 0, 0, 4] ⟨1, [0, 0, 0, 4]⟩ ⟨4, []⟩ 7
      { thread_start_tls 7 with invoke := [⟨4, 0, [], false, 2⟩] } (by decide) (by decide)
      (by decide) (by decide)).2.1 rfl ⟨4, 0, [], false, 2⟩ [] rfl rfl⟩

/-! ### The command `CMD_OBJECT_REF_IS_COLLECTED` -/

theorem get_object_of_lookup (s : ObjState) (objid : Int) (ref : ObjRef)
    (hl : objrefs_lookup s objid = some ref) (hz : objid ≠ 0) :
    get_object s objid
      = if mono_gchandle_get_target s.gc ref.handle = 0 then (ERR_INVALID_OBJECT, 0)
        else (0, mono_gchandle_get_target s.gc ref.handle) := by
  unfold objrefs_lookup at hl
  cases htb : s.objrefs with
  | none => simp [htb] at hl
  | some tb =>
    simp only [htb] at hl
    unfold get_object get_object_allow_null
    simp only [hz, if_false, htb, hl]
    by_cases ht : mono_gchandle_get_target s.gc ref.handle = 0
    · simp [ht, ERR_INVALID_OBJECT]
    · simp [ht]

theorem get_object_of_not_lookup (s : ObjState) (objid : Int)
    (hl : objrefs_lookup s objid = none) : get_object s objid = (ERR_INVALID_OBJECT, 0) := by
  unfold get_object get_object_allow_null
  by_cases hz : objid = 0
  · simp [hz, ERR_INVALID_OBJECT]
  · unfold objrefs_lookup at hl
    cases htb : s.objrefs with
    | none => simp [hz, htb, ERR_INVALID_OBJECT]
    | some tb =>
      simp only [htb] at hl
      simp [hz, htb, hl, ERR_INVALID_OBJECT]

theorem send_reply_packet_bytes (id err : Int) (data : List Nat)
    (hn : data.length + 11 < 2 ^ 31) :
    send_reply_packet id err data
      = buffer_add_int (data.length + 11) ++ buffer_add_int (toUInt32 id)
          ++ [128, toUInt8 ((err >>> (8 : Nat)) % 2 ^ 8) % 256, toUInt8 err % 256] ++ data := by
  unfold send_reply_packet
  rw [packet_bytes_eq _ _ _ _ _ hn]

/-- Claim C26: for every object id `objid` in the data of a request with the command
`CMD_OBJECT_REF_IS_COLLECTED`, one round of the command loop sends exactly one reply:
15 bytes with the request id, the flag `0x80`, the error code 0 and a payload of four
bytes, whose value is 1 when the weak handle of the id resolves to no object (also
when the id is unknown) and 0 when it resolves to a live object; the state of the
agent and the registries are unchanged and the loop goes on. -/
theorem object_ref_is_collected
    (other : Int → Nat → List Nat → HandlerState → Option (HandlerState × Int × List Nat))
    (h : CommandHandlers) (rt : Runtime) (s : Session) (cur : Nat) (tid_to_thread : List Nat)
    (exit_method : Nat) (id : Int) (data rest : List Nat) (objid : Decoded Int)
    (hh : h.object_commands = object_commands other)
    (hn : data.length + 11 < 2 ^ 31) (hid : 0 ≤ id ∧ id < 2 ^ 31)
    (hd : decode_id data = some objid) :
    ∃ s2 x,
      debugger_thread_step h rt s cur tid_to_thread exit_method
          (send_packet id CMD_SET_OBJECT_REF CMD_OBJECT_REF_IS_COLLECTED data ++ rest)
        = some (s2, rest, LoopControl.next) ∧
      s2.effects = s.effects ++ [Effect.transport_send
        ([0, 0, 0, 15] ++ buffer_add_int (toUInt32 id) ++ [128, 0, 0] ++ [0, 0, 0, x])] ∧
      s2.objs = s.objs ∧ s2.ids = s.ids ∧ s2.agent = s.agent ∧
      (objrefs_lookup s.objs objid.val = none → x = 1) ∧
      (∀ ref, objrefs_lookup s.objs objid.val = some ref →
        mono_gchandle_get_target s.objs.gc ref.handle = 0 → x = 1) ∧
      (∀ ref, objid.val ≠ 0 → objrefs_lookup s.objs objid.val = some ref →
        mono_gchandle_get_target s.objs.gc ref.handle ≠ 0 → x = 0) := by
  have hstep := debugger_thread_step_request h rt s cur tid_to_thread exit_method id
    CMD_SET_OBJECT_REF CMD_OBJECT_REF_IS_COLLECTED data rest hn hid (by decide) (by decide)
  obtain ⟨x, hx⟩ : ∃ x : Nat, x = if (get_object s.objs objid.val).1 ≠ 0 then 1 else 0 :=
    ⟨_, rfl⟩
  have hoc : object_commands other CMD_OBJECT_REF_IS_COLLECTED data (s.agent, s.ids, s.objs)
      = some ((s.agent, s.ids, s.objs), 0, [0, 0, 0, x]) := by
    unfold object_commands
    simp only [if_true, hd]
    by_cases he : (get_object s.objs objid.val).1 ≠ 0
    · rw [if_pos he] at hx
      rw [if_pos he, hx]
      rfl
    · rw [if_neg he] at hx
      rw [if_neg he, hx]
      rfl
  have hdisp : debugger_thread_dispatch h rt s cur tid_to_thread exit_method CMD_SET_OBJECT_REF
      CMD_OBJECT_REF_IS_COLLECTED id data = some (s, some (0, [0, 0, 0, x])) := by
    unfold debugger_thread_dispatch
    have k0 : ¬ (CMD_SET_OBJECT_REF = CMD_SET_VM) := by decide
    have k1 : ¬ (CMD_SET_OBJECT_REF = CMD_SET_EVENT_REQUEST) := by decide
    have k2 : ¬ (CMD_SET_OBJECT_REF = CMD_SET_APPDOMAIN) := by decide
    have k3 : ¬ (CMD_SET_OBJECT_REF = CMD_SET_ASSEMBLY) := by decide
    have k4 : ¬ (CMD_SET_OBJECT_REF = CMD_SET_MODULE) := by decide
    have k5 : ¬ (CMD_SET_OBJECT_REF = CMD_SET_TYPE) := by decide
    have k6 : ¬ (CMD_SET_OBJECT_REF = CMD_SET_METHOD) := by decide
    have k7 : ¬ (CMD_SET_OBJECT_REF = CMD_SET_THREAD) := by decide
    have k8 : ¬ (CMD_SET_OBJECT_REF = CMD_SET_STACK_FRAME) := by decide
    have k9 : ¬ (CMD_SET_OBJECT_REF = CMD_SET_ARRAY_REF) := by decide
    have k10 : ¬ (CMD_SET_OBJECT_REF = CMD_SET_STRING_REF) := by decide
    rw [if_neg k0, if_neg k1, if_neg k2, if_neg k3, if_neg k4, if_neg k5, if_neg k6, if_neg k7,
      if_neg k8, if_neg k9, if_neg k10, if_pos rfl]
    unfold run_handler
    rw [hh, hoc]
  have hrep : debugger_thread_reply h rt s cur tid_to_thread exit_method
      ⟨((data.length + 11 : Nat) : Int), id, 0, CMD_SET_OBJECT_REF, CMD_OBJECT_REF_IS_COLLECTED⟩
      data
      = some ({ s with effects := s.effects
          ++ [Effect.transport_send (send_reply_packet id 0 [0, 0, 0, x])] },
          LoopControl.next) := by
    unfold debugger_thread_reply
    simp only [hdisp]
    have k0 : ¬ (CMD_SET_OBJECT_REF = CMD_SET_VM) := by decide
    simp only [k0, false_and, decide_False, Bool.false_eq_true, if_false]
  rw [hrep] at hstep
  refine ⟨_, x, hstep, ?_, rfl, rfl, rfl, ?_, ?_, ?_⟩
  · show s.effects ++ [Effect.transport_send (send_reply_packet id 0 [0, 0, 0, x])] = _
    rw [send_reply_packet_bytes id 0 [0, 0, 0, x] (by simp)]
    have e1 : buffer_add_int ([0, 0, 0, x].length + 11) = [0, 0, 0, 15] := by
      show buffer_add_int 15 = _
      decide
    have e2 : toUInt8 ((0 : Int) >>> (8 : Nat) % 2 ^ 8) % 256 = 0 := by decide
    have e3 : toUInt8 0 % 256 = 0 := by decide
    rw [e1, e2, e3]
  · intro hl
    rw [get_object_of_not_lookup s.objs objid.val hl] at hx
    rw [hx]
    rfl
  · intro ref hl ht
    by_cases hz : objid.val = 0
    · have e : get_object s.objs objid.val = (ERR_INVALID_OBJECT, 0) := by
        unfold get_object get_object_allow_null
        simp [hz, ERR_INVALID_OBJECT]
      rw [e] at hx
      rw [hx]
      rfl
    · rw [get_object_of_lookup s.objs objid.val ref hl hz, if_pos ht] at hx
      rw [hx]
      rfl
  · intro ref hz hl ht
    rw [get_object_of_lookup s.objs objid.val ref hl hz, if_neg ht] at hx
    rw [hx]
    simp

theorem object_ref_is_collected_witness :
    (debugger_thread_step handlers_objects_example runtime_example session_objects_example 1
        [7] 9 (send_packet 3 CMD_SET_OBJECT_REF CMD_OBJECT_REF_IS_COLLECTED [0, 0, 0, 1])).map
      (fun r => r.1.effects)
      = some [Effect.transport_send [0, 0, 0, 15, 0, 0, 0, 3, 128, 0, 0, 0, 0, 0, 1]] ∧
    (debugger_thread_step handlers_objects_example runtime_example session_objects_example 1
        [7] 9 (send_packet 4 CMD_SET_OBJECT_REF CMD_OBJECT_REF_IS_COLLECTED [0, 0, 0, 2])).map
      (fun r => r.1.effects)
      = some [Effect.transport_send [0, 0, 0, 15, 0, 0, 0, 4, 128, 0, 0, 0, 0, 0, 0]] ∧
    ∃ s2 x,
      debugger_thread_step handlers_objects_example runtime_example session_objects_example 1
          [7] 9 (send_packet 3 CMD_SET_OBJECT_REF CMD_OBJECT_REF_IS_COLLECTED [0, 0, 0, 1] ++ [])
        = some (s2, [], LoopControl.next) ∧
      s2.effects = session_objects_example.effects ++ [Effect.transport_send
        ([0, 0, 0, 15] ++ buffer_add_int (toUInt32 3) ++ [128, 0, 0] ++ [0, 0, 0, x])] ∧
      s2.objs = session_objects_example.objs ∧ s2.ids = session_objects_example.ids ∧
      s2.agent = session_objects_example.agent ∧
      (objrefs_lookup session_objects_example.objs (1 : Int) = none → x = 1) ∧
      (∀ ref, objrefs_lookup session_objects_example.objs (1 : Int) = some ref →
        mono_gchandle_get_target session_objects_example.objs.gc ref.handle = 0 → x = 1) ∧
      (∀ ref, (1 : Int) ≠ 0 → objrefs_lookup session_objects_example.objs (1 : Int) = some ref →
        mono_gchandle_get_target session_objects_example.objs.gc ref.handle ≠ 0 → x = 0) :=
  ⟨by decide, by decide,
   object_ref_is_collected (fun _ _ _ st => some (st, 0, [])) handlers_objects_example
    runtime_example session_objects_example 1 [7] 9 3 [0, 0, 0, 1] [] ⟨1, []⟩ rfl (by decide)
    (by decide) (by decide)⟩

/-! ### The thread-only modifier -/

theorem apply_modifiers_append (er : EventRuntime) (cur : Nat) (ei : Option EventInfo)
    (klass : Nat) (a b : List Modifier) :
    ∀ f, (apply_modifiers er cur ei klass f (a ++ b)).1
      = (apply_modifiers er cur ei klass (apply_modifiers er cur ei klass f a).1 b).1 := by
  induction a with
  | nil => intro f; rfl
  | cons m rest ih =>
    intro f
    simp only [List.cons_append, apply_modifiers]
    exact ih _

theorem apply_modifier_true (er : EventRuntime) (cur : Nat) (ei : Option EventInfo)
    (klass : Nat) (m : Modifier) (hm : m.kind ≠ MOD_KIND_COUNT) :
    (apply_modifier er cur ei klass true m).1 = true := by
  unfold apply_modifier
  rw [if_neg hm]
  by_cases h1 : m.kind = MOD_KIND_THREAD_ONLY
  · rw [if_pos h1]
    simp
  rw [if_neg h1]
  by_cases h2 : m.kind = MOD_KIND_EXCEPTION_ONLY ∧ ei.isSome
  · rw [if_pos h2]
    cases ei with
    | none => rfl
    | some e =>
      simp only
      split_ifs <;> rfl
  rw [if_neg h2]
  by_cases h3 : m.kind = MOD_KIND_ASSEMBLY_ONLY ∧ klass ≠ 0
  · rw [if_pos h3]
    simp
  rw [if_neg h3]

theorem apply_modifiers_true (er : EventRuntime) (cur : Nat) (ei : Option EventInfo)
    (klass : Nat) (l : List Modifier) (hl : ∀ x ∈ l, x.kind ≠ MOD_KIND_COUNT) :
    (apply_modifiers er cur ei klass true l).1 = true := by
  induction l with
  | nil => rfl
  | cons m rest ih =>
    simp only [apply_modifiers]
    rw [apply_modifier_true er cur ei klass m (hl m (List.mem_cons_self _ _))]
    exact ih (fun x hx => hl x (List.mem_cons_of_mem _ hx))

theorem is_reported_thread_only (er : EventRuntime) (cur : Nat) (event : Int)
    (ei : Option EventInfo) (klass : Nat) (req : EventRequest) (pre post : List Modifier)
    (m : Modifier) (hm : req.modifiers = pre ++ m :: post) (hk : m.kind = MOD_KIND_THREAD_ONLY)
    (hpost : ∀ x ∈ post, x.kind ≠ MOD_KIND_COUNT)
    (hr : is_reported er cur event ei klass req = true) : m.thread = cur := by
  by_contra hne
  have h1 : (apply_modifiers er cur ei klass false req.modifiers).1 = true := by
    rw [hm, apply_modifiers_append]
    simp only [apply_modifiers]
    have h2 : (apply_modifier er cur ei klass (apply_modifiers er cur ei klass false pre).1 m).1
        = true := by
      unfold apply_modifier
      have hc : ¬ (m.kind = MOD_KIND_COUNT) := by
        rw [hk]
        decide
      rw [if_neg hc, if_pos hk, if_pos hne]
    rw [h2]
    exact apply_modifiers_true er cur ei klass post hpost
  simp only [is_reported, filter_event_request, h1, Bool.not_true, Bool.and_false,
    Bool.false_eq_true] at hr

/-- Claim C29 (the request that breaks it): a request whose thread-only modifier for
thread 8 is followed by a count modifier of 1 is reported for a thread-start event on
thread 7; the count modifier, reaching 0, resets `filtered`. -/
theorem thread_only_before_count_reported :
    (create_event_list event_runtime_example 7 [thread_count_request_example]
        EVENT_KIND_THREAD_START none none none 0).map (fun r => r.2)
      = some ([5], 2) := by
  decide

/-- Claim C29, the part that holds: for every event request with a thread-only
modifier after which no count modifier comes in its modifier list, whatever the
modifiers before it and the other modifiers after it, `create_event_list` returns the
id of the request only when the current thread is the thread of the modifier. The id
of the request is not 0 and no other request has it. -/
theorem thread_only_reports_thread (er : EventRuntime) (cur : Nat) (table : List EventRequest)
    (event : Int) (ji : Option MonoJitInfo) (ei : Option EventInfo) (arg : Nat) (i : Nat)
    (req : EventRequest) (pre post : List Modifier) (m : Modifier)
    (hreq : table[i]? = some req) (hid : req.id ≠ 0)
    (huniq : ∀ j r, table[j]? = some r → r.id = req.id → j = i)
    (hm : req.modifiers = pre ++ m :: post) (hk : m.kind = MOD_KIND_THREAD_ONLY)
    (hpost : ∀ x ∈ post, x.kind ≠ MOD_KIND_COUNT) :
    ∃ table1 events policy,
      create_event_list er cur table event none ji ei arg = some (table1, events, policy) ∧
      (req.id ∈ events → m.thread = cur) := by
  refine ⟨_, _, _, create_event_list_all er cur table event ji ei arg, ?_⟩
  intro hmem
  have hr := (mem_reported_iff er cur event ei (event_class er event ji arg) table i req hreq
    hid huniq).mp hmem
  exact is_reported_thread_only er cur event ei _ req pre post m hm hk hpost hr

theorem thread_only_reports_thread_witness :
    (create_event_list event_runtime_example 7 [count_thread_request_example]
        EVENT_KIND_THREAD_START none none none 0).map (fun r => r.2) = some ([], 0) ∧
    (create_event_list event_runtime_example 8 [count_thread_request_example]
        EVENT_KIND_THREAD_START none none none 0).map (fun r => r.2) = some ([5], 2) ∧
    ∃ table1 events policy,
      create_event_list event_runtime_example 7 [count_thread_request_example]
        EVENT_KIND_THREAD_START none none none 0 = some (table1, events, policy) ∧
      ((5 : Int) ∈ events → 8 = 7) :=
  ⟨by decide, by decide,
   thread_only_reports_thread event_runtime_example 7 [count_thread_request_example]
    EVENT_KIND_THREAD_START none none 0 0 count_thread_request_example
    [{ Modifier.zero MOD_KIND_COUNT with count := 1 }] []
    { Modifier.zero MOD_KIND_THREAD_ONLY with thread := 8 } rfl (by decide)
    (by
      intro j r hj hr
      match j, hj with
      | 0, _ => rfl
      | j + 1, hj => simp at hj)
    rfl rfl (by simp)⟩

/-! ### A step request while the VM is not suspended -/

theorem toInt32_toUInt32_int (i : Int) (h0 : -(2 : Int) ^ 31 ≤ i) (h1 : i < 2 ^ 31) :
    toInt32 (toUInt32 i) = i := by
  unfold toInt32 toUInt32
  split <;> omega

theorem ss_create_not_suspended (rt : Runtime) (domains : List Nat) (s : AgentState)
    (thread : Nat) (size depth req : Int) (hs : s.coord.suspend_count = 0) :
    ss_create rt domains s thread size depth req = some (s, ERR_NOT_SUSPENDED, 0) := by
  unfold ss_create
  rw [if_pos hs]

theorem resume_vm_not_suspended (c : SuspendState) (cur : Nat) (hs : c.suspend_count = 0) :
    resume_vm c cur = none := by
  unfold resume_vm
  by_cases h : c.debugger_thread_id ≠ cur
  · rw [if_pos h]
  · rw [if_neg h, if_pos (by rw [hs]; decide)]

/-- Claim C24 (the request that breaks it): an event-request set command for a step
event of the thread with the object id 1, read by the command loop while
`suspend_count` is 0, ends the process: `ss_create` returns `ERR_NOT_SUSPENDED`, the
handler then calls `resume_vm`, whose assertion `suspend_count > 0` fails. No reply
is sent. (A request for thread-start events, in the same session, is answered with the
new request id and the loop goes on.) -/
theorem step_request_not_suspended_aborts :
    session_thread_example.agent.coord.suspend_count = 0 ∧
    (debugger_thread_step handlers_example runtime_example session_thread_example 1 [7] 9
      (send_packet 3 CMD_SET_EVENT_REQUEST CMD_EVENT_REQUEST_SET
        [11, 2, 1, 10, 0, 0, 0, 1, 0, 0, 0, 0, 0, 0, 0, 1])).isNone = true ∧
    (debugger_thread_step handlers_example runtime_example session_thread_example 1 [7] 9
      (send_packet 3 CMD_SET_EVENT_REQUEST CMD_EVENT_REQUEST_SET [2, 2, 0])).map
        (fun r => (r.1.effects, r.2))
      = some ([Effect.transport_send [0, 0, 0, 15, 0, 0, 0, 3, 128, 0, 0, 0, 0, 0, 1]], [],
          LoopControl.next) := by
  decide

/-- Claim C24, the part that holds and the part that fails: for every event-request
set command for a step event whose thread id resolves to a thread, handled while
`suspend_count` is 0, `ss_create` returns the not-suspended error code and leaves the
state as it was, so no single-step request is left behind; the handler of the
command then does not return, because the call of `resume_vm` on its error path
fails the assertion `suspend_count > 0`. -/
theorem event_request_set_step_not_suspended (rt : Runtime) (ids : IdState) (objs : ObjState)
    (s0 : AgentState) (cur : Nat) (d : DecodedModifiers) (req : EventRequest) (thread : Nat)
    (hk : req.event_kind = EVENT_KIND_STEP) (hid : d.step_thread_id ≠ 0)
    (ho : get_object objs d.step_thread_id = (0, thread))
    (hs : s0.coord.suspend_count = 0) :
    ss_create rt ids.domains s0 thread d.size d.depth req.id
      = some (s0, ERR_NOT_SUSPENDED, 0) ∧
    event_request_set_kind rt ids objs s0 cur d req = none := by
  have h1 := ss_create_not_suspended rt ids.domains s0 thread d.size d.depth req.id hs
  refine ⟨h1, ?_⟩
  unfold event_request_set_kind
  have hb : ¬ (req.event_kind = EVENT_KIND_BREAKPOINT) := by
    rw [hk]
    decide
  have h0 : ¬ ((0 : Int) ≠ 0) := by simp
  have he : ERR_NOT_SUSPENDED ≠ 0 := by decide
  rw [if_neg hb, if_pos hk, if_neg hid]
  simp only [ho, h0, if_false, h1, resume_vm_not_suspended s0.coord cur hs]
  rw [if_pos he]

theorem event_request_set_step_not_suspended_witness :
    ss_create runtime_example ids_init.domains session_thread_example.agent 7 0 1 1
      = some (session_thread_example.agent, ERR_NOT_SUSPENDED, 0) ∧
    event_request_set_kind runtime_example ids_init thread_objs_example
      session_thread_example.agent 1
      { modifiers := [Modifier.zero MOD_KIND_STEP], method := 0, location := 0,
        step_thread_id := 1, size := 0, depth := 1 }
      { id := 1, event_kind := EVENT_KIND_STEP, suspend_policy := 2, info := 0,
        modifiers := [Modifier.zero MOD_KIND_STEP] } = none :=
  event_request_set_step_not_suspended runtime_example ids_init thread_objs_example
    session_thread_example.agent 1
    { modifiers := [Modifier.zero MOD_KIND_STEP], method := 0, location := 0,
      step_thread_id := 1, size := 0, depth := 1 }
    { id := 1, event_kind := EVENT_KIND_STEP, suspend_policy := 2, info := 0,
      modifiers := [Modifier.zero MOD_KIND_STEP] } 7 rfl (by decide) (by decide) rfl

/-! ### Malformed ids -/

theorem decode_ptr_id_out_of_range (s : IdState) (buf : List Nat) (type : IdType)
    (d : Decoded Int) (hd : decode_id buf = some d)
    (hbad : d.val < 0 ∨ d.val > ((s.ids type).length : Int)) :
    decode_ptr_id s buf type = none := by
  unfold decode_ptr_id
  simp only [hd]
  have h0 : ¬ (d.val = 0) := by omega
  have h1 : ¬ (d.val > 0 ∧ d.val ≤ ((s.ids type).length : Int)) := by omega
  rw [if_neg h0, if_neg h1]

theorem decode_ptr_id_unloaded (s : IdState) (buf : List Nat) (type : IdType)
    (d : Decoded Int) (res : Id) (hd : decode_id buf = some d) (h0 : 0 < d.val)
    (hres : (s.ids type)[(d.val - 1).toNat]? = some res) (hdom : res.domain = 0) :
    decode_ptr_id s buf type = some ⟨0, 0, ERR_UNLOADED, d.endbuf⟩ := by
  unfold decode_ptr_id
  simp only [hd]
  have hz : ¬ (d.val = 0) := by omega
  have hlt : (d.val - 1).toNat < (s.ids type).length := by
    by_contra hge
    rw [List.getElem?_eq_none (by omega)] at hres
    cases hres
  have h1 : d.val > 0 ∧ d.val ≤ ((s.ids type).length : Int) := by omega
  rw [if_neg hz, if_pos h1]
  simp only [hres, hdom, if_true]

theorem event_request_set_location (rt : Runtime) (ids : IdState) (objs : ObjState)
    (s : AgentState) (cur : Nat) (ek pol n : Nat) (buf : List Nat) :
    event_request_set rt ids objs s cur (ek :: pol :: (n + 1) :: 7 :: buf)
      = match decode_ptr_id ids buf IdType.ID_METHOD with
        | none => none
        | some r =>
          if r.err ≠ 0 then some ({ s with event_request_id := s.event_request_id + 1 }, r.err, [])
          else event_request_set rt ids objs s cur (ek :: pol :: (n + 1) :: 7 :: buf) := by
  cases hp : decode_ptr_id ids buf IdType.ID_METHOD with
  | none =>
    unfold event_request_set
    simp only [decode_byte]
    have e : ((((n + 1 : Nat) : Int)).toNat) = n + 1 := by omega
    rw [e]
    unfold decode_modifiers
    simp only [decode_byte]
    have k1 : ¬ (((7 : Nat) : Int) = MOD_KIND_COUNT) := by decide
    have k2 : (((7 : Nat) : Int) = MOD_KIND_LOCATION_ONLY) := by decide
    rw [if_neg k1, if_pos k2]
    simp only [hp]
  | some r =>
    by_cases he : r.err ≠ 0
    · simp only
      rw [if_pos he]
      unfold event_request_set
      simp only [decode_byte]
      have e : ((((n + 1 : Nat) : Int)).toNat) = n + 1 := by omega
      rw [e]
      unfold decode_modifiers
      simp only [decode_byte]
      have k1 : ¬ (((7 : Nat) : Int) = MOD_KIND_COUNT) := by decide
      have k2 : (((7 : Nat) : Int) = MOD_KIND_LOCATION_ONLY) := by decide
      rw [if_neg k1, if_pos k2]
      simp only [hp]
      rw [if_pos he]
      simp only
      rw [if_pos he]
    · simp only [he, if_false]

theorem debugger_thread_dispatch_event_set (h : CommandHandlers) (rt : Runtime) (s : Session)
    (cur : Nat) (tid_to_thread : List Nat) (exit_method : Nat) (id : Int) (p : List Nat) :
    debugger_thread_dispatch h rt s cur tid_to_thread exit_method CMD_SET_EVENT_REQUEST
        CMD_EVENT_REQUEST_SET id p
      = agent_result s (event_request_set rt s.ids s.objs s.agent cur p) := by
  unfold debugger_thread_dispatch
  have k0 : ¬ (CMD_SET_EVENT_REQUEST = CMD_SET_VM) := by decide
  rw [if_neg k0, if_pos rfl]
  unfold event_commands
  rw [if_pos rfl]

/-- Claim C25 (the request that breaks it): in a registry with one method id, the
method ids 9 and -1 reach no error code: `decode_ptr_id` fails its assertion, and an
event-request set command that carries the method id 9 in a location modifier ends the
process in the command loop, which sends no reply. -/
theorem decode_ptr_id_malformed_counterexample :
    (ids_example_unloaded.ids IdType.ID_METHOD).length = 1 ∧
    decode_ptr_id ids_example_unloaded [0, 0, 0, 9] IdType.ID_METHOD = none ∧
    decode_ptr_id ids_example_unloaded [255, 255, 255, 255] IdType.ID_METHOD = none ∧
    (debugger_thread_step handlers_example runtime_example session_ids_example 1 [7] 9
      (send_packet 3 CMD_SET_EVENT_REQUEST CMD_EVENT_REQUEST_SET
        [10, 2, 1, 7, 0, 0, 0, 9, 0, 0, 0, 0, 0, 0, 0, 0])).isNone = true := by
  decide

/-- Claim C25, the part that fails and the part that holds: for every kind,
`decode_ptr_id` given an id that is negative or greater than the number of ids
allocated for the kind reports no error code but fails its assertion, and the command
loop that reads an event-request set command with such a method id in a location
modifier does not return and sends no reply. The error path that the claim describes
is taken for an allocated id whose domain was unloaded: `decode_ptr_id` reports
`ERR_UNLOADED` to the handler, the handler returns it, the loop encodes it in the one
reply packet it sends and goes on. -/
theorem decode_ptr_id_malformed (h : CommandHandlers) (rt : Runtime) (s : Session) (cur : Nat)
    (tid_to_thread : List Nat) (exit_method : Nat) (id : Int) (ek pol n : Nat)
    (buf rest : List Nat) (d : Decoded Int) (type : IdType)
    (hn : (ek :: pol :: (n + 1) :: 7 :: buf).length + 11 < 2 ^ 31)
    (hid : 0 ≤ id ∧ id < 2 ^ 31) (hd : decode_id buf = some d) :
    ((d.val < 0 ∨ d.val > ((s.ids.ids type).length : Int)) →
      decode_ptr_id s.ids buf type = none) ∧
    ((d.val < 0 ∨ d.val > ((s.ids.ids IdType.ID_METHOD).length : Int)) →
      debugger_thread_step h rt s cur tid_to_thread exit_method
        (send_packet id CMD_SET_EVENT_REQUEST CMD_EVENT_REQUEST_SET
          (ek :: pol :: (n + 1) :: 7 :: buf) ++ rest) = none) ∧
    (∀ res, 0 < d.val → (s.ids.ids type)[(d.val - 1).toNat]? = some res → res.domain = 0 →
      decode_ptr_id s.ids buf type = some ⟨0, 0, ERR_UNLOADED, d.endbuf⟩) ∧
    (∀ res, 0 < d.val → (s.ids.ids IdType.ID_METHOD)[(d.val - 1).toNat]? = some res →
      res.domain = 0 →
      ∃ s2, debugger_thread_step h rt s cur tid_to_thread exit_method
          (send_packet id CMD_SET_EVENT_REQUEST CMD_EVENT_REQUEST_SET
            (ek :: pol :: (n + 1) :: 7 :: buf) ++ rest) = some (s2, rest, LoopControl.next) ∧
        s2.effects = s.effects
          ++ [Effect.transport_send (send_reply_packet id ERR_UNLOADED [])]) := by
  have hstep := debugger_thread_step_request h rt s cur tid_to_thread exit_method id
    CMD_SET_EVENT_REQUEST CMD_EVENT_REQUEST_SET (ek :: pol :: (n + 1) :: 7 :: buf) rest hn hid
    (by decide) (by decide)
  have hset := event_request_set_location rt s.ids s.objs s.agent cur ek pol n buf
  refine ⟨fun hbad => decode_ptr_id_out_of_range s.ids buf type d hd hbad, ?_,
    fun res h0 hres hdom => decode_ptr_id_unloaded s.ids buf type d res hd h0 hres hdom, ?_⟩
  · intro hbad
    rw [decode_ptr_id_out_of_range s.ids buf IdType.ID_METHOD d hd hbad] at hset
    rw [hstep]
    unfold debugger_thread_reply
    simp only
    rw [debugger_thread_dispatch_event_set, hset]
    rfl
  · intro res h0 hres hdom
    rw [decode_ptr_id_unloaded s.ids buf IdType.ID_METHOD d res hd h0 hres hdom] at hset
    have he : (ERR_UNLOADED : Int) ≠ 0 := by decide
    simp only at hset
    rw [if_pos he] at hset
    rw [hstep]
    unfold debugger_thread_reply
    simp only
    rw [debugger_thread_dispatch_event_set, hset]
    simp only [agent_result]
    have k0 : ¬ (CMD_SET_EVENT_REQUEST = CMD_SET_VM) := by decide
    simp only [k0, false_and, decide_False, Bool.false_eq_true, if_false, Option.map_some']
    exact ⟨_, rfl, rfl⟩

theorem decode_ptr_id_malformed_witness :
    (debugger_thread_step handlers_example runtime_example session_ids_example 1 [7] 9
      (send_packet 3 CMD_SET_EVENT_REQUEST CMD_EVENT_REQUEST_SET
        [10, 2, 1, 7, 0, 0, 0, 1, 0, 0, 0, 0, 0, 0, 0, 0])).map (fun r => (r.1.effects, r.2))
      = some ([Effect.transport_send [0, 0, 0, 11, 0, 0, 0, 3, 128, 0, 103]], [],
          LoopControl.next) ∧
    decode_ptr_id session_ids_example.ids [0, 0, 0, 9] IdType.ID_TYPE = none :=
  ⟨by decide,
   (decode_ptr_id_malformed handlers_example runtime_example session_ids_example 1 [7] 9 3
      10 2 0 [0, 0, 0, 9] [] ⟨9, []⟩ IdType.ID_TYPE (by decide) (by decide) (by decide)).1
      (Or.inr (by decide))⟩

/-! ### The end of the connection -/

/-- What `CMD_VM_DISPOSE` does in a state that satisfies the invariant of the event
requests, on the debugger thread. -/
theorem vm_commands_dispose_spec (objs : ObjState) (s : AgentState) (cur : Nat) (id : Int)
    (p : List Nat) (hw : engine_wf s) (hcur : s.coord.debugger_thread_id = cur)
    (h0 : 0 ≤ s.coord.suspend_count) :
    ∃ s3, vm_commands objs s cur CMD_VM_DISPOSE id p = some (s3, ERR_NONE) ∧
      s3.event_requests = [] ∧ s3.coord.suspend_count = 0 ∧ s3.disconnected = true := by
  have hsv := suspend_vm_count s.coord cur
  obtain ⟨s2, h2, he2, _, hc2, hd2⟩ := clear_all_event_requests_spec s.event_requests.length
    { s with coord := wait_for_suspend (suspend_vm s.coord cur) } (engine_wf_coord s _ hw) rfl
  simp only [wait_for_suspend] at hc2 hd2
  rw [hsv.1] at hc2
  rw [hsv.2] at hd2
  obtain ⟨c3, h3, hz3, _⟩ := resume_vm_all_spec (s.coord.suspend_count + 1).toNat s2.coord cur
    (by rw [hd2]; exact hcur) (by rw [hc2]; omega)
  obtain ⟨s3, hs3⟩ : ∃ s3 : AgentState, s3 = { s2 with coord := c3, disconnected := true, vm_start_event_sent := false, send_pending_type_load_events := false } := ⟨_, rfl⟩
  refine ⟨s3, ?_, by rw [hs3]; exact he2, by rw [hs3]; exact hz3, by rw [hs3]⟩
  have d1 : ¬ (CMD_VM_DISPOSE = CMD_VM_SUSPEND) := by decide
  have d2 : ¬ (CMD_VM_DISPOSE = CMD_VM_RESUME) := by decide
  simp only [vm_commands, d1, d2, if_false, if_true, vm_dispose]
  rw [h2 _ (le_refl _)]
  simp only
  rw [h3 _ (by rw [hc2]), hs3]

/-- Claim C21 (the input that breaks it): a header that announces four bytes of data,
followed by two bytes only, read in a session with four event requests and the VM
suspended once: the loop is left with the four requests in place, `suspend_count`
still 1 and `disconnected` not set. -/
theorem debugger_thread_short_data_no_dispose :
    (debugger_thread_step handlers_example runtime_example session_requests_example 1 [7] 9
        [0, 0, 0, 15, 0, 0, 0, 3, 0, 1, 3, 0, 0]).map
      (fun r => (r.1.agent.event_requests.length, r.1.agent.coord.suspend_count,
        r.1.agent.disconnected, r.1.effects, r.2))
      = some (4, 1, false, [], [], LoopControl.left) ∧
    (debugger_thread_loop handlers_example runtime_example 1 [7] 9 5 session_requests_example
        [0, 0, 0, 15, 0, 0, 0, 3, 0, 1, 3, 0, 0]).map
      (fun r => (r.1.agent.event_requests.length, r.1.agent.coord.suspend_count,
        r.1.agent.disconnected, r.2))
      = some (4, 1, false, LoopControl.left) := by
  constructor
  · rfl
  · rfl

/-- Claim C21, the part that holds: whenever the connection delivers fewer than the
11 bytes of a header, in a state that satisfies the invariant of the event requests,
the round of the command loop runs the dispose command and the loop ends: all event
requests are cleared, `suspend_count` is 0, `disconnected` is set, and nothing is
sent. -/
theorem debugger_thread_short_header (h : CommandHandlers) (rt : Runtime) (s : Session)
    (cur : Nat) (tid_to_thread : List Nat) (exit_method : Nat) (input : List Nat)
    (hw : engine_wf s.agent) (hcur : s.agent.coord.debugger_thread_id = cur)
    (h0 : 0 ≤ s.agent.coord.suspend_count) (hshort : input.length < 11) :
    ∃ s2, debugger_thread_step h rt s cur tid_to_thread exit_method input
        = some (s2, [], LoopControl.left) ∧
      (∀ fuel, debugger_thread_loop h rt cur tid_to_thread exit_method (fuel + 1) s input
        = some (s2, LoopControl.left)) ∧
      s2.agent.event_requests = [] ∧ s2.agent.coord.suspend_count = 0 ∧
      s2.agent.disconnected = true ∧ s2.effects = s.effects := by
  obtain ⟨a3, h3, he, hc, hd⟩ := vm_commands_dispose_spec s.objs s.agent cur 0 [] hw hcur h0
  have hstep : debugger_thread_step h rt s cur tid_to_thread exit_method input
      = some ({ s with agent := a3 }, [], LoopControl.left) := by
    unfold debugger_thread_step recv_length
    have hl : (List.take HEADER_LENGTH input).length ≠ HEADER_LENGTH := by
      simp only [HEADER_LENGTH, List.length_take]
      omega
    have hdrop : List.drop HEADER_LENGTH input = [] := by
      apply List.drop_eq_nil_of_le
      simp only [HEADER_LENGTH]
      omega
    simp only [hl, ne_eq, not_false_eq_true, if_true, h3, hdrop]
  refine ⟨_, hstep, ?_, he, hc, hd, rfl⟩
  intro fuel
  unfold debugger_thread_loop
  simp only [hstep]

theorem debugger_thread_short_header_witness :
    ∃ s2, debugger_thread_step handlers_example runtime_example session_requests_example 1
        [7] 9 [0, 0, 0, 15, 0, 0] = some (s2, [], LoopControl.left) ∧
      (∀ fuel, debugger_thread_loop handlers_example runtime_example 1 [7] 9 (fuel + 1)
        session_requests_example [0, 0, 0, 15, 0, 0] = some (s2, LoopControl.left)) ∧
      s2.agent.event_requests = [] ∧ s2.agent.coord.suspend_count = 0 ∧
      s2.agent.disconnected = true ∧ s2.effects = session_requests_example.effects :=
  debugger_thread_short_header handlers_example runtime_example session_requests_example 1
    [7] 9 [0, 0, 0, 15, 0, 0] engine_wf_example rfl (by decide) (by decide)

/-! ### The single-step counter -/

theorem start_single_stepping_ok (c : SuspendState) (hc : ss_count_ok c false) :
    ss_count_ok (start_single_stepping c) true := by
  obtain ⟨h0, h1, h2⟩ := hc
  unfold ss_count_ok start_single_stepping
  simp only [Bool.false_eq_true, if_false, add_zero] at h1
  refine ⟨h0, ?_, ?_⟩
  · simp only [h1, if_true]
  · simp only
    by_cases hp : c.suspend_count > 0
    · simp only [hp, if_true] at h1
      have hne : ¬ (c.ss_count + 1 = 1) := by omega
      rw [if_neg hne]
      constructor
      · intro _; omega
      · intro _; exact h2.mpr (by omega)
    · simp only [hp, if_false] at h1
      rw [if_pos (by omega)]
      simp only [true_iff]
      omega

theorem stop_single_stepping_ok (c : SuspendState) (hc : ss_count_ok c true) :
    ss_count_ok (stop_single_stepping c) false := by
  obtain ⟨h0, h1, h2⟩ := hc
  unfold ss_count_ok stop_single_stepping
  simp only [if_true] at h1
  refine ⟨h0, ?_, ?_⟩
  · simp only [h1, Bool.false_eq_true, if_false, add_zero, add_sub_cancel_right]
  · simp only
    by_cases hp : c.suspend_count > 0
    · simp only [hp, if_true] at h1
      have hne : ¬ (c.ss_count - 1 = 0) := by omega
      rw [if_neg hne]
      constructor
      · intro _; omega
      · intro _; exact h2.mpr (by omega)
    · simp only [hp, if_false] at h1
      rw [if_pos (by omega)]
      simp only [Bool.false_eq_true, false_iff]
      omega

theorem suspend_vm_ok (c : SuspendState) (cur : Nat) (g : Bool) (hc : ss_count_ok c g) :
    ss_count_ok (suspend_vm c cur) g := by
  obtain ⟨h0, h1, h2⟩ := hc
  unfold suspend_vm
  simp only
  by_cases hz : c.suspend_count + 1 = 1
  · rw [if_pos hz]
    have hz0 : c.suspend_count = 0 := by omega
    have hn : ¬ (c.suspend_count > 0) := by omega
    simp only [hn, if_false, zero_add] at h1
    unfold ss_count_ok start_single_stepping
    simp only
    refine ⟨by omega, ?_, ?_⟩
    · have hp : c.suspend_count + 1 > 0 := by omega
      simp only [hp, if_true, h1]
      omega
    · by_cases hg : g = true
      · simp only [hg, if_true] at h1
        have hne : ¬ (c.ss_count + 1 = 1) := by omega
        rw [if_neg hne]
        constructor
        · intro _; omega
        · intro _; exact h2.mpr (by omega)
      · simp only [hg, Bool.false_eq_true, if_false] at h1
        have hone : c.ss_count + 1 = 1 := by omega
        rw [if_pos hone]
        simp only [true_iff]
        omega
  · rw [if_neg hz]
    have hp : c.suspend_count > 0 := by omega
    have hp1 : c.suspend_count + 1 > 0 := by omega
    simp only [hp, if_true] at h1
    unfold ss_count_ok
    simp only [hp1, if_true]
    exact ⟨by omega, h1, h2⟩

theorem resume_vm_ok (c c1 : SuspendState) (cur : Nat) (g : Bool) (hc : ss_count_ok c g)
    (hr : resume_vm c cur = some c1) : ss_count_ok c1 g := by
  obtain ⟨h0, h1, h2⟩ := hc
  unfold resume_vm at hr
  by_cases hd : c.debugger_thread_id ≠ cur
  · rw [if_pos hd] at hr
    cases hr
  rw [if_neg hd] at hr
  by_cases hp : c.suspend_count > 0
  · have hnp : ¬ ¬ (c.suspend_count > 0) := fun h => h hp
    rw [if_neg hnp] at hr
    simp only [hp, if_true] at h1
    by_cases hz : c.suspend_count - 1 = 0
    · simp only [hz, if_true, Option.some.injEq] at hr
      subst hr
      unfold ss_count_ok stop_single_stepping
      simp only
      have hn : ¬ ((0 : Int) > 0) := by omega
      refine ⟨by omega, ?_, ?_⟩
      · simp only [hz, hn, if_false, zero_add, h1]
        omega
      · by_cases hg : g = true
        · simp only [hg, if_true] at h1
          have hne : ¬ (c.ss_count - 1 = 0) := by omega
          rw [if_neg hne]
          constructor
          · intro _; omega
          · intro _; exact h2.mpr (by omega)
        · simp only [hg, Bool.false_eq_true, if_false] at h1
          have hzero : c.ss_count - 1 = 0 := by omega
          rw [if_pos hzero]
          simp only [Bool.false_eq_true, false_iff]
          omega
    · simp only [hz, if_false, Option.some.injEq] at hr
      subst hr
      unfold ss_count_ok
      simp only
      have hp1 : c.suspend_count - 1 > 0 := by omega
      simp only [hp1, if_true]
      exact ⟨by omega, h1, h2⟩
  · rw [if_pos hp] at hr
    cases hr

theorem insert_breakpoint_children (s : BreakpointState) (seq_points : List SeqPoint)
    (domain : Nat) (ji : MonoJitInfo) (bp : MonoBreakpoint) :
    (insert_breakpoint s seq_points domain ji bp).2.children
      = match insert_breakpoint_inst seq_points domain ji bp with
        | none => bp.children
        | some inst => bp.children ++ [inst] := by
  unfold insert_breakpoint
  cases insert_breakpoint_inst seq_points domain ji bp with
  | none => rfl
  | some inst =>
    simp only
    split <;> rfl

theorem set_bp_in_domain_consistent (rt : Runtime) (domain : Nat)
    (live : List BreakpointInstance) (l : List (Nat × List SeqPoint)) :
    ∀ (locs locs1 : BreakpointState) (bp bp1 : MonoBreakpoint),
      set_bp_in_domain rt domain locs bp l = some (locs1, bp1) →
      bp_locs_consistent locs (live ++ bp.children) →
      bp_locs_consistent locs1 (live ++ bp1.children) := by
  induction l with
  | nil =>
    intro locs locs1 bp bp1 h hc
    simp only [set_bp_in_domain, Option.some.injEq, Prod.mk.injEq] at h
    rw [← h.1, ← h.2]
    exact hc
  | cons x rest ih =>
    intro locs locs1 bp bp1 h hc
    obtain ⟨method, seq_points⟩ := x
    simp only [set_bp_in_domain] at h
    by_cases hm : bp_matches_method rt bp method = true
    · rw [if_pos hm] at h
      cases hcc : rt.compiled_code domain method with
      | none => simp [hcc] at h
      | some ji =>
        simp only [hcc] at h
        apply ih _ _ _ _ h
        have hi := insert_breakpoint_consistent locs (live ++ bp.children) seq_points domain ji
          bp hc
        have hch := insert_breakpoint_children locs seq_points domain ji bp
        cases hinst : insert_breakpoint_inst seq_points domain ji bp with
        | none =>
          simp only [hinst] at hi hch
          rw [hch]
          exact hi
        | some inst =>
          simp only [hinst] at hi hch
          rw [hch]
          apply bp_locs_consistent_congr _ _ _ _ hi
          intro ip
          rw [instances_at_cons, instances_at_append, instances_at_append, instances_at_append,
            instances_at_cons, instances_at_nil]
          omega
    · rw [if_neg hm] at h
      exact ih _ _ _ _ h hc

theorem set_bp_in_domains_consistent (rt : Runtime) (live : List BreakpointInstance)
    (domains : List Nat) :
    ∀ (locs locs1 : BreakpointState) (bp bp1 : MonoBreakpoint),
      set_bp_in_domains rt locs bp domains = some (locs1, bp1) →
      bp_locs_consistent locs (live ++ bp.children) →
      bp_locs_consistent locs1 (live ++ bp1.children) := by
  induction domains with
  | nil =>
    intro locs locs1 bp bp1 h hc
    simp only [set_bp_in_domains, Option.some.injEq, Prod.mk.injEq] at h
    rw [← h.1, ← h.2]
    exact hc
  | cons d rest ih =>
    intro locs locs1 bp bp1 h hc
    simp only [set_bp_in_domains] at h
    cases hd : set_bp_in_domain rt d locs bp (rt.seq_points d) with
    | none => simp [hd] at h
    | some r =>
      obtain ⟨l2, b2⟩ := r
      simp only [hd] at h
      exact ih _ _ _ _ h (set_bp_in_domain_consistent rt d live _ _ _ _ _ hd hc)

theorem set_breakpoint_wf (rt : Runtime) (domains : List Nat) (e e1 : BpEngine) (method : Nat)
    (il_offset : Int) (req : Int) (ptr : Nat) (bps : List Nat) (hw : step_wf e bps)
    (h : set_breakpoint rt domains e method il_offset req = some (e1, ptr)) :
    step_wf e1 (bps ++ [ptr]) ∧ ptr = e.next_ptr ∧ e1.next_ptr = e.next_ptr + 1 := by
  unfold set_breakpoint at h
  simp only at h
  cases hs : set_bp_in_domains rt e.locs
      { method := method, il_offset := il_offset, req := req, children := [] } domains with
  | none => simp [hs] at h
  | some r =>
    obtain ⟨locs1, bp1⟩ := r
    simp only [hs, Option.some.injEq, Prod.mk.injEq] at h
    obtain ⟨he, hp⟩ := h
    subst he
    subst hp
    have hc := set_bp_in_domains_consistent rt (live_instances e) domains _ _ _ _ hs
      (by simpa using hw.consistent)
    refine ⟨⟨?_, ?_, ?_, ?_, ?_⟩, rfl, rfl⟩
    · unfold live_instances at hc ⊢
      simp only [List.flatMap_append, List.flatMap_cons, List.flatMap_nil, List.append_nil]
      exact hc
    · intro a ha
      simp only [List.map_append, List.map_cons, List.map_nil, List.mem_append,
        List.mem_singleton] at ha
      rcases ha with ha | ha
      · have := hw.addrs_lt a ha
        simp only
        omega
      · simp only
        omega
    · simp only [List.map_append, List.map_cons, List.map_nil]
      rw [List.nodup_append]
      refine ⟨hw.addrs_nodup, List.nodup_singleton _, ?_⟩
      intro a ha hb
      simp only [List.mem_singleton] at hb
      have := hw.addrs_lt a ha
      omega
    · intro a ha
      simp only [List.map_append, List.map_cons, List.map_nil, List.mem_append,
        List.mem_singleton] at ha ⊢
      rcases ha with ha | ha
      · exact Or.inl (hw.bps_mem a ha)
      · exact Or.inr ha
    · rw [List.nodup_append]
      refine ⟨hw.bps_nodup, List.nodup_singleton _, ?_⟩
      intro a ha hb
      simp only [List.mem_singleton] at hb
      have := hw.addrs_lt a (hw.bps_mem a ha)
      omega

theorem ss_start_set_bps_wf (rt : Runtime) (domains : List Nat) (info : List SeqPoint)
    (method : Nat) (req : Int) (idxs : List Nat) :
    ∀ (e e1 : BpEngine) (bps bps1 : List Nat), step_wf e bps →
      ss_start_set_bps rt domains e info method req bps idxs = some (e1, bps1) →
      step_wf e1 bps1 ∧ (bps1 = [] → bps = [] ∧ idxs = []) := by
  induction idxs with
  | nil =>
    intro e e1 bps bps1 hw h
    simp only [ss_start_set_bps, Option.some.injEq, Prod.mk.injEq] at h
    rw [← h.1, ← h.2]
    exact ⟨hw, fun hb => ⟨hb, rfl⟩⟩
  | cons i rest ih =>
    intro e e1 bps bps1 hw h
    simp only [ss_start_set_bps] at h
    cases hi : info[i]? with
    | none => simp [hi] at h
    | some next_sp =>
      simp only [hi] at h
      cases hs : set_breakpoint rt domains e method next_sp.il_offset req with
      | none => simp [hs] at h
      | some r =>
        obtain ⟨e2, ptr⟩ := r
        simp only [hs] at h
        obtain ⟨hw2, _, _⟩ := set_breakpoint_wf rt domains e e2 method next_sp.il_offset req ptr
          bps hw hs
        obtain ⟨hw3, hnil⟩ := ih e2 e1 (bps ++ [ptr]) bps1 hw2 h
        refine ⟨hw3, ?_⟩
        intro hb
        have := (hnil hb).1
        simp at this

theorem clear_breakpoints_removed (bps : List Nat) (e e1 : BpEngine) (hw : step_wf e bps)
    (h : clear_breakpoints e bps = some e1) :
    step_wf e1 [] ∧ (∀ a ∈ bps, a ∉ e1.breakpoints.map (fun x => x.1)) := by
  obtain ⟨e2, h2, hc, hn, hx, hp⟩ := clear_breakpoints_spec bps e hw.consistent hw.addrs_nodup
    hw.bps_mem hw.bps_nodup
  rw [h2, Option.some.injEq] at h
  subst h
  refine ⟨⟨hc, ?_, hn, fun a ha => absurd ha (List.not_mem_nil a), List.nodup_nil⟩, ?_⟩
  · intro a ha
    obtain ⟨x, hx1, hx2⟩ := List.mem_map.mp ha
    rw [hp, ← hx2]
    exact hw.addrs_lt _ (List.mem_map.mpr ⟨x, ((hx x).mp hx1).1, rfl⟩)
  · intro a ha hm
    obtain ⟨x, hx1, hx2⟩ := List.mem_map.mp hm
    have := ((hx x).mp hx1).2
    rw [hx2] at this
    exact this ha

theorem ss_stop_wf (s : AgentState) (r : SingleStepReq) (hw : step_wf s.eng r.bps)
    (hc : ss_count_ok s.coord r.global) :
    ∃ s1 r1, ss_stop s r = some (s1, r1) ∧ step_wf s1.eng [] ∧ r1.bps = [] ∧
      r1.global = false ∧ r1.ptr = r.ptr ∧ r1.depth = r.depth ∧
      ss_count_ok s1.coord false ∧ s1.ss_req = s.ss_req ∧
      s1.coord.suspend_count = s.coord.suspend_count ∧
      (∀ a ∈ r.bps, a ∉ s1.eng.breakpoints.map (fun x => x.1)) := by
  obtain ⟨e1, h1, _⟩ := clear_breakpoints_spec r.bps s.eng hw.consistent hw.addrs_nodup
    hw.bps_mem hw.bps_nodup
  obtain ⟨hw1, hrem⟩ := clear_breakpoints_removed r.bps s.eng e1 hw h1
  unfold ss_stop
  simp only [h1]
  by_cases hg : r.global = true
  · rw [if_pos hg]
    rw [hg] at hc
    exact ⟨_, _, rfl, hw1, rfl, rfl, rfl, rfl, stop_single_stepping_ok _ hc, rfl, rfl, hrem⟩
  · rw [if_neg hg]
    have hf : r.global = false := by
      cases hgg : r.global
      · rfl
      · exact absurd hgg hg
    rw [hf] at hc
    exact ⟨_, _, rfl, hw1, rfl, hf, rfl, rfl, hc, rfl, rfl, hrem⟩

theorem ss_destroy_wf (s : AgentState) (r : SingleStepReq) (hs : s.ss_req = some r)
    (hw : step_wf s.eng r.bps) (hc : ss_count_ok s.coord r.global) :
    ∃ s1, ss_destroy s r.ptr = some s1 ∧ s1.ss_req = none ∧ step_wf s1.eng [] ∧
      ss_count_ok s1.coord false ∧ s1.coord.suspend_count = s.coord.suspend_count ∧
      (∀ a ∈ r.bps, a ∉ s1.eng.breakpoints.map (fun x => x.1)) := by
  obtain ⟨s1, r1, h1, hw1, _, _, _, _, hc1, _, hsc, hrem⟩ := ss_stop_wf s r hw hc
  unfold ss_destroy
  simp only [hs, ne_eq, not_true_eq_false, if_false, h1]
  exact ⟨_, rfl, rfl, hw1, hc1, hsc, hrem⟩

theorem ss_start_wf (rt : Runtime) (domains : List Nat) (s s3 : AgentState)
    (r r3 : SingleStepReq) (method : Nat) (sp : Option SeqPoint) (info : List SeqPoint)
    (frames : Option (List StackFrame)) (hw : step_wf s.eng r.bps)
    (hc : ss_count_ok s.coord r.global)
    (h : ss_start rt domains s r method sp info frames = some (s3, r3)) :
    step_wf s3.eng r3.bps ∧ ss_count_ok s3.coord r3.global ∧ r3.ptr = r.ptr ∧
      s3.ss_req = s.ss_req ∧ s3.coord.suspend_count = s.coord.suspend_count := by
  obtain ⟨s1, r1, h1, hw1, hb1, hg1, hp1, hd1, hc1, hss1, hsc1, _⟩ := ss_stop_wf s r hw hc
  unfold ss_start at h
  simp only [h1] at h
  split at h
  · cases h
  · rename_i t3 q3 hover
    have e3 : step_wf t3.eng q3.bps ∧ t3.coord = s1.coord ∧ q3.ptr = r1.ptr ∧
        t3.ss_req = s1.ss_req := by
      split at hover
      · split at hover
        · cases hover
        · split at hover
          · cases hover
          · rename_i e2 bps2 hset
            have hw2 : step_wf e2 bps2 := by
              split at hset
              · simp only [Option.some.injEq, Prod.mk.injEq] at hset
                rw [← hset.1, ← hset.2, hb1]
                exact hw1
              · split at hset
                · rw [hb1] at hset
                  exact (ss_start_set_bps_wf rt domains _ _ _ _ _ _ _ _ hw1 hset).1
                · simp only [Option.some.injEq, Prod.mk.injEq] at hset
                  rw [← hset.1, ← hset.2, hb1]
                  exact hw1
            simp only [Option.some.injEq, Prod.mk.injEq] at hover
            obtain ⟨k1, k2⟩ := hover
            subst k1
            subst k2
            refine ⟨?_, rfl, ?_, rfl⟩
            · split <;> exact hw2
            · split <;> rfl
      · simp only [Option.some.injEq, Prod.mk.injEq] at hover
        obtain ⟨k1, k2⟩ := hover
        subst k1
        subst k2
        exact ⟨by rw [hb1]; exact hw1, rfl, rfl, rfl⟩
    obtain ⟨m1, m2, m3, m4⟩ := e3
    split at h
    · rename_i hnil
      simp only [Option.some.injEq, Prod.mk.injEq] at h
      obtain ⟨k1, k2⟩ := h
      subst k1
      subst k2
      refine ⟨m1, ?_, by rw [← hp1]; exact m3, by rw [← hss1]; exact m4, ?_⟩
      · simp only
        rw [m2]
        exact start_single_stepping_ok _ hc1
      · simp only [start_single_stepping]
        rw [m2]
        exact hsc1
    · simp only [Option.some.injEq, Prod.mk.injEq] at h
      obtain ⟨k1, k2⟩ := h
      subst k1
      subst k2
      refine ⟨m1, ?_, by rw [← hp1]; exact m3, by rw [← hss1]; exact m4, ?_⟩
      · simp only
        rw [m2]
        exact hc1
      · rw [m2]
        exact hsc1

theorem step_wf_next_ptr (e : BpEngine) (hw : step_wf e []) :
    step_wf { e with next_ptr := e.next_ptr + 1 } [] :=
  ⟨hw.consistent, fun a ha => Nat.lt_succ_of_lt (hw.addrs_lt a ha), hw.addrs_nodup,
    fun a ha => absurd ha (List.not_mem_nil a), List.nodup_nil⟩

theorem ss_create_wf (rt : Runtime) (domains : List Nat) (s s1 : AgentState) (thread : Nat)
    (size depth req err : Int) (info : Nat)
    (hc : ss_count_ok s.coord (ss_req_global s))
    (hw : step_wf s.eng (step_breakpoints s.ss_req))
    (h : ss_create rt domains s thread size depth req = some (s1, err, info)) :
    ss_count_ok s1.coord (ss_req_global s1) ∧ step_wf s1.eng (step_breakpoints s1.ss_req) := by
  unfold ss_create at h
  split at h
  · simp only [Option.some.injEq, Prod.mk.injEq] at h
    rw [← h.1]
    exact ⟨hc, hw⟩
  simp only [wait_for_suspend] at h
  split at h
  · simp only [Option.some.injEq, Prod.mk.injEq] at h
    rw [← h.1]
    exact ⟨hc, hw⟩
  rename_i hnone
  have hn : s.ss_req = none := by
    cases hs : s.ss_req with
    | none => rfl
    | some r => simp [hs] at hnone
  simp only [ss_req_global, hn] at hc
  simp only [step_breakpoints, hn] at hw
  have hw0 := step_wf_next_ptr s.eng hw
  split at h
  · cases h
  split at h
  · cases h
  -- the request is created: every later state holds a request without breakpoints
  have fin_destroy : ∀ (t t1 : AgentState), ss_destroy t s.eng.next_ptr = some t1 →
      ∀ (q : SingleStepReq), t.ss_req = some q →
      q.ptr = s.eng.next_ptr → q.bps = [] → q.global = false →
      t.eng = { s.eng with next_ptr := s.eng.next_ptr + 1 } → t.coord = s.coord →
      ss_count_ok t1.coord (ss_req_global t1) ∧ step_wf t1.eng (step_breakpoints t1.ss_req) := by
    intro t t1 hd q hq hp hb hg he hco
    obtain ⟨t2, h2, hn2, hw2, hc2, _, _⟩ := ss_destroy_wf t q hq
      (by rw [hb, he]; exact hw0) (by rw [hg, hco]; exact hc)
    rw [hp, hd, Option.some.injEq] at h2
    subst h2
    simp only [ss_req_global, step_breakpoints, hn2]
    exact ⟨hc2, hw2⟩
  have fin_start : ∀ (t : AgentState) (q : SingleStepReq),
      q.bps = [] → q.global = false →
      t.eng = { s.eng with next_ptr := s.eng.next_ptr + 1 } → t.coord = s.coord →
      ∀ method sp info t1 q1, ss_start rt domains t q method sp info (some (rt.frames thread))
        = some (t1, q1) →
      ss_count_ok t1.coord q1.global ∧ step_wf t1.eng q1.bps := by
    intro t q hb hg he hco method sp info t1 q1 hst
    obtain ⟨k1, k2, _, _, _⟩ := ss_start_wf rt domains t t1 q q1 method sp info _
      (by rw [hb, he]; exact hw0) (by rw [hg, hco]; exact hc) hst
    exact ⟨k2, k1⟩
  split at h
  · cases h
  · rename_i hline
    split at h
    · cases h
    · rename_i t3 hd
      simp only [Option.some.injEq, Prod.mk.injEq] at h
      rw [← h.1]
      exact fin_destroy _ _ hd _ rfl rfl rfl rfl rfl rfl
  · rename_i t3 q3 x3 hline
    have hq : t3.ss_req = some q3 ∧ q3.ptr = s.eng.next_ptr ∧ q3.bps = [] ∧ q3.global = false ∧
        t3.eng = { s.eng with next_ptr := s.eng.next_ptr + 1 } ∧ t3.coord = s.coord := by
      split at hline
      · split at hline
        · cases hline
        · split at hline
          · cases hline
          · simp only [Option.some.injEq, Prod.mk.injEq] at hline
            obtain ⟨⟨k1, k2⟩, _⟩ := hline
            subst k1
            subst k2
            exact ⟨rfl, rfl, rfl, rfl, rfl, rfl⟩
      · simp only [Option.some.injEq, Prod.mk.injEq] at hline
        obtain ⟨⟨k1, k2⟩, _⟩ := hline
        subst k1
        subst k2
        exact ⟨rfl, rfl, rfl, rfl, rfl, rfl⟩
    obtain ⟨q1, q2, q3b, q4, q5, q6⟩ := hq
    split at h
    · cases h
    · split at h
      · cases h
      · rename_i t4 hd
        simp only [Option.some.injEq, Prod.mk.injEq] at h
        rw [← h.1]
        exact fin_destroy t3 _ hd q3 q1 q2 q3b q4 q5 q6
    · split at h
      · cases h
      · rename_i t5 q5r hst
        simp only [Option.some.injEq, Prod.mk.injEq] at h
        rw [← h.1]
        obtain ⟨k1, k2⟩ := fin_start t3 q3 q3b q4 q5 q6 _ _ _ _ _ hst
        exact ⟨k1, k2⟩

theorem ss_op_step_wf (s s1 : AgentState) (op : SsOp)
    (hc : ss_count_ok s.coord (ss_req_global s))
    (hw : step_wf s.eng (step_breakpoints s.ss_req)) (h : op.step s = some s1) :
    ss_count_ok s1.coord (ss_req_global s1) ∧ step_wf s1.eng (step_breakpoints s1.ss_req) := by
  cases op with
  | call_suspend_vm cur =>
    simp only [SsOp.step, Option.some.injEq] at h
    subst h
    exact ⟨suspend_vm_ok _ _ _ hc, hw⟩
  | call_resume_vm =>
    simp only [SsOp.step] at h
    cases hr : resume_vm s.coord s.coord.debugger_thread_id with
    | none => simp [hr] at h
    | some c =>
      simp only [hr, Option.map_some', Option.some.injEq] at h
      subst h
      exact ⟨resume_vm_ok _ _ _ _ hc hr, hw⟩
  | call_ss_create rt domains thread size depth req =>
    simp only [SsOp.step] at h
    cases hr : ss_create rt domains s thread size depth req with
    | none => simp [hr] at h
    | some x =>
      obtain ⟨t, err, info⟩ := x
      simp only [hr, Option.map_some', Option.some.injEq] at h
      subst h
      exact ss_create_wf rt domains s t thread size depth req err info hc hw hr
  | call_ss_start rt domains method sp info frames =>
    simp only [SsOp.step] at h
    cases hs : s.ss_req with
    | none => simp [hs] at h
    | some r =>
      simp only [hs] at h
      simp only [ss_req_global, hs] at hc
      simp only [step_breakpoints, hs] at hw
      cases hr : ss_start rt domains s r method sp info frames with
      | none => simp [hr] at h
      | some x =>
        obtain ⟨t, q⟩ := x
        simp only [hr, Option.map_some', Option.some.injEq] at h
        subst h
        obtain ⟨k1, k2, _, _, _⟩ := ss_start_wf rt domains s t r q method sp info frames hw hc hr
        exact ⟨k2, k1⟩
  | call_ss_destroy =>
    simp only [SsOp.step] at h
    cases hs : s.ss_req with
    | none => simp [hs] at h
    | some r =>
      simp only [hs] at h
      simp only [ss_req_global, hs] at hc
      simp only [step_breakpoints, hs] at hw
      obtain ⟨t, h2, hn2, hw2, hc2, _, _⟩ := ss_destroy_wf s r hs hw hc
      rw [h2, Option.some.injEq] at h
      subst h
      simp only [ss_req_global, step_breakpoints, hn2]
      exact ⟨hc2, hw2⟩

theorem run_ss_ops_wf (ops : List SsOp) :
    ∀ (s s1 : AgentState), ss_count_ok s.coord (ss_req_global s) →
      step_wf s.eng (step_breakpoints s.ss_req) → run_ss_ops s ops = some s1 →
      ss_count_ok s1.coord (ss_req_global s1) ∧ step_wf s1.eng (step_breakpoints s1.ss_req) := by
  induction ops with
  | nil =>
    intro s s1 hc hw h
    simp only [run_ss_ops, Option.some.injEq] at h
    subst h
    exact ⟨hc, hw⟩
  | cons op rest ih =>
    intro s s1 hc hw h
    simp only [run_ss_ops] at h
    cases hstep : op.step s with
    | none => simp [hstep] at h
    | some s2 =>
      simp only [hstep] at h
      obtain ⟨k1, k2⟩ := ss_op_step_wf s s2 op hc hw hstep
      exact ih s2 s1 k1 k2 h

theorem agent_attached_wf (dt : Nat) (threads : GHashTable Nat DebuggerTlsData) :
    ss_count_ok (agent_attached dt threads).coord (ss_req_global (agent_attached dt threads)) ∧
    step_wf (agent_attached dt threads).eng
      (step_breakpoints (agent_attached dt threads).ss_req) := by
  refine ⟨⟨le_refl _, rfl, by simp [agent_attached, suspend_init]⟩, ?_⟩
  exact ⟨bp_locs_consistent_init, fun a ha => absurd ha (List.not_mem_nil a), List.nodup_nil,
    fun a ha => absurd ha (List.not_mem_nil a), List.nodup_nil⟩

/-- Claim C28: after every sequence of calls of `suspend_vm`, `resume_vm`,
`ss_create`, `ss_start` and `ss_destroy` from the initial state of the agent (with
any threads attached), `ss_count` is 1 if `suspend_count > 0`, else 0, plus 1 if a
single-step request exists and is in global mode, else 0, and the execution engine
single-steps if and only if `ss_count > 0`; and whenever a single-step request
exists, `ss_destroy` returns, leaves no request, removes every breakpoint of the
request from the array of breakpoints, keeps `suspend_count`, and leaves the engine
single-stepping if and only if the VM is suspended. -/
theorem ss_count_invariant (dt : Nat) (threads : GHashTable Nat DebuggerTlsData)
    (ops : List SsOp) (s : AgentState)
    (hrun : run_ss_ops (agent_attached dt threads) ops = some s) :
    s.coord.ss_count = (if s.coord.suspend_count > 0 then 1 else 0)
      + (if ss_req_global s = true then 1 else 0) ∧
    (s.coord.arch_single_stepping = true ↔ s.coord.ss_count > 0) ∧
    (∀ r, s.ss_req = some r →
      ∃ s1, ss_destroy s r.ptr = some s1 ∧ s1.ss_req = none ∧
        (∀ a ∈ r.bps, a ∉ s1.eng.breakpoints.map (fun x => x.1)) ∧
        s1.coord.suspend_count = s.coord.suspend_count ∧
        (s1.coord.arch_single_stepping = true ↔ s1.coord.suspend_count > 0)) := by
  obtain ⟨h1, h2⟩ := agent_attached_wf dt threads
  obtain ⟨hc, hw⟩ := run_ss_ops_wf ops _ s h1 h2 hrun
  refine ⟨hc.2.1, hc.2.2, ?_⟩
  intro r hs
  simp only [ss_req_global, hs] at hc
  simp only [step_breakpoints, hs] at hw
  obtain ⟨t, k1, k2, _, k4, k5, k6⟩ := ss_destroy_wf s r hs hw hc
  refine ⟨t, k1, k2, k6, k5, ?_⟩
  obtain ⟨_, m2, m3⟩ := k4
  simp only [Bool.false_eq_true, if_false, add_zero] at m2
  rw [m3, m2]
  by_cases hp : t.coord.suspend_count > 0
  · simp [hp]
  · simp [hp]

theorem ss_count_invariant_witness :
    (agent_ss_example.coord.suspend_count, agent_ss_example.coord.ss_count,
      agent_ss_example.coord.arch_single_stepping, ss_req_global agent_ss_example)
      = (0, 1, true, true) ∧
    agent_ss_example.coord.ss_count
      = (if agent_ss_example.coord.suspend_count > 0 then 1 else 0)
        + (if ss_req_global agent_ss_example = true then 1 else 0) ∧
    (agent_ss_example.coord.arch_single_stepping = true ↔ agent_ss_example.coord.ss_count > 0) ∧
    (∀ r, agent_ss_example.ss_req = some r →
      ∃ s1, ss_destroy agent_ss_example r.ptr = some s1 ∧ s1.ss_req = none ∧
        (∀ a ∈ r.bps, a ∉ s1.eng.breakpoints.map (fun x => x.1)) ∧
        s1.coord.suspend_count = agent_ss_example.coord.suspend_count ∧
        (s1.coord.arch_single_stepping = true ↔ s1.coord.suspend_count > 0)) :=
  ⟨by decide,
   ss_count_invariant 1 [(7, { thread_start_tls 7 with has_context := true })] ss_ops_example
     agent_ss_example rfl⟩

/-! ### The check of the tag in `decode_value` -/

theorem decode_store_ne_err (w : Nat) (d : Option (Decoded Int)) (e : Int) :
    decode_store w d ≠ Outcome.err e := by
  cases d <;> simp [decode_store]

theorem decode_store_ok (w : Nat) (d : Option (Decoded Int)) (h : d.isSome = true) :
    ∃ v rest, decode_store w d = Outcome.ok v rest := by
  cases d with
  | none => simp at h
  | some x => exact ⟨_, _, rfl⟩

theorem decode_int_some (buf : List Nat) (h : 4 ≤ buf.length) : (decode_int buf).isSome = true := by
  match buf, h with
  | b0 :: b1 :: b2 :: b3 :: rest, _ => rfl

theorem decode_long_some (buf : List Nat) (h : 8 ≤ buf.length) :
    (decode_long buf).isSome = true := by
  match buf, h with
  | b0 :: b1 :: b2 :: b3 :: b4 :: b5 :: b6 :: b7 :: rest, _ => rfl

theorem get_object_err (s : ObjState) (objid : Int) :
    (get_object s objid).1 = 0 ∨ (get_object s objid).1 = ERR_INVALID_OBJECT := by
  cases hl : objrefs_lookup s objid with
  | none => rw [get_object_of_not_lookup s objid hl]; exact Or.inr rfl
  | some ref =>
    by_cases hz : objid = 0
    · subst hz
      right
      simp [get_object, get_object_allow_null]
    · rw [get_object_of_lookup s objid ref hl hz]
      split
      · exact Or.inr rfl
      · exact Or.inl rfl

theorem decode_ptr_id_err (s : IdState) (buf : List Nat) (k : IdType) (p : PtrId)
    (h : decode_ptr_id s buf k = some p) : p.err = 0 ∨ p.err = ERR_UNLOADED := by
  unfold decode_ptr_id at h
  split at h
  · exact absurd h (by simp)
  · split at h
    · cases h; exact Or.inl rfl
    · split at h
      · split at h
        · exact absurd h (by simp)
        · split at h
          · cases h; exact Or.inr rfl
          · cases h; exact Or.inl rfl
      · exact absurd h (by simp)

theorem reference_kind_ref (md : Metadata) (t : MonoType) (hk : reference_kind md t = true)
    (hr : md.type_is_reference t = true) :
    t.type ∈ [MONO_TYPE_STRING, MONO_TYPE_SZARRAY, MONO_TYPE_OBJECT, MONO_TYPE_CLASS,
        MONO_TYPE_ARRAY] ∨
      (t.type = MONO_TYPE_GENERICINST ∧ md.type_isstruct t = false) := by
  unfold reference_kind at hk
  rw [hr] at hk
  simp only [Bool.not_true, Bool.false_or, Bool.or_eq_true, Bool.and_eq_true,
    decide_eq_true_eq, Bool.not_eq_true'] at hk
  exact hk

theorem reference_kind_not_ref (md : Metadata) (t : MonoType) (hk : reference_kind md t = true)
    (h : t.type ∈ primitive_types ∨ t.type = MONO_TYPE_PTR) :
    md.type_is_reference t = false := by
  cases hr : md.type_is_reference t with
  | false => rfl
  | true =>
    exfalso
    have h2 := reference_kind_ref md t hk hr
    simp only [primitive_types, List.mem_cons, List.mem_singleton, List.not_mem_nil, or_false] at h h2
    rcases h2 with (h2 | h2 | h2 | h2 | h2) | ⟨h2, _⟩ <;> rw [h2] at h <;>
      revert h <;> decide

theorem decode_value_internal_rejects (md : Metadata)
    (recur : MonoType → List Nat → Outcome Value) (ids : IdState) (objs : ObjState)
    (t : MonoType) (type : Int) (domain : Nat) (buf : List Nat)
    (hk : reference_kind md t = true) (ha : tag_accepted md t type = false) :
    decode_value_internal md recur ids objs t type domain buf
      = Outcome.err ERR_INVALID_ARGUMENT := by
  cases hr : md.type_is_reference t with
  | true =>
    rw [internal_ref md recur ids objs t type domain buf (reference_kind_ref md t hk hr) hr]
    simp only [tag_accepted, hr, if_true, decide_eq_false_iff_not, not_or] at ha
    unfold decode_ref
    rw [if_pos hr, if_neg ha.1, if_neg ha.2]
  | false =>
    simp only [tag_accepted, hr, Bool.false_eq_true, if_false, decide_eq_false_iff_not,
      not_or] at ha
    unfold decode_value_internal
    rw [if_pos ⟨ha.1, hr, ha.2.1, ha.2.2.1, ha.2.2.2.1, ha.2.2.2.2⟩]

theorem decode_value_not_nullable (md : Metadata) (ids : IdState) (objs : ObjState)
    (depth : Nat) (t : MonoType) (domain b : Nat) (buf : List Nat)
    (hn : is_nullable md t = false) :
    decode_value md ids objs (depth + 1) t domain (b :: buf)
      = decode_value_internal md (fun ft fb => decode_value md ids objs depth ft domain fb)
          ids objs t (b : Int) domain buf := by
  have h : ¬ (t.type = MONO_TYPE_GENERICINST ∧
      md.class_is_nullable (md.class_from_mono_type t) = true) := by
    intro hc
    simp [is_nullable, hc.1, hc.2] at hn
  simp only [decode_value, decode_byte]
  rw [if_neg h]

theorem decode_value_rejects (md : Metadata) (ids : IdState) (objs : ObjState)
    (depth : Nat) (t : MonoType) (domain b : Nat) (buf : List Nat)
    (hk : reference_kind md t = true) (ha : decode_value_accepts md t (b : Int) = false) :
    decode_value md ids objs (depth + 1) t domain (b :: buf)
      = Outcome.err ERR_INVALID_ARGUMENT := by
  simp only [decode_value_accepts, Bool.or_eq_false_iff, Bool.and_eq_false_iff] at ha
  obtain ⟨ha1, ha2⟩ := ha
  have hi := decode_value_internal_rejects md
    (fun ft fb => decode_value md ids objs depth ft domain fb) ids objs t (b : Int) domain buf
    hk ha1
  rcases ha2 with hn | ha2
  · rw [decode_value_not_nullable md ids objs depth t domain b buf hn]
    exact hi
  · simp only [decide_eq_false_iff_not, not_or] at ha2
    simp only [decode_value, decode_byte]
    split
    · rw [hi]
      simp only
      rw [if_neg ha2.1, if_neg ha2.2]
    · exact hi

theorem tag_accepted_first_test (md : Metadata) (t : MonoType) (type : Int)
    (hr : md.type_is_reference t = false) (ha : tag_accepted md t type = true) :
    ¬ (type ≠ (t.type : Int) ∧ md.type_is_reference t = false ∧
      ¬ (t.type = MONO_TYPE_I ∧ type = (MONO_TYPE_VALUETYPE : Int)) ∧
      ¬ (t.type = MONO_TYPE_U ∧ type = (MONO_TYPE_VALUETYPE : Int)) ∧
      ¬ (t.type = MONO_TYPE_PTR ∧ type = (MONO_TYPE_I8 : Int)) ∧
      ¬ (t.type = MONO_TYPE_GENERICINST ∧ type = (MONO_TYPE_VALUETYPE : Int))) := by
  simp only [tag_accepted, hr, Bool.false_eq_true, if_false, decide_eq_true_eq] at ha
  intro hc
  rcases ha with ha | ha | ha | ha | ha
  · exact hc.1 ha
  · exact hc.2.2.1 ha
  · exact hc.2.2.2.1 ha
  · exact hc.2.2.2.2.1 ha
  · exact hc.2.2.2.2.2 ha

theorem internal_pointer (md : Metadata) (recur : MonoType → List Nat → Outcome Value)
    (ids : IdState) (objs : ObjState) (t : MonoType) (domain : Nat) (buf : List Nat)
    (h : t.type = MONO_TYPE_PTR) :
    decode_value_internal md recur ids objs t (MONO_TYPE_I8 : Int) domain buf
      = decode_store 64 (decode_long buf) := by
  simp [decode_value_internal, h, MONO_TYPE_VOID, MONO_TYPE_BOOLEAN, MONO_TYPE_CHAR, MONO_TYPE_I1, MONO_TYPE_U1,
    MONO_TYPE_I2, MONO_TYPE_U2, MONO_TYPE_I4, MONO_TYPE_U4, MONO_TYPE_I8, MONO_TYPE_U8,
    MONO_TYPE_R4, MONO_TYPE_R8, MONO_TYPE_STRING, MONO_TYPE_PTR, MONO_TYPE_VALUETYPE,
    MONO_TYPE_CLASS, MONO_TYPE_ARRAY, MONO_TYPE_GENERICINST, MONO_TYPE_I, MONO_TYPE_U,
    MONO_TYPE_OBJECT, MONO_TYPE_SZARRAY]

theorem internal_primitive (md : Metadata) (recur : MonoType → List Nat → Outcome Value)
    (ids : IdState) (objs : ObjState) (t : MonoType) (type : Int) (domain : Nat)
    (buf : List Nat) (hr : md.type_is_reference t = false)
    (ha : tag_accepted md t type = true)
    (h : t.type ∈ primitive_types ∨ (t.type = MONO_TYPE_PTR ∧ type = (MONO_TYPE_I8 : Int))) :
    ∃ w d, decode_value_internal md recur ids objs t type domain buf = decode_store w d ∧
      (8 ≤ buf.length → d.isSome = true) := by
  rcases h with h | ⟨h, h2⟩
  · simp only [tag_accepted, hr, Bool.false_eq_true, if_false, decide_eq_true_eq] at ha
    have ht : type = (t.type : Int) := by
      rcases ha with ha | ⟨ha, _⟩ | ⟨ha, _⟩ | ⟨ha, _⟩ | ⟨ha, _⟩
      · exact ha
      all_goals (rw [ha] at h; exact absurd h (by decide))
    subst ht
    simp only [primitive_types, List.mem_cons, List.mem_singleton, List.not_mem_nil,
      or_false] at h
    rcases h with h | h | h | h | h | h | h | h | h | h | h | h
    · exact ⟨_, _, internal_prim8 md recur ids objs t domain buf (by rw [h]; decide),
        fun hl => decode_int_some buf (by omega)⟩
    · exact ⟨_, _, internal_prim16 md recur ids objs t domain buf (by rw [h]; decide),
        fun hl => decode_int_some buf (by omega)⟩
    · exact ⟨_, _, internal_prim8 md recur ids objs t domain buf (by rw [h]; decide),
        fun hl => decode_int_some buf (by omega)⟩
    · exact ⟨_, _, internal_prim8 md recur ids objs t domain buf (by rw [h]; decide),
        fun hl => decode_int_some buf (by omega)⟩
    · exact ⟨_, _, internal_prim16 md recur ids objs t domain buf (by rw [h]; decide),
        fun hl => decode_int_some buf (by omega)⟩
    · exact ⟨_, _, internal_prim16 md recur ids objs t domain buf (by rw [h]; decide),
        fun hl => decode_int_some buf (by omega)⟩
    · exact ⟨_, _, internal_prim32 md recur ids objs t domain buf (by rw [h]; decide),
        fun hl => decode_int_some buf (by omega)⟩
    · exact ⟨_, _, internal_prim32 md recur ids objs t domain buf (by rw [h]; decide),
        fun hl => decode_int_some buf (by omega)⟩
    · exact ⟨_, _, internal_prim64 md recur ids objs t domain buf (by rw [h]; decide),
        fun hl => decode_long_some buf hl⟩
    · exact ⟨_, _, internal_prim64 md recur ids objs t domain buf (by rw [h]; decide),
        fun hl => decode_long_some buf hl⟩
    · exact ⟨_, _, internal_prim32 md recur ids objs t domain buf (by rw [h]; decide),
        fun hl => decode_int_some buf (by omega)⟩
    · exact ⟨_, _, internal_prim64 md recur ids objs t domain buf (by rw [h]; decide),
        fun hl => decode_long_some buf hl⟩
  · subst h2
    exact ⟨_, _, internal_pointer md recur ids objs t domain buf h,
      fun hl => decode_long_some buf hl⟩

theorem decode_ref_not_reference (md : Metadata) (objs : ObjState) (t : MonoType) (type : Int)
    (domain : Nat) (buf : List Nat) (hr : md.type_is_reference t = false) :
    decode_ref md objs t type domain buf = Outcome.abort := by
  unfold decode_ref
  simp only [hr, Bool.false_eq_true, if_false]

theorem outcome_ite (x : Outcome Value) (c : Prop) [Decidable c] (a b : Outcome Value)
    (ha : a = x ∨ ∀ e, a ≠ Outcome.err e) (hb : b = x ∨ ∀ e, b ≠ Outcome.err e) :
    (if c then a else b) = x ∨ ∀ e, (if c then a else b) ≠ Outcome.err e := by
  split
  · exact ha
  · exact hb

theorem internal_not_reference (md : Metadata) (recur : MonoType → List Nat → Outcome Value)
    (ids : IdState) (objs : ObjState) (t : MonoType) (type : Int) (domain : Nat)
    (buf : List Nat) (hr : md.type_is_reference t = false)
    (ha : tag_accepted md t type = true) :
    decode_value_internal md recur ids objs t type domain buf = decode_vtype md recur ids t buf ∨
      ∀ e, decode_value_internal md recur ids objs t type domain buf ≠ Outcome.err e := by
  unfold decode_value_internal
  rw [if_neg (tag_accepted_first_test md t type hr ha),
    decode_ref_not_reference md objs t type domain buf hr]
  repeat
    first
    | with_reducible exact Or.inl rfl
    | with_reducible exact Or.inr (fun e => decode_store_ne_err _ _ e)
    | with_reducible exact Or.inr (fun e => Outcome.noConfusion)
    | apply outcome_ite

theorem decode_vtype_invalid (md : Metadata) (recur : MonoType → List Nat → Outcome Value)
    (ids : IdState) (t : MonoType) (buf : List Nat)
    (h : decode_vtype md recur ids t buf = Outcome.err ERR_INVALID_ARGUMENT) :
    ∃ is_enum klass, decode_byte buf = some is_enum ∧ is_enum.val = 0 ∧
      decode_ptr_id ids is_enum.endbuf IdType.ID_TYPE = some klass ∧ klass.err = 0 ∧
      (klass.val ≠ md.class_from_mono_type t ∨
        ∃ nfields, decode_int klass.endbuf = some nfields ∧ klass.val ≠ 0 ∧
          decode_fields recur (instance_fields md klass.val) nfields.endbuf
            = Outcome.err ERR_INVALID_ARGUMENT) := by
  unfold decode_vtype at h
  cases hb : decode_byte buf with
  | none => simp [hb] at h
  | some is_enum =>
    simp only [hb] at h
    by_cases he : is_enum.val ≠ 0
    · rw [if_pos he] at h
      simp [ERR_NOT_IMPLEMENTED, ERR_INVALID_ARGUMENT] at h
    · rw [if_neg he] at h
      cases hp : decode_ptr_id ids is_enum.endbuf IdType.ID_TYPE with
      | none => simp [hp] at h
      | some klass =>
        simp only [hp] at h
        by_cases hke : klass.err ≠ 0
        · rw [if_pos hke] at h
          exfalso
          have h1 : klass.err = ERR_INVALID_ARGUMENT := by simpa using h
          rcases decode_ptr_id_err ids _ _ klass hp with h2 | h2
          · exact hke h2
          · rw [h2] at h1
            simp [ERR_UNLOADED, ERR_INVALID_ARGUMENT] at h1
        · rw [if_neg hke] at h
          refine ⟨is_enum, klass, rfl, not_not.mp he, hp, not_not.mp hke, ?_⟩
          by_cases hkc : klass.val ≠ md.class_from_mono_type t
          · exact Or.inl hkc
          · right
            rw [if_neg hkc] at h
            cases hi : decode_int klass.endbuf with
            | none => simp [hi] at h
            | some nfields =>
              simp only [hi] at h
              by_cases hz : klass.val = 0
              · rw [if_pos hz] at h
                simp at h
              · rw [if_neg hz] at h
                refine ⟨nfields, rfl, hz, ?_⟩
                cases hf : decode_fields recur (instance_fields md klass.val) nfields.endbuf with
                | exceeded => simp [hf] at h
                | abort => simp [hf] at h
                | err e =>
                  simp only [hf] at h
                  rw [Outcome.err.inj h]
                | ok vals buf1 =>
                  simp only [hf] at h
                  split at h <;> simp at h

theorem get_object_ok_ne (s : ObjState) (objid : Int) (h : (get_object s objid).1 = 0) :
    (get_object s objid).2 ≠ 0 := by
  unfold get_object at h ⊢
  simp only at h ⊢
  split at h
  · rename_i h1
    exact absurd h h1
  · split at h
    · simp [ERR_INVALID_OBJECT] at h
    · rename_i h1 h2
      rw [if_neg h1, if_neg h2]
      exact h2

theorem decode_ref_null (md : Metadata) (objs : ObjState) (t : MonoType) (domain : Nat)
    (buf : List Nat) (hr : md.type_is_reference t = true) :
    decode_ref md objs t (VALUE_TYPE_ID_NULL : Int) domain buf = Outcome.ok (Value.ref 0) buf := by
  unfold decode_ref
  rw [if_pos hr, if_neg (by decide), if_pos rfl]

theorem decode_ref_object (md : Metadata) (objs : ObjState) (t : MonoType) (domain : Nat)
    (buf : List Nat) (objid : Decoded Int) (hr : md.type_is_reference t = true)
    (hd : decode_id buf = some objid) :
    ((get_object objs objid.val).1 ≠ 0 →
      decode_ref md objs t (MONO_TYPE_OBJECT : Int) domain buf
        = Outcome.err ERR_INVALID_OBJECT) ∧
    ((get_object objs objid.val).1 = 0 →
      decode_ref md objs t (MONO_TYPE_OBJECT : Int) domain buf
        = if md.class_is_assignable_from (md.class_from_mono_type t)
              (md.object_class (get_object objs objid.val).2) = false ∨
            (md.object_domain (get_object objs objid.val).2 ≠ domain ∧
              md.class_from_mono_type t ≠ md.string_class)
          then Outcome.err ERR_INVALID_ARGUMENT
          else Outcome.ok (Value.ref (get_object objs objid.val).2) objid.endbuf) := by
  unfold decode_ref
  rw [if_pos hr, if_pos rfl]
  simp only [hd]
  constructor
  · intro he
    rw [if_pos he]
    rcases get_object_err objs objid.val with h | h
    · exact absurd h he
    · rw [h]
  · intro he
    have hne := get_object_ok_ne objs objid.val he
    rw [if_neg (not_not.mpr he)]
    by_cases h1 : md.class_is_assignable_from (md.class_from_mono_type t)
        (md.object_class (get_object objs objid.val).2) = false
    · rw [if_pos ⟨hne, h1⟩, if_pos (Or.inl h1)]
    · rw [if_neg (fun hc => h1 hc.2)]
      by_cases h2 : md.object_domain (get_object objs objid.val).2 ≠ domain ∧
          md.class_from_mono_type t ≠ md.string_class
      · rw [if_pos ⟨hne, h2⟩, if_pos (Or.inr h2)]
      · rw [if_neg (fun hc => h2 hc.2), if_neg (fun hc => hc.elim h1 h2)]

/-- Claim C23 (as stated, refuted): for the expected type `string` and the tag
`MONO_TYPE_STRING`, the tag of that very type and of a reference type, `decode_value`
returns `ERR_INVALID_ARGUMENT`; for the expected structure of class 101 and the tag
`MONO_TYPE_VALUETYPE`, again the tag of the expected type, followed by the type id 1,
which stands for class 50, it returns `ERR_INVALID_ARGUMENT`; and for the expected nullable
generic instance over `int` the tag `MONO_TYPE_I4`, which is neither the tag of the
expected type nor of a reference type nor one of the allowed pairs, is decoded with
`ERR_NONE`. -/
theorem decode_value_tag_counterexample :
    ((string_type_example.type : Int) = 14 ∧
      metadata_example.type_is_reference string_type_example = true ∧
      decode_value metadata_example ids_example objrefs_example 1 string_type_example 1
        [14, 0, 0, 0, 1] = Outcome.err ERR_INVALID_ARGUMENT) ∧
    ((struct_type_example.type : Int) = 17 ∧
      decode_value metadata_example ids_example objrefs_example 2 struct_type_example 1
        [17, 0, 0, 0, 0, 1, 0, 0, 0, 0] = Outcome.err ERR_INVALID_ARGUMENT) ∧
    ((nullable_type_example.type : Int) = 21 ∧
      metadata_nullable_example.type_is_reference nullable_type_example = false ∧
      decode_value metadata_nullable_example ids_example objrefs_example 1
        nullable_type_example 1 [8, 0, 0, 0, 5]
        = Outcome.ok (metadata_nullable_example.nullable_init nullable_type_example
            (some (Value.prim 5))) [0, 0, 0, 5]) :=
  ⟨⟨rfl, rfl, rfl⟩, ⟨rfl, rfl⟩, ⟨rfl, rfl, rfl⟩⟩

/-- Claim C23 (amended): for a type whose reference macro agrees with its tag,
`decode_value` returns `ERR_INVALID_ARGUMENT` whenever the tag read from the wire is
not accepted, where accepted means: for an expected reference type the tag is
`MONO_TYPE_OBJECT` or `VALUE_TYPE_ID_NULL`; for any other expected type the tag is
that of the type or the pair is one of the four allowed pairs; for a nullable generic
instance also the tag of its type argument or `VALUE_TYPE_ID_NULL`. With an accepted
tag, a primitive (or a pointer sent as an 8-byte integer) is decoded without an error
code, and with `ERR_NONE` when eight bytes follow; for a reference type that is not
nullable the null tag stores `NULL` and leaves the rest, and the object tag returns
`ERR_INVALID_OBJECT` for an id without a live object and otherwise
`ERR_INVALID_ARGUMENT` exactly when the object is not assignable to the expected
class or belongs to another domain while the expected class is not `string`, and
stores the object otherwise; for any other type that is not nullable
`ERR_INVALID_ARGUMENT` is returned only from the value-type branch, when the class id
read differs from the expected class or the decoding of a field returns it. -/
theorem decode_value_tag_check (md : Metadata) (ids : IdState) (objs : ObjState) (depth : Nat)
    (t : MonoType) (domain b : Nat) (buf : List Nat) (hk : reference_kind md t = true) :
    (decode_value_accepts md t (b : Int) = false →
      decode_value md ids objs (depth + 1) t domain (b :: buf)
        = Outcome.err ERR_INVALID_ARGUMENT) ∧
    (tag_accepted md t (b : Int) = true →
      (t.type ∈ primitive_types ∨ (t.type = MONO_TYPE_PTR ∧ (b : Int) = (MONO_TYPE_I8 : Int))) →
      (∀ e, decode_value md ids objs (depth + 1) t domain (b :: buf) ≠ Outcome.err e) ∧
      (8 ≤ buf.length →
        ∃ v rest, decode_value md ids objs (depth + 1) t domain (b :: buf) = Outcome.ok v rest)) ∧
    (md.type_is_reference t = true → is_nullable md t = false →
      ((b : Int) = (VALUE_TYPE_ID_NULL : Int) →
        decode_value md ids objs (depth + 1) t domain (b :: buf)
          = Outcome.ok (Value.ref 0) buf) ∧
      ((b : Int) = (MONO_TYPE_OBJECT : Int) → ∀ objid, decode_id buf = some objid →
        ((get_object objs objid.val).1 ≠ 0 →
          decode_value md ids objs (depth + 1) t domain (b :: buf)
            = Outcome.err ERR_INVALID_OBJECT) ∧
        ((get_object objs objid.val).1 = 0 →
          decode_value md ids objs (depth + 1) t domain (b :: buf)
            = if md.class_is_assignable_from (md.class_from_mono_type t)
                  (md.object_class (get_object objs objid.val).2) = false ∨
                (md.object_domain (get_object objs objid.val).2 ≠ domain ∧
                  md.class_from_mono_type t ≠ md.string_class)
              then Outcome.err ERR_INVALID_ARGUMENT
              else Outcome.ok (Value.ref (get_object objs objid.val).2) objid.endbuf))) ∧
    (md.type_is_reference t = false → is_nullable md t = false →
      tag_accepted md t (b : Int) = true →
      decode_value md ids objs (depth + 1) t domain (b :: buf)
        = Outcome.err ERR_INVALID_ARGUMENT →
      ∃ is_enum klass, decode_byte buf = some is_enum ∧ is_enum.val = 0 ∧
        decode_ptr_id ids is_enum.endbuf IdType.ID_TYPE = some klass ∧ klass.err = 0 ∧
        (klass.val ≠ md.class_from_mono_type t ∨
          ∃ nfields, decode_int klass.endbuf = some nfields ∧ klass.val ≠ 0 ∧
            decode_fields (fun ft fb => decode_value md ids objs depth ft domain fb)
              (instance_fields md klass.val) nfields.endbuf
              = Outcome.err ERR_INVALID_ARGUMENT)) := by
  refine ⟨decode_value_rejects md ids objs depth t domain b buf hk, ?_, ?_, ?_⟩
  · intro ha hp
    have hr : md.type_is_reference t = false :=
      reference_kind_not_ref md t hk (hp.elim Or.inl (fun h => Or.inr h.1))
    have hn : is_nullable md t = false := by
      have hg : t.type ≠ MONO_TYPE_GENERICINST := by
        intro hg
        rw [hg] at hp
        rcases hp with hp | ⟨hp, _⟩
        · exact absurd hp (by decide)
        · exact absurd hp (by decide)
      simp [is_nullable, hg]
    rw [decode_value_not_nullable md ids objs depth t domain b buf hn]
    obtain ⟨w, d, he, hl⟩ := internal_primitive md
      (fun ft fb => decode_value md ids objs depth ft domain fb) ids objs t (b : Int) domain
      buf hr ha hp
    rw [he]
    exact ⟨fun e => decode_store_ne_err w d e, fun h8 => decode_store_ok w d (hl h8)⟩
  · intro hr hn
    rw [decode_value_not_nullable md ids objs depth t domain b buf hn,
      internal_ref md _ ids objs t (b : Int) domain buf (reference_kind_ref md t hk hr) hr]
    constructor
    · intro hb
      rw [hb]
      exact decode_ref_null md objs t domain buf hr
    · intro hb objid hd
      rw [hb]
      exact decode_ref_object md objs t domain buf objid hr hd
  · intro hr hn ha
    rw [decode_value_not_nullable md ids objs depth t domain b buf hn]
    intro he
    rcases internal_not_reference md
      (fun ft fb => decode_value md ids objs depth ft domain fb) ids objs t (b : Int) domain
      buf hr ha with h | h
    · rw [h] at he
      exact decode_vtype_invalid md _ ids t buf he
    · exact absurd he (h _)

theorem decode_value_tag_check_witness :
    reference_kind metadata_example string_type_example = true ∧
    decode_value metadata_example ids_example objrefs_example 1 string_type_example 1
      [18, 0, 0, 0, 1] = Outcome.err ERR_INVALID_ARGUMENT ∧
    decode_value metadata_example ids_example objrefs_example 1 string_type_example 1
      [240, 0, 0, 0, 1] = Outcome.ok (Value.ref 0) [0, 0, 0, 1] :=
  ⟨rfl,
   (decode_value_tag_check metadata_example ids_example objrefs_example 0 string_type_example
      1 18 [0, 0, 0, 1] rfl).1 rfl,
   ((decode_value_tag_check metadata_example ids_example objrefs_example 0 string_type_example
      1 240 [0, 0, 0, 1] rfl).2.2.1 rfl rfl).1 rfl⟩

end DebuggerAgent
